import Mathlib

/-!
Instance translation: variation resolution, component synthesis, reconciliation.

A shallow embedding of `HoudiniInstanceTranslator.cpp` (with the data model of
`HoudiniOutput.h`) and theorems about it.

Conventions of the embedding.

* `int` / `int32` values are `Int`; the one place where overflow can occur
  (`fastrand`) wraps explicitly to 32 bits.
* `TArray<T>` is `List T`; an indexed read outside the array (an engine `check`
  failure) makes the enclosing function return `none`.
* A `UObject*` stored in a data structure is `Option Nat`: `none` is `nullptr`,
  `some h` is the object with handle `h`, and `IsPendingKill` is a predicate on
  handles.  Where the code inspects the class of an object, the pointer is an
  `Option` of a record carrying the handle, the class and the pending-kill flag.
* Effects on components are recorded as a list of events in program order.
* The engine's `float` is idealised as `ℚ`.  `FVector`, `FQuat` and `FTransform`
  are engine types; their operations are written out from the engine's
  definitions and are marked as such.
-/

namespace Houdini

/-! ## Engine math types -/

/-- Engine type `FVector`: three scalar components. -/
structure FVector where
  X : ℚ
  Y : ℚ
  Z : ℚ
deriving DecidableEq, Repr

/-- Engine type `FQuat`: a quaternion `X i + Y j + Z k + W`. -/
structure FQuat where
  X : ℚ
  Y : ℚ
  Z : ℚ
  W : ℚ
deriving DecidableEq, Repr

/-- Engine type `FTransform`: rotation, translation and 3D scale. -/
structure FTransform where
  Rotation : FQuat
  Translation : FVector
  Scale3D : FVector
deriving DecidableEq, Repr

namespace FVector

/-- Engine `FVector::operator+`: component-wise sum. -/
def add (a b : FVector) : FVector := ⟨a.X + b.X, a.Y + b.Y, a.Z + b.Z⟩

/-- Engine `FVector::operator*(const FVector&)`: component-wise product. -/
def mul (a b : FVector) : FVector := ⟨a.X * b.X, a.Y * b.Y, a.Z * b.Z⟩

/-- Engine `FVector::Equals(V, Tolerance)`: every component within the tolerance. -/
def Equals (a b : FVector) (Tolerance : ℚ) : Bool :=
  decide (|a.X - b.X| ≤ Tolerance) && decide (|a.Y - b.Y| ≤ Tolerance)
    && decide (|a.Z - b.Z| ≤ Tolerance)

end FVector

namespace FQuat

/-- Engine `FQuat::operator*`: the Hamilton product, left operand first. -/
def mul (a b : FQuat) : FQuat :=
  ⟨a.W * b.X + a.X * b.W + a.Y * b.Z - a.Z * b.Y,
   a.W * b.Y - a.X * b.Z + a.Y * b.W + a.Z * b.X,
   a.W * b.Z + a.X * b.Y - a.Y * b.X + a.Z * b.W,
   a.W * b.W - a.X * b.X - a.Y * b.Y - a.Z * b.Z⟩

/-- Engine `FQuat::Identity`. -/
def Identity : FQuat := ⟨0, 0, 0, 1⟩

/-- Engine `FQuat::Equals(Q, Tolerance)`: within the tolerance of `Q` or of `-Q`. -/
def Equals (a b : FQuat) (Tolerance : ℚ) : Bool :=
  (decide (|a.X - b.X| ≤ Tolerance) && decide (|a.Y - b.Y| ≤ Tolerance)
    && decide (|a.Z - b.Z| ≤ Tolerance) && decide (|a.W - b.W| ≤ Tolerance))
  || (decide (|a.X + b.X| ≤ Tolerance) && decide (|a.Y + b.Y| ≤ Tolerance)
    && decide (|a.Z + b.Z| ≤ Tolerance) && decide (|a.W + b.W| ≤ Tolerance))

/-- Engine `FQuat::SizeSquared`. -/
def SizeSquared (a : FQuat) : ℚ := a.X * a.X + a.Y * a.Y + a.Z * a.Z + a.W * a.W

/-- Engine `FQuat::IsNormalized`: `|1 - SizeSquared| < THRESH_QUAT_NORMALIZED` (0.01). -/
def IsNormalized (a : FQuat) : Bool := decide (|1 - a.SizeSquared| < 1 / 100)

end FQuat

namespace FTransform

/-- Engine `FTransform::Identity`. -/
def Identity : FTransform := ⟨FQuat.Identity, ⟨0, 0, 0⟩, ⟨1, 1, 1⟩⟩

/-- Engine `KINDA_SMALL_NUMBER`, the default tolerance of `FTransform::Equals`. -/
def KINDA_SMALL_NUMBER : ℚ := 1 / 10000

/-- Engine `FTransform::Equals(Other)` with the default tolerance. -/
def Equals (a b : FTransform) : Bool :=
  a.Translation.Equals b.Translation KINDA_SMALL_NUMBER
    && a.Rotation.Equals b.Rotation KINDA_SMALL_NUMBER
    && a.Scale3D.Equals b.Scale3D KINDA_SMALL_NUMBER

/-- Engine `FTransform::IsValid`: no NaN component (a rational never is one) and a
normalised rotation. -/
def IsValid (a : FTransform) : Bool := a.Rotation.IsNormalized

end FTransform

/-! ## Data model (`HoudiniOutput.h`) -/

/-- Structure `FHoudiniInstancedOutput` of `HoudiniOutput.h`; object pointers are handles. -/
structure FHoudiniInstancedOutput where
  OriginalObject : Option Nat
  OriginalObjectIndex : Int
  OriginalTransforms : List FTransform
  VariationObjects : List (Option Nat)
  VariationTransformOffsets : List FTransform
  TransformVariationIndices : List Int
  bChanged : Bool
  bStale : Bool
deriving DecidableEq, Repr

/-- Engine `TArray::IsValidIndex`. -/
def IsValidIndex {α : Type} (a : List α) (Index : Int) : Bool :=
  decide (0 ≤ Index) && decide (Index < (a.length : Int))

/-- Engine `TArray::SetNumZeroed`: shrink to `n`, or grow to `n` with zero elements. -/
def SetNumZeroed (a : List Int) (n : Nat) : List Int :=
  a.take n ++ List.replicate (n - a.length) 0

/-! ## `fastrand` and `UpdateVariationAssignements` -/

/-- Wrap an integer into the range of a 32-bit two's-complement `int`. -/
def wrapInt32 (x : Int) : Int := (x + 2147483648) % 4294967296 - 2147483648

/-- Function `fastrand(int& nSeed)`: the returned value and the updated seed.  The `int`
arithmetic wraps to 32 bits, as on the two's-complement targets the plugin is built for.
`>> 16` on an `int` is the floor division by `65536`, `& 0x7FFF` the remainder
modulo `32768`. -/
def fastrand (nSeed : Int) : Int × Int :=
  let nSeed' := wrapInt32 (214013 * nSeed + 2531011)
  ((nSeed' / 65536) % 32768, nSeed')

/-- The loop of `UpdateVariationAssignements`: `Count` iterations left, the next
index is `Idx`. -/
def assignLoop (VariationCount : Int) : Nat → Nat → Int → List Int → List Int
  | 0, _, _, Indices => Indices
  | Count + 1, Idx, nSeed, Indices =>
    let r := fastrand nSeed
    assignLoop VariationCount Count (Idx + 1) r.2
      (Indices.set Idx (Int.tmod r.1 VariationCount))

/-- Function `FHoudiniInstanceTranslator::UpdateVariationAssignements`. -/
def UpdateVariationAssignements (InstancedOutput : FHoudiniInstancedOutput) :
    FHoudiniInstancedOutput :=
  let TransformCount := InstancedOutput.OriginalTransforms.length
  let Zeroed := SetNumZeroed InstancedOutput.TransformVariationIndices TransformCount
  let VariationCount := InstancedOutput.VariationObjects.length
  if VariationCount ≤ 1 then
    { InstancedOutput with TransformVariationIndices := Zeroed }
  else
    { InstancedOutput with
      TransformVariationIndices := assignLoop VariationCount TransformCount 0 1234 Zeroed }

/-! ## `ProcessInstanceTransforms` -/

/-- The scale clamp of `ProcessInstanceTransforms`, one component. -/
def clampScale (SCALE_SMALL_VALUE : ℚ) (c : ℚ) : ℚ :=
  if |c| < SCALE_SMALL_VALUE then
    (if c > 0 then SCALE_SMALL_VALUE else -SCALE_SMALL_VALUE)
  else c

/-- Body of the offset loop of `ProcessInstanceTransforms` for one transform. -/
def applyOffset (SCALE_SMALL_VALUE : ℚ) (Offset CurrentTransform : FTransform) : FTransform :=
  let Position := CurrentTransform.Translation.add Offset.Translation
  let TransformRotation := CurrentTransform.Rotation.mul Offset.Rotation
  let TransformScale3D := CurrentTransform.Scale3D.mul Offset.Scale3D
  let Clamped : FVector :=
    ⟨clampScale SCALE_SMALL_VALUE TransformScale3D.X,
     clampScale SCALE_SMALL_VALUE TransformScale3D.Y,
     clampScale SCALE_SMALL_VALUE TransformScale3D.Z⟩
  let NewTransform : FTransform := ⟨TransformRotation, Position, Clamped⟩
  if NewTransform.IsValid then NewTransform else CurrentTransform

/-- The extraction loop of `ProcessInstanceTransforms`: walk the remaining variation
indices, `TransformIndex` being the position of the head; `none` when
`OriginalTransforms[TransformIndex]` is read out of bounds. -/
def extractLoop (OriginalTransforms : List FTransform) (VariationIdx : Int) :
    List Int → Nat → List FTransform → Option (List FTransform)
  | [], _, Out => some Out
  | v :: rest, TransformIndex, Out =>
    if v ≠ VariationIdx then
      extractLoop OriginalTransforms VariationIdx rest (TransformIndex + 1) Out
    else
      match OriginalTransforms[TransformIndex]? with
      | none => none
      | some t =>
        extractLoop OriginalTransforms VariationIdx rest (TransformIndex + 1) (Out ++ [t])

/-- Function `FHoudiniInstanceTranslator::ProcessInstanceTransforms`.  The last argument is the
content of `OutProcessedTransforms` on entry (empty at every call site); the result is
its content on return.  `SCALE_SMALL_VALUE` is the macro `HAPI_UNREAL_SCALE_SMALL_VALUE`. -/
def ProcessInstanceTransforms (SCALE_SMALL_VALUE : ℚ)
    (InstancedOutput : FHoudiniInstancedOutput) (VariationIdx : Int)
    (OutProcessedTransforms : List FTransform) : Option (List FTransform) :=
  if !IsValidIndex InstancedOutput.VariationObjects VariationIdx then
    some OutProcessedTransforms
  else if !IsValidIndex InstancedOutput.VariationTransformOffsets VariationIdx then
    some OutProcessedTransforms
  else
    match InstancedOutput.VariationTransformOffsets[VariationIdx.toNat]? with
    | none => none
    | some Offset =>
      let bHasVariations := decide (InstancedOutput.VariationObjects.length > 1)
      let bHasTransformOffset := !Offset.Equals FTransform.Identity
      if !bHasVariations && !bHasTransformOffset then
        some InstancedOutput.OriginalTransforms
      else
        let Extracted :=
          if bHasVariations then
            extractLoop InstancedOutput.OriginalTransforms VariationIdx
              InstancedOutput.TransformVariationIndices 0 OutProcessedTransforms
          else
            some InstancedOutput.OriginalTransforms
        match Extracted with
        | none => none
        | some Out =>
          if bHasTransformOffset then
            some (Out.map (applyOffset SCALE_SMALL_VALUE Offset))
          else
            some Out

/-! ## Descriptions of the variation step used in the statements, concrete inputs -/

def drawList (VariationCount : Int) : Nat → Int → List Int
  | 0, _ => []
  | Count + 1, nSeed =>
    Int.tmod (fastrand nSeed).1 VariationCount :: drawList VariationCount Count (fastrand nSeed).2

def assignedTransforms (io : FHoudiniInstancedOutput) (VariationIdx : Int) : List FTransform :=
  ((io.TransformVariationIndices.zip io.OriginalTransforms).filter
    (fun p => decide (p.1 = VariationIdx))).map Prod.snd

/-- An instanced output with three transforms, two variations with identity offsets and
a stale index array. -/
def witnessA : FHoudiniInstancedOutput :=
  { OriginalObject := some 7, OriginalObjectIndex := 0,
    OriginalTransforms :=
      [FTransform.Identity, ⟨FQuat.Identity, ⟨1, 2, 3⟩, ⟨1, 1, 1⟩⟩, FTransform.Identity],
    VariationObjects := [some 7, some 8],
    VariationTransformOffsets := [FTransform.Identity, FTransform.Identity],
    TransformVariationIndices := [5, -1],
    bChanged := false, bStale := false }

/-- Another instanced output with three transforms and two variations: other transforms,
other objects (one of them null), no offsets, an empty index array. -/
def witnessB : FHoudiniInstancedOutput :=
  { OriginalObject := some 20, OriginalObjectIndex := 3,
    OriginalTransforms :=
      [⟨FQuat.Identity, ⟨0, 0, 9⟩, ⟨2, 2, 2⟩⟩, FTransform.Identity,
       ⟨FQuat.Identity, ⟨4, 0, 0⟩, ⟨1, 1, 1⟩⟩],
    VariationObjects := [some 21, none],
    VariationTransformOffsets := [],
    TransformVariationIndices := [],
    bChanged := true, bStale := true }

/-- The base transforms of a variation: the transforms assigned to it when there are
several variations, all the original transforms otherwise. -/
def baseTransforms (io : FHoudiniInstancedOutput) (VariationIdx : Int) : List FTransform :=
  if io.VariationObjects.length > 1 then assignedTransforms io VariationIdx
  else io.OriginalTransforms

/-- The transform that the offset loop composes from a base transform and an offset:
summed location, rotation product with the base on the left, clamped scale product. -/
def composedTransform (eps : ℚ) (Offset Base : FTransform) : FTransform :=
  ⟨Base.Rotation.mul Offset.Rotation,
   Base.Translation.add Offset.Translation,
   ⟨clampScale eps (Base.Scale3D.X * Offset.Scale3D.X),
    clampScale eps (Base.Scale3D.Y * Offset.Scale3D.Y),
    clampScale eps (Base.Scale3D.Z * Offset.Scale3D.Z)⟩⟩

/-- A one-variation instanced output with the given offset and original transforms. -/
def singleVariation (Offset : FTransform) (Transforms : List FTransform) :
    FHoudiniInstancedOutput :=
  { OriginalObject := some 1, OriginalObjectIndex := 0,
    OriginalTransforms := Transforms,
    VariationObjects := [some 1],
    VariationTransformOffsets := [Offset],
    TransformVariationIndices := List.replicate Transforms.length 0,
    bChanged := false, bStale := false }

/-- Offset of the worked example: position `(1,0,0)`, identity rotation, unit scale. -/
def offsetUnitX : FTransform := ⟨FQuat.Identity, ⟨1, 0, 0⟩, ⟨1, 1, 1⟩⟩

/-- A transform at the origin whose rotation is the zero quaternion. -/
def zeroRotationAtOrigin : FTransform := ⟨⟨0, 0, 0, 0⟩, ⟨0, 0, 0⟩, ⟨1, 1, 1⟩⟩

/-- Offset with scale `(0,1,1)`, no translation and identity rotation. -/
def offsetScaleZeroX : FTransform := ⟨FQuat.Identity, ⟨0, 0, 0⟩, ⟨0, 1, 1⟩⟩

/-- A one-variation output with an identity offset and leftover variation indices. -/
def witnessSingle : FHoudiniInstancedOutput :=
  { witnessA with
    VariationObjects := [some 7],
    VariationTransformOffsets := [FTransform.Identity],
    TransformVariationIndices := [4, -2, 9, 1] }

/-! ## Output objects and the reconciliation pass of `CreateAllInstancersFromHoudiniOutput` -/

/-- Structure `FHoudiniOutputObject`: the object and component pointers and the proxy flag (the bake
name and the curve properties play no part in instancing). -/
structure FHoudiniOutputObject where
  OutputObject : Option Nat
  OutputComponent : Option Nat
  ProxyObject : Option Nat
  ProxyComponent : Option Nat
  bProxyIsCurrent : Bool
deriving DecidableEq, Repr

/-- Engine `TMap::Find` on a map kept as a list of key/value pairs with distinct keys. -/
def TMapFind {K V : Type} [DecidableEq K] (m : List (K × V)) (k : K) : Option V :=
  (m.find? (fun e => decide (e.1 = k))).map Prod.snd

/-- Engine `TMap::Remove`. -/
def TMapRemove {K V : Type} [DecidableEq K] (m : List (K × V)) (k : K) : List (K × V) :=
  m.filter (fun e => !decide (e.1 = k))

/-- The value of `bKeep` computed for one pair of the new map whose identifier is found
in the old map (lines 239-259). -/
def computeKeep (IsPendingKill : Nat → Bool)
    (CurNew FoundOldOutputObject : FHoudiniOutputObject) :
    Bool :=
  let bKeep0 := false
  let bKeep1 :=
    match CurNew.OutputComponent with
    | none => bKeep0
    | some NewComponent =>
      match FoundOldOutputObject.OutputComponent with
      | none => bKeep0
      | some FoundOldComponent =>
        if !IsPendingKill FoundOldComponent then decide (FoundOldComponent = NewComponent)
        else bKeep0
  match CurNew.ProxyComponent with
  | none => bKeep1
  | some NewProxyComponent =>
    match FoundOldOutputObject.ProxyComponent with
    | none => bKeep1
    | some FoundOldProxyComponent =>
      if !IsPendingKill FoundOldProxyComponent then
        decide (FoundOldProxyComponent = NewProxyComponent)
      else bKeep1

/-- First loop of the reconciliation pass (lines 228-266): walk the new map and remove
from the old map every identifier whose component is reused.  Returns the old map as it
stands when the loop ends. -/
def removeReused {K : Type} [DecidableEq K] (IsPendingKill : Nat → Bool) :
    List (K × FHoudiniOutputObject) → List (K × FHoudiniOutputObject) →
    List (K × FHoudiniOutputObject)
  | [], OldOutputObjects => OldOutputObjects
  | (OutputIdentifier, CurNew) :: rest, OldOutputObjects =>
    match TMapFind OldOutputObjects OutputIdentifier with
    | none => removeReused IsPendingKill rest OldOutputObjects
    | some FoundOldOutputObject =>
      if computeKeep IsPendingKill CurNew FoundOldOutputObject then
        removeReused IsPendingKill rest (TMapRemove OldOutputObjects OutputIdentifier)
      else
        removeReused IsPendingKill rest OldOutputObjects

/-- Second loop of the reconciliation pass (lines 268-286): the components passed to
`RemoveAndDestroyComponent`, in call order. -/
def destroyCalls {K : Type} : List (K × FHoudiniOutputObject) → List Nat
  | [] => []
  | (_, OldObject) :: rest =>
    (match OldObject.OutputComponent with
      | some OldComponent => [OldComponent]
      | none => [])
    ++ (match OldObject.ProxyComponent with
      | some OldProxyComponent => [OldProxyComponent]
      | none => [])
    ++ destroyCalls rest

/-- The reconciliation pass (lines 228-291): the calls to `RemoveAndDestroyComponent` it
makes and the map it installs on the output with `SetOutputObjects`. -/
def reconcileOutputObjects {K : Type} [DecidableEq K] (IsPendingKill : Nat → Bool)
    (NewOutputObjects OldOutputObjects : List (K × FHoudiniOutputObject)) :
    List Nat × List (K × FHoudiniOutputObject) :=
  (destroyCalls (removeReused IsPendingKill NewOutputObjects OldOutputObjects),
   NewOutputObjects)

/-- The components an output object holds (output and proxy). -/
def heldComponents (o : FHoudiniOutputObject) : List Nat :=
  o.OutputComponent.toList ++ o.ProxyComponent.toList

/-- An output object holding only an output component. -/
def outputOnly (c : Nat) : FHoudiniOutputObject :=
  { OutputObject := none, OutputComponent := some c, ProxyObject := none,
    ProxyComponent := none, bProxyIsCurrent := false }

/-- An output object holding an output component and a proxy component. -/
def outputAndProxy (c p : Nat) : FHoudiniOutputObject :=
  { OutputObject := none, OutputComponent := some c, ProxyObject := none,
    ProxyComponent := some p, bProxyIsCurrent := false }

/-- Shape of the new map that the creation loop builds, relative to the old map: every new
entry holds at most one component, and a component of the new map that the old map holds
at all is live and held by the old map only in the same slot under the same identifier. -/
def ReusedInPlace {K : Type} (IsPendingKill : Nat → Bool)
    (NewOutputObjects OldOutputObjects : List (K × FHoudiniOutputObject)) : Prop :=
  ∀ k n, (k, n) ∈ NewOutputObjects →
    (n.OutputComponent = none ∨ n.ProxyComponent = none)
    ∧ (∀ c, n.OutputComponent = some c → ∀ k' o, (k', o) ∈ OldOutputObjects →
        o.ProxyComponent ≠ some c
        ∧ (o.OutputComponent = some c → k' = k ∧ IsPendingKill c = false))
    ∧ (∀ c, n.ProxyComponent = some c → ∀ k' o, (k', o) ∈ OldOutputObjects →
        o.OutputComponent ≠ some c
        ∧ (o.ProxyComponent = some c → k' = k ∧ IsPendingKill c = false))

/-- The new and old maps of the worked example: identifier 1 is reused in place,
identifier 2 is created, identifier 3 disappears. -/
def reuseNew : List (Nat × FHoudiniOutputObject) := [(1, outputOnly 10), (2, outputOnly 12)]

/-- The old map of the worked example. -/
def reuseOld : List (Nat × FHoudiniOutputObject) := [(1, outputOnly 10), (3, outputOnly 11)]

/-! ## `CreateOrUpdateInstanceComponent` and the functions it dispatches to -/

/-- Classes of scene components that `CreateOrUpdateInstanceComponent` tells apart; every
other scene component class is `Other`. -/
inductive ComponentClass
  | UInstancedStaticMeshComponent
  | UHierarchicalInstancedStaticMeshComponent
  | UHoudiniMeshSplitInstancerComponent
  | UHoudiniInstancedActorComponent
  | UStaticMeshComponent
  | UHoudiniStaticMeshComponent
  | Other
deriving DecidableEq, Repr

/-- Engine `IsA` between the component classes: a hierarchical instanced component is an
instanced component, an instanced component is a static mesh component, the other classes
are unrelated. -/
def ComponentClass.IsA : ComponentClass → ComponentClass → Bool
  | .UHierarchicalInstancedStaticMeshComponent, .UInstancedStaticMeshComponent => true
  | .UHierarchicalInstancedStaticMeshComponent, .UStaticMeshComponent => true
  | .UInstancedStaticMeshComponent, .UStaticMeshComponent => true
  | a, b => decide (a = b)

/-- A scene component: its identity, its class and whether it is pending kill. -/
structure USceneComponent where
  Handle : Nat
  Class : ComponentClass
  bPendingKill : Bool
deriving DecidableEq, Repr

/-- Engine `Cast<T>(Component)`. -/
def CastComponent (Target : ComponentClass) (Component : Option USceneComponent) :
    Option USceneComponent :=
  match Component with
  | none => none
  | some c => if c.Class.IsA Target then some c else none

/-- Classes of instanced objects that the translator tells apart. -/
inductive ObjectClass
  | UStaticMesh
  | UHoudiniStaticMesh
  | Other
deriving DecidableEq, Repr

/-- An instanced object: its identity, its class and, for a static mesh, the value of
`GetNumLODs()`. -/
structure UObject where
  Handle : Nat
  Class : ObjectClass
  NumLODs : Int
deriving DecidableEq, Repr

/-- Engine `Cast<T>(Object)` on instanced objects. -/
def CastObject (Target : ObjectClass) (Object : Option UObject) : Option UObject :=
  match Object with
  | none => none
  | some o => if o.Class = Target then some o else none

/-- What the translator reads of the parent component: whether it is pending kill and
whether its owner has a level to spawn actors in. -/
structure FParentComponent where
  bPendingKill : Bool
  bHasSpawnLevel : Bool
deriving DecidableEq, Repr

/-- The enumeration `InstancerComponentType` local to `CreateOrUpdateInstanceComponent`. -/
inductive InstancerComponentType
  | Invalid
  | InstancedStaticMeshComponent
  | HierarchicalInstancedStaticMeshComponent
  | MeshSplitInstancerComponent
  | HoudiniInstancedActorComponent
  | StaticMeshComponent
  | HoudiniStaticMeshComponent
deriving DecidableEq, Repr

/-- Effects on components, in program order.  `Created` is `NewObject`, `Updated` stands
for the update block of a `CreateOrUpdate...Component` function run on the component (mesh,
materials, instances, generic properties; for the actor component the part of it that
precedes a failing return), the others are the engine calls of the same name. -/
inductive ComponentEvent
  | Created (Handle : Nat) (Class : ComponentClass)
  | Updated (Handle : Nat)
  | SetMobility (Handle : Nat)
  | AttachToComponent (Handle : Nat)
  | SetRelativeTransform (Handle : Nat)
  | RegisterComponent (Handle : Nat)
  | RemoveAndDestroyComponent (Handle : Nat)
deriving DecidableEq, Repr

/-- Result of a `CreateOrUpdate...Component` function: the returned flag, the value of the
in/out component pointer on return and the effects. -/
structure FCreateResult where
  bSuccess : Bool
  Component : Option USceneComponent
  Events : List ComponentEvent
deriving DecidableEq, Repr

/-- The type of the old component (lines 1194-1210). -/
def oldComponentType (OldComponent : Option USceneComponent) : InstancerComponentType :=
  match OldComponent with
  | none => .Invalid
  | some c =>
    if c.bPendingKill then .Invalid
    else if c.Class.IsA .UHierarchicalInstancedStaticMeshComponent then
      .HierarchicalInstancedStaticMeshComponent
    else if c.Class.IsA .UInstancedStaticMeshComponent then .InstancedStaticMeshComponent
    else if c.Class.IsA .UHoudiniMeshSplitInstancerComponent then .MeshSplitInstancerComponent
    else if c.Class.IsA .UHoudiniInstancedActorComponent then .HoudiniInstancedActorComponent
    else if c.Class.IsA .UStaticMeshComponent then .StaticMeshComponent
    else if c.Class.IsA .UHoudiniStaticMeshComponent then .HoudiniStaticMeshComponent
    else .Invalid

/-- The type of component wanted (lines 1212-1243); `Invalid` is the branch that logs the
error and returns `false`. -/
def newComponentType (InstancedObject : Option UObject) (NumTransforms : Nat)
    (InIsSplitMeshInstancer : Bool) : InstancerComponentType :=
  let StaticMesh := CastObject .UStaticMesh InstancedObject
  let HSM := if StaticMesh.isNone then CastObject .UHoudiniStaticMesh InstancedObject else none
  match StaticMesh with
  | some Mesh =>
    if NumTransforms = 1 then .StaticMeshComponent
    else if InIsSplitMeshInstancer then .MeshSplitInstancerComponent
    else if Mesh.NumLODs > 1 then .HierarchicalInstancedStaticMeshComponent
    else .InstancedStaticMeshComponent
  | none =>
    if HSM.isSome then
      if NumTransforms = 1 then .HoudiniStaticMeshComponent
      else .Invalid
    else .HoudiniInstancedActorComponent

/-- The common shape of the five `CreateOrUpdate...Component` functions: reuse the
component passed in when it casts to the wanted class and is not pending kill, otherwise
create one of class `NewClass` with the next free handle; `bFailsAfterCreate` is the early
`return false` taken after that step (no spawn level), before the pointer is assigned. -/
def createOrReuse (Target NewClass : ComponentClass) (bObjectNull : Bool)
    (ParentComponent : Option FParentComponent) (bFailsAfterCreate : Bool)
    (CreatedInstancedComponent : Option USceneComponent) (NextHandle : Nat) : FCreateResult :=
  if bObjectNull then ⟨false, CreatedInstancedComponent, []⟩
  else
    match ParentComponent with
    | none => ⟨false, CreatedInstancedComponent, []⟩
    | some Parent =>
      if Parent.bPendingKill then ⟨false, CreatedInstancedComponent, []⟩
      else
        let Reused :=
          match CastComponent Target CreatedInstancedComponent with
          | some c => if c.bPendingKill then none else some c
          | none => none
        match Reused with
        | some c =>
          if bFailsAfterCreate then ⟨false, CreatedInstancedComponent, [.Updated c.Handle]⟩
          else ⟨true, CreatedInstancedComponent, [.Updated c.Handle]⟩
        | none =>
          let c : USceneComponent := ⟨NextHandle, NewClass, false⟩
          if bFailsAfterCreate then
            ⟨false, CreatedInstancedComponent, [.Created c.Handle c.Class, .Updated c.Handle]⟩
          else
            ⟨true, some c, [.Created c.Handle c.Class, .Updated c.Handle]⟩

/-- Function `CreateOrUpdateInstancedStaticMeshComponent`: a new component is hierarchical
when the mesh has more than one LOD. -/
def CreateOrUpdateInstancedStaticMeshComponent (InstancedStaticMesh : Option UObject)
    (ParentComponent : Option FParentComponent)
    (CreatedInstancedComponent : Option USceneComponent) (NextHandle : Nat) : FCreateResult :=
  match InstancedStaticMesh with
  | none => ⟨false, CreatedInstancedComponent, []⟩
  | some Mesh =>
    createOrReuse .UInstancedStaticMeshComponent
      (if Mesh.NumLODs > 1 then .UHierarchicalInstancedStaticMeshComponent
       else .UInstancedStaticMeshComponent)
      false ParentComponent false CreatedInstancedComponent NextHandle

/-- Function `CreateOrUpdateInstancedActorComponent`: fails after the component is obtained
when the parent's owner has no level to spawn in. -/
def CreateOrUpdateInstancedActorComponent (InstancedObject : Option UObject)
    (ParentComponent : Option FParentComponent)
    (CreatedInstancedComponent : Option USceneComponent) (NextHandle : Nat) : FCreateResult :=
  createOrReuse .UHoudiniInstancedActorComponent .UHoudiniInstancedActorComponent
    InstancedObject.isNone ParentComponent
    (match ParentComponent with
      | some Parent => !Parent.bHasSpawnLevel
      | none => false)
    CreatedInstancedComponent NextHandle

/-- Function `CreateOrUpdateMeshSplitInstancerComponent`. -/
def CreateOrUpdateMeshSplitInstancerComponent (InstancedStaticMesh : Option UObject)
    (ParentComponent : Option FParentComponent)
    (CreatedInstancedComponent : Option USceneComponent) (NextHandle : Nat) : FCreateResult :=
  createOrReuse .UHoudiniMeshSplitInstancerComponent .UHoudiniMeshSplitInstancerComponent
    InstancedStaticMesh.isNone ParentComponent false CreatedInstancedComponent NextHandle

/-- Function `CreateOrUpdateStaticMeshComponent`.  Its update block reads
`InstancedObjectTransforms[0]`; the block is reached exactly when the function got past its
early returns, that is when the event list is not empty, and the result is `none` when the
array is empty there. -/
def CreateOrUpdateStaticMeshComponent (InstancedStaticMesh : Option UObject)
    (NumTransforms : Nat) (ParentComponent : Option FParentComponent)
    (CreatedInstancedComponent : Option USceneComponent) (NextHandle : Nat) :
    Option FCreateResult :=
  let r := createOrReuse .UStaticMeshComponent .UStaticMeshComponent
    InstancedStaticMesh.isNone ParentComponent false CreatedInstancedComponent NextHandle
  if r.Events ≠ [] ∧ NumTransforms = 0 then none else some r

/-- Function `CreateOrUpdateHoudiniStaticMeshComponent`.  Its update block reads
`InstancedObjectTransforms[0]`; the block is reached exactly when the function got past its
early returns, that is when the event list is not empty, and the result is `none` when the
array is empty there. -/
def CreateOrUpdateHoudiniStaticMeshComponent (InstancedProxyStaticMesh : Option UObject)
    (NumTransforms : Nat) (ParentComponent : Option FParentComponent)
    (CreatedInstancedComponent : Option USceneComponent) (NextHandle : Nat) :
    Option FCreateResult :=
  let r := createOrReuse .UHoudiniStaticMeshComponent .UHoudiniStaticMeshComponent
    InstancedProxyStaticMesh.isNone ParentComponent false CreatedInstancedComponent NextHandle
  if r.Events ≠ [] ∧ NumTransforms = 0 then none else some r

/-- The tail of `CreateOrUpdateInstanceComponent` (lines 1300-1321), entered with the
result of the `switch`.  `none` is the dereference of a null `ParentComponent`. -/
def finishInstanceComponent (HasOwnerAndWorld : Nat → Bool)
    (NewType : InstancerComponentType) (ParentComponent : Option FParentComponent)
    (OldComponent : Option USceneComponent) (r : FCreateResult) : Option FCreateResult :=
  match r.Component with
  | none => some ⟨false, none, r.Events⟩
  | some New =>
    match ParentComponent with
    | none => none
    | some _ =>
      let e1 := [ComponentEvent.SetMobility New.Handle, .AttachToComponent New.Handle]
      let e2 :=
        if NewType ≠ .StaticMeshComponent ∧ NewType ≠ .HoudiniStaticMeshComponent then
          [ComponentEvent.SetRelativeTransform New.Handle]
        else []
      let e3 :=
        if HasOwnerAndWorld New.Handle then [ComponentEvent.RegisterComponent New.Handle]
        else []
      let e4 :=
        match OldComponent with
        | none => []
        | some Old =>
          if !Old.bPendingKill && decide (Old.Handle ≠ New.Handle) then
            [ComponentEvent.RemoveAndDestroyComponent Old.Handle]
          else []
      some ⟨r.bSuccess, some New, r.Events ++ e1 ++ e2 ++ e3 ++ e4⟩

/-- The `switch (NewType)` of `CreateOrUpdateInstanceComponent` (lines 1257-1298).  For
`Invalid` no case is taken: `bSuccess` stays `false` and the pointer is untouched. -/
def switchNewType (NewType : InstancerComponentType)
    (InstancedObject StaticMesh HSM : Option UObject)
    (NumTransforms : Nat) (ParentComponent : Option FParentComponent)
    (NewComponent : Option USceneComponent) (NextHandle : Nat) : Option FCreateResult :=
  match NewType with
  | .InstancedStaticMeshComponent | .HierarchicalInstancedStaticMeshComponent =>
    some (CreateOrUpdateInstancedStaticMeshComponent StaticMesh ParentComponent
      NewComponent NextHandle)
  | .MeshSplitInstancerComponent =>
    some (CreateOrUpdateMeshSplitInstancerComponent StaticMesh ParentComponent
      NewComponent NextHandle)
  | .HoudiniInstancedActorComponent =>
    some (CreateOrUpdateInstancedActorComponent InstancedObject ParentComponent
      NewComponent NextHandle)
  | .StaticMeshComponent =>
    CreateOrUpdateStaticMeshComponent StaticMesh NumTransforms ParentComponent
      NewComponent NextHandle
  | .HoudiniStaticMeshComponent =>
    CreateOrUpdateHoudiniStaticMeshComponent HSM NumTransforms ParentComponent
      NewComponent NextHandle
  | .Invalid => some ⟨false, NewComponent, []⟩

/-- Function `FHoudiniInstanceTranslator::CreateOrUpdateInstanceComponent`.  `NewComponent` is the
value of the in/out pointer on entry (null at both call sites), `NextHandle` the identity
the next created object gets, `HasOwnerAndWorld` the engine query
`GetOwner() && GetWorld()` on a component. -/
def CreateOrUpdateInstanceComponent (HasOwnerAndWorld : Nat → Bool)
    (InstancedObject : Option UObject) (InstancedObjectTransforms : List FTransform)
    (ParentComponent : Option FParentComponent)
    (OldComponent NewComponent : Option USceneComponent)
    (InIsSplitMeshInstancer : Bool) (NextHandle : Nat) : Option FCreateResult :=
  let OldType := oldComponentType OldComponent
  let NewType :=
    newComponentType InstancedObject InstancedObjectTransforms.length InIsSplitMeshInstancer
  let StaticMesh := CastObject .UStaticMesh InstancedObject
  let HSM := if StaticMesh.isNone then CastObject .UHoudiniStaticMesh InstancedObject else none
  if NewType = .Invalid then some ⟨false, NewComponent, []⟩
  else
    let NewComponent1 := if OldType = NewType then OldComponent else NewComponent
    match switchNewType NewType InstancedObject StaticMesh HSM InstancedObjectTransforms.length
        ParentComponent NewComponent1 NextHandle with
    | none => none
    | some r => finishInstanceComponent HasOwnerAndWorld NewType ParentComponent OldComponent r

/-! ## Descriptions of the synthesis step used in the statements, the decision table -/

/-- The class a component type stands for. -/
def typeClass : InstancerComponentType → ComponentClass
  | .InstancedStaticMeshComponent => .UInstancedStaticMeshComponent
  | .HierarchicalInstancedStaticMeshComponent => .UHierarchicalInstancedStaticMeshComponent
  | .MeshSplitInstancerComponent => .UHoudiniMeshSplitInstancerComponent
  | .HoudiniInstancedActorComponent => .UHoudiniInstancedActorComponent
  | .StaticMeshComponent => .UStaticMeshComponent
  | .HoudiniStaticMeshComponent => .UHoudiniStaticMeshComponent
  | .Invalid => .Other

/-- The class to which the function of a component type casts the component passed in. -/
def castTarget : InstancerComponentType → ComponentClass
  | .HierarchicalInstancedStaticMeshComponent => .UInstancedStaticMeshComponent
  | t => typeClass t

/-- Representations of the decision table of the specification. -/
inductive Representation
  | SingleInstanceMeshComponent
  | SplitComponents
  | BatchedHierarchicalInstanceArray
  | BatchedFlatInstanceArray
  | LightweightPreviewComponent
  | Unsupported
  | ActorPerTransform
deriving DecidableEq, Repr

/-- The decision table of the specification, row by row in its order: a condition on the
object, the transform count and the split flag, and the representation of the row. -/
def decisionTable : List ((UObject → Nat → Bool → Bool) × Representation) :=
  [ (fun o n _ => decide (o.Class = .UStaticMesh) && decide (n = 1),
      .SingleInstanceMeshComponent),
    (fun o _ split => decide (o.Class = .UStaticMesh) && split, .SplitComponents),
    (fun o _ _ => decide (o.Class = .UStaticMesh) && decide (o.NumLODs > 1),
      .BatchedHierarchicalInstanceArray),
    (fun o _ _ => decide (o.Class = .UStaticMesh), .BatchedFlatInstanceArray),
    (fun o n _ => decide (o.Class = .UHoudiniStaticMesh) && decide (n = 1),
      .LightweightPreviewComponent),
    (fun o n _ => decide (o.Class = .UHoudiniStaticMesh) && decide (n > 1), .Unsupported),
    (fun o _ _ => !decide (o.Class = .UStaticMesh) && !decide (o.Class = .UHoudiniStaticMesh),
      .ActorPerTransform) ]

/-- The representation of the first row of the table whose condition holds. -/
def firstMatchingRow (Object : UObject) (NumTransforms : Nat) (bSplit : Bool) :
    Option Representation :=
  (decisionTable.find? (fun row => row.1 Object NumTransforms bSplit)).map Prod.snd

/-- The component type that stands for a representation; the unsupported row and the
absence of a matching row are the failing branch. -/
def representationType : Option Representation → InstancerComponentType
  | some .SingleInstanceMeshComponent => .StaticMeshComponent
  | some .SplitComponents => .MeshSplitInstancerComponent
  | some .BatchedHierarchicalInstanceArray => .HierarchicalInstancedStaticMeshComponent
  | some .BatchedFlatInstanceArray => .InstancedStaticMeshComponent
  | some .LightweightPreviewComponent => .HoudiniStaticMeshComponent
  | some .Unsupported => .Invalid
  | some .ActorPerTransform => .HoudiniInstancedActorComponent
  | none => .Invalid

/-- A static mesh with a single LOD. -/
def meshObject : UObject := ⟨1, .UStaticMesh, 1⟩

/-- A Houdini proxy mesh. -/
def proxyObject : UObject := ⟨2, .UHoudiniStaticMesh, 0⟩

/-- Three instance transforms. -/
def threeTransforms : List FTransform :=
  [FTransform.Identity, FTransform.Identity, FTransform.Identity]

/-- A live parent component whose owner has a level. -/
def liveParent : FParentComponent := ⟨false, true⟩

/-- A live old component of the flat instanced class. -/
def oldInstanced : USceneComponent := ⟨5, .UInstancedStaticMeshComponent, false⟩

/-- A live old component of the single static mesh class. -/
def oldSingle : USceneComponent := ⟨6, .UStaticMeshComponent, false⟩

/-- The clamp as the specification words it: a component `c` of magnitude below the
threshold becomes a value of magnitude exactly the threshold with the sign of `c` when `c`
is negative or positive, and a component of magnitude at least the threshold is kept. -/
def ClampedTo (eps c out : ℚ) : Prop :=
  (|c| < eps → |out| = eps ∧ (c < 0 → out < 0) ∧ (0 < c → 0 < out))
  ∧ (eps ≤ |c| → out = c)

/-- Offset with scale `(1/10000, 1, 1)`, no translation and identity rotation. -/
def offsetTinyScaleX : FTransform := ⟨FQuat.Identity, ⟨0, 0, 0⟩, ⟨1 / 10000, 1, 1⟩⟩

/-! ## UpdateInstanceVariationObjects and the editor operations on variations -/

/-- Structure `FHoudiniOutputObjectIdentifier` of `HoudiniOutput.h`. -/
structure FHoudiniOutputObjectIdentifier where
  ObjectId : Int
  GeoId : Int
  PartId : Int
  SplitIdentifier : String
  PartName : String
  PrimitiveIndex : Int
  PointIndex : Int
  bLoaded : Bool
deriving DecidableEq, Repr

/-- What the translator asks of the object system about an object handle: whether the
object is pending kill, and whether `LoadSynchronous` on a soft pointer to it yields it. -/
structure FObjectWorld where
  IsPendingKill : Nat → Bool
  CanLoad : Nat → Bool

/-- Engine `TSoftObjectPtr::LoadSynchronous`: the object, or null when it cannot be loaded. -/
def LoadSynchronous (World : FObjectWorld) (Pointer : Option Nat) : Option Nat :=
  match Pointer with
  | none => none
  | some h => if World.CanLoad h then some h else none

/-- The test `!Object || Object->IsPendingKill()`. -/
def IsNullOrPendingKill (World : FObjectWorld) (Object : Option Nat) : Bool :=
  match Object with
  | none => true
  | some h => World.IsPendingKill h

/-- Engine `FString::FromInt` on a natural number: the decimal digits, most significant
first, `0` for zero. -/
def decimalDigits (n : Nat) : List Char :=
  if n = 0 then ['0'] else (Nat.digits 10 n).reverse.map Nat.digitChar

/-- Engine `FString::FromInt`: the decimal representation, with a minus sign for a negative
number. -/
def FromInt (n : Int) : String :=
  if n < 0 then String.mk ('-' :: decimalDigits n.natAbs) else String.mk (decimalDigits n.toNat)

/-- Engine `TArray::RemoveAt`: `none` when the index is out of range. -/
def RemoveAt {α : Type} (a : List α) (Index : Nat) : Option (List α) :=
  if Index < a.length then some (a.eraseIdx Index) else none

/-- Engine `TArray::Insert`: `none` when the index is out of range. -/
def InsertAt {α : Type} (a : List α) (Item : α) (Index : Int) : Option (List α) :=
  if 0 ≤ Index ∧ Index ≤ (a.length : Int) then some (a.insertIdx Index.toNat Item) else none

/-- The four output arrays of `UpdateInstanceVariationObjects`. -/
structure FVariationArrays where
  VariationsInstancedObjects : List (Option Nat)
  VariationsInstancedTransforms : List (List FTransform)
  VariationOriginalObjectIdx : List Int
  VariationIndices : List Int
deriving DecidableEq, Repr

/-- Append one tuple to the four output arrays. -/
def FVariationArrays.Add (Out : FVariationArrays) (Object : Option Nat)
    (Transforms : List FTransform) (OriginalIdx VariationIdx : Int) : FVariationArrays :=
  { VariationsInstancedObjects := Out.VariationsInstancedObjects ++ [Object],
    VariationsInstancedTransforms := Out.VariationsInstancedTransforms ++ [Transforms],
    VariationOriginalObjectIdx := Out.VariationOriginalObjectIdx ++ [OriginalIdx],
    VariationIndices := Out.VariationIndices ++ [VariationIdx] }

/-- The lookup loop of `UpdateInstanceVariationObjects` (lines 597-615) from position
`Index` on: every entry whose identifier compares equal becomes the found one (the last
one wins) and, when it is marked loaded, gets its three node ids patched.  `IdEq` is the
identifier's `operator==`. -/
def scanInstancedOutputs
    (IdEq : FHoudiniOutputObjectIdentifier → FHoudiniOutputObjectIdentifier → Bool)
    (Identifier : FHoudiniOutputObjectIdentifier) :
    List (FHoudiniOutputObjectIdentifier × FHoudiniInstancedOutput) → Nat → Option Nat →
    List (FHoudiniOutputObjectIdentifier × FHoudiniInstancedOutput) × Option Nat
  | [], _, Found => ([], Found)
  | (FoundIdentifier, Value) :: rest, Index, Found =>
    if !IdEq FoundIdentifier Identifier then
      let r := scanInstancedOutputs IdEq Identifier rest (Index + 1) Found
      ((FoundIdentifier, Value) :: r.1, r.2)
    else
      let Patched :=
        if FoundIdentifier.bLoaded then
          { FoundIdentifier with
            ObjectId := Identifier.ObjectId, GeoId := Identifier.GeoId,
            PartId := Identifier.PartId }
        else FoundIdentifier
      let r := scanInstancedOutputs IdEq Identifier rest (Index + 1) (some Index)
      ((Patched, Value) :: r.1, r.2)

/-- The indices collected in `ObjsToRemove` (lines 656-664) by the loop that runs
`VarIdx` from `Count - 1` down to `0`. -/
def objsToRemove (World : FObjectWorld) (ReplacedOriginalObject : Option Nat)
    (VariationObjects : List (Option Nat)) : Nat → List Nat
  | 0 => []
  | VarIdx + 1 =>
    let CurrentVariationObject :=
      match VariationObjects[VarIdx]? with
      | some Pointer => LoadSynchronous World Pointer
      | none => none
    (if IsNullOrPendingKill World CurrentVariationObject
        || (ReplacedOriginalObject.isSome
            && decide (ReplacedOriginalObject = CurrentVariationObject)) then
      [VarIdx]
    else [])
    ++ objsToRemove World ReplacedOriginalObject VariationObjects VarIdx

/-- The removal loop (lines 667-671): both arrays lose the listed indices, in list order;
`none` when a `RemoveAt` is out of range. -/
def removeVariations :
    List Nat → List (Option Nat) → List FTransform →
    Option (List (Option Nat) × List FTransform)
  | [], Objects, Offsets => some (Objects, Offsets)
  | VarIdx :: rest, Objects, Offsets =>
    match RemoveAt Objects VarIdx, RemoveAt Offsets VarIdx with
    | some Objects1, some Offsets1 => removeVariations rest Objects1 Offsets1
    | _, _ => none

/-- The emission loop (lines 690-707) from variation `VarIdx` on, `Count` variations left. -/
def emitVariations (World : FObjectWorld) (SCALE_SMALL_VALUE : ℚ)
    (CurInstancedOutput : FHoudiniInstancedOutput) (InstObjIdx : Int) :
    Nat → Nat → FVariationArrays → Option FVariationArrays
  | 0, _, Out => some Out
  | Count + 1, VarIdx, Out =>
    let CurrentVariationObject :=
      match CurInstancedOutput.VariationObjects[VarIdx]? with
      | some Pointer => LoadSynchronous World Pointer
      | none => none
    if IsNullOrPendingKill World CurrentVariationObject then
      emitVariations World SCALE_SMALL_VALUE CurInstancedOutput InstObjIdx Count (VarIdx + 1) Out
    else
      match ProcessInstanceTransforms SCALE_SMALL_VALUE CurInstancedOutput (VarIdx : Int) [] with
      | none => none
      | some ProcessedTransforms =>
        if ProcessedTransforms.length > 0 then
          emitVariations World SCALE_SMALL_VALUE CurInstancedOutput InstObjIdx Count (VarIdx + 1)
            (Out.Add CurrentVariationObject ProcessedTransforms InstObjIdx (VarIdx : Int))
        else
          emitVariations World SCALE_SMALL_VALUE CurInstancedOutput InstObjIdx Count (VarIdx + 1)
            Out

/-- The branch of `UpdateInstanceVariationObjects` that creates an instanced output
(lines 619-630). -/
def createInstancedOutput (OriginalObj : Nat) (InstObjIdx : Int)
    (OriginalTransforms : List FTransform) : FHoudiniInstancedOutput :=
  { OriginalObject := some OriginalObj,
    OriginalObjectIndex := InstObjIdx,
    OriginalTransforms := OriginalTransforms,
    VariationObjects := [some OriginalObj],
    VariationTransformOffsets := [FTransform.Identity],
    TransformVariationIndices := SetNumZeroed [] OriginalTransforms.length,
    bChanged := false,
    bStale := false }

/-- Lines 655-674 of `UpdateInstanceVariationObjects`: drop the variations whose object is
null, pending kill or the replaced original object, and force a recompute of the
assignment when one was dropped; `none` when a `RemoveAt` is out of range. -/
def removeDeadVariations (World : FObjectWorld) (ReplacedOriginalObject : Option Nat)
    (Cur : FHoudiniInstancedOutput) : Option FHoudiniInstancedOutput :=
  let ObjsToRemove :=
    objsToRemove World ReplacedOriginalObject Cur.VariationObjects Cur.VariationObjects.length
  if ObjsToRemove.length > 0 then
    match removeVariations ObjsToRemove Cur.VariationObjects Cur.VariationTransformOffsets with
    | none => none
    | some (Objects, Offsets) =>
      some { Cur with
        VariationObjects := Objects,
        VariationTransformOffsets := Offsets,
        TransformVariationIndices := [] }
  else some Cur

/-- Lines 676-688 of `UpdateInstanceVariationObjects`: without variations the original
object becomes the only one, and the assignment is recomputed when its length is not the
number of transforms. -/
def ensureVariationAndAssignment (OriginalObj : Nat) (Cur : FHoudiniInstancedOutput) :
    FHoudiniInstancedOutput :=
  let Cur1 : FHoudiniInstancedOutput :=
    if Cur.VariationObjects.length ≤ 0 then
      { Cur with
        VariationObjects := Cur.VariationObjects ++ [some OriginalObj],
        VariationTransformOffsets := Cur.VariationTransformOffsets ++ [FTransform.Identity],
        TransformVariationIndices := [] }
    else Cur
  if Cur1.TransformVariationIndices.length ≠ Cur1.OriginalTransforms.length then
    UpdateVariationAssignements Cur1
  else Cur1

/-- The branch of `UpdateInstanceVariationObjects` that updates a found instanced output
(lines 641-688), up to the emission loop: the instanced output as the emission loop sees
it, `none` when a `RemoveAt` is out of range. -/
def updateInstancedOutput (World : FObjectWorld) (Found : FHoudiniInstancedOutput)
    (OriginalObj : Nat) (InstObjIdx : Int) (OriginalTransforms : List FTransform) :
    Option FHoudiniInstancedOutput :=
  let ReplacedOriginalObject :=
    if Found.OriginalObject ≠ some OriginalObj then LoadSynchronous World Found.OriginalObject
    else none
  let Cur1 : FHoudiniInstancedOutput :=
    { Found with
      OriginalObject := some OriginalObj,
      OriginalTransforms := OriginalTransforms,
      OriginalObjectIndex := InstObjIdx }
  match removeDeadVariations World ReplacedOriginalObject Cur1 with
  | none => none
  | some Cur2 => some (ensureVariationAndAssignment OriginalObj Cur2)

/-- State of `UpdateInstanceVariationObjects`: the instanced-output map and the four
output arrays. -/
structure FVariationState where
  InstancedOutputs : List (FHoudiniOutputObjectIdentifier × FHoudiniInstancedOutput)
  Out : FVariationArrays
deriving DecidableEq, Repr

/-- One iteration of the loop of `UpdateInstanceVariationObjects` (lines 588-712), for the
original object number `InstObjIdx`; `none` when an array is read or shrunk out of range.
`IdEq` is the identifier's `operator==`, `SCALE_SMALL_VALUE` the macro
`HAPI_UNREAL_SCALE_SMALL_VALUE`. -/
def updateInstanceVariationObject (World : FObjectWorld) (SCALE_SMALL_VALUE : ℚ)
    (IdEq : FHoudiniOutputObjectIdentifier → FHoudiniOutputObjectIdentifier → Bool)
    (InOutputIdentifier : FHoudiniOutputObjectIdentifier)
    (InOriginalTransforms : List (List FTransform))
    (InstObjIdx : Nat) (OriginalObject : Option Nat) (State : FVariationState) :
    Option FVariationState :=
  match OriginalObject with
  | none => some State
  | some OriginalObj =>
    if World.IsPendingKill OriginalObj then some State
    else
      let Identifier : FHoudiniOutputObjectIdentifier :=
        { InOutputIdentifier with SplitIdentifier := FromInt (InstObjIdx : Int) }
      let Scan := scanInstancedOutputs IdEq Identifier State.InstancedOutputs 0 none
      match Scan.2 with
      | none =>
        match InOriginalTransforms[InstObjIdx]? with
        | none => none
        | some OriginalTransforms =>
          let CurInstancedOutput :=
            createInstancedOutput OriginalObj (InstObjIdx : Int) OriginalTransforms
          some
            { InstancedOutputs := Scan.1 ++ [(Identifier, CurInstancedOutput)],
              Out := State.Out.Add (some OriginalObj) OriginalTransforms (InstObjIdx : Int) 0 }
      | some FoundIndex =>
        match Scan.1[FoundIndex]?, InOriginalTransforms[InstObjIdx]? with
        | some (FoundIdentifier, Found), some OriginalTransforms =>
          match updateInstancedOutput World Found OriginalObj (InstObjIdx : Int)
              OriginalTransforms with
          | none => none
          | some Cur =>
            match emitVariations World SCALE_SMALL_VALUE Cur (InstObjIdx : Int)
                Cur.VariationObjects.length 0 State.Out with
            | none => none
            | some Out =>
              some
                { InstancedOutputs :=
                    Scan.1.set FoundIndex
                      (FoundIdentifier, { Cur with bChanged := false, bStale := false }),
                  Out := Out }
        | _, _ => none

/-- The loop of `UpdateInstanceVariationObjects` from original object number `InstObjIdx`
on. -/
def updateInstanceVariationLoop (World : FObjectWorld) (SCALE_SMALL_VALUE : ℚ)
    (IdEq : FHoudiniOutputObjectIdentifier → FHoudiniOutputObjectIdentifier → Bool)
    (InOutputIdentifier : FHoudiniOutputObjectIdentifier)
    (InOriginalTransforms : List (List FTransform)) :
    List (Option Nat) → Nat → FVariationState → Option FVariationState
  | [], _, State => some State
  | OriginalObject :: rest, InstObjIdx, State =>
    match updateInstanceVariationObject World SCALE_SMALL_VALUE IdEq InOutputIdentifier
        InOriginalTransforms InstObjIdx OriginalObject State with
    | none => none
    | some State1 =>
      updateInstanceVariationLoop World SCALE_SMALL_VALUE IdEq InOutputIdentifier
        InOriginalTransforms rest (InstObjIdx + 1) State1

/-- Function `FHoudiniInstanceTranslator::UpdateInstanceVariationObjects`: the
instanced-output map and the four output arrays on return. -/
def UpdateInstanceVariationObjects (World : FObjectWorld) (SCALE_SMALL_VALUE : ℚ)
    (IdEq : FHoudiniOutputObjectIdentifier → FHoudiniOutputObjectIdentifier → Bool)
    (InOutputIdentifier : FHoudiniOutputObjectIdentifier)
    (InOriginalObjects : List (Option Nat)) (InOriginalTransforms : List (List FTransform))
    (State : FVariationState) : Option FVariationState :=
  updateInstanceVariationLoop World SCALE_SMALL_VALUE IdEq InOutputIdentifier
    InOriginalTransforms InOriginalObjects 0 State

/-- The editor's `AddObjectAt` lambda (`HoudiniOutputDetails.cpp`, lines 2147-2162); `none`
when an `Insert` is out of range. -/
def AddObjectAt (InOutputToUpdate : FHoudiniInstancedOutput) (AtIndex : Int)
    (InObject : Option Nat) : Option FHoudiniInstancedOutput :=
  match InsertAt InOutputToUpdate.VariationObjects InObject AtIndex,
      InsertAt InOutputToUpdate.VariationTransformOffsets FTransform.Identity AtIndex with
  | some Objects, some Offsets =>
    some { UpdateVariationAssignements
            { InOutputToUpdate with
              VariationObjects := Objects, VariationTransformOffsets := Offsets } with
          bChanged := true }
  | _, _ => none

/-- The editor's `RemoveObjectAt` lambda (lines 2165-2188); `none` when a `RemoveAt` is out
of range. -/
def RemoveObjectAt (InOutputToUpdate : FHoudiniInstancedOutput) (AtIndex : Int) :
    Option FHoudiniInstancedOutput :=
  if AtIndex < 0 ∨ AtIndex ≥ (InOutputToUpdate.VariationObjects.length : Int) then
    some InOutputToUpdate
  else if InOutputToUpdate.VariationObjects.length = 1 then some InOutputToUpdate
  else
    match RemoveAt InOutputToUpdate.VariationObjects AtIndex.toNat,
        RemoveAt InOutputToUpdate.VariationTransformOffsets AtIndex.toNat with
    | some Objects, some Offsets =>
      some { UpdateVariationAssignements
              { InOutputToUpdate with
                VariationObjects := Objects, VariationTransformOffsets := Offsets } with
            bChanged := true }
    | _, _ => none

/-- The editor's `SetObjectAt` lambda (lines 2191-2206). -/
def SetObjectAt (InOutputToUpdate : FHoudiniInstancedOutput) (AtIndex : Int)
    (InObject : Option Nat) : FHoudiniInstancedOutput :=
  if !IsValidIndex InOutputToUpdate.VariationObjects AtIndex then InOutputToUpdate
  else
    { InOutputToUpdate with
      VariationObjects := InOutputToUpdate.VariationObjects.set AtIndex.toNat InObject,
      bChanged := true }

/-- The variation invariant: at least one variation object and as many offsets as
variation objects. -/
def VariationsWellFormed (io : FHoudiniInstancedOutput) : Prop :=
  1 ≤ io.VariationObjects.length
  ∧ io.VariationTransformOffsets.length = io.VariationObjects.length

/-- A list of indices that decreases strictly and starts below `n`. -/
def DescendingBelow : List Nat → Nat → Prop
  | [], _ => True
  | x :: xs, n => x < n ∧ DescendingBelow xs x

/-- A world in which no object is pending kill and every soft pointer loads. -/
def liveWorld : FObjectWorld := ⟨fun _ => false, fun _ => true⟩

/-- The identifier of part 2 of geo 0 of object 1, before a split identifier is set. -/
def partIdentifier : FHoudiniOutputObjectIdentifier :=
  { ObjectId := 1, GeoId := 0, PartId := 2, SplitIdentifier := "", PartName := "instancer",
    PrimitiveIndex := -1, PointIndex := -1, bLoaded := false }

/-- The state of `UpdateInstanceVariationObjects` on entry with no instanced output and
empty output arrays. -/
def emptyVariationState : FVariationState := ⟨[], ⟨[], [], [], []⟩⟩

/-! ## Split identifiers of variations -/

/-- The split identifier that `CreateAllInstancersFromHoudiniOutput` gives the output
object of a variation (lines 174-177): `FString::FromInt(original index) + "_" +
FString::FromInt(variation index)`. -/
def variationSplitIdentifier (OriginalObjectIndex VariationIndex : Int) : String :=
  FromInt OriginalObjectIndex ++ "_" ++ FromInt VariationIndex

/-- The output identifier of a variation: the part's identifier with the split identifier
replaced (lines 174-177). -/
def variationIdentifier (OutputIdentifier : FHoudiniOutputObjectIdentifier)
    (OriginalObjectIndex VariationIndex : Int) : FHoudiniOutputObjectIdentifier :=
  { OutputIdentifier with
    SplitIdentifier := variationSplitIdentifier OriginalObjectIndex VariationIndex }

/-- The decimal digits of a number, most significant first, as numbers. -/
def decimalDigitValues (n : Nat) : List Nat :=
  if n = 0 then [0] else (Nat.digits 10 n).reverse

/-! ## The classifier GetInstancerObjectsAndTransforms -/

/-- The part types of `EHoudiniPartType` that the translator tells apart; the enumeration
is declared outside the translated files. -/
inductive EHoudiniPartType
  | Invalid
  | Mesh
  | Instancer
  | Curve
  | Volume
deriving DecidableEq, Repr

/-- The instancer tags of `EHoudiniInstancerType`: the four schemes the translator handles
and `Invalid` for a part that carries none of them. -/
inductive EHoudiniInstancerType
  | Invalid
  | ObjectInstancer
  | PackedPrimitive
  | AttributeInstancer
  | OldSchoolAttributeInstancer
deriving DecidableEq, Repr

/-- The enumeration `EHoudiniOutputType` (HoudiniOutput.h, line 37). -/
inductive EHoudiniOutputType
  | Invalid
  | Mesh
  | Instancer
  | Landscape
  | Curve
  | Skeletal
deriving DecidableEq, Repr

/-- The transform record of the Houdini API, before conversion to the engine's
coordinate system. -/
structure HAPI_Transform where
  position : FVector
  rotationQuaternion : FQuat
  scale : FVector
deriving DecidableEq, Repr

/-- The owners of an attribute in the Houdini API. -/
inductive HAPI_AttributeOwner
  | VERTEX
  | POINT
  | PRIM
  | DETAIL
deriving DecidableEq, Repr

/-- What the translator reads of `HAPI_AttributeInfo`; `bExists` is its field `exists`. -/
structure HAPI_AttributeInfo where
  bExists : Bool
  owner : HAPI_AttributeOwner
deriving DecidableEq, Repr

/-- The two instance attribute names, macros `HAPI_UNREAL_ATTRIB_INSTANCE` and
`HAPI_UNREAL_ATTRIB_INSTANCE_OVERRIDE`. -/
inductive InstanceAttributeName
  | HAPI_UNREAL_ATTRIB_INSTANCE
  | HAPI_UNREAL_ATTRIB_INSTANCE_OVERRIDE
deriving DecidableEq, Repr

/-- What the translator reads of the cached part info of a geo part object.  The two
instance counts are the lengths the Houdini API reports and are not negative. -/

structure FHoudiniPartInfo where
  PartId : Int
  PointCount : Int
  InstancedPartCount : Nat
  InstanceCount : Nat
deriving DecidableEq, Repr

/-- What the translator reads of `FHoudiniGeoPartObject`; `PartType` is its field `Type`,
`ObjectToInstanceID` the field of that name of its `ObjectInfo`. -/
structure FHoudiniGeoPartObject where
  AssetId : Int
  AssetName : String
  ObjectId : Int
  ObjectName : String
  GeoId : Int
  PartId : Int
  PartName : String
  TransformMatrix : FTransform
  PartType : EHoudiniPartType
  InstancerType : EHoudiniInstancerType
  bIsInstanced : Bool
  PartInfo : FHoudiniPartInfo
  ObjectToInstanceID : Int
deriving DecidableEq, Repr

/-- What the translator reads of `UHoudiniOutput`; `OutputType` is its field `Type`, the
two maps are kept as lists of key/value pairs in iteration order. -/
structure UHoudiniOutput where
  bPendingKill : Bool
  OutputType : EHoudiniOutputType
  HoudiniGeoPartObjects : List FHoudiniGeoPartObject
  OutputObjects : List (FHoudiniOutputObjectIdentifier × FHoudiniOutputObject)
  InstancedOutputs : List (FHoudiniOutputObjectIdentifier × FHoudiniInstancedOutput)
deriving DecidableEq, Repr

/-- Everything the classifier asks of the Houdini session and of the engine.  A query of
the Houdini API gives `none` when its result is not `HAPI_RESULT_SUCCESS`, and otherwise
the value of each element of the buffer it fills.  `FStringKeyEquals` is the key
comparison of `TMap<FString, ...>`, `Matches` the function
`FHoudiniOutputObjectIdentifier::Matches`, `DefaultGeoPartObject` a default-constructed
`FHoudiniGeoPartObject`; `IsPendingKill` is the engine flag of an object. -/
structure FClassifierContext where
  GetInstancerPartTransforms : Int → Int → Option (Nat → HAPI_Transform)
  GetInstancedPartIds : Int → Int → Option (Nat → Int)
  GetInstanceTransformsOnPart : Int → Int → Option (Nat → HAPI_Transform)
  GetInstancedObjectIds : Int → Option (Nat → Int)
  GetAttributeInfo :
    Int → Int → InstanceAttributeName → HAPI_AttributeOwner → Option HAPI_AttributeInfo
  HapiGetAttributeDataAsStringFromInfo :
    Int → Int → HAPI_AttributeInfo → InstanceAttributeName → Option (List String)
  TranslateHapiTransform : HAPI_Transform → FTransform
  StaticLoadObject : String → Option Nat
  FStringKeyEquals : String → String → Bool
  Matches : FHoudiniOutputObjectIdentifier → FHoudiniGeoPartObject → Bool
  DefaultGeoPartObject : FHoudiniGeoPartObject
  IsPendingKill : Nat → Bool

/-- Result of a function that fills a list of instanced parts and their transform sets:
the returned flag and the two output arrays on return. -/
structure FHGPOsAndTransforms where
  bSuccess : Bool
  OutInstancedHGPO : List FHoudiniGeoPartObject
  OutInstancedTransforms : List (List FTransform)
deriving DecidableEq, Repr

/-- Result of a function that fills a list of instanced objects and their transform sets:
the returned flag and the two output arrays on return. -/
structure FObjectsAndTransforms where
  bSuccess : Bool
  OutInstancedObjects : List (Option Nat)
  OutInstancedTransforms : List (List FTransform)
deriving DecidableEq, Repr

/-- The conversion loop shared by the classifier functions: the first `Count` elements of
the buffer, each through `TranslateHapiTransform`. -/
def translateTransforms (Context : FClassifierContext) (Buffer : Nat → HAPI_Transform)
    (Count : Nat) : List FTransform :=
  (List.range Count).map (fun Idx => Context.TranslateHapiTransform (Buffer Idx))

/-- The geo part object that `GetPackedPrimitiveInstancerHGPOsAndTransforms` creates for an
instanced part id (lines 859-868): default-constructed, then eight fields set. -/
def instancedPart (Context : FClassifierContext) (InHGPO : FHoudiniGeoPartObject)
    (InstancedPartId : Int) : FHoudiniGeoPartObject :=
  { Context.DefaultGeoPartObject with
    AssetId := InHGPO.AssetId, AssetName := InHGPO.AssetName,
    ObjectId := InHGPO.ObjectId, ObjectName := InHGPO.ObjectName,
    GeoId := InHGPO.GeoId, PartId := InstancedPartId,
    PartName := InHGPO.PartName, TransformMatrix := InHGPO.TransformMatrix }

/-- Function `FHoudiniInstanceTranslator::GetPackedPrimitiveInstancerHGPOsAndTransforms`
(lines 811-877). -/
def GetPackedPrimitiveInstancerHGPOsAndTransforms (Context : FClassifierContext)
    (InHGPO : FHoudiniGeoPartObject) (OutInstancedHGPO : List FHoudiniGeoPartObject)
    (OutInstancedTransforms : List (List FTransform)) : FHGPOsAndTransforms :=
  if InHGPO.InstancerType ≠ .PackedPrimitive then
    ⟨false, OutInstancedHGPO, OutInstancedTransforms⟩
  else
    match Context.GetInstancerPartTransforms InHGPO.GeoId InHGPO.PartInfo.PartId with
    | none => ⟨false, OutInstancedHGPO, OutInstancedTransforms⟩
    | some InstancerPartTransforms =>
      let InstancerUnrealTransforms :=
        translateTransforms Context InstancerPartTransforms InHGPO.PartInfo.InstanceCount
      match Context.GetInstancedPartIds InHGPO.GeoId InHGPO.PartInfo.PartId with
      | none => ⟨false, OutInstancedHGPO, OutInstancedTransforms⟩
      | some Buffer =>
        let InstancedPartIds := (List.range InHGPO.PartInfo.InstancedPartCount).map Buffer
        ⟨true,
         OutInstancedHGPO ++ InstancedPartIds.map (instancedPart Context InHGPO),
         OutInstancedTransforms ++ InstancedPartIds.map (fun _ => InstancerUnrealTransforms)⟩

/-- Function `FHoudiniInstanceTranslator::HapiGetInstanceTransforms` (lines 1834-1868): the
returned flag and the output array on return. -/
def HapiGetInstanceTransforms (Context : FClassifierContext)
    (InHGPO : FHoudiniGeoPartObject) (OutInstancerUnrealTransforms : List FTransform) :
    Bool × List FTransform :=
  let PointCount := InHGPO.PartInfo.PointCount
  if PointCount ≤ 0 then (false, OutInstancerUnrealTransforms)
  else
    match Context.GetInstanceTransformsOnPart InHGPO.GeoId InHGPO.PartId with
    | none => (false, OutInstancerUnrealTransforms)
    | some InstanceTransforms =>
      (true, translateTransforms Context InstanceTransforms PointCount.toNat)

/-- The three attribute lookups of `GetAttributeInstancerObjectsAndTransforms` (lines
889-919): the info of the attribute that was found and the value of `is_override_attr`,
or `none` when the function returns `false` there. -/
def findInstanceAttribute (Context : FClassifierContext) (InHGPO : FHoudiniGeoPartObject) :
    Option (HAPI_AttributeInfo × Bool) :=
  let found (r : Option HAPI_AttributeInfo) : Bool :=
    match r with
    | some Info => Info.bExists
    | none => false
  let r1 := Context.GetAttributeInfo InHGPO.GeoId InHGPO.PartId
    .HAPI_UNREAL_ATTRIB_INSTANCE .POINT
  if found r1 then r1.map (fun Info => (Info, false))
  else
    let r2 := Context.GetAttributeInfo InHGPO.GeoId InHGPO.PartId
      .HAPI_UNREAL_ATTRIB_INSTANCE_OVERRIDE .POINT
    if found r2 then r2.map (fun Info => (Info, true))
    else
      let r3 := Context.GetAttributeInfo InHGPO.GeoId InHGPO.PartId
        .HAPI_UNREAL_ATTRIB_INSTANCE_OVERRIDE .DETAIL
      if found r3 then r3.map (fun Info => (Info, true)) else none

/-- The first loop of the point branch (lines 981-992): the map from each unique value to
the object it loads (null when the load fails), in insertion order. -/
def collectObjectsToInstance (Context : FClassifierContext) :
    List String → List (String × Option Nat) → List (String × Option Nat)
  | [], ObjectsToInstance => ObjectsToInstance
  | Iter :: rest, ObjectsToInstance =>
    if ObjectsToInstance.any (fun e => Context.FStringKeyEquals e.1 Iter) then
      collectObjectsToInstance Context rest ObjectsToInstance
    else
      collectObjectsToInstance Context rest
        (ObjectsToInstance ++ [(Iter, Context.StaticLoadObject Iter)])

/-- The inner loop of the point branch (lines 1006-1010): the transforms of the points
whose value `Equals` the path, in point order.  The two arrays have the same length
there. -/
def pointTransforms (PointInstanceValues : List String)
    (InstancerUnrealTransforms : List FTransform) (InstancePath : String) : List FTransform :=
  ((PointInstanceValues.zip InstancerUnrealTransforms).filter
    (fun p => decide (InstancePath = p.1))).map Prod.snd

/-- The second loop of the point branch (lines 995-1016), from the flag `Success` and the
output arrays so far. -/
def emitAttributeObjects (PointInstanceValues : List String)
    (InstancerUnrealTransforms : List FTransform) :
    List (String × Option Nat) → FObjectsAndTransforms → FObjectsAndTransforms
  | [], r => r
  | (_, none) :: rest, r =>
    emitAttributeObjects PointInstanceValues InstancerUnrealTransforms rest r
  | (InstancePath, some AttributeObject) :: rest, r =>
    emitAttributeObjects PointInstanceValues InstancerUnrealTransforms rest
      ⟨true, r.OutInstancedObjects ++ [some AttributeObject],
       r.OutInstancedTransforms
         ++ [pointTransforms PointInstanceValues InstancerUnrealTransforms InstancePath]⟩

/-- Function `FHoudiniInstanceTranslator::GetAttributeInstancerObjectsAndTransforms` (lines
880-1027). -/
def GetAttributeInstancerObjectsAndTransforms (Context : FClassifierContext)
    (InHGPO : FHoudiniGeoPartObject) (OutInstancedObjects : List (Option Nat))
    (OutInstancedTransforms : List (List FTransform)) : FObjectsAndTransforms :=
  let Failed : FObjectsAndTransforms := ⟨false, OutInstancedObjects, OutInstancedTransforms⟩
  if InHGPO.InstancerType ≠ .AttributeInstancer then Failed
  else
    match findInstanceAttribute Context InHGPO with
    | none => Failed
    | some (AttribInfo, is_override_attr) =>
      let Transforms := HapiGetInstanceTransforms Context InHGPO []
      if !Transforms.1 then Failed
      else
        let InstancerUnrealTransforms := Transforms.2
        let Name : InstanceAttributeName :=
          if is_override_attr then .HAPI_UNREAL_ATTRIB_INSTANCE_OVERRIDE
          else .HAPI_UNREAL_ATTRIB_INSTANCE
        if AttribInfo.owner = .DETAIL then
          match Context.HapiGetAttributeDataAsStringFromInfo InHGPO.GeoId InHGPO.PartId
              AttribInfo Name with
          | none => Failed
          | some DetailInstanceValues =>
            match DetailInstanceValues with
            | [] => Failed
            | AssetName :: _ =>
              match Context.StaticLoadObject AssetName with
              | none => Failed
              | some AttributeObject =>
                ⟨true, OutInstancedObjects ++ [some AttributeObject],
                 OutInstancedTransforms ++ [InstancerUnrealTransforms]⟩
        else
          match Context.HapiGetAttributeDataAsStringFromInfo InHGPO.GeoId InHGPO.PartId
              AttribInfo Name with
          | none => Failed
          | some PointInstanceValues =>
            if PointInstanceValues.length ≠ InstancerUnrealTransforms.length then Failed
            else
              let ObjectsToInstance := collectObjectsToInstance Context PointInstanceValues []
              let r := emitAttributeObjects PointInstanceValues InstancerUnrealTransforms
                ObjectsToInstance Failed
              if !r.bSuccess then ⟨false, r.OutInstancedObjects, r.OutInstancedTransforms⟩
              else ⟨true, r.OutInstancedObjects, r.OutInstancedTransforms⟩

/-- Engine `TSet<int32>` built from an array: the distinct elements, in the order of their
first occurrence. -/
def TSetOf (a : List Int) : List Int :=
  a.foldl (fun s x => if x ∈ s then s else s ++ [x]) []

/-- The mesh parts of the mesh outputs that pass the test, over all outputs in order
(lines 1064-1084 and 1132-1153); null outputs and outputs of another type are skipped. -/
def meshPartsToInstance (InAllOutputs : List (Option UHoudiniOutput))
    (Keep : FHoudiniGeoPartObject → Bool) : List FHoudiniGeoPartObject :=
  InAllOutputs.flatMap (fun Output =>
    match Output with
    | none => []
    | some O =>
      if O.OutputType ≠ .Mesh then []
      else O.HoudiniGeoPartObjects.filter (fun OutHGPO =>
        decide (OutHGPO.PartType = .Mesh) && Keep OutHGPO))

/-- The loop over the unique instanced object ids of
`GetOldSchoolAttributeInstancerHGPOsAndTransforms` (lines 1061-1101). -/
def oldSchoolLoop (InAllOutputs : List (Option UHoudiniOutput))
    (InstancedObjectIds : List Int) (InstancerUnrealTransforms : List FTransform) :
    List Int → List FHoudiniGeoPartObject × List (List FTransform) →
    List FHoudiniGeoPartObject × List (List FTransform)
  | [], Out => Out
  | InstancedObjectId :: rest, Out =>
    let PartsToInstance := meshPartsToInstance InAllOutputs (fun OutHGPO =>
      !OutHGPO.bIsInstanced && decide (InstancedObjectId = OutHGPO.ObjectId))
    let InstanceTransforms :=
      (List.range InstancedObjectIds.length).filterMap (fun Ix =>
        if InstancedObjectIds[Ix]? = some InstancedObjectId then InstancerUnrealTransforms[Ix]?
        else none)
    oldSchoolLoop InAllOutputs InstancedObjectIds InstancerUnrealTransforms rest
      (Out.1 ++ PartsToInstance, Out.2 ++ PartsToInstance.map (fun _ => InstanceTransforms))

/-- Function
`FHoudiniInstanceTranslator::GetOldSchoolAttributeInstancerHGPOsAndTransforms` (lines
1030-1106). -/
def GetOldSchoolAttributeInstancerHGPOsAndTransforms (Context : FClassifierContext)
    (InHGPO : FHoudiniGeoPartObject) (InAllOutputs : List (Option UHoudiniOutput))
    (OutInstancedHGPO : List FHoudiniGeoPartObject)
    (OutInstancedTransforms : List (List FTransform)) : FHGPOsAndTransforms :=
  if InHGPO.InstancerType ≠ .OldSchoolAttributeInstancer then
    ⟨false, OutInstancedHGPO, OutInstancedTransforms⟩
  else
    let Transforms := HapiGetInstanceTransforms Context InHGPO []
    if !Transforms.1 then ⟨false, OutInstancedHGPO, OutInstancedTransforms⟩
    else
      let NumPoints := InHGPO.PartInfo.PointCount
      match Context.GetInstancedObjectIds InHGPO.GeoId with
      | none => ⟨false, OutInstancedHGPO, OutInstancedTransforms⟩
      | some Buffer =>
        let InstancedObjectIds := (List.range NumPoints.toNat).map Buffer
        let Out := oldSchoolLoop InAllOutputs InstancedObjectIds Transforms.2
          (TSetOf InstancedObjectIds) (OutInstancedHGPO, OutInstancedTransforms)
        if Out.1.length > 0 ∧ Out.2.length > 0 then ⟨true, Out.1, Out.2⟩
        else ⟨false, Out.1, Out.2⟩

/-- Function `FHoudiniInstanceTranslator::GetObjectInstancerHGPOsAndTransforms` (lines
1109-1168). -/
def GetObjectInstancerHGPOsAndTransforms (Context : FClassifierContext)
    (InHGPO : FHoudiniGeoPartObject) (InAllOutputs : List (Option UHoudiniOutput))
    (OutInstancedHGPO : List FHoudiniGeoPartObject)
    (OutInstancedTransforms : List (List FTransform)) : FHGPOsAndTransforms :=
  if InHGPO.InstancerType ≠ .ObjectInstancer then
    ⟨false, OutInstancedHGPO, OutInstancedTransforms⟩
  else if InHGPO.ObjectToInstanceID < 0 then
    ⟨false, OutInstancedHGPO, OutInstancedTransforms⟩
  else
    let Transforms := HapiGetInstanceTransforms Context InHGPO []
    if !Transforms.1 then ⟨false, OutInstancedHGPO, OutInstancedTransforms⟩
    else
      let PartsToInstance := meshPartsToInstance InAllOutputs (fun OutHGPO =>
        decide (InHGPO.ObjectToInstanceID = OutHGPO.ObjectId))
      ⟨true,
       OutInstancedHGPO ++ PartsToInstance.map (fun InstanceHGPO =>
          { InstanceHGPO with TransformMatrix := InHGPO.TransformMatrix }),
       OutInstancedTransforms ++ PartsToInstance.map (fun _ => Transforms.2)⟩

/-- The output objects of the mesh outputs whose key matches the part, over all outputs in
order (lines 521-532). -/
def matchingOutputObjects (Context : FClassifierContext)
    (InAllOutputs : List (Option UHoudiniOutput)) (CurrentHGPO : FHoudiniGeoPartObject) :
    List FHoudiniOutputObject :=
  InAllOutputs.flatMap (fun Output =>
    match Output with
    | none => []
    | some O =>
      if O.OutputType ≠ .Mesh then []
      else if O.OutputObjects.length ≤ 0 then []
      else (O.OutputObjects.filter (fun OutObjPair =>
        Context.Matches OutObjPair.1 CurrentHGPO)).map Prod.snd)

/-- Whether an object pointer is set and its object is not pending kill. -/
def IsLive (Context : FClassifierContext) (Object : Option Nat) : Bool :=
  match Object with
  | none => false
  | some o => !Context.IsPendingKill o

/-- The object a matching output object contributes (lines 534-546): its proxy when the
part has at most one transform and the proxy is current and live, else its output object
when that is live, else nothing. -/
def objectToInstance (Context : FClassifierContext) (NumTransforms : Nat)
    (CurrentOutputObject : FHoudiniOutputObject) : List (Option Nat) :=
  if decide (NumTransforms ≤ 1) && CurrentOutputObject.bProxyIsCurrent
      && IsLive Context CurrentOutputObject.ProxyObject then
    [CurrentOutputObject.ProxyObject]
  else if IsLive Context CurrentOutputObject.OutputObject then
    [CurrentOutputObject.OutputObject]
  else []

/-- The loop over the instanced parts of `GetInstancerObjectsAndTransforms` (lines
513-557) from index `HGPOIdx` on.  The transform set of a part is read at its index only
when an output object matches the part; `none` is that read past the end of the array. -/
def fetchInstancedObjects (Context : FClassifierContext)
    (InAllOutputs : List (Option UHoudiniOutput))
    (InstancedHGPOTransforms : List (List FTransform)) :
    List FHoudiniGeoPartObject → Nat → List (Option Nat) × List (List FTransform) →
    Option (List (Option Nat) × List (List FTransform))
  | [], _, Out => some Out
  | CurrentHGPO :: rest, HGPOIdx, Out =>
    let Matching := matchingOutputObjects Context InAllOutputs CurrentHGPO
    match Matching with
    | [] =>
      fetchInstancedObjects Context InAllOutputs InstancedHGPOTransforms rest (HGPOIdx + 1) Out
    | _ :: _ =>
      match InstancedHGPOTransforms[HGPOIdx]? with
      | none => none
      | some Transforms =>
        let ObjectsToInstance :=
          Matching.flatMap (objectToInstance Context Transforms.length)
        fetchInstancedObjects Context InAllOutputs InstancedHGPOTransforms rest (HGPOIdx + 1)
          (Out.1 ++ ObjectsToInstance, Out.2 ++ ObjectsToInstance.map (fun _ => Transforms))

/-- The `switch` of `GetInstancerObjectsAndTransforms` (lines 478-507): the flag and the
four local arrays after it.  No case is taken for a tag that is none of the four. -/
def classifyByType (Context : FClassifierContext) (InHGPO : FHoudiniGeoPartObject)
    (InAllOutputs : List (Option UHoudiniOutput)) :
    Bool × (List (Option Nat) × List (List FTransform))
      × (List FHoudiniGeoPartObject × List (List FTransform)) :=
  match InHGPO.InstancerType with
  | .PackedPrimitive =>
    let r := GetPackedPrimitiveInstancerHGPOsAndTransforms Context InHGPO [] []
    (r.bSuccess, ([], []), (r.OutInstancedHGPO, r.OutInstancedTransforms))
  | .AttributeInstancer =>
    let r := GetAttributeInstancerObjectsAndTransforms Context InHGPO [] []
    (r.bSuccess, (r.OutInstancedObjects, r.OutInstancedTransforms), ([], []))
  | .OldSchoolAttributeInstancer =>
    let r := GetOldSchoolAttributeInstancerHGPOsAndTransforms Context InHGPO InAllOutputs [] []
    (r.bSuccess, ([], []), (r.OutInstancedHGPO, r.OutInstancedTransforms))
  | .ObjectInstancer =>
    let r := GetObjectInstancerHGPOsAndTransforms Context InHGPO InAllOutputs [] []
    (r.bSuccess, ([], []), (r.OutInstancedHGPO, r.OutInstancedTransforms))
  | .Invalid => (false, ([], []), ([], []))

/-- Function `FHoudiniInstanceTranslator::GetInstancerObjectsAndTransforms` (lines
464-571).  The last two arguments are the two output arrays on entry. -/
def GetInstancerObjectsAndTransforms (Context : FClassifierContext)
    (InHGPO : FHoudiniGeoPartObject) (InAllOutputs : List (Option UHoudiniOutput))
    (OutInstancedObjects : List (Option Nat))
    (OutInstancedTransforms : List (List FTransform)) : Option FObjectsAndTransforms :=
  let Switch := classifyByType Context InHGPO InAllOutputs
  let bSuccess := Switch.1
  let InstancedHGPOs := Switch.2.2.1
  let InstancedHGPOTransforms := Switch.2.2.2
  if !bSuccess then some ⟨false, OutInstancedObjects, OutInstancedTransforms⟩
  else
    let Fetched :=
      if InstancedHGPOs.length > 0 then
        fetchInstancedObjects Context InAllOutputs InstancedHGPOTransforms InstancedHGPOs 0
          Switch.2.1
      else some Switch.2.1
    match Fetched with
    | none => none
    | some (InstancedObjects, InstancedTransforms) =>
      if InstancedObjects.length ≤ 0 ∨ InstancedTransforms.length ≠ InstancedObjects.length then
        some ⟨false, OutInstancedObjects, OutInstancedTransforms⟩
      else some ⟨true, InstancedObjects, InstancedTransforms⟩

/-- The objects the classifier finds for the instanced sub-parts of a packed-primitive
part, in order: for each sub-part, what each matching output object of the mesh outputs
contributes. -/
def packedPrimitiveObjects (Context : FClassifierContext) (InHGPO : FHoudiniGeoPartObject)
    (InAllOutputs : List (Option UHoudiniOutput)) (InstancedPartIds : Nat → Int) :
    List (Option Nat) :=
  ((List.range InHGPO.PartInfo.InstancedPartCount).map InstancedPartIds).flatMap (fun Id =>
    (matchingOutputObjects Context InAllOutputs (instancedPart Context InHGPO Id)).flatMap
      (objectToInstance Context InHGPO.PartInfo.InstanceCount))

/-- A transform of the Houdini API at distance `k` along the first axis, with identity
rotation and unit scale. -/
def movedTransform (k : Nat) : HAPI_Transform :=
  ⟨⟨(k : ℚ), 0, 0⟩, FQuat.Identity, ⟨1, 1, 1⟩⟩

/-- A geo part object with every id unset, no type and no instancer tag. -/
def emptyGeoPartObject : FHoudiniGeoPartObject :=
  { AssetId := -1, AssetName := "", ObjectId := -1, ObjectName := "", GeoId := -1,
    PartId := -1, PartName := "", TransformMatrix := FTransform.Identity,
    PartType := .Invalid, InstancerType := .Invalid, bIsInstanced := false,
    PartInfo := ⟨-1, 0, 0, 0⟩, ObjectToInstanceID := -1 }

/-- A session in which every query succeeds: transform number `k` is `movedTransform k`,
instanced part number `k` has id `k + 10`, the instance attribute is on points with
values "Rock_A", "Rock_B", "Rock_A", "Tree", "Rock_B", of which "Rock_A" loads object 7,
"Rock_B" loads object 8 and "Tree" does not load; a key matches a part when the three
node ids agree; no object is pending kill. -/
def sampleContext : FClassifierContext :=
  { GetInstancerPartTransforms := fun _ _ => some movedTransform,
    GetInstancedPartIds := fun _ _ => some (fun k => (k : Int) + 10),
    GetInstanceTransformsOnPart := fun _ _ => some movedTransform,
    GetInstancedObjectIds := fun _ => some (fun _ => 0),
    GetAttributeInfo := fun _ _ Name Owner =>
      if Name = .HAPI_UNREAL_ATTRIB_INSTANCE ∧ Owner = .POINT then some ⟨true, .POINT⟩
      else some ⟨false, Owner⟩,
    HapiGetAttributeDataAsStringFromInfo := fun _ _ _ _ =>
      some ["Rock_A", "Rock_B", "Rock_A", "Tree", "Rock_B"],
    TranslateHapiTransform := fun t => ⟨t.rotationQuaternion, t.position, t.scale⟩,
    StaticLoadObject := fun s =>
      if s = "Rock_A" then some 7 else if s = "Rock_B" then some 8 else none,
    FStringKeyEquals := fun a b => decide (a = b),
    Matches := fun k h =>
      decide (k.ObjectId = h.ObjectId ∧ k.GeoId = h.GeoId ∧ k.PartId = h.PartId),
    DefaultGeoPartObject := emptyGeoPartObject,
    IsPendingKill := fun _ => false }

/-- A packed-primitive instancer part with two instancer transforms and one instanced
sub-part. -/
def packedPart : FHoudiniGeoPartObject :=
  { emptyGeoPartObject with
    ObjectId := 1, GeoId := 0, PartId := 2, PartType := .Instancer,
    InstancerType := .PackedPrimitive, PartInfo := ⟨2, 0, 1, 2⟩ }

/-- A mesh output holding one output object, mesh 7, under the key of part 10 of geo 0 of
object 1. -/
def meshOutput : UHoudiniOutput :=
  { bPendingKill := false, OutputType := .Mesh, HoudiniGeoPartObjects := [],
    OutputObjects :=
      [({ ObjectId := 1, GeoId := 0, PartId := 10, SplitIdentifier := "", PartName := "",
          PrimitiveIndex := -1, PointIndex := -1, bLoaded := false },
        { OutputObject := some 7, OutputComponent := none, ProxyObject := none,
          ProxyComponent := none, bProxyIsCurrent := false })],
    InstancedOutputs := [] }

/-- An attribute instancer part with five points. -/
def pointPart : FHoudiniGeoPartObject :=
  { emptyGeoPartObject with
    ObjectId := 1, GeoId := 0, PartId := 3, PartType := .Instancer,
    InstancerType := .AttributeInstancer, PartInfo := ⟨3, 5, 0, 0⟩ }

/-- The values of the instance attribute on the five points of `pointPart`. -/
def pointValues : List String := ["Rock_A", "Rock_B", "Rock_A", "Tree", "Rock_B"]

/-! ## The instance block and an end-to-end input -/

/-- Engine `UInstancedStaticMeshComponent::ClearInstances` on the instance array. -/
def ClearInstances (_ : List FTransform) : List FTransform := []

/-- Engine `UInstancedStaticMeshComponent::AddInstance` on the instance array. -/
def AddInstance (Instances : List FTransform) (Transform : FTransform) : List FTransform :=
  Instances ++ [Transform]

/-- The instance block of `CreateOrUpdateInstancedStaticMeshComponent` (lines 1381-1388):
the instances of the component after it, from the instances it held before.
`PreAllocateInstancesMemory` only reserves memory. -/
def updateComponentInstances (Previous InstancedObjectTransforms : List FTransform) :
    List FTransform :=
  InstancedObjectTransforms.foldl AddInstance (ClearInstances Previous)

/-- A session in which the instance attribute is found on the detail only, with the
single value "Rock_A". -/
def detailContext : FClassifierContext :=
  { sampleContext with
    GetAttributeInfo := fun _ _ Name Owner =>
      if Name = .HAPI_UNREAL_ATTRIB_INSTANCE_OVERRIDE ∧ Owner = .DETAIL then
        some ⟨true, .DETAIL⟩
      else some ⟨false, Owner⟩,
    HapiGetAttributeDataAsStringFromInfo := fun _ _ _ _ => some ["Rock_A"] }

/-- The static mesh that "Rock_A" loads: object 7, one LOD. -/
def rockMesh : UObject := ⟨7, .UStaticMesh, 1⟩

/-! ## The translator entry point CreateAllInstancersFromHoudiniOutput -/

/-- What `CreateAllInstancersFromHoudiniOutput` reads of `InOuterComponent`: whether it is
pending kill, whether `Cast<USceneComponent>` succeeds on it, and whether its owner has a
level to spawn in. -/
structure FOuterObject where
  bPendingKill : Bool
  bIsSceneComponent : Bool
  bHasSpawnLevel : Bool
deriving DecidableEq, Repr

/-- Everything `CreateAllInstancersFromHoudiniOutput` asks of the session and the engine.
`MakeKey` gives what `operator==` and `GetTypeHash` of an identifier compare (their bodies
are outside the translated files); `CanLoad` tells whether a soft pointer loads;
`ObjectClassOf` and `GetNumLODs` describe an object, `ComponentClassOf` is the class of a
scene component and `none` for another object; `IsSplitInstancer` is the function of that
name; `SCALE_SMALL_VALUE` is the macro `HAPI_UNREAL_SCALE_SMALL_VALUE`. -/
structure FTranslatorContext (K : Type) where
  Classifier : FClassifierContext
  MakeKey : FHoudiniOutputObjectIdentifier → K
  CanLoad : Nat → Bool
  ObjectClassOf : Nat → ObjectClass
  GetNumLODs : Nat → Int
  ComponentClassOf : Nat → Option ComponentClass
  HasOwnerAndWorld : Nat → Bool
  IsSplitInstancer : Int → Int → Bool
  SCALE_SMALL_VALUE : ℚ

/-- The objects of the engine as the variation step sees them. -/
def FTranslatorContext.World {K : Type} (Context : FTranslatorContext K) : FObjectWorld :=
  ⟨Context.Classifier.IsPendingKill, Context.CanLoad⟩

/-- The comparison `operator==` of two identifiers. -/
def FTranslatorContext.IdEq {K : Type} [DecidableEq K] (Context : FTranslatorContext K)
    (a b : FHoudiniOutputObjectIdentifier) : Bool :=
  decide (Context.MakeKey a = Context.MakeKey b)

/-- A map keyed by identifiers, seen through the comparison key. -/
def keyed {K V : Type} (Context : FTranslatorContext K)
    (m : List (FHoudiniOutputObjectIdentifier × V)) : List (K × V) :=
  m.map (fun e => (Context.MakeKey e.1, e.2))

/-- A default-constructed `FHoudiniOutputObjectIdentifier` (HoudiniOutput.h, lines
145-176). -/
def FHoudiniOutputObjectIdentifier.Default : FHoudiniOutputObjectIdentifier :=
  { ObjectId := -1, GeoId := -1, PartId := -1, SplitIdentifier := "", PartName := "",
    PrimitiveIndex := -1, PointIndex := -1, bLoaded := false }

/-- A default-constructed `FHoudiniOutputObject` (HoudiniOutput.h, lines 240-266). -/
def FHoudiniOutputObject.Default : FHoudiniOutputObject :=
  { OutputObject := none, OutputComponent := none, ProxyObject := none,
    ProxyComponent := none, bProxyIsCurrent := false }

/-- Engine `TMap::FindOrAdd` followed by an update of the value it returns. -/
def FindOrAddAndSet {K : Type} [DecidableEq K] (Context : FTranslatorContext K)
    (m : List (FHoudiniOutputObjectIdentifier × FHoudiniOutputObject))
    (k : FHoudiniOutputObjectIdentifier)
    (f : FHoudiniOutputObject → FHoudiniOutputObject) :
    List (FHoudiniOutputObjectIdentifier × FHoudiniOutputObject) :=
  if m.any (fun e => Context.IdEq e.1 k) then
    m.map (fun e => if Context.IdEq e.1 k then (e.1, f e.2) else e)
  else m ++ [(k, f FHoudiniOutputObject.Default)]

/-- Engine `Cast<USceneComponent>` on an object pointer of an output object. -/
def CastSceneComponent {K : Type} (Context : FTranslatorContext K) (Object : Option Nat) :
    Option USceneComponent :=
  match Object with
  | none => none
  | some h =>
    match Context.ComponentClassOf h with
    | none => none
    | some c => some ⟨h, c, Context.Classifier.IsPendingKill h⟩

/-- What changes while `CreateAllInstancersFromHoudiniOutput` runs: the instanced outputs
of the output, the new output-object map, the engine effects so far and the identity the
next created object gets. -/
structure FTranslatorState where
  InstancedOutputs : List (FHoudiniOutputObjectIdentifier × FHoudiniInstancedOutput)
  NewOutputObjects : List (FHoudiniOutputObjectIdentifier × FHoudiniOutputObject)
  Events : List ComponentEvent
  NextHandle : Nat
deriving DecidableEq, Repr

/-- One pass of the loop that creates the instancer components (lines 151-224), for the
variation at index `InstanceObjectIdx` of the four arrays.  `none` is a read past the end
of `VariationOriginalObjectIndices` or `VariationIndices`. -/
def createVariationComponent {K : Type} [DecidableEq K] (Context : FTranslatorContext K)
    (OutputIdentifier : FHoudiniOutputObjectIdentifier)
    (OldOutputObjects : List (FHoudiniOutputObjectIdentifier × FHoudiniOutputObject))
    (ParentComponent : FParentComponent) (bSplitMeshInstancer : Bool)
    (Variations : FVariationArrays) (InstanceObjectIdx : Nat) (State : FTranslatorState) :
    Option FTranslatorState :=
  let InstancedObject :=
    match Variations.VariationsInstancedObjects[InstanceObjectIdx]? with
    | some Pointer => LoadSynchronous Context.World Pointer
    | none => none
  match InstancedObject with
  | none => some State
  | some Object =>
    if Context.Classifier.IsPendingKill Object then some State
    else
      match Variations.VariationsInstancedTransforms[InstanceObjectIdx]? with
      | none => some State
      | some InstancedObjectTransforms =>
        if InstancedObjectTransforms.length ≤ 0 then some State
        else
          match Variations.VariationOriginalObjectIdx[InstanceObjectIdx]?,
              Variations.VariationIndices[InstanceObjectIdx]? with
          | some OriginalIndex, some VariationIndex =>
            let Identifier := variationIdentifier OutputIdentifier OriginalIndex VariationIndex
            let FoundOutputObject :=
              TMapFind (keyed Context OldOutputObjects) (Context.MakeKey Identifier)
            let bIsProxyMesh := decide (Context.ObjectClassOf Object = .UHoudiniStaticMesh)
            let OldInstancerComponent :=
              match FoundOutputObject with
              | none => none
              | some Found =>
                if bIsProxyMesh then CastSceneComponent Context Found.ProxyComponent
                else CastSceneComponent Context Found.OutputComponent
            match CreateOrUpdateInstanceComponent Context.HasOwnerAndWorld
                (some ⟨Object, Context.ObjectClassOf Object, Context.GetNumLODs Object⟩)
                InstancedObjectTransforms (some ParentComponent) OldInstancerComponent none
                bSplitMeshInstancer State.NextHandle with
            | none => none
            | some r =>
              let State1 : FTranslatorState :=
                { State with
                  Events := State.Events ++ r.Events, NextHandle := State.NextHandle + 1 }
              if !r.bSuccess then some State1
              else
                match r.Component with
                | none => some State1
                | some NewInstancerComponent =>
                  some { State1 with
                    NewOutputObjects :=
                      FindOrAddAndSet Context State1.NewOutputObjects Identifier
                        (fun NewOutputObject =>
                          if bIsProxyMesh then
                            { NewOutputObject with
                              ProxyComponent := some NewInstancerComponent.Handle }
                          else
                            { NewOutputObject with
                              OutputComponent := some NewInstancerComponent.Handle }) }
          | _, _ => none

/-- The loop that creates the instancer components (lines 151-224), over the variation
indices in the list. -/
def createVariationComponents {K : Type} [DecidableEq K] (Context : FTranslatorContext K)
    (OutputIdentifier : FHoudiniOutputObjectIdentifier)
    (OldOutputObjects : List (FHoudiniOutputObjectIdentifier × FHoudiniOutputObject))
    (ParentComponent : FParentComponent) (bSplitMeshInstancer : Bool)
    (Variations : FVariationArrays) :
    List Nat → FTranslatorState → Option FTranslatorState
  | [], State => some State
  | InstanceObjectIdx :: rest, State =>
    match createVariationComponent Context OutputIdentifier OldOutputObjects ParentComponent
        bSplitMeshInstancer Variations InstanceObjectIdx State with
    | none => none
    | some State1 =>
      createVariationComponents Context OutputIdentifier OldOutputObjects ParentComponent
        bSplitMeshInstancer Variations rest State1

/-- One pass of the loop over the parts of the output (lines 89-225).  The generic
property attributes and the material overrides are read and handed to the component
functions; they do not decide what is created. -/
def processPart {K : Type} [DecidableEq K] (Context : FTranslatorContext K)
    (InAllOutputs : List (Option UHoudiniOutput))
    (OldOutputObjects : List (FHoudiniOutputObjectIdentifier × FHoudiniOutputObject))
    (ParentComponent : FParentComponent) (CurHGPO : FHoudiniGeoPartObject)
    (State : FTranslatorState) : Option FTranslatorState :=
  if CurHGPO.PartType ≠ .Instancer then some State
  else
    let OutputIdentifier : FHoudiniOutputObjectIdentifier :=
      { FHoudiniOutputObjectIdentifier.Default with
        ObjectId := CurHGPO.ObjectId, GeoId := CurHGPO.GeoId, PartId := CurHGPO.PartId,
        PartName := CurHGPO.PartName }
    match GetInstancerObjectsAndTransforms Context.Classifier CurHGPO InAllOutputs [] [] with
    | none => none
    | some Classified =>
      if !Classified.bSuccess then some State
      else
        match UpdateInstanceVariationObjects Context.World Context.SCALE_SMALL_VALUE
            Context.IdEq OutputIdentifier Classified.OutInstancedObjects
            Classified.OutInstancedTransforms
            ⟨State.InstancedOutputs, ⟨[], [], [], []⟩⟩ with
        | none => none
        | some Variation =>
          let bSplitMeshInstancer := Context.IsSplitInstancer CurHGPO.GeoId CurHGPO.PartId
          createVariationComponents Context OutputIdentifier OldOutputObjects ParentComponent
            bSplitMeshInstancer Variation.Out
            (List.range Variation.Out.VariationsInstancedObjects.length)
            { State with InstancedOutputs := Variation.InstancedOutputs }

/-- The loop over the parts of the output (lines 89-225). -/
def processParts {K : Type} [DecidableEq K] (Context : FTranslatorContext K)
    (InAllOutputs : List (Option UHoudiniOutput))
    (OldOutputObjects : List (FHoudiniOutputObjectIdentifier × FHoudiniOutputObject))
    (ParentComponent : FParentComponent) :
    List FHoudiniGeoPartObject → FTranslatorState → Option FTranslatorState
  | [], State => some State
  | CurHGPO :: rest, State =>
    match processPart Context InAllOutputs OldOutputObjects ParentComponent CurHGPO State with
    | none => none
    | some State1 =>
      processParts Context InAllOutputs OldOutputObjects ParentComponent rest State1

/-- Result of `CreateAllInstancersFromHoudiniOutput`: the returned flag, the output after
the call (absent when the pointer was null) and the engine effects in order. -/
structure FTranslatorResult where
  bReturn : Bool
  Output : Option UHoudiniOutput
  Events : List ComponentEvent
deriving DecidableEq, Repr

/-- Function `FHoudiniInstanceTranslator::CreateAllInstancersFromHoudiniOutput` (lines
63-294).  `NextHandle` is the identity the next created object gets. -/
def CreateAllInstancersFromHoudiniOutput {K : Type} [DecidableEq K]
    (Context : FTranslatorContext K) (InOutput : Option UHoudiniOutput)
    (InAllOutputs : List (Option UHoudiniOutput)) (InOuterComponent : Option FOuterObject)
    (NextHandle : Nat) : Option FTranslatorResult :=
  match InOutput with
  | none => some ⟨false, none, []⟩
  | some Output =>
    if Output.bPendingKill then some ⟨false, some Output, []⟩
    else
      match InOuterComponent with
      | none => some ⟨false, some Output, []⟩
      | some Outer =>
        if Outer.bPendingKill then some ⟨false, some Output, []⟩
        else
          let OldOutputObjects := Output.OutputObjects
          let InstancedOutputs :=
            Output.InstancedOutputs.map (fun InstOut =>
              (InstOut.1, { InstOut.2 with bStale := true }))
          if !Outer.bIsSceneComponent then
            some ⟨false, some { Output with InstancedOutputs := InstancedOutputs }, []⟩
          else
            let ParentComponent : FParentComponent := ⟨Outer.bPendingKill, Outer.bHasSpawnLevel⟩
            match processParts Context InAllOutputs OldOutputObjects ParentComponent
                Output.HoudiniGeoPartObjects ⟨InstancedOutputs, [], [], NextHandle⟩ with
            | none => none
            | some State =>
              let Reconciled :=
                reconcileOutputObjects Context.Classifier.IsPendingKill
                  (keyed Context State.NewOutputObjects) (keyed Context OldOutputObjects)
              some
                ⟨true,
                 some { Output with
                   InstancedOutputs := State.InstancedOutputs,
                   OutputObjects := State.NewOutputObjects },
                 State.Events ++ Reconciled.1.map ComponentEvent.RemoveAndDestroyComponent⟩

/-- The four output arrays of `UpdateInstanceVariationObjects` have one length. -/
def FVariationArrays.Aligned (Out : FVariationArrays) : Prop :=
  Out.VariationsInstancedTransforms.length = Out.VariationsInstancedObjects.length
  ∧ Out.VariationOriginalObjectIdx.length = Out.VariationsInstancedObjects.length
  ∧ Out.VariationIndices.length = Out.VariationsInstancedObjects.length

/-- A translator context over `detailContext`: identifiers compare by their three node
ids, split identifier and part name; every object is a static mesh with one LOD; every
component is an instanced static mesh component; no part is a split instancer. -/
def sampleTranslatorContext : FTranslatorContext (Int × Int × Int × String × String) :=
  { Classifier := detailContext,
    MakeKey := fun Id => (Id.ObjectId, Id.GeoId, Id.PartId, Id.SplitIdentifier, Id.PartName),
    CanLoad := fun _ => true,
    ObjectClassOf := fun _ => .UStaticMesh,
    GetNumLODs := fun _ => 1,
    ComponentClassOf := fun _ => some .UInstancedStaticMeshComponent,
    HasOwnerAndWorld := fun _ => true,
    IsSplitInstancer := fun _ _ => false,
    SCALE_SMALL_VALUE := 1 / 1000 }

/-- An instancer output with two parts, one without type and the attribute instancer
`pointPart`, and no object from a previous cook. -/
def instancerOutput : UHoudiniOutput :=
  { bPendingKill := false, OutputType := .Instancer,
    HoudiniGeoPartObjects := [emptyGeoPartObject, pointPart],
    OutputObjects := [], InstancedOutputs := [] }

/-- A live scene component as parent. -/
def liveOuter : FOuterObject := ⟨false, true, true⟩

/-- A scene component that is pending kill as parent. -/
def dyingOuter : FOuterObject := ⟨true, true, true⟩

/-! ## Further concrete inputs for the variation assignment -/

/-- An instanced output with the two variations of `witnessA` and five original
transforms, the first three those of `witnessA`. -/
def witnessLonger : FHoudiniInstancedOutput :=
  { witnessA with
    OriginalTransforms :=
      witnessA.OriginalTransforms ++ [FTransform.Identity, FTransform.Identity],
    TransformVariationIndices := [] }

/-! ## Descriptions of the removal loop, concrete inputs -/

/-- The test of the loop that collects the variations to remove (lines 659-664): the
variation object is null, does not load or is pending kill, or it is the replaced original
object. -/
def isRemovedVariation (World : FObjectWorld) (ReplacedOriginalObject : Option Nat)
    (Pointer : Option Nat) : Bool :=
  IsNullOrPendingKill World (LoadSynchronous World Pointer)
    || (ReplacedOriginalObject.isSome
        && decide (ReplacedOriginalObject = LoadSynchronous World Pointer))

/-- The variations that the removal loop leaves, each with its offset, in order. -/
def keptVariations (World : FObjectWorld) (ReplacedOriginalObject : Option Nat)
    (Objects : List (Option Nat)) (Offsets : List FTransform) :
    List (Option Nat × FTransform) :=
  (Objects.zip Offsets).filter
    (fun p => !isRemovedVariation World ReplacedOriginalObject p.1)

/-- Whether a variation pointer is set, loads, and loads an object that is not pending
kill. -/
def isLiveVariation (World : FObjectWorld) (Pointer : Option Nat) : Bool :=
  match Pointer with
  | none => false
  | some h => World.CanLoad h && !World.IsPendingKill h

/-- A world in which every soft pointer loads and object 9 alone is pending kill. -/
def deadNineWorld : FObjectWorld := ⟨fun h => decide (h = 9), fun _ => true⟩

/-- An instanced output whose original object is 7, with three variations: the original
object, object 9 and object 8. -/
def threeVariations : FHoudiniInstancedOutput :=
  { OriginalObject := some 7, OriginalObjectIndex := 0,
    OriginalTransforms := threeTransforms,
    VariationObjects := [some 7, some 9, some 8],
    VariationTransformOffsets := [FTransform.Identity, offsetUnitX, FTransform.Identity],
    TransformVariationIndices := [0, 1, 2],
    bChanged := false, bStale := false }

/-! ## Descriptions of the emission loop -/

/-- The object the emission loop loads for variation `VarIdx` (line 692). -/
def variationObjectAt (World : FObjectWorld) (Cur : FHoudiniInstancedOutput) (VarIdx : Nat) :
    Option Nat :=
  match Cur.VariationObjects[VarIdx]? with
  | some Pointer => LoadSynchronous World Pointer
  | none => none

/-- The transforms the emission loop gets for variation `VarIdx` (lines 697-698). -/
def processedTransforms (SCALE_SMALL_VALUE : ℚ) (Cur : FHoudiniInstancedOutput)
    (VarIdx : Nat) : List FTransform :=
  (ProcessInstanceTransforms SCALE_SMALL_VALUE Cur (VarIdx : Int) []).getD []

/-- The variations for which the emission loop emits a tuple, in order: those among
`VarIdx, ..., VarIdx + Count - 1` whose object loads and is not pending kill and that get
at least one transform. -/
def emittedVariations (World : FObjectWorld) (SCALE_SMALL_VALUE : ℚ)
    (Cur : FHoudiniInstancedOutput) (VarIdx Count : Nat) : List Nat :=
  (List.range' VarIdx Count).filter (fun v =>
    !IsNullOrPendingKill World (variationObjectAt World Cur v)
      && decide ((processedTransforms SCALE_SMALL_VALUE Cur v).length > 0))

/-! ## Descriptions of the old-school attribute instancer -/

/-- The transforms of the points that carry an instanced object id, in point order. -/
def transformsOfId (InstancedObjectIds : List Int) (Transforms : List FTransform)
    (InstancedObjectId : Int) : List FTransform :=
  ((InstancedObjectIds.zip Transforms).filter
    (fun q => decide (q.1 = InstancedObjectId))).map Prod.snd

/-- The parts that the loop over the object ids returns for one id: the mesh parts of the
mesh outputs that are not flagged as instanced and have this object id. -/
def partsOfId (InAllOutputs : List (Option UHoudiniOutput)) (InstancedObjectId : Int) :
    List FHoudiniGeoPartObject :=
  meshPartsToInstance InAllOutputs (fun OutHGPO =>
    !OutHGPO.bIsInstanced && decide (InstancedObjectId = OutHGPO.ObjectId))

/-- The instanced object ids of the points of a part, as
`GetOldSchoolAttributeInstancerHGPOsAndTransforms` reads them from the buffer that
`GetInstancedObjectIds` fills (lines 1049-1054). -/
def pointObjectIds (InHGPO : FHoudiniGeoPartObject) (Buffer : Nat → Int) : List Int :=
  (List.range InHGPO.PartInfo.PointCount.toNat).map Buffer

/-- An old-school attribute instancer part with two points. -/
def oldSchoolPart : FHoudiniGeoPartObject :=
  { emptyGeoPartObject with
    ObjectId := 1, GeoId := 0, PartId := 4, PartType := .Instancer,
    InstancerType := .OldSchoolAttributeInstancer, PartInfo := ⟨4, 2, 0, 0⟩ }

/-- A mesh part of object 0 that is not flagged as instanced. -/
def meshPartOfObjectZero : FHoudiniGeoPartObject :=
  { emptyGeoPartObject with ObjectId := 0, GeoId := 0, PartId := 0, PartType := .Mesh }

/-- A mesh output with three parts of object 0: a mesh part, a mesh part flagged as
instanced and a curve part. -/
def meshPartsOutput : UHoudiniOutput :=
  { bPendingKill := false, OutputType := .Mesh,
    HoudiniGeoPartObjects :=
      [meshPartOfObjectZero,
       { meshPartOfObjectZero with PartId := 1, bIsInstanced := true },
       { meshPartOfObjectZero with PartId := 2, PartType := .Curve }],
    OutputObjects := [], InstancedOutputs := [] }

/-! ## UpdateGenericPropertiesAttributes -/

/-- State of the loop of `UpdateGenericPropertiesAttributes`: the counter `NumSuccess`, the
state of the engine's objects and the calls made to
`FHoudiniGenericAttribute::UpdatePropertyAttributeOnObject` so far, each with the
attribute it was given and the flag it returned. -/
structure FGenericAttributeLoop (σ α : Type) where
  NumSuccess : Int
  Objects : σ
  Calls : List (α × Bool)

/-- The loop of `UpdateGenericPropertiesAttributes` (lines 1899-1910).
`UpdatePropertyAttributeOnObject` is the function of `FHoudiniGenericAttribute`, outside
the translated files: from the state of the objects, the target, an attribute and the
index it gives the returned flag and the new state.  The counter is an `int32`. -/
def updateGenericLoop {σ α : Type}
    (UpdatePropertyAttributeOnObject : σ → Nat → α → Int → Bool × σ)
    (InObject : Nat) (AtIndex : Int) :
    List α → FGenericAttributeLoop σ α → FGenericAttributeLoop σ α
  | [], State => State
  | CurrentPropAttribute :: rest, State =>
    let r := UpdatePropertyAttributeOnObject State.Objects InObject CurrentPropAttribute AtIndex
    if !r.1 then
      updateGenericLoop UpdatePropertyAttributeOnObject InObject AtIndex rest
        { State with Objects := r.2, Calls := State.Calls ++ [(CurrentPropAttribute, false)] }
    else
      updateGenericLoop UpdatePropertyAttributeOnObject InObject AtIndex rest
        { NumSuccess := wrapInt32 (State.NumSuccess + 1), Objects := r.2,
          Calls := State.Calls ++ [(CurrentPropAttribute, true)] }

/-- Function `FHoudiniInstanceTranslator::UpdateGenericPropertiesAttributes` (lines
1890-1913): the returned flag, the state of the objects on return and the calls made to
`UpdatePropertyAttributeOnObject`, in order. -/
def UpdateGenericPropertiesAttributes {σ α : Type}
    (UpdatePropertyAttributeOnObject : σ → Nat → α → Int → Bool × σ)
    (IsPendingKill : Nat → Bool) (Objects : σ) (InObject : Option Nat)
    (InAllPropertyAttributes : List α) (AtIndex : Int) : Bool × σ × List (α × Bool) :=
  match InObject with
  | none => (false, Objects, [])
  | some Object =>
    if IsPendingKill Object then (false, Objects, [])
    else
      let r := updateGenericLoop UpdatePropertyAttributeOnObject Object AtIndex
        InAllPropertyAttributes ⟨0, Objects, []⟩
      (decide (r.NumSuccess > 0), r.Objects, r.Calls)

/-! ## A further output object for the reconciliation pass -/

/-- An output object holding only a proxy component. -/
def proxyOnly (p : Nat) : FHoudiniOutputObject :=
  { OutputObject := none, OutputComponent := none, ProxyObject := none,
    ProxyComponent := some p, bProxyIsCurrent := false }

/-! ## A non-scene outer and an output with an instanced output -/

/-- The instancer output of the worked example with one instanced output, `witnessA`,
which is not stale. -/
def outputWithInstancedOutput : UHoudiniOutput :=
  { instancerOutput with InstancedOutputs := [(partIdentifier, witnessA)] }

/-- A live outer object that is not a scene component. -/
def plainOuter : FOuterObject := ⟨false, false, true⟩

/-! ## First step of UpdateChangedInstancedOutput -/

/-- The first step of `FHoudiniInstanceTranslator::UpdateChangedInstancedOutput` (lines
304-327): the identifier is a default-constructed one that receives the three node ids,
the split identifier and the part name of `InOutputIdentifier`; the only original object
is the one of `InInstancedOutput`, loaded, with its original transforms; and
`UpdateInstanceVariationObjects` runs on the instanced-output map of the parent output
with empty output arrays.  The rest of the function (lines 329-461) reads the four arrays
and works on the output-object map; it writes neither the instanced-output map nor the
instanced output. -/
def updateChangedVariations (World : FObjectWorld) (SCALE_SMALL_VALUE : ℚ)
    (IdEq : FHoudiniOutputObjectIdentifier → FHoudiniOutputObjectIdentifier → Bool)
    (InInstancedOutput : FHoudiniInstancedOutput)
    (InOutputIdentifier : FHoudiniOutputObjectIdentifier)
    (InstancedOutputs : List (FHoudiniOutputObjectIdentifier × FHoudiniInstancedOutput)) :
    Option FVariationState :=
  let OutputIdentifier : FHoudiniOutputObjectIdentifier :=
    { FHoudiniOutputObjectIdentifier.Default with
      ObjectId := InOutputIdentifier.ObjectId,
      GeoId := InOutputIdentifier.GeoId,
      PartId := InOutputIdentifier.PartId,
      SplitIdentifier := InOutputIdentifier.SplitIdentifier,
      PartName := InOutputIdentifier.PartName }
  let OriginalInstancedObjects := [LoadSynchronous World InInstancedOutput.OriginalObject]
  let OriginalInstancedTransforms := [InInstancedOutput.OriginalTransforms]
  UpdateInstanceVariationObjects World SCALE_SMALL_VALUE IdEq OutputIdentifier
    OriginalInstancedObjects OriginalInstancedTransforms
    ⟨InstancedOutputs, ⟨[], [], [], []⟩⟩

/-- The identifier of the worked example with split identifier `s` and the other fields
of a default-constructed identifier. -/
def splitIdentifier (s : String) : FHoudiniOutputObjectIdentifier :=
  { FHoudiniOutputObjectIdentifier.Default with
    ObjectId := 1, GeoId := 0, PartId := 2, SplitIdentifier := s, PartName := "instancer" }

/-- The instanced output a cook stores for original object 7, number 0, with three
transforms. -/
def cookedFirst : FHoudiniInstancedOutput :=
  { OriginalObject := some 7, OriginalObjectIndex := 0,
    OriginalTransforms := threeTransforms,
    VariationObjects := [some 7],
    VariationTransformOffsets := [FTransform.Identity],
    TransformVariationIndices := [0, 0, 0],
    bChanged := false, bStale := false }

/-- The instanced output a cook stores for original object 8, number 1, with one
transform. -/
def cookedSecond : FHoudiniInstancedOutput :=
  { OriginalObject := some 8, OriginalObjectIndex := 1,
    OriginalTransforms := [offsetUnitX],
    VariationObjects := [some 8],
    VariationTransformOffsets := [FTransform.Identity],
    TransformVariationIndices := [0],
    bChanged := false, bStale := false }

/-- The second instanced output after the editor has set its only variation to object 9. -/
def editedSecond : FHoudiniInstancedOutput :=
  { cookedSecond with VariationObjects := [some 9], bChanged := true }

/-! ## Shape of the entries built by the creation loop -/

/-- How the creation loop fills an entry of the new map, relative to the old map and to
the first identity handed out to a created object: at most one slot is set, and the
component in it is either created in this run or the live component the old map holds in
the same slot under the same identifier. -/
def CreatedOrReusedInPlace {K : Type} [DecidableEq K] (Context : FTranslatorContext K)
    (OldOutputObjects : List (FHoudiniOutputObjectIdentifier × FHoudiniOutputObject))
    (FirstHandle : Nat) (Identifier : FHoudiniOutputObjectIdentifier)
    (Object : FHoudiniOutputObject) : Prop :=
  (Object.OutputComponent = none ∨ Object.ProxyComponent = none)
  ∧ (∀ c, Object.OutputComponent = some c →
      FirstHandle ≤ c
      ∨ ∃ o, TMapFind (keyed Context OldOutputObjects) (Context.MakeKey Identifier) = some o
          ∧ o.OutputComponent = some c ∧ Context.Classifier.IsPendingKill c = false)
  ∧ (∀ c, Object.ProxyComponent = some c →
      FirstHandle ≤ c
      ∨ ∃ o, TMapFind (keyed Context OldOutputObjects) (Context.MakeKey Identifier) = some o
          ∧ o.ProxyComponent = some c ∧ Context.Classifier.IsPendingKill c = false)

/-- The pairs (original-object index, variation index) of the tuples held by the output
arrays. -/
def FVariationArrays.IndexPairs (Out : FVariationArrays) : List (Int × Int) :=
  Out.VariationOriginalObjectIdx.zip Out.VariationIndices

/-- The index pairs of the output arrays are non-negative, strictly increasing in the
lexicographic order, and below the pair `(i, v)`. -/
def IndexPairsBelow (Out : FVariationArrays) (i v : Int) : Prop :=
  Out.VariationOriginalObjectIdx.length = Out.VariationIndices.length
  ∧ List.Pairwise (fun a b : Int × Int => a.1 < b.1 ∨ (a.1 = b.1 ∧ a.2 < b.2)) Out.IndexPairs
  ∧ ∀ p ∈ Out.IndexPairs, 0 ≤ p.1 ∧ 0 ≤ p.2 ∧ (p.1 < i ∨ (p.1 = i ∧ p.2 < v))

/-- The identifier that `CreateAllInstancersFromHoudiniOutput` prepares for a part (lines
95-100): a default-constructed identifier with the three node ids and the part name of the
part. -/
def partOutputIdentifier (CurHGPO : FHoudiniGeoPartObject) : FHoudiniOutputObjectIdentifier :=
  { FHoudiniOutputObjectIdentifier.Default with
    ObjectId := CurHGPO.ObjectId, GeoId := CurHGPO.GeoId, PartId := CurHGPO.PartId,
    PartName := CurHGPO.PartName }

/-- Two parts never get identifiers that compare equal, whatever the split identifiers,
when both are instancer parts. -/
def PartsCompareDifferent {K : Type} (Context : FTranslatorContext K)
    (p q : FHoudiniGeoPartObject) : Prop :=
  p.PartType = .Instancer → q.PartType = .Instancer →
    ∀ s t : String,
      Context.MakeKey { partOutputIdentifier p with SplitIdentifier := s }
        ≠ Context.MakeKey { partOutputIdentifier q with SplitIdentifier := t }

/-- The instancer output of the worked example after a previous cook: the output object
of variation 0 of original object 0 of `pointPart` holds component 10, and a second output
object, of original object 1, holds component 11. -/
def instancerOutputWithOld : UHoudiniOutput :=
  { instancerOutput with
    OutputObjects :=
      [({ partOutputIdentifier pointPart with SplitIdentifier := "0_0" }, outputOnly 10),
       ({ partOutputIdentifier pointPart with SplitIdentifier := "1_0" }, outputOnly 11)] }

/-! ## An output object that holds a proxy component and an output component -/

/-- The attribute instancer part of the worked example with a single point. -/
def singlePointPart : FHoudiniGeoPartObject :=
  { pointPart with PartInfo := ⟨3, 1, 0, 0⟩ }

/-- The translator context of the worked example in which object 7 is a Houdini proxy
mesh and every other object a static mesh, component 21 is a Houdini static mesh component
and every other component a static mesh component. -/
def proxyEditContext : FTranslatorContext (Int × Int × Int × String × String) :=
  { sampleTranslatorContext with
    ObjectClassOf := fun h => if h = 7 then .UHoudiniStaticMesh else .UStaticMesh,
    ComponentClassOf := fun h =>
      if h = 21 then some .UHoudiniStaticMeshComponent else some .UStaticMeshComponent }

/-- The instanced output of original object 7 after the editor has set its only variation
to the static mesh 9 and `UpdateChangedInstancedOutput` has run. -/
def editedVariation : FHoudiniInstancedOutput :=
  { OriginalObject := some 7, OriginalObjectIndex := 0,
    OriginalTransforms := translateTransforms detailContext movedTransform 1,
    VariationObjects := [some 9],
    VariationTransformOffsets := [FTransform.Identity],
    TransformVariationIndices := [0],
    bChanged := false, bStale := false }

/-- The output before its first cook: the single-point part, no output object and no
instanced output. -/
def uncookedProxyOutput : UHoudiniOutput :=
  { bPendingKill := false, OutputType := .Instancer,
    HoudiniGeoPartObjects := [singlePointPart],
    OutputObjects := [], InstancedOutputs := [] }

/-- The output after the first cook, the edit of the variation and
`UpdateChangedInstancedOutput`: the output object of variation 0 of original object 0
holds the proxy component 21 that the first cook created (line 219) and the output
component 10 that `UpdateChangedInstancedOutput` created for the static mesh and stored in
the entry it found (lines 388-423), which reads and writes `OutputComponent` only. -/
def editedProxyOutput : UHoudiniOutput :=
  { uncookedProxyOutput with
    OutputObjects :=
      [({ partOutputIdentifier singlePointPart with SplitIdentifier := "0_0" },
        outputAndProxy 10 21)],
    InstancedOutputs :=
      [({ partOutputIdentifier singlePointPart with SplitIdentifier := "0" },
        editedVariation)] }

/-! # Theorems -/

/-! ## Variation assignment and transform extraction -/

/-- The values the assignment loop writes: `Count` successive draws reduced modulo the
variation count. -/

theorem set_length_append {α : Type} (pre : List α) (m x : α) (rest : List α) :
    (pre ++ m :: rest).set pre.length x = pre ++ x :: rest := by
  induction pre with
  | nil => rfl
  | cons p ps ih => simp [ih]

theorem length_drawList (V : Int) (n : Nat) (s : Int) : (drawList V n s).length = n := by
  induction n generalizing s with
  | zero => rfl
  | succ n ih => simp [drawList, ih]

theorem assignLoop_append (V : Int) (n : Nat) :
    ∀ (s : Int) (pre mid post : List Int), mid.length = n →
      assignLoop V n pre.length s (pre ++ mid ++ post) = pre ++ drawList V n s ++ post := by
  induction n with
  | zero =>
    intro s pre mid post h
    have : mid = [] := List.length_eq_zero.mp h
    subst this
    simp [assignLoop, drawList]
  | succ n ih =>
    intro s pre mid post h
    match mid, h with
    | m :: mid', h =>
      have hlen : mid'.length = n := by simpa using h
      have hset : (pre ++ (m :: mid') ++ post).set pre.length (Int.tmod (fastrand s).1 V)
          = (pre ++ [Int.tmod (fastrand s).1 V]) ++ mid' ++ post := by
        have := set_length_append pre m (Int.tmod (fastrand s).1 V) (mid' ++ post)
        simp [this]
      have ih' := ih (fastrand s).2 (pre ++ [Int.tmod (fastrand s).1 V]) mid' post hlen
      simp only [assignLoop, drawList]
      rw [hset]
      have hl : (pre ++ [Int.tmod (fastrand s).1 V]).length = pre.length + 1 := by simp
      rw [hl] at ih'
      rw [ih']
      simp

theorem length_SetNumZeroed (a : List Int) (n : Nat) : (SetNumZeroed a n).length = n := by
  simp [SetNumZeroed, List.length_take]
  omega

theorem assignLoop_full (V : Int) (s : Int) (a : List Int) :
    assignLoop V a.length 0 s a = drawList V a.length s := by
  have := assignLoop_append V a.length s [] a [] rfl
  simpa using this

theorem UpdateVariationAssignements_indices (io : FHoudiniInstancedOutput)
    (hV : 2 ≤ io.VariationObjects.length) :
    (UpdateVariationAssignements io).TransformVariationIndices
      = drawList io.VariationObjects.length io.OriginalTransforms.length 1234 := by
  unfold UpdateVariationAssignements
  have h1 : ¬ io.VariationObjects.length ≤ 1 := by omega
  simp only [h1, if_false]
  have := assignLoop_full (io.VariationObjects.length) 1234
    (SetNumZeroed io.TransformVariationIndices io.OriginalTransforms.length)
  rw [length_SetNumZeroed] at this
  exact this

/-- The transforms assigned to a variation: the original transforms, in order, whose
variation index is `VariationIdx`. -/

theorem fastrand_nonneg (s : Int) : 0 ≤ (fastrand s).1 := by
  simp only [fastrand]
  exact Int.emod_nonneg _ (by decide)

theorem drawList_bounds (V : Int) (hV : 0 < V) (n : Nat) :
    ∀ (s : Int), ∀ x ∈ drawList V n s, 0 ≤ x ∧ x < V := by
  induction n with
  | zero => intro s x hx; simp [drawList] at hx
  | succ n ih =>
    intro s x hx
    simp only [drawList, List.mem_cons] at hx
    rcases hx with hx | hx
    · subst hx
      exact ⟨Int.tmod_nonneg _ (fastrand_nonneg s), Int.tmod_lt_of_pos _ hV⟩
    · exact ih _ x hx

theorem extractLoop_eq (OT : List FTransform) (v : Int) :
    ∀ (idxs : List Int) (i : Nat) (out : List FTransform), i + idxs.length ≤ OT.length →
      extractLoop OT v idxs i out
        = some (out ++ ((idxs.zip (OT.drop i)).filter (fun p => decide (p.1 = v))).map Prod.snd) := by
  intro idxs
  induction idxs with
  | nil => intro i out _; simp [extractLoop]
  | cons x rest ih =>
    intro i out h
    have hi : i < OT.length := by simp at h; omega
    have hrest : (i + 1) + rest.length ≤ OT.length := by simp at h; omega
    have hdrop : OT.drop i = OT[i] :: OT.drop (i + 1) := List.drop_eq_getElem_cons hi
    have hget : OT[i]? = some OT[i] := List.getElem?_eq_getElem hi
    by_cases hx : x = v
    · simp only [extractLoop, hx, ne_eq, not_true_eq_false, if_false, hget]
      rw [ih (i + 1) _ hrest, hdrop]
      simp only [List.zip_cons_cons, List.filter_cons, decide_True, if_true, List.map_cons,
        List.append_assoc, List.singleton_append]
    · simp only [extractLoop, hx, ne_eq, not_false_eq_true, if_true]
      rw [ih (i + 1) _ hrest, hdrop]
      simp only [List.zip_cons_cons, List.filter_cons, hx, decide_False, Bool.false_eq_true,
        if_false]

theorem sum_indicator_range (V k : Nat) :
    ((List.range V).map (fun v => if k = v then 1 else 0)).sum = if k < V then 1 else 0 := by
  induction V with
  | zero => simp
  | succ V ih =>
    rw [List.range_succ, List.map_append, List.sum_append, ih]
    by_cases h1 : k < V
    · have : k ≠ V := by omega
      have h2 : k < V + 1 := by omega
      simp [h1, h2, this]
    · by_cases h3 : k = V
      · subst h3; simp
      · have h2 : ¬ k < V + 1 := by omega
        simp [h1, h2, h3]

theorem sum_filter_lengths {β : Type} (V : Nat) (l : List (Int × β))
    (h : ∀ p ∈ l, 0 ≤ p.1 ∧ p.1 < (V : Int)) :
    ((List.range V).map
      (fun (v : Nat) => (l.filter (fun p => decide (p.1 = (v : Int)))).length)).sum
      = l.length := by
  induction l with
  | nil => simp
  | cons p l ih =>
    have hp := h p (List.mem_cons_self _ _)
    have hl := ih (fun q hq => h q (List.mem_cons_of_mem _ hq))
    obtain ⟨k, hk⟩ := Int.eq_ofNat_of_zero_le hp.1
    have hkV : k < V := by have := hp.2; rw [hk] at this; exact_mod_cast this
    have hfun : (fun v : Nat => ((p :: l).filter (fun q => decide (q.1 = (v : Int)))).length)
        = (fun v : Nat => (if k = v then 1 else 0)
            + (l.filter (fun q => decide (q.1 = (v : Int)))).length) := by
      funext v
      by_cases hkv : k = v
      · subst hkv; simp [List.filter_cons, hk]; omega
      · have : ¬ p.1 = (v : Int) := by rw [hk]; exact_mod_cast hkv
        simp [List.filter_cons, this, hkv]
    rw [hfun, List.sum_map_add, hl, sum_indicator_range]
    simp [hkV]; omega

theorem Equals_Identity_self : FTransform.Identity.Equals FTransform.Identity = true := by
  simp [FTransform.Equals, FVector.Equals, FQuat.Equals, FTransform.Identity, FQuat.Identity,
    FTransform.KINDA_SMALL_NUMBER]

theorem UVA_VariationObjects (io : FHoudiniInstancedOutput) :
    (UpdateVariationAssignements io).VariationObjects = io.VariationObjects := by
  simp only [UpdateVariationAssignements]; split <;> rfl

theorem UVA_VariationTransformOffsets (io : FHoudiniInstancedOutput) :
    (UpdateVariationAssignements io).VariationTransformOffsets
      = io.VariationTransformOffsets := by
  simp only [UpdateVariationAssignements]; split <;> rfl

theorem UVA_OriginalTransforms (io : FHoudiniInstancedOutput) :
    (UpdateVariationAssignements io).OriginalTransforms = io.OriginalTransforms := by
  simp only [UpdateVariationAssignements]; split <;> rfl

theorem UVA_length (io : FHoudiniInstancedOutput) :
    (UpdateVariationAssignements io).TransformVariationIndices.length
      = io.OriginalTransforms.length := by
  simp only [UpdateVariationAssignements]
  split
  · exact length_SetNumZeroed _ _
  · rename_i h
    have := assignLoop_full (io.VariationObjects.length) 1234
      (SetNumZeroed io.TransformVariationIndices io.OriginalTransforms.length)
    rw [length_SetNumZeroed] at this
    simp only [this, length_drawList]

/-- With several variations and an identity offset, the function returns the assigned
transforms appended to the incoming array. -/

theorem ProcessInstanceTransforms_extract (eps : ℚ) (io : FHoudiniInstancedOutput) (v : Nat)
    (hV : 2 ≤ io.VariationObjects.length) (hv : v < io.VariationObjects.length)
    (hOff : io.VariationTransformOffsets[v]? = some FTransform.Identity)
    (hN : io.TransformVariationIndices.length ≤ io.OriginalTransforms.length) :
    ProcessInstanceTransforms eps io (v : Int) [] = some (assignedTransforms io (v : Int)) := by
  have hvo : IsValidIndex io.VariationObjects (v : Int) = true := by
    simp [IsValidIndex, hv]
  have hvlt : v < io.VariationTransformOffsets.length := by
    by_contra hc
    rw [List.getElem?_eq_none (by omega)] at hOff
    exact absurd hOff (by simp)
  have hvt : IsValidIndex io.VariationTransformOffsets (v : Int) = true := by
    simp [IsValidIndex, hvlt]
  have hgt : decide (io.VariationObjects.length > 1) = true := by
    simp; omega
  have hex := extractLoop_eq io.OriginalTransforms (v : Int) io.TransformVariationIndices 0 []
    (by omega)
  simp only [List.drop_zero, List.nil_append] at hex
  simp only [ProcessInstanceTransforms, hvo, hvt, Int.toNat_ofNat, hOff, hgt,
    Equals_Identity_self, hex, assignedTransforms, Bool.not_true, Bool.false_eq_true,
    if_false, if_true, Bool.and_false, Bool.not_false, Bool.and_true, Bool.false_and]

/-- C1: for a variation count of at least two, the variation indices computed by
`UpdateVariationAssignements` depend only on the number of original transforms and the
number of variation objects: two instanced outputs that agree on both get the same
`TransformVariationIndices`, whatever else they hold. -/

theorem UpdateVariationAssignements_deterministic (a b : FHoudiniInstancedOutput)
    (hV : 2 ≤ a.VariationObjects.length)
    (hVar : b.VariationObjects.length = a.VariationObjects.length)
    (hN : b.OriginalTransforms.length = a.OriginalTransforms.length) :
    (UpdateVariationAssignements a).TransformVariationIndices
      = (UpdateVariationAssignements b).TransformVariationIndices := by
  rw [UpdateVariationAssignements_indices a hV,
    UpdateVariationAssignements_indices b (by omega), hVar, hN]

theorem UpdateVariationAssignements_deterministic_witness :
    2 ≤ witnessA.VariationObjects.length
    ∧ witnessB.VariationObjects.length = witnessA.VariationObjects.length
    ∧ witnessB.OriginalTransforms.length = witnessA.OriginalTransforms.length
    ∧ witnessA.OriginalTransforms ≠ witnessB.OriginalTransforms
    ∧ (UpdateVariationAssignements witnessA).TransformVariationIndices
        = (UpdateVariationAssignements witnessB).TransformVariationIndices :=
  ⟨by decide, by decide, by decide, by simp [witnessA, witnessB, FTransform.Identity],
    UpdateVariationAssignements_deterministic witnessA witnessB
      (by decide) (by decide) (by decide)⟩

/-- C2: with at least two variations and identity offsets, after
`UpdateVariationAssignements` there is one variation index per original transform, each
index names exactly one variation in `[0, V)`, `ProcessInstanceTransforms` returns for
variation `v` exactly the original transforms whose index is `v`, in original order, and
the lengths of these lists over all variations sum to the number of transforms. -/

theorem ProcessInstanceTransforms_partition (eps : ℚ) (io : FHoudiniInstancedOutput)
    (hV : 2 ≤ io.VariationObjects.length)
    (hLen : io.VariationTransformOffsets.length = io.VariationObjects.length)
    (hId : ∀ o ∈ io.VariationTransformOffsets, o = FTransform.Identity) :
    (UpdateVariationAssignements io).TransformVariationIndices.length
        = io.OriginalTransforms.length
    ∧ (∀ i, i < io.OriginalTransforms.length →
        ∃! v : Nat, v < io.VariationObjects.length
          ∧ (UpdateVariationAssignements io).TransformVariationIndices[i]? = some (v : Int))
    ∧ (∀ v : Nat, v < io.VariationObjects.length →
        ProcessInstanceTransforms eps (UpdateVariationAssignements io) (v : Int) []
          = some (assignedTransforms (UpdateVariationAssignements io) (v : Int)))
    ∧ ((List.range io.VariationObjects.length).map (fun (v : Nat) =>
        ((ProcessInstanceTransforms eps (UpdateVariationAssignements io) (v : Int) []).getD
          []).length)).sum = io.OriginalTransforms.length := by
  have hlen := UVA_length io
  have hidx := UpdateVariationAssignements_indices io hV
  have hbnd : ∀ x ∈ (UpdateVariationAssignements io).TransformVariationIndices,
      0 ≤ x ∧ x < (io.VariationObjects.length : Int) := by
    rw [hidx]
    exact drawList_bounds _ (by exact_mod_cast (by omega : 0 < io.VariationObjects.length)) _ _
  have hproc : ∀ v : Nat, v < io.VariationObjects.length →
      ProcessInstanceTransforms eps (UpdateVariationAssignements io) (v : Int) []
        = some (assignedTransforms (UpdateVariationAssignements io) (v : Int)) := by
    intro v hv
    apply ProcessInstanceTransforms_extract
    · rw [UVA_VariationObjects]; exact hV
    · rw [UVA_VariationObjects]; exact hv
    · rw [UVA_VariationTransformOffsets]
      have hvl : v < io.VariationTransformOffsets.length := by omega
      rw [List.getElem?_eq_getElem hvl]
      exact congrArg some (hId _ (List.getElem_mem _))
    · rw [hlen, UVA_OriginalTransforms]
  refine ⟨hlen, ?_, hproc, ?_⟩
  · intro i hi
    have hil : i < (UpdateVariationAssignements io).TransformVariationIndices.length := by
      omega
    have hmem := hbnd _ (List.getElem_mem hil)
    obtain ⟨k, hk⟩ := Int.eq_ofNat_of_zero_le hmem.1
    refine ⟨k, ⟨?_, ?_⟩, ?_⟩
    · have := hmem.2; rw [hk] at this; exact_mod_cast this
    · rw [List.getElem?_eq_getElem hil, hk]
    · rintro y ⟨_, hy⟩
      rw [List.getElem?_eq_getElem hil, hk] at hy
      have : (k : Int) = (y : Int) := Option.some.inj hy
      exact_mod_cast this.symm
  · have hfun : ∀ v ∈ List.range io.VariationObjects.length,
        ((ProcessInstanceTransforms eps (UpdateVariationAssignements io) (v : Int) []).getD
          []).length
        = (((UpdateVariationAssignements io).TransformVariationIndices.zip
            (UpdateVariationAssignements io).OriginalTransforms).filter
              (fun p => decide (p.1 = (v : Int)))).length := by
      intro v hv
      rw [hproc v (List.mem_range.mp hv)]
      simp [assignedTransforms]
    rw [List.map_congr_left hfun, sum_filter_lengths]
    · rw [List.length_zip, hlen, UVA_OriginalTransforms]; simp
    · intro p hp
      exact hbnd p.1 (List.of_mem_zip hp).1

theorem ProcessInstanceTransforms_partition_witness :
    (UpdateVariationAssignements witnessA).TransformVariationIndices.length
        = witnessA.OriginalTransforms.length
    ∧ (∀ i, i < witnessA.OriginalTransforms.length →
        ∃! v : Nat, v < witnessA.VariationObjects.length
          ∧ (UpdateVariationAssignements witnessA).TransformVariationIndices[i]?
              = some (v : Int))
    ∧ (∀ v : Nat, v < witnessA.VariationObjects.length →
        ProcessInstanceTransforms (1 / 1000) (UpdateVariationAssignements witnessA) (v : Int) []
          = some (assignedTransforms (UpdateVariationAssignements witnessA) (v : Int)))
    ∧ ((List.range witnessA.VariationObjects.length).map (fun (v : Nat) =>
        ((ProcessInstanceTransforms (1 / 1000) (UpdateVariationAssignements witnessA)
          (v : Int) []).getD []).length)).sum = witnessA.OriginalTransforms.length :=
  ProcessInstanceTransforms_partition (1 / 1000) witnessA (by decide) (by decide)
    (by simp [witnessA])

/-- C3: with exactly one variation whose offset is the identity, variation 0 gets the
original transforms unchanged, whatever the variation indices and the incoming array
hold. -/

theorem ProcessInstanceTransforms_single_identity (eps : ℚ) (io : FHoudiniInstancedOutput)
    (out : List FTransform)
    (hV : io.VariationObjects.length = 1)
    (hOff : io.VariationTransformOffsets[0]? = some FTransform.Identity) :
    ProcessInstanceTransforms eps io 0 out = some io.OriginalTransforms := by
  have hvo : IsValidIndex io.VariationObjects 0 = true := by simp [IsValidIndex, hV]
  have hvlt : 0 < io.VariationTransformOffsets.length := by
    by_contra hc
    rw [List.getElem?_eq_none (by omega)] at hOff
    exact absurd hOff (by simp)
  have hvt : IsValidIndex io.VariationTransformOffsets 0 = true := by
    simp [IsValidIndex, hvlt]
  simp [ProcessInstanceTransforms, hvo, hvt, hOff, hV, Equals_Identity_self]

/-! ## Offset composition and scale clamp -/

theorem applyOffset_eq (eps : ℚ) (Offset Base : FTransform) :
    applyOffset eps Offset Base
      = if (composedTransform eps Offset Base).IsValid then composedTransform eps Offset Base
        else Base := rfl

theorem ProcessInstanceTransforms_offset_eq (eps : ℚ) (io : FHoudiniInstancedOutput) (v : Nat)
    (Offset : FTransform)
    (hv : v < io.VariationObjects.length)
    (hOff : io.VariationTransformOffsets[v]? = some Offset)
    (hNonId : Offset.Equals FTransform.Identity = false)
    (hN : io.TransformVariationIndices.length ≤ io.OriginalTransforms.length) :
    ProcessInstanceTransforms eps io (v : Int) []
      = some ((baseTransforms io (v : Int)).map (applyOffset eps Offset)) := by
  have hvo : IsValidIndex io.VariationObjects (v : Int) = true := by
    simp [IsValidIndex, hv]
  have hvlt : v < io.VariationTransformOffsets.length := by
    by_contra hc
    rw [List.getElem?_eq_none (by omega)] at hOff
    exact absurd hOff (by simp)
  have hvt : IsValidIndex io.VariationTransformOffsets (v : Int) = true := by
    simp [IsValidIndex, hvlt]
  have hex := extractLoop_eq io.OriginalTransforms (v : Int) io.TransformVariationIndices 0 []
    (by omega)
  simp only [List.drop_zero, List.nil_append] at hex
  by_cases hgt : io.VariationObjects.length > 1
  · simp [ProcessInstanceTransforms, hvo, hvt, hOff, hgt, hNonId, hex, baseTransforms,
      assignedTransforms]
  · simp [ProcessInstanceTransforms, hvo, hvt, hOff, hgt, hNonId, baseTransforms]

theorem FQuat_mul_Identity (q : FQuat) : q.mul FQuat.Identity = q := by
  cases q; simp [FQuat.mul, FQuat.Identity]

theorem clampScale_of_le (eps c : ℚ) (h : eps ≤ |c|) : clampScale eps c = c := by
  simp [clampScale, not_lt.mpr h]

theorem offsetUnitX_not_Identity : offsetUnitX.Equals FTransform.Identity = false := by
  simp [offsetUnitX, FTransform.Equals, FVector.Equals, FQuat.Equals, FTransform.Identity,
    FQuat.Identity, FTransform.KINDA_SMALL_NUMBER]
  norm_num

theorem offsetScaleZeroX_not_Identity :
    offsetScaleZeroX.Equals FTransform.Identity = false := by
  simp [offsetScaleZeroX, FTransform.Equals, FVector.Equals, FQuat.Equals, FTransform.Identity,
    FQuat.Identity, FTransform.KINDA_SMALL_NUMBER]
  norm_num

theorem ProcessInstanceTransforms_singleVariation (eps : ℚ) (Offset : FTransform)
    (Transforms : List FTransform) (hNonId : Offset.Equals FTransform.Identity = false) :
    ProcessInstanceTransforms eps (singleVariation Offset Transforms) 0 []
      = some (Transforms.map (applyOffset eps Offset)) := by
  have h := ProcessInstanceTransforms_offset_eq eps (singleVariation Offset Transforms) 0 Offset
    (by simp [singleVariation]) (by simp [singleVariation]) hNonId (by simp [singleVariation])
  simpa [baseTransforms, singleVariation] using h

/-- C4 (amended): for a variation with a non-identity offset, every base transform of the
variation gives one output transform, in order; when the composed rotation `R * q` is
normalised (the composed transform passes `IsValid`) the output has location `P + p`,
rotation `R * q` and the clamped component-wise scale product, otherwise the output is the
base transform unchanged.  In particular the offset with position `(1,0,0)`, identity
rotation and unit scale moves a transform at the origin that has a normalised rotation
and scale components of magnitude at least the threshold to `(1,0,0)` and leaves its
rotation and scale unchanged. -/
theorem ProcessInstanceTransforms_offset_composition (eps : ℚ)
    (io : FHoudiniInstancedOutput) (v : Nat) (Offset : FTransform)
    (hv : v < io.VariationObjects.length)
    (hOff : io.VariationTransformOffsets[v]? = some Offset)
    (hNonId : Offset.Equals FTransform.Identity = false)
    (hN : io.TransformVariationIndices.length ≤ io.OriginalTransforms.length) :
    (∃ res, ProcessInstanceTransforms eps io (v : Int) [] = some res
      ∧ res.length = (baseTransforms io (v : Int)).length
      ∧ ∀ (j : Nat) (Base : FTransform), (baseTransforms io (v : Int))[j]? = some Base →
          ∃ Out, res[j]? = some Out
            ∧ ((Base.Rotation.mul Offset.Rotation).IsNormalized = true →
                Out.Translation = Base.Translation.add Offset.Translation
                ∧ Out.Rotation = Base.Rotation.mul Offset.Rotation
                ∧ Out.Scale3D = ⟨clampScale eps (Base.Scale3D.X * Offset.Scale3D.X),
                    clampScale eps (Base.Scale3D.Y * Offset.Scale3D.Y),
                    clampScale eps (Base.Scale3D.Z * Offset.Scale3D.Z)⟩)
            ∧ ((Base.Rotation.mul Offset.Rotation).IsNormalized = false → Out = Base))
    ∧ (∀ Base : FTransform, Base.Translation = ⟨0, 0, 0⟩ →
        Base.Rotation.IsNormalized = true →
        eps ≤ |Base.Scale3D.X| → eps ≤ |Base.Scale3D.Y| → eps ≤ |Base.Scale3D.Z| →
        ProcessInstanceTransforms eps (singleVariation offsetUnitX [Base]) 0 []
          = some [⟨Base.Rotation, ⟨1, 0, 0⟩, Base.Scale3D⟩]) := by
  constructor
  · refine ⟨_, ProcessInstanceTransforms_offset_eq eps io v Offset hv hOff hNonId hN,
      by simp, ?_⟩
    intro j Base hj
    refine ⟨applyOffset eps Offset Base, by simp [List.getElem?_map, hj], ?_, ?_⟩
    · intro hval
      have : (composedTransform eps Offset Base).IsValid = true := hval
      rw [applyOffset_eq, if_pos this]
      exact ⟨rfl, rfl, rfl⟩
    · intro hval
      have : (composedTransform eps Offset Base).IsValid = false := hval
      rw [applyOffset_eq, this]
      simp
  · intro Base hT hR hX hY hZ
    rw [ProcessInstanceTransforms_singleVariation eps offsetUnitX [Base]
      offsetUnitX_not_Identity]
    have hval : (composedTransform eps offsetUnitX Base).IsValid = true := by
      show (Base.Rotation.mul FQuat.Identity).IsNormalized = true
      rw [FQuat_mul_Identity]; exact hR
    simp only [List.map_cons, List.map_nil, applyOffset_eq, hval, if_true]
    obtain ⟨R, T, S⟩ := Base
    obtain ⟨sx, sy, sz⟩ := S
    simp only at hT hX hY hZ
    subst hT
    simp [composedTransform, offsetUnitX, FQuat_mul_Identity, FVector.add,
      clampScale_of_le, hX, hY, hZ]

theorem ProcessInstanceTransforms_offset_composition_witness :
    (∃ res, ProcessInstanceTransforms (1 / 1000)
        (singleVariation offsetUnitX [FTransform.Identity]) ((0 : Nat) : Int) [] = some res
      ∧ res.length
          = (baseTransforms (singleVariation offsetUnitX [FTransform.Identity])
              ((0 : Nat) : Int)).length
      ∧ ∀ (j : Nat) (Base : FTransform),
          (baseTransforms (singleVariation offsetUnitX [FTransform.Identity])
            ((0 : Nat) : Int))[j]? = some Base →
          ∃ Out, res[j]? = some Out
            ∧ ((Base.Rotation.mul offsetUnitX.Rotation).IsNormalized = true →
                Out.Translation = Base.Translation.add offsetUnitX.Translation
                ∧ Out.Rotation = Base.Rotation.mul offsetUnitX.Rotation
                ∧ Out.Scale3D
                  = ⟨clampScale (1 / 1000) (Base.Scale3D.X * offsetUnitX.Scale3D.X),
                    clampScale (1 / 1000) (Base.Scale3D.Y * offsetUnitX.Scale3D.Y),
                    clampScale (1 / 1000) (Base.Scale3D.Z * offsetUnitX.Scale3D.Z)⟩)
            ∧ ((Base.Rotation.mul offsetUnitX.Rotation).IsNormalized = false → Out = Base))
    ∧ ProcessInstanceTransforms (1 / 1000) (singleVariation offsetUnitX [FTransform.Identity])
        0 [] = some [⟨FQuat.Identity, ⟨1, 0, 0⟩, ⟨1, 1, 1⟩⟩] :=
  have h := ProcessInstanceTransforms_offset_composition (1 / 1000)
    (singleVariation offsetUnitX [FTransform.Identity]) 0 offsetUnitX
    (by simp [singleVariation]) (by simp [singleVariation]) offsetUnitX_not_Identity
    (by simp [singleVariation])
  ⟨h.1, h.2 FTransform.Identity rfl
    (by simp [FTransform.Identity, FQuat.Identity, FQuat.IsNormalized, FQuat.SizeSquared])
    (by norm_num [FTransform.Identity]) (by norm_num [FTransform.Identity])
    (by norm_num [FTransform.Identity])⟩

/-- C4 as stated fails: a base transform at the origin whose rotation is the zero
quaternion composes to a transform that does not pass `IsValid`, so the non-identity
offset `(1,0,0)` is not applied and the output location is not `P + p`. -/
theorem ProcessInstanceTransforms_offset_counterexample :
    offsetUnitX.Equals FTransform.Identity = false
    ∧ ProcessInstanceTransforms (1 / 1000) (singleVariation offsetUnitX [zeroRotationAtOrigin])
        0 [] = some [zeroRotationAtOrigin]
    ∧ zeroRotationAtOrigin.Translation
        ≠ zeroRotationAtOrigin.Translation.add offsetUnitX.Translation := by
  refine ⟨offsetUnitX_not_Identity, ?_, ?_⟩
  · rw [ProcessInstanceTransforms_singleVariation _ _ _ offsetUnitX_not_Identity]
    simp [applyOffset, zeroRotationAtOrigin, offsetUnitX, FTransform.IsValid,
      FQuat.IsNormalized, FQuat.SizeSquared, FQuat.mul, FQuat.Identity]
    norm_num
  · simp [zeroRotationAtOrigin, offsetUnitX, FVector.add]

/-- C5 (what the code does): with a positive threshold of at most one, the offset of scale
`(0,1,1)` applied to a base transform of scale `(1,1,1)` with a normalised rotation yields
the scale `(-eps, 1, 1)`: the zero component is clamped to the negative threshold. -/
theorem ProcessInstanceTransforms_zero_scale_negative (eps : ℚ) (Base : FTransform)
    (h0 : 0 < eps) (h1 : eps ≤ 1)
    (hS : Base.Scale3D = ⟨1, 1, 1⟩) (hR : Base.Rotation.IsNormalized = true) :
    ProcessInstanceTransforms eps (singleVariation offsetScaleZeroX [Base]) 0 []
      = some [⟨Base.Rotation, Base.Translation, ⟨-eps, 1, 1⟩⟩] := by
  rw [ProcessInstanceTransforms_singleVariation eps offsetScaleZeroX [Base]
    offsetScaleZeroX_not_Identity]
  have hval : (composedTransform eps offsetScaleZeroX Base).IsValid = true := by
    show (Base.Rotation.mul FQuat.Identity).IsNormalized = true
    rw [FQuat_mul_Identity]; exact hR
  simp only [List.map_cons, List.map_nil, applyOffset_eq, hval, if_true]
  obtain ⟨R, T, S⟩ := Base
  obtain ⟨tx, ty, tz⟩ := T
  simp only at hS
  subst hS
  have h1' : eps ≤ |(1 : ℚ)| := by simpa using h1
  simp [composedTransform, offsetScaleZeroX, FQuat_mul_Identity, FVector.add,
    clampScale_of_le, h1']
  simp [clampScale, h0]
  intro h
  exact absurd h (not_lt.mpr h1)

theorem ProcessInstanceTransforms_zero_scale_negative_witness :
    ProcessInstanceTransforms (1 / 1000) (singleVariation offsetScaleZeroX [FTransform.Identity])
        0 [] = some [⟨FQuat.Identity, ⟨0, 0, 0⟩, ⟨-(1 / 1000), 1, 1⟩⟩] :=
  ProcessInstanceTransforms_zero_scale_negative (1 / 1000) FTransform.Identity
    (by norm_num) (by norm_num) rfl
    (by simp [FTransform.Identity, FQuat.Identity, FQuat.IsNormalized, FQuat.SizeSquared])

theorem ProcessInstanceTransforms_single_identity_witness :
    ProcessInstanceTransforms (1 / 1000) witnessSingle 0 [zeroRotationAtOrigin]
      = some witnessSingle.OriginalTransforms :=
  ProcessInstanceTransforms_single_identity (1 / 1000) witnessSingle [zeroRotationAtOrigin]
    (by decide) (by simp [witnessSingle])

/-! ## Reconciliation pass -/

theorem removeReused_subset {K : Type} [DecidableEq K] (P : Nat → Bool)
    (New : List (K × FHoudiniOutputObject)) :
    ∀ (Old : List (K × FHoudiniOutputObject)), ∀ e ∈ removeReused P New Old, e ∈ Old := by
  induction New with
  | nil => intro Old e he; exact he
  | cons hd rest ih =>
    intro Old e he
    obtain ⟨id, n⟩ := hd
    simp only [removeReused] at he
    split at he
    · exact ih Old e he
    · split at he
      · have := ih _ e he
        exact (List.mem_filter.mp this).1
      · exact ih Old e he

theorem TMapFind_cons {K V : Type} [DecidableEq K] (e : K × V) (m : List (K × V)) (k : K) :
    TMapFind (e :: m) k = if e.1 = k then some e.2 else TMapFind m k := by
  unfold TMapFind
  by_cases h : e.1 = k
  · simp only [List.find?_cons, h, decide_True, Option.map_some', if_true]
  · simp only [List.find?_cons, h, decide_False, if_false]

theorem TMapRemove_cons {K V : Type} [DecidableEq K] (e : K × V) (m : List (K × V)) (id : K) :
    TMapRemove (e :: m) id = if e.1 = id then TMapRemove m id else e :: TMapRemove m id := by
  unfold TMapRemove
  by_cases h : e.1 = id
  · simp only [List.filter_cons, h, decide_True, Bool.not_true, Bool.false_eq_true, if_false,
      if_true]
  · simp only [List.filter_cons, h, decide_False, Bool.not_false, if_true, if_false]

theorem TMapFind_remove_ne {K V : Type} [DecidableEq K] (m : List (K × V)) (k id : K)
    (h : id ≠ k) : TMapFind (TMapRemove m id) k = TMapFind m k := by
  induction m with
  | nil => rfl
  | cons e m ih =>
    rw [TMapRemove_cons, TMapFind_cons]
    by_cases he : e.1 = id
    · have hek : ¬ e.1 = k := fun hk => h (he ▸ hk)
      rw [if_pos he, if_neg hek, ih]
    · rw [if_neg he, TMapFind_cons, ih]

theorem not_mem_TMapRemove {K V : Type} [DecidableEq K] (m : List (K × V)) (k : K) (v : V) :
    (k, v) ∉ TMapRemove m k := by
  intro h
  have := (List.mem_filter.mp h).2
  simp at this

theorem removeReused_not_mem {K : Type} [DecidableEq K] (P : Nat → Bool) (k : K)
    (n : FHoudiniOutputObject) (New : List (K × FHoudiniOutputObject)) :
    ∀ (Old : List (K × FHoudiniOutputObject)), (k, n) ∈ New →
      (∀ o, TMapFind Old k = some o → computeKeep P n o = true) →
      (∀ o, (k, o) ∈ Old → TMapFind Old k ≠ none) →
      ∀ o, (k, o) ∉ removeReused P New Old := by
  induction New with
  | nil => intro Old h; simp at h
  | cons hd rest ih =>
    intro Old hmem hkeep hfind o ho
    obtain ⟨id, m⟩ := hd
    have hsub := removeReused_subset P ((id, m) :: rest) Old _ ho
    simp only [removeReused] at ho
    by_cases hid : id = k
    · subst hid
      cases hf : TMapFind Old id with
      | none => exact hfind o hsub hf
      | some fo =>
        rw [hf] at ho
        simp only at ho
        by_cases hk : computeKeep P m fo = true
        · rw [if_pos hk] at ho
          exact not_mem_TMapRemove Old id o (removeReused_subset P rest _ _ ho)
        · rw [if_neg hk] at ho
          rcases List.mem_cons.mp hmem with heq | hrest
          · have : n = m := (Prod.mk.inj heq).2
            subst this
            exact hk (hkeep fo hf)
          · exact ih Old hrest hkeep hfind o ho
    · have hrest : (k, n) ∈ rest := by
        rcases List.mem_cons.mp hmem with heq | hrest
        · exact absurd (Prod.mk.inj heq).1.symm hid
        · exact hrest
      have hkeep' : ∀ o, TMapFind (TMapRemove Old id) k = some o → computeKeep P n o = true := by
        intro o' ho'; rw [TMapFind_remove_ne Old k id hid] at ho'; exact hkeep o' ho'
      have hfind' : ∀ o, (k, o) ∈ TMapRemove Old id → TMapFind (TMapRemove Old id) k ≠ none := by
        intro o' ho'
        rw [TMapFind_remove_ne Old k id hid]
        exact hfind o' (List.mem_filter.mp ho').1
      cases hf : TMapFind Old id with
      | none => rw [hf] at ho; exact ih Old hrest hkeep hfind o ho
      | some fo =>
        rw [hf] at ho
        simp only at ho
        by_cases hk : computeKeep P m fo = true
        · rw [if_pos hk] at ho
          exact ih _ hrest hkeep' hfind' o ho
        · rw [if_neg hk] at ho
          exact ih Old hrest hkeep hfind o ho

theorem TMapFind_of_mem {K V : Type} [DecidableEq K] (m : List (K × V))
    (hnd : (m.map Prod.fst).Nodup) (k : K) (v : V) (h : (k, v) ∈ m) :
    TMapFind m k = some v := by
  induction m with
  | nil => simp at h
  | cons e m ih =>
    simp only [List.map_cons, List.nodup_cons] at hnd
    rw [TMapFind_cons]
    rcases List.mem_cons.mp h with heq | hmem
    · subst heq; simp
    · have hne : ¬ e.1 = k := by
        intro hek
        apply hnd.1
        rw [hek]
        exact List.mem_map.mpr ⟨(k, v), hmem, rfl⟩
      rw [if_neg hne]
      exact ih hnd.2 hmem

theorem mem_destroyCalls {K : Type} (m : List (K × FHoudiniOutputObject)) (c : Nat) :
    c ∈ destroyCalls m ↔ ∃ e ∈ m, c ∈ heldComponents e.2 := by
  induction m with
  | nil => simp [destroyCalls]
  | cons e m ih =>
    obtain ⟨k, o⟩ := e
    simp only [destroyCalls, List.mem_append, ih, List.mem_cons, exists_eq_or_imp, heldComponents]
    cases o.OutputComponent <;> cases o.ProxyComponent <;> simp

theorem computeKeep_self (P : Nat → Bool) (o : FHoudiniOutputObject)
    (hLive : ∀ c ∈ heldComponents o, P c = false) (hHeld : heldComponents o ≠ []) :
    computeKeep P o o = true := by
  obtain ⟨oo, oc, po, pc, b⟩ := o
  cases oc <;> cases pc <;> simp_all [computeKeep, heldComponents]

theorem computeKeep_output (P : Nat → Bool) (n o : FHoudiniOutputObject) (c : Nat)
    (hn : n.OutputComponent = some c) (hp : n.ProxyComponent = none)
    (ho : o.OutputComponent = some c) (hl : P c = false) : computeKeep P n o = true := by
  simp [computeKeep, hn, hp, ho, hl]

theorem computeKeep_proxy (P : Nat → Bool) (n o : FHoudiniOutputObject) (c : Nat)
    (hn : n.ProxyComponent = some c) (ho : o.ProxyComponent = some c) (hl : P c = false) :
    computeKeep P n o = true := by
  simp [computeKeep, hn, ho, hl]

/-- The reconciliation pass on a new map of the shape `ReusedInPlace` (every entry holds at
most one component, and a component the old map also holds is live and held there only in
the same slot under the same identifier): it never calls `RemoveAndDestroyComponent` on a
component held by the new map it installs. -/
theorem reconcileOutputObjects_spares_new {K : Type} [DecidableEq K] (P : Nat → Bool)
    (New Old : List (K × FHoudiniOutputObject))
    (hOld : (Old.map Prod.fst).Nodup)
    (hShape : ReusedInPlace P New Old) :
    ∀ c ∈ (reconcileOutputObjects P New Old).1,
      ∀ e ∈ (reconcileOutputObjects P New Old).2, c ∉ heldComponents e.2 := by
  intro c hc e he hce
  obtain ⟨k, n⟩ := e
  have hnew : (k, n) ∈ New := he
  obtain ⟨⟨k', o⟩, hleft, hheld⟩ := (mem_destroyCalls _ c).mp hc
  have hold : (k', o) ∈ Old := removeReused_subset P New Old _ hleft
  obtain ⟨hone, hout, hprox⟩ := hShape k n hnew
  have hfind : ∀ o', (k, o') ∈ Old → TMapFind Old k ≠ none := by
    intro o' ho' hnone
    rw [TMapFind_of_mem Old hOld k o' ho'] at hnone
    exact absurd hnone (by simp)
  simp only [heldComponents, List.mem_append, Option.mem_toList, Option.mem_def] at hce hheld
  rcases hce with hcn | hcn
  · obtain ⟨hnp, himp⟩ := hout c hcn k' o hold
    have hoc : o.OutputComponent = some c := by
      rcases hheld with h | h
      · exact h
      · exact absurd h hnp
    obtain ⟨hk, hl⟩ := himp hoc
    subst hk
    have hpn : n.ProxyComponent = none := by
      rcases hone with h | h
      · rw [h] at hcn; exact absurd hcn (by simp)
      · exact h
    refine removeReused_not_mem P k' n New Old hnew ?_ hfind o hleft
    intro o' ho'
    rw [TMapFind_of_mem Old hOld k' o hold] at ho'
    have : o = o' := Option.some.inj ho'
    subst this
    exact computeKeep_output P n o c hcn hpn hoc hl
  · obtain ⟨hnp, himp⟩ := hprox c hcn k' o hold
    have hoc : o.ProxyComponent = some c := by
      rcases hheld with h | h
      · exact absurd h hnp
      · exact h
    obtain ⟨hk, hl⟩ := himp hoc
    subst hk
    refine removeReused_not_mem P k' n New Old hnew ?_ hfind o hleft
    intro o' ho'
    rw [TMapFind_of_mem Old hOld k' o hold] at ho'
    have : o = o' := Option.some.inj ho'
    subst this
    exact computeKeep_proxy P n o c hcn hoc hl

theorem reuse_shape : ReusedInPlace (fun _ => false) reuseNew reuseOld := by
  intro k n h
  simp only [reuseNew, List.mem_cons, Prod.mk.injEq, List.mem_singleton, List.not_mem_nil,
    or_false] at h
  rcases h with ⟨rfl, rfl⟩ | ⟨rfl, rfl⟩ <;>
  · refine ⟨Or.inr rfl, ?_, ?_⟩
    · intro c hc k' o ho
      simp only [reuseOld, List.mem_cons, Prod.mk.injEq, List.not_mem_nil, or_false] at ho
      simp only [outputOnly, Option.some.injEq] at hc
      subst hc
      rcases ho with ⟨rfl, rfl⟩ | ⟨rfl, rfl⟩ <;> simp [outputOnly]
    · intro c hc
      simp [outputOnly] at hc

theorem reconcileOutputObjects_spares_new_witness :
    (reconcileOutputObjects (fun _ => false) reuseNew reuseOld).1 = [11]
    ∧ ∀ c ∈ (reconcileOutputObjects (fun _ => false) reuseNew reuseOld).1,
        ∀ e ∈ (reconcileOutputObjects (fun _ => false) reuseNew reuseOld).2,
          c ∉ heldComponents e.2 :=
  ⟨by decide,
    reconcileOutputObjects_spares_new (fun _ => false) reuseNew reuseOld (by decide)
      reuse_shape⟩

/-- Why the shape `ReusedInPlace` asks for one component per new entry.  On a new entry
that held the old output component 10 together with a proxy component 21 other than the
old live proxy 20, the proxy comparison would overwrite `bKeep` and component 10 would be
passed to `RemoveAndDestroyComponent`.  The creation loop fills one slot per entry, so it
does not build such an entry. -/
theorem reconcileOutputObjects_two_slot_entry :
    reconcileOutputObjects (fun _ => false)
        [((1 : Nat), outputAndProxy 10 21)] [(1, outputAndProxy 10 20)]
      = ([10, 20], [(1, outputAndProxy 10 21)])
    ∧ 10 ∈ heldComponents (outputAndProxy 10 21) := by
  decide

/-- C7: when the new map is the old map and every component it holds is live, the
reconciliation pass calls `RemoveAndDestroyComponent` on nothing, and when every entry
holds a component the old map is empty before the destroy loop. -/
theorem reconcileOutputObjects_same_map {K : Type} [DecidableEq K] (P : Nat → Bool)
    (M : List (K × FHoudiniOutputObject))
    (hKeys : (M.map Prod.fst).Nodup)
    (hLive : ∀ e ∈ M, ∀ c ∈ heldComponents e.2, P c = false) :
    (reconcileOutputObjects P M M).1 = []
    ∧ ((∀ e ∈ M, heldComponents e.2 ≠ []) → removeReused P M M = []) := by
  have hfind : ∀ k o', (k, o') ∈ M → TMapFind M k ≠ none := by
    intro k o' ho' hnone
    rw [TMapFind_of_mem M hKeys k o' ho'] at hnone
    exact absurd hnone (by simp)
  have hleft : ∀ e ∈ removeReused P M M, heldComponents e.2 = [] := by
    intro e he
    obtain ⟨k, o⟩ := e
    by_contra hne
    have hM : (k, o) ∈ M := removeReused_subset P M M _ he
    refine removeReused_not_mem P k o M M hM ?_ (hfind k) o he
    intro o' ho'
    rw [TMapFind_of_mem M hKeys k o hM] at ho'
    have : o = o' := Option.some.inj ho'
    subst this
    exact computeKeep_self P o (hLive _ hM) hne
  constructor
  · apply List.eq_nil_iff_forall_not_mem.mpr
    intro c hc
    obtain ⟨e, he, hce⟩ := (mem_destroyCalls _ c).mp hc
    rw [hleft e he] at hce
    simp at hce
  · intro hall
    apply List.eq_nil_iff_forall_not_mem.mpr
    intro e he
    exact hall e (removeReused_subset P M M _ he) (hleft e he)

theorem reconcileOutputObjects_same_map_witness :
    (reconcileOutputObjects (fun _ => false) reuseOld reuseOld).1 = []
    ∧ ((∀ e ∈ reuseOld, heldComponents e.2 ≠ []) →
        removeReused (fun _ => false) reuseOld reuseOld = []) :=
  reconcileOutputObjects_same_map (fun _ => false) reuseOld (by decide)
    (fun _ _ _ _ => rfl)

/-! ## Component synthesis -/

theorem newComponentType_eq_table (Object : UObject) (n : Nat) (bSplit : Bool) :
    newComponentType (some Object) n bSplit
      = representationType (firstMatchingRow Object n bSplit) := by
  obtain ⟨h, cls, lods⟩ := Object
  cases cls <;> by_cases hn : n = 1 <;> by_cases hg : n > 1 <;> cases bSplit <;>
    by_cases hl : lods > 1 <;>
    first
    | omega
    | simp [newComponentType, CastObject, firstMatchingRow, decisionTable, representationType,
        List.find?_cons, hn, hl, hg]

theorem createOrReuse_none (T N : ComponentClass) (b : Bool) (P : Option FParentComponent)
    (f : Bool) (Next : Nat) :
    (createOrReuse T N b P f none Next).Component = none
    ∨ createOrReuse T N b P f none Next
        = ⟨true, some ⟨Next, N, false⟩, [.Created Next N, .Updated Next]⟩ := by
  unfold createOrReuse
  cases b <;> rcases P with _ | ⟨pk, lv⟩ <;> try cases pk
  all_goals cases f
  all_goals simp [CastComponent]

theorem createOrReuse_reuse (T N : ComponentClass) (b : Bool) (P : Option FParentComponent)
    (f : Bool) (Old : USceneComponent) (Next : Nat)
    (hA : Old.Class.IsA T = true) (hL : Old.bPendingKill = false) :
    (createOrReuse T N b P f (some Old) Next).Component = some Old
    ∧ ∀ e ∈ (createOrReuse T N b P f (some Old) Next).Events, e = .Updated Old.Handle := by
  unfold createOrReuse
  cases b <;> rcases P with _ | ⟨pk, lv⟩ <;> try cases pk
  all_goals cases f
  all_goals simp [CastComponent, hA, hL]

theorem castTarget_of_oldComponentType (Old : USceneComponent) (t : InstancerComponentType)
    (h : oldComponentType (some Old) = t) (ht : t ≠ .Invalid) :
    Old.Class.IsA (castTarget t) = true ∧ Old.bPendingKill = false := by
  obtain ⟨hd, cls, pk⟩ := Old
  subst h
  cases pk <;> cases cls <;>
    simp [oldComponentType, ComponentClass.IsA, castTarget, typeClass] at ht ⊢

theorem oldComponentType_fresh (Next : Nat) (t : InstancerComponentType)
    (ht : t ≠ .Invalid) : oldComponentType (some ⟨Next, typeClass t, false⟩) = t := by
  cases t <;> simp [oldComponentType, ComponentClass.IsA, typeClass] at ht ⊢

/-- Past the early return, the `switch` runs the common creation shape with the cast
target and the class of the chosen type. -/
theorem switchNewType_eq (Object : UObject) (n : Nat) (bSplit : Bool)
    (P : Option FParentComponent) (C : Option USceneComponent) (Next : Nat)
    (ht : newComponentType (some Object) n bSplit ≠ .Invalid) :
    ∃ b f, switchNewType (newComponentType (some Object) n bSplit) (some Object)
        (CastObject .UStaticMesh (some Object))
        (if (CastObject .UStaticMesh (some Object)).isNone then
          CastObject .UHoudiniStaticMesh (some Object) else none)
        n P C Next
      = some (createOrReuse (castTarget (newComponentType (some Object) n bSplit))
          (typeClass (newComponentType (some Object) n bSplit)) b P f C Next) := by
  obtain ⟨h, cls, lods⟩ := Object
  cases cls <;> by_cases hn : n = 1 <;> cases bSplit <;> by_cases hl : lods > 1 <;>
    simp [newComponentType, CastObject, hn, hl, switchNewType, castTarget, typeClass,
      CreateOrUpdateInstancedStaticMeshComponent, CreateOrUpdateMeshSplitInstancerComponent,
      CreateOrUpdateInstancedActorComponent, CreateOrUpdateStaticMeshComponent,
      CreateOrUpdateHoudiniStaticMeshComponent] at ht ⊢
  all_goals
    rcases P with _ | ⟨pk, lv⟩
    · simp
    · cases lv <;> simp

theorem finishInstanceComponent_component (H : Nat → Bool) (t : InstancerComponentType)
    (P : Option FParentComponent) (Old : Option USceneComponent) (r0 r : FCreateResult)
    (h : finishInstanceComponent H t P Old r0 = some r) : r.Component = r0.Component := by
  unfold finishInstanceComponent at h
  cases hc : r0.Component with
  | none => rw [hc] at h; simp at h; subst h; rfl
  | some New =>
    rw [hc] at h
    cases P with
    | none => simp at h
    | some p => simp at h; subst h; rfl

/-- C8: the component type chosen by `CreateOrUpdateInstanceComponent` is the one of the
first matching row of the decision table, for every object, transform count and split
flag (the failing branch when the row is the unsupported one or no row matches), and a
component the function hands back is of the chosen type. -/
theorem CreateOrUpdateInstanceComponent_decision_table (Object : UObject)
    (Transforms : List FTransform) (bSplit : Bool) :
    newComponentType (some Object) Transforms.length bSplit
        = representationType (firstMatchingRow Object Transforms.length bSplit)
    ∧ ∀ (H : Nat → Bool) (Parent : Option FParentComponent) (Old : Option USceneComponent)
        (Next : Nat) (r : FCreateResult) (c : USceneComponent),
        CreateOrUpdateInstanceComponent H (some Object) Transforms Parent Old none bSplit Next
          = some r →
        r.Component = some c →
        oldComponentType (some c)
          = newComponentType (some Object) Transforms.length bSplit := by
  refine ⟨newComponentType_eq_table Object Transforms.length bSplit, ?_⟩
  intro H Parent Old Next r c hr hc
  unfold CreateOrUpdateInstanceComponent at hr
  by_cases hNT : newComponentType (some Object) Transforms.length bSplit = .Invalid
  · simp only [hNT, if_true, Option.some.injEq] at hr
    subst hr
    simp at hc
  · simp only [hNT, if_false] at hr
    obtain ⟨b, f, hsw⟩ := switchNewType_eq Object Transforms.length bSplit Parent
      (if oldComponentType Old = newComponentType (some Object) Transforms.length bSplit
        then Old else none) Next hNT
    rw [hsw] at hr
    simp only at hr
    have hcomp := finishInstanceComponent_component _ _ _ _ _ _ hr
    rw [hc] at hcomp
    by_cases hEq : oldComponentType Old
        = newComponentType (some Object) Transforms.length bSplit
    · rw [if_pos hEq] at hcomp
      cases Old with
      | none => exact absurd hEq.symm hNT
      | some o =>
        obtain ⟨hA, hL⟩ := castTarget_of_oldComponentType o _ hEq hNT
        have := (createOrReuse_reuse _ (typeClass (newComponentType (some Object)
          Transforms.length bSplit)) b Parent f o Next hA hL).1
        rw [this] at hcomp
        have hco : c = o := Option.some.inj hcomp
        rw [hco]; exact hEq
    · rw [if_neg hEq] at hcomp
      rcases createOrReuse_none (castTarget (newComponentType (some Object)
        Transforms.length bSplit)) (typeClass (newComponentType (some Object)
        Transforms.length bSplit)) b Parent f Next with h0 | h1
      · rw [h0] at hcomp; simp at hcomp
      · rw [h1] at hcomp
        have hco : c = ⟨Next, typeClass (newComponentType (some Object)
          Transforms.length bSplit), false⟩ := Option.some.inj hcomp
        rw [hco]
        exact oldComponentType_fresh Next _ hNT

/-- C9: for a Houdini proxy mesh with more than one transform the function returns
`false`, leaves the component pointer as it was on entry (null at the call sites) and has
no effect on any component. -/
theorem CreateOrUpdateInstanceComponent_proxy_rejected (H : Nat → Bool) (Object : UObject)
    (Transforms : List FTransform) (Parent : Option FParentComponent)
    (Old New : Option USceneComponent) (bSplit : Bool) (Next : Nat)
    (hClass : Object.Class = .UHoudiniStaticMesh) (hN : 1 < Transforms.length) :
    CreateOrUpdateInstanceComponent H (some Object) Transforms Parent Old New bSplit Next
      = some ⟨false, New, []⟩ := by
  have hne : ¬ Transforms.length = 1 := by omega
  have hNT : newComponentType (some Object) Transforms.length bSplit = .Invalid := by
    simp [newComponentType, CastObject, hClass, hne]
  unfold CreateOrUpdateInstanceComponent
  simp only [hNT, if_true]

theorem finishInstanceComponent_some (H : Nat → Bool) (t : InstancerComponentType)
    (p : FParentComponent) (Old New : USceneComponent) (r0 : FCreateResult)
    (hc : r0.Component = some New) :
    finishInstanceComponent H t (some p) (some Old) r0
      = some ⟨r0.bSuccess, some New,
          r0.Events ++ [.SetMobility New.Handle, .AttachToComponent New.Handle]
            ++ (if t ≠ .StaticMeshComponent ∧ t ≠ .HoudiniStaticMeshComponent then
                [ComponentEvent.SetRelativeTransform New.Handle] else [])
            ++ (if H New.Handle then [ComponentEvent.RegisterComponent New.Handle] else [])
            ++ (if !Old.bPendingKill && decide (Old.Handle ≠ New.Handle) then
                [ComponentEvent.RemoveAndDestroyComponent Old.Handle] else [])⟩ := by
  unfold finishInstanceComponent
  rw [hc]

/-- C10: for a live old component and a non-null parent, with the component pointer null
on entry as at the call sites: when the type of the old component is the type chosen, the
function returns with the old component itself in the pointer and never passes it to
`RemoveAndDestroyComponent`; when the types differ, the function returns, and a component
it hands back is a different object, attached before the old component is passed to
`RemoveAndDestroyComponent` as the last effect. -/
theorem CreateOrUpdateInstanceComponent_reuse_or_replace (H : Nat → Bool) (Object : UObject)
    (Transforms : List FTransform) (Parent : FParentComponent) (Old : USceneComponent)
    (bSplit : Bool) (Next : Nat)
    (hLive : Old.bPendingKill = false) (hFresh : Old.Handle < Next) :
    (newComponentType (some Object) Transforms.length bSplit ≠ .Invalid →
      oldComponentType (some Old) = newComponentType (some Object) Transforms.length bSplit →
      ∃ r, CreateOrUpdateInstanceComponent H (some Object) Transforms (some Parent) (some Old)
            none bSplit Next = some r
        ∧ r.Component = some Old
        ∧ ComponentEvent.RemoveAndDestroyComponent Old.Handle ∉ r.Events)
    ∧ (oldComponentType (some Old) ≠ newComponentType (some Object) Transforms.length bSplit →
      ∃ r, CreateOrUpdateInstanceComponent H (some Object) Transforms (some Parent) (some Old)
            none bSplit Next = some r
        ∧ ∀ New, r.Component = some New →
            New.Handle ≠ Old.Handle
            ∧ ∃ a b, r.Events = a ++ [ComponentEvent.AttachToComponent New.Handle] ++ b
                ++ [ComponentEvent.RemoveAndDestroyComponent Old.Handle]) := by
  constructor
  · intro hNT hEq
    obtain ⟨b, f, hsw⟩ := switchNewType_eq Object Transforms.length bSplit (some Parent)
      (some Old) Next hNT
    obtain ⟨hA, hL⟩ := castTarget_of_oldComponentType Old _ hEq hNT
    obtain ⟨hcomp, hev⟩ := createOrReuse_reuse _ (typeClass (newComponentType (some Object)
      Transforms.length bSplit)) b (some Parent) f Old Next hA hL
    have hfin := finishInstanceComponent_some H
      (newComponentType (some Object) Transforms.length bSplit) Parent Old Old _ hcomp
    have hrun : CreateOrUpdateInstanceComponent H (some Object) Transforms (some Parent)
        (some Old) none bSplit Next
        = finishInstanceComponent H (newComponentType (some Object) Transforms.length bSplit)
            (some Parent) (some Old)
            (createOrReuse (castTarget (newComponentType (some Object)
              Transforms.length bSplit)) (typeClass (newComponentType (some Object)
              Transforms.length bSplit)) b (some Parent) f (some Old) Next) := by
      unfold CreateOrUpdateInstanceComponent
      simp only [hNT, if_false, hEq, if_true, hsw]
    rw [hfin] at hrun
    refine ⟨_, hrun, rfl, ?_⟩
    · simp only [List.mem_append, not_or]
      refine ⟨⟨⟨⟨?_, ?_⟩, ?_⟩, ?_⟩, ?_⟩
      · intro hmem
        have := hev _ hmem
        exact absurd this (by simp)
      · simp
      · split <;> simp
      · split <;> simp
      · simp
  · intro hNe
    by_cases hNT : newComponentType (some Object) Transforms.length bSplit = .Invalid
    · refine ⟨⟨false, none, []⟩, ?_, ?_⟩
      · unfold CreateOrUpdateInstanceComponent
        simp only [hNT, if_true]
      · intro New h; simp at h
    · obtain ⟨b, f, hsw⟩ := switchNewType_eq Object Transforms.length bSplit (some Parent)
        none Next hNT
      have hrun : CreateOrUpdateInstanceComponent H (some Object) Transforms (some Parent)
          (some Old) none bSplit Next
          = finishInstanceComponent H (newComponentType (some Object) Transforms.length bSplit)
              (some Parent) (some Old)
              (createOrReuse (castTarget (newComponentType (some Object)
                Transforms.length bSplit)) (typeClass (newComponentType (some Object)
                Transforms.length bSplit)) b (some Parent) f none Next) := by
        unfold CreateOrUpdateInstanceComponent
        simp only [hNT, if_false, hNe, hsw]
      rw [hrun]
      rcases createOrReuse_none (castTarget (newComponentType (some Object)
        Transforms.length bSplit)) (typeClass (newComponentType (some Object)
        Transforms.length bSplit)) b (some Parent) f Next with h0 | h1
      · refine ⟨_, by unfold finishInstanceComponent; rw [h0], ?_⟩
        intro New h; simp at h
      · rw [h1, finishInstanceComponent_some H _ Parent Old _ _ rfl]
        refine ⟨_, rfl, ?_⟩
        intro New hNew
        simp only [Option.some.injEq] at hNew
        subst hNew
        have hne : Old.Handle ≠ Next := by omega
        refine ⟨fun h => hne h.symm, ?_⟩
        refine ⟨[.Created Next (typeClass (newComponentType (some Object)
            Transforms.length bSplit)), .Updated Next, .SetMobility Next],
          (if newComponentType (some Object) Transforms.length bSplit ≠ .StaticMeshComponent
              ∧ newComponentType (some Object) Transforms.length bSplit
                ≠ .HoudiniStaticMeshComponent then
            [ComponentEvent.SetRelativeTransform Next] else [])
          ++ (if H Next then [ComponentEvent.RegisterComponent Next] else []), ?_⟩
        simp only [hLive, hne, Bool.not_false, Bool.true_and, ne_eq, not_false_eq_true,
          decide_True, if_true]
        simp only [List.append_assoc, List.cons_append, List.nil_append]

theorem CreateOrUpdateInstanceComponent_reuse_or_replace_witness :
    (∃ r, CreateOrUpdateInstanceComponent (fun _ => true) (some meshObject) threeTransforms
          (some liveParent) (some oldInstanced) none false 100 = some r
        ∧ r.Component = some oldInstanced
        ∧ ComponentEvent.RemoveAndDestroyComponent oldInstanced.Handle ∉ r.Events)
    ∧ (∃ r, CreateOrUpdateInstanceComponent (fun _ => true) (some meshObject) threeTransforms
          (some liveParent) (some oldSingle) none false 100 = some r
        ∧ ∀ New, r.Component = some New →
            New.Handle ≠ oldSingle.Handle
            ∧ ∃ a b, r.Events = a ++ [ComponentEvent.AttachToComponent New.Handle] ++ b
                ++ [ComponentEvent.RemoveAndDestroyComponent oldSingle.Handle]) :=
  ⟨(CreateOrUpdateInstanceComponent_reuse_or_replace (fun _ => true) meshObject threeTransforms
      liveParent oldInstanced false 100 rfl (by decide)).1 (by decide) (by decide),
   (CreateOrUpdateInstanceComponent_reuse_or_replace (fun _ => true) meshObject threeTransforms
      liveParent oldSingle false 100 rfl (by decide)).2 (by decide)⟩

theorem CreateOrUpdateInstanceComponent_proxy_rejected_witness :
    CreateOrUpdateInstanceComponent (fun _ => true) (some proxyObject) threeTransforms
      (some liveParent) (some oldInstanced) none false 100 = some ⟨false, none, []⟩ :=
  CreateOrUpdateInstanceComponent_proxy_rejected (fun _ => true) proxyObject threeTransforms
    (some liveParent) (some oldInstanced) none false 100 rfl (by decide)

theorem CreateOrUpdateInstanceComponent_decision_table_witness :
    newComponentType (some meshObject) threeTransforms.length false
        = .InstancedStaticMeshComponent
    ∧ oldComponentType (some ⟨100, .UInstancedStaticMeshComponent, false⟩)
        = newComponentType (some meshObject) threeTransforms.length false :=
  ⟨by decide,
    (CreateOrUpdateInstanceComponent_decision_table meshObject threeTransforms false).2
      (fun _ => true) (some liveParent) none 100
      ⟨true, some ⟨100, .UInstancedStaticMeshComponent, false⟩,
        [.Created 100 .UInstancedStaticMeshComponent, .Updated 100, .SetMobility 100,
          .AttachToComponent 100, .SetRelativeTransform 100, .RegisterComponent 100]⟩
      ⟨100, .UInstancedStaticMeshComponent, false⟩ (by decide) rfl⟩

/-! ## Scale clamp through an offset -/

theorem clampScale_ClampedTo (eps c : ℚ) : ClampedTo eps c (clampScale eps c) := by
  unfold ClampedTo clampScale
  constructor
  · intro h
    have hpos : 0 < eps := lt_of_le_of_lt (abs_nonneg c) h
    rw [if_pos h]
    by_cases hc : c > 0
    · rw [if_pos hc]
      exact ⟨abs_of_pos hpos, fun hneg => absurd hc (not_lt.mpr (le_of_lt hneg)), fun _ => hpos⟩
    · rw [if_neg hc]
      refine ⟨?_, fun _ => by linarith, fun h0 => absurd h0 hc⟩
      rw [abs_neg]; exact abs_of_pos hpos
  · intro h
    rw [if_neg (not_lt.mpr h)]

theorem offsetTinyScaleX_not_Identity :
    offsetTinyScaleX.Equals FTransform.Identity = false := by
  simp [offsetTinyScaleX, FTransform.Equals, FVector.Equals, FQuat.Equals, FTransform.Identity,
    FQuat.Identity, FTransform.KINDA_SMALL_NUMBER]
  norm_num [abs_of_pos]

/-- C19 (amended): through a non-identity offset the function returns exactly one transform
per base transform of the variation, whatever the scales are; for a base transform whose
composed rotation is normalised (the composed transform passes `IsValid`) every component
of the output scale is the clamp of the component `c` of base scale times offset scale:
magnitude exactly the threshold with the sign of `c` when `|c|` is below the threshold and
`c` is negative or positive, `c` itself otherwise; a base transform whose composed
transform does not pass `IsValid` is returned unchanged. -/
theorem ProcessInstanceTransforms_scale_clamp (eps : ℚ)
    (io : FHoudiniInstancedOutput) (v : Nat) (Offset : FTransform)
    (hv : v < io.VariationObjects.length)
    (hOff : io.VariationTransformOffsets[v]? = some Offset)
    (hNonId : Offset.Equals FTransform.Identity = false)
    (hN : io.TransformVariationIndices.length ≤ io.OriginalTransforms.length) :
    ∃ res, ProcessInstanceTransforms eps io (v : Int) [] = some res
      ∧ res.length = (baseTransforms io (v : Int)).length
      ∧ ∀ (j : Nat) (Base : FTransform), (baseTransforms io (v : Int))[j]? = some Base →
          ∃ Out, res[j]? = some Out
            ∧ ((Base.Rotation.mul Offset.Rotation).IsNormalized = true →
                ClampedTo eps (Base.Scale3D.X * Offset.Scale3D.X) Out.Scale3D.X
                ∧ ClampedTo eps (Base.Scale3D.Y * Offset.Scale3D.Y) Out.Scale3D.Y
                ∧ ClampedTo eps (Base.Scale3D.Z * Offset.Scale3D.Z) Out.Scale3D.Z)
            ∧ ((Base.Rotation.mul Offset.Rotation).IsNormalized = false → Out = Base) := by
  refine ⟨_, ProcessInstanceTransforms_offset_eq eps io v Offset hv hOff hNonId hN,
    by simp, ?_⟩
  intro j Base hj
  refine ⟨applyOffset eps Offset Base, by simp [List.getElem?_map, hj], ?_, ?_⟩
  · intro hval
    have : (composedTransform eps Offset Base).IsValid = true := hval
    rw [applyOffset_eq, if_pos this]
    exact ⟨clampScale_ClampedTo _ _, clampScale_ClampedTo _ _, clampScale_ClampedTo _ _⟩
  · intro hval
    have : (composedTransform eps Offset Base).IsValid = false := hval
    rw [applyOffset_eq, this]
    simp

theorem ProcessInstanceTransforms_scale_clamp_witness :
    ∃ res, ProcessInstanceTransforms (1 / 1000)
        (singleVariation offsetTinyScaleX [FTransform.Identity]) ((0 : Nat) : Int) [] = some res
      ∧ res.length
          = (baseTransforms (singleVariation offsetTinyScaleX [FTransform.Identity])
              ((0 : Nat) : Int)).length
      ∧ ∀ (j : Nat) (Base : FTransform),
          (baseTransforms (singleVariation offsetTinyScaleX [FTransform.Identity])
            ((0 : Nat) : Int))[j]? = some Base →
          ∃ Out, res[j]? = some Out
            ∧ ((Base.Rotation.mul offsetTinyScaleX.Rotation).IsNormalized = true →
                ClampedTo (1 / 1000) (Base.Scale3D.X * offsetTinyScaleX.Scale3D.X) Out.Scale3D.X
                ∧ ClampedTo (1 / 1000) (Base.Scale3D.Y * offsetTinyScaleX.Scale3D.Y)
                    Out.Scale3D.Y
                ∧ ClampedTo (1 / 1000) (Base.Scale3D.Z * offsetTinyScaleX.Scale3D.Z)
                    Out.Scale3D.Z)
            ∧ ((Base.Rotation.mul offsetTinyScaleX.Rotation).IsNormalized = false →
                Out = Base) :=
  ProcessInstanceTransforms_scale_clamp (1 / 1000)
    (singleVariation offsetTinyScaleX [FTransform.Identity]) 0 offsetTinyScaleX
    (by simp [singleVariation]) (by simp [singleVariation]) offsetTinyScaleX_not_Identity
    (by simp [singleVariation])

/-- C19 as stated fails: the base transform has the zero quaternion as rotation and unit
scale, the offset has scale `(1/10000, 1, 1)`; the component `c = 1/10000` is positive and
below the threshold `1/1000`, yet the transform is returned with its scale component `1`
because the composed transform does not pass `IsValid`. -/
theorem ProcessInstanceTransforms_scale_clamp_counterexample :
    offsetTinyScaleX.Equals FTransform.Identity = false
    ∧ ProcessInstanceTransforms (1 / 1000)
        (singleVariation offsetTinyScaleX [zeroRotationAtOrigin]) 0 []
        = some [zeroRotationAtOrigin]
    ∧ |zeroRotationAtOrigin.Scale3D.X * offsetTinyScaleX.Scale3D.X| < 1 / 1000
    ∧ 0 < zeroRotationAtOrigin.Scale3D.X * offsetTinyScaleX.Scale3D.X
    ∧ |zeroRotationAtOrigin.Scale3D.X| ≠ 1 / 1000 := by
  refine ⟨offsetTinyScaleX_not_Identity, ?_, ?_, ?_, ?_⟩
  · rw [ProcessInstanceTransforms_singleVariation _ _ _ offsetTinyScaleX_not_Identity]
    simp [applyOffset, zeroRotationAtOrigin, offsetTinyScaleX, FTransform.IsValid,
      FQuat.IsNormalized, FQuat.SizeSquared, FQuat.mul, FQuat.Identity]
    norm_num
  · norm_num [zeroRotationAtOrigin, offsetTinyScaleX, abs_of_pos]
  · norm_num [zeroRotationAtOrigin, offsetTinyScaleX]
  · norm_num [zeroRotationAtOrigin]

/-! ## Variation objects: creation, update and the editor operations -/

theorem DescendingBelow_mono (l : List Nat) (m n : Nat) (h : DescendingBelow l m)
    (hmn : m ≤ n) : DescendingBelow l n := by
  cases l with
  | nil => trivial
  | cons x xs => exact ⟨lt_of_lt_of_le h.1 hmn, h.2⟩

theorem objsToRemove_descending (W : FObjectWorld) (R : Option Nat)
    (objs : List (Option Nat)) (n : Nat) :
    DescendingBelow (objsToRemove W R objs n) n := by
  induction n with
  | zero => trivial
  | succ n ih =>
    simp only [objsToRemove]
    split
    · exact ⟨Nat.lt_succ_self n, ih⟩
    · exact DescendingBelow_mono _ _ _ ih (Nat.le_succ n)

theorem removeVariations_lengths (l : List Nat) :
    ∀ (objs : List (Option Nat)) (offs : List FTransform) r,
      removeVariations l objs offs = some r → offs.length = objs.length →
      r.2.length = r.1.length := by
  induction l with
  | nil =>
    intro objs offs r h hl
    simp only [removeVariations, Option.some.injEq] at h
    subst h; exact hl
  | cons x xs ih =>
    intro objs offs r h hl
    simp only [removeVariations, RemoveAt] at h
    by_cases h1 : x < objs.length
    · have h2 : x < offs.length := by omega
      simp only [h1, h2, if_true] at h
      refine ih _ _ r h ?_
      rw [List.length_eraseIdx, List.length_eraseIdx]
      simp [h1, h2, hl]
    · simp [h1] at h

theorem removeVariations_total (l : List Nat) :
    ∀ (objs : List (Option Nat)) (offs : List FTransform),
      DescendingBelow l objs.length → offs.length = objs.length →
      ∃ r, removeVariations l objs offs = some r := by
  induction l with
  | nil => intro objs offs _ _; exact ⟨_, rfl⟩
  | cons x xs ih =>
    intro objs offs hd hl
    have h1 : x < objs.length := hd.1
    have h2 : x < offs.length := by omega
    simp only [removeVariations, RemoveAt, h1, h2, if_true]
    apply ih
    · rw [List.length_eraseIdx]
      simp only [h1, if_true]
      exact DescendingBelow_mono _ _ _ hd.2 (by omega)
    · rw [List.length_eraseIdx, List.length_eraseIdx]
      simp [h1, h2, hl]

theorem removeDeadVariations_spec (W : FObjectWorld) (R : Option Nat)
    (Cur Cur2 : FHoudiniInstancedOutput) (h : removeDeadVariations W R Cur = some Cur2) :
    Cur2.OriginalObject = Cur.OriginalObject
    ∧ Cur2.OriginalObjectIndex = Cur.OriginalObjectIndex
    ∧ Cur2.OriginalTransforms = Cur.OriginalTransforms
    ∧ (Cur.VariationTransformOffsets.length = Cur.VariationObjects.length →
        Cur2.VariationTransformOffsets.length = Cur2.VariationObjects.length) := by
  simp only [removeDeadVariations] at h
  split at h
  · split at h
    · exact absurd h (by simp)
    · rename_i Objects Offsets hrem
      simp only [Option.some.injEq] at h
      subst h
      exact ⟨rfl, rfl, rfl, fun hl => removeVariations_lengths _ _ _ _ hrem hl⟩
  · simp only [Option.some.injEq] at h
    subst h
    exact ⟨rfl, rfl, rfl, fun hl => hl⟩

theorem removeDeadVariations_total (W : FObjectWorld) (R : Option Nat)
    (Cur : FHoudiniInstancedOutput)
    (hl : Cur.VariationTransformOffsets.length = Cur.VariationObjects.length) :
    ∃ Cur2, removeDeadVariations W R Cur = some Cur2 := by
  simp only [removeDeadVariations]
  split
  · obtain ⟨r, hr⟩ := removeVariations_total _ Cur.VariationObjects
      Cur.VariationTransformOffsets (objsToRemove_descending W R Cur.VariationObjects _) hl
    rw [hr]
    exact ⟨_, rfl⟩
  · exact ⟨_, rfl⟩

theorem ensureVariationAndAssignment_spec (obj : Nat) (Cur : FHoudiniInstancedOutput) :
    (ensureVariationAndAssignment obj Cur).OriginalObject = Cur.OriginalObject
    ∧ (ensureVariationAndAssignment obj Cur).OriginalObjectIndex = Cur.OriginalObjectIndex
    ∧ (ensureVariationAndAssignment obj Cur).OriginalTransforms = Cur.OriginalTransforms
    ∧ (ensureVariationAndAssignment obj Cur).TransformVariationIndices.length
        = Cur.OriginalTransforms.length
    ∧ 1 ≤ (ensureVariationAndAssignment obj Cur).VariationObjects.length
    ∧ (Cur.VariationTransformOffsets.length = Cur.VariationObjects.length →
        (ensureVariationAndAssignment obj Cur).VariationTransformOffsets.length
          = (ensureVariationAndAssignment obj Cur).VariationObjects.length) := by
  simp only [ensureVariationAndAssignment]
  by_cases h0 : Cur.VariationObjects.length ≤ 0
  · simp only [h0, if_true]
    split
    · simp only [UVA_VariationObjects, UVA_VariationTransformOffsets, UVA_OriginalTransforms,
        UVA_length]
      refine ⟨?_, ?_, trivial, trivial, by simp, fun hl => by simp [hl]⟩
      · simp only [UpdateVariationAssignements]; split <;> rfl
      · simp only [UpdateVariationAssignements]; split <;> rfl
    · rename_i hne
      simp only [ne_eq, not_not] at hne
      exact ⟨rfl, rfl, rfl, hne, by simp, fun hl => by simp [hl]⟩
  · simp only [h0, if_false]
    have h1 : 1 ≤ Cur.VariationObjects.length := by omega
    split
    · simp only [UVA_VariationObjects, UVA_VariationTransformOffsets, UVA_OriginalTransforms,
        UVA_length]
      refine ⟨?_, ?_, trivial, trivial, h1, fun hl => hl⟩
      · simp only [UpdateVariationAssignements]; split <;> rfl
      · simp only [UpdateVariationAssignements]; split <;> rfl
    · rename_i hne
      simp only [ne_eq, not_not] at hne
      exact ⟨rfl, rfl, rfl, hne, h1, fun hl => hl⟩

theorem updateInstancedOutput_spec (W : FObjectWorld) (Found Cur : FHoudiniInstancedOutput)
    (obj : Nat) (i : Int) (T : List FTransform)
    (h : updateInstancedOutput W Found obj i T = some Cur) :
    Cur.OriginalObject = some obj ∧ Cur.OriginalObjectIndex = i ∧ Cur.OriginalTransforms = T
    ∧ Cur.TransformVariationIndices.length = T.length
    ∧ 1 ≤ Cur.VariationObjects.length
    ∧ (Found.VariationTransformOffsets.length = Found.VariationObjects.length →
        Cur.VariationTransformOffsets.length = Cur.VariationObjects.length) := by
  simp only [updateInstancedOutput] at h
  split at h
  · exact absurd h (by simp)
  · rename_i Cur2 hrem
    simp only [Option.some.injEq] at h
    subst h
    obtain ⟨h1, h2, h3, h4⟩ := removeDeadVariations_spec _ _ _ _ hrem
    obtain ⟨e1, e2, e3, e4, e5, e6⟩ := ensureVariationAndAssignment_spec obj Cur2
    refine ⟨by rw [e1, h1], by rw [e2, h2], by rw [e3, h3], by rw [e4, h3], e5,
      fun hl => e6 (h4 hl)⟩

theorem updateInstancedOutput_total (W : FObjectWorld) (Found : FHoudiniInstancedOutput)
    (obj : Nat) (i : Int) (T : List FTransform)
    (hl : Found.VariationTransformOffsets.length = Found.VariationObjects.length) :
    ∃ Cur, updateInstancedOutput W Found obj i T = some Cur := by
  simp only [updateInstancedOutput]
  obtain ⟨Cur2, h2⟩ := removeDeadVariations_total W
    (if Found.OriginalObject ≠ some obj then LoadSynchronous W Found.OriginalObject else none)
    { Found with OriginalObject := some obj, OriginalTransforms := T, OriginalObjectIndex := i }
    hl
  rw [h2]
  exact ⟨_, rfl⟩

theorem scanInstancedOutputs_none
    (IdEq : FHoudiniOutputObjectIdentifier → FHoudiniOutputObjectIdentifier → Bool)
    (Id : FHoudiniOutputObjectIdentifier)
    (entries : List (FHoudiniOutputObjectIdentifier × FHoudiniInstancedOutput)) :
    ∀ (i : Nat) (found : Option Nat), (∀ e ∈ entries, IdEq e.1 Id = false) →
      scanInstancedOutputs IdEq Id entries i found = (entries, found) := by
  induction entries with
  | nil => intro i found _; rfl
  | cons e rest ih =>
    intro i found h
    obtain ⟨k, v⟩ := e
    have hk : IdEq k Id = false := h (k, v) (List.mem_cons_self _ _)
    simp only [scanInstancedOutputs, hk, Bool.not_false, if_true]
    rw [ih (i + 1) found (fun e he => h e (List.mem_cons_of_mem _ he))]

theorem scanInstancedOutputs_values
    (IdEq : FHoudiniOutputObjectIdentifier → FHoudiniOutputObjectIdentifier → Bool)
    (Id : FHoudiniOutputObjectIdentifier)
    (entries : List (FHoudiniOutputObjectIdentifier × FHoudiniInstancedOutput)) :
    ∀ (i : Nat) (found : Option Nat),
      (scanInstancedOutputs IdEq Id entries i found).1.map Prod.snd = entries.map Prod.snd := by
  induction entries with
  | nil => intro i found; rfl
  | cons e rest ih =>
    intro i found
    obtain ⟨k, v⟩ := e
    simp only [scanInstancedOutputs]
    split
    · simp only [List.map_cons, ih]
    · simp only [List.map_cons, ih]

theorem mem_values_of_getElem? {α β : Type} (l l' : List (α × β)) (n : Nat) (e : α × β)
    (hv : l.map Prod.snd = l'.map Prod.snd) (h : l[n]? = some e) :
    ∃ e' ∈ l', e'.2 = e.2 := by
  have hm : e.2 ∈ l.map Prod.snd :=
    List.mem_map.mpr ⟨e, List.getElem?_mem h, rfl⟩
  rw [hv] at hm
  obtain ⟨e', he', heq⟩ := List.mem_map.mp hm
  exact ⟨e', he', heq⟩

theorem mem_values_of_mem {α β : Type} (l l' : List (α × β)) (e : α × β)
    (hv : l.map Prod.snd = l'.map Prod.snd) (h : e ∈ l) :
    ∃ e' ∈ l', e'.2 = e.2 := by
  have hm : e.2 ∈ l.map Prod.snd := List.mem_map.mpr ⟨e, h, rfl⟩
  rw [hv] at hm
  obtain ⟨e', he', heq⟩ := List.mem_map.mp hm
  exact ⟨e', he', heq⟩

theorem SetNumZeroed_nil (n : Nat) : SetNumZeroed [] n = List.replicate n 0 := by
  simp [SetNumZeroed]

/-- What one iteration stores: for a live original object, either the created instanced
output is appended to the scanned map, or the found one is replaced by its update. -/
theorem updateInstanceVariationObject_stored (W : FObjectWorld) (eps : ℚ)
    (IdEq : FHoudiniOutputObjectIdentifier → FHoudiniOutputObjectIdentifier → Bool)
    (Id : FHoudiniOutputObjectIdentifier) (Ts : List (List FTransform)) (i obj : Nat)
    (State State' : FVariationState)
    (hLive : W.IsPendingKill obj = false)
    (h : updateInstanceVariationObject W eps IdEq Id Ts i (some obj) State = some State') :
    ∃ T, Ts[i]? = some T
      ∧ ((State'.InstancedOutputs
            = (scanInstancedOutputs IdEq { Id with SplitIdentifier := FromInt (i : Int) }
                State.InstancedOutputs 0 none).1
              ++ [({ Id with SplitIdentifier := FromInt (i : Int) },
                    createInstancedOutput obj (i : Int) T)])
        ∨ ∃ n k Found Cur,
            (scanInstancedOutputs IdEq { Id with SplitIdentifier := FromInt (i : Int) }
                State.InstancedOutputs 0 none).1[n]? = some (k, Found)
            ∧ updateInstancedOutput W Found obj (i : Int) T = some Cur
            ∧ State'.InstancedOutputs
                = (scanInstancedOutputs IdEq { Id with SplitIdentifier := FromInt (i : Int) }
                    State.InstancedOutputs 0 none).1.set n
                    (k, { Cur with bChanged := false, bStale := false })) := by
  simp only [updateInstanceVariationObject, hLive, Bool.false_eq_true, if_false] at h
  split at h
  · split at h
    · exact absurd h (by simp)
    · rename_i T hT
      simp only [Option.some.injEq] at h
      subst h
      exact ⟨T, hT, Or.inl rfl⟩
  · rename_i n hn
    split at h
    · rename_i k Found T hk hT
      split at h
      · exact absurd h (by simp)
      · rename_i Cur hCur
        split at h
        · exact absurd h (by simp)
        · simp only [Option.some.injEq] at h
          subst h
          exact ⟨T, hT, Or.inr ⟨n, k, Found, Cur, hk, hCur, rfl⟩⟩
    · exact absurd h (by simp)

theorem updateInstanceVariationObject_wellFormed (W : FObjectWorld) (eps : ℚ)
    (IdEq : FHoudiniOutputObjectIdentifier → FHoudiniOutputObjectIdentifier → Bool)
    (Id : FHoudiniOutputObjectIdentifier) (Ts : List (List FTransform)) (i : Nat)
    (Object : Option Nat) (State State' : FVariationState)
    (h : updateInstanceVariationObject W eps IdEq Id Ts i Object State = some State')
    (hWF : ∀ e ∈ State.InstancedOutputs, VariationsWellFormed e.2) :
    ∀ e ∈ State'.InstancedOutputs, VariationsWellFormed e.2 := by
  cases Object with
  | none =>
    simp only [updateInstanceVariationObject, Option.some.injEq] at h
    subst h; exact hWF
  | some obj =>
    by_cases hpk : W.IsPendingKill obj = true
    · simp only [updateInstanceVariationObject, hpk, if_true, Option.some.injEq] at h
      subst h; exact hWF
    · have hLive : W.IsPendingKill obj = false := by simpa using hpk
      obtain ⟨T, _, hcase⟩ := updateInstanceVariationObject_stored W eps IdEq Id Ts i obj
        State State' hLive h
      have hvals := scanInstancedOutputs_values IdEq
        { Id with SplitIdentifier := FromInt (i : Int) } State.InstancedOutputs 0 none
      have hscan : ∀ e ∈ (scanInstancedOutputs IdEq
          { Id with SplitIdentifier := FromInt (i : Int) } State.InstancedOutputs 0 none).1,
          VariationsWellFormed e.2 := by
        intro e he
        obtain ⟨e', he', heq⟩ := mem_values_of_mem _ _ e hvals he
        rw [← heq]; exact hWF e' he'
      intro e he
      rcases hcase with hc | ⟨n, k, Found, Cur, hn, hCur, hc⟩
      · rw [hc] at he
        rcases List.mem_append.mp he with h1 | h1
        · exact hscan e h1
        · simp only [List.mem_singleton] at h1
          subst h1
          exact ⟨by simp [createInstancedOutput], by simp [createInstancedOutput]⟩
      · rw [hc] at he
        rcases List.mem_or_eq_of_mem_set he with h1 | h1
        · exact hscan e h1
        · subst h1
          have hF := hscan (k, Found) (List.getElem?_mem hn)
          obtain ⟨_, _, _, _, h5, h6⟩ := updateInstancedOutput_spec W Found Cur obj i T hCur
          exact ⟨h5, h6 hF.2⟩

theorem updateInstanceVariationLoop_wellFormed (W : FObjectWorld) (eps : ℚ)
    (IdEq : FHoudiniOutputObjectIdentifier → FHoudiniOutputObjectIdentifier → Bool)
    (Id : FHoudiniOutputObjectIdentifier) (Ts : List (List FTransform))
    (objs : List (Option Nat)) :
    ∀ (i : Nat) (State State' : FVariationState),
      updateInstanceVariationLoop W eps IdEq Id Ts objs i State = some State' →
      (∀ e ∈ State.InstancedOutputs, VariationsWellFormed e.2) →
      ∀ e ∈ State'.InstancedOutputs, VariationsWellFormed e.2 := by
  induction objs with
  | nil =>
    intro i State State' h hWF
    simp only [updateInstanceVariationLoop, Option.some.injEq] at h
    subst h; exact hWF
  | cons o rest ih =>
    intro i State State' h hWF
    simp only [updateInstanceVariationLoop] at h
    split at h
    · exact absurd h (by simp)
    · rename_i State1 h1
      exact ih (i + 1) State1 State' h
        (updateInstanceVariationObject_wellFormed W eps IdEq Id Ts i o State State1 h1 hWF)

theorem VariationsWellFormed_UVA (io : FHoudiniInstancedOutput)
    (h : 1 ≤ io.VariationObjects.length
      ∧ io.VariationTransformOffsets.length = io.VariationObjects.length) :
    VariationsWellFormed { UpdateVariationAssignements io with bChanged := true } := by
  unfold VariationsWellFormed
  simp only [UVA_VariationObjects, UVA_VariationTransformOffsets]
  exact h

/-- C16: the variation invariant (at least one variation object, as many offsets as
variation objects) holds of a created instanced output; updating an instanced output whose
offsets match its objects returns and gives one that satisfies it;
`UpdateInstanceVariationObjects` keeps it on every entry of the map; the editor's
add-variation, remove-variation and set-variation operations keep it; and removing a
variation from an instanced output with a single variation changes nothing. -/
theorem VariationsWellFormed_maintained :
    (∀ (obj : Nat) (i : Int) (T : List FTransform),
      VariationsWellFormed (createInstancedOutput obj i T))
    ∧ (∀ (W : FObjectWorld) (Found : FHoudiniInstancedOutput) (obj : Nat) (i : Int)
        (T : List FTransform),
        Found.VariationTransformOffsets.length = Found.VariationObjects.length →
        ∃ Cur, updateInstancedOutput W Found obj i T = some Cur ∧ VariationsWellFormed Cur)
    ∧ (∀ (W : FObjectWorld) (eps : ℚ)
        (IdEq : FHoudiniOutputObjectIdentifier → FHoudiniOutputObjectIdentifier → Bool)
        (Id : FHoudiniOutputObjectIdentifier) (objs : List (Option Nat))
        (Ts : List (List FTransform)) (State State' : FVariationState),
        UpdateInstanceVariationObjects W eps IdEq Id objs Ts State = some State' →
        (∀ e ∈ State.InstancedOutputs, VariationsWellFormed e.2) →
        ∀ e ∈ State'.InstancedOutputs, VariationsWellFormed e.2)
    ∧ (∀ (io io' : FHoudiniInstancedOutput) (At : Int) (obj : Option Nat),
        VariationsWellFormed io → AddObjectAt io At obj = some io' →
        VariationsWellFormed io')
    ∧ (∀ (io : FHoudiniInstancedOutput) (At : Int), VariationsWellFormed io →
        ∃ io', RemoveObjectAt io At = some io' ∧ VariationsWellFormed io')
    ∧ (∀ (io : FHoudiniInstancedOutput) (At : Int) (obj : Option Nat),
        VariationsWellFormed io → VariationsWellFormed (SetObjectAt io At obj))
    ∧ (∀ (io : FHoudiniInstancedOutput) (At : Int),
        io.VariationObjects.length = 1 → RemoveObjectAt io At = some io) := by
  refine ⟨?_, ?_, ?_, ?_, ?_, ?_, ?_⟩
  · intro obj i T
    exact ⟨by simp [createInstancedOutput], by simp [createInstancedOutput]⟩
  · intro W Found obj i T hl
    obtain ⟨Cur, hCur⟩ := updateInstancedOutput_total W Found obj i T hl
    obtain ⟨_, _, _, _, h5, h6⟩ := updateInstancedOutput_spec W Found Cur obj i T hCur
    exact ⟨Cur, hCur, h5, h6 hl⟩
  · intro W eps IdEq Id objs Ts State State' h hWF
    exact updateInstanceVariationLoop_wellFormed W eps IdEq Id Ts objs 0 State State' h hWF
  · intro io io' At obj hWF h
    simp only [AddObjectAt, InsertAt] at h
    by_cases hAt : 0 ≤ At ∧ At ≤ (io.VariationObjects.length : Int)
    · have hAt' : 0 ≤ At ∧ At ≤ (io.VariationTransformOffsets.length : Int) := by
        rw [hWF.2]; exact hAt
      simp only [hAt, hAt', and_self, if_true, Option.some.injEq] at h
      subst h
      apply VariationsWellFormed_UVA
      have hn : At.toNat ≤ io.VariationObjects.length := by omega
      have hn' : At.toNat ≤ io.VariationTransformOffsets.length := by omega
      have h2 := hWF.2
      rw [List.length_insertIdx _ _ hn, List.length_insertIdx _ _ hn']
      omega
    · simp [hAt] at h
  · intro io At hWF
    simp only [RemoveObjectAt]
    by_cases hAt : At < 0 ∨ At ≥ (io.VariationObjects.length : Int)
    · exact ⟨io, by simp [hAt], hWF⟩
    · by_cases h1 : io.VariationObjects.length = 1
      · exact ⟨io, by simp [hAt, h1], hWF⟩
      · have hn : At.toNat < io.VariationObjects.length := by omega
        have hn' : At.toNat < io.VariationTransformOffsets.length := by rw [hWF.2]; exact hn
        simp only [hAt, h1, if_false, RemoveAt, hn, hn', if_true]
        refine ⟨_, rfl, ?_⟩
        apply VariationsWellFormed_UVA
        have h3 := hWF.1
        have h2 := hWF.2
        simp only [List.length_eraseIdx, hn, hn', if_true]
        omega
  · intro io At obj hWF
    simp only [SetObjectAt]
    split
    · exact hWF
    · exact ⟨by simpa using hWF.1, by simpa using hWF.2⟩
  · intro io At h1
    simp only [RemoveObjectAt, h1]
    split
    · rfl
    · simp

/-- C16, concrete case: the instanced output created for object 7 with three transforms
satisfies the invariant, removing its only variation leaves it as it is, and adding a
variation at index 1 keeps the invariant. -/
theorem VariationsWellFormed_maintained_witness :
    VariationsWellFormed (createInstancedOutput 7 0 threeTransforms)
    ∧ RemoveObjectAt (createInstancedOutput 7 0 threeTransforms) 0
        = some (createInstancedOutput 7 0 threeTransforms)
    ∧ ∃ io', AddObjectAt (createInstancedOutput 7 0 threeTransforms) 1 (some 8) = some io'
        ∧ VariationsWellFormed io' :=
  ⟨VariationsWellFormed_maintained.1 7 0 threeTransforms,
   VariationsWellFormed_maintained.2.2.2.2.2.2 (createInstancedOutput 7 0 threeTransforms) 0 rfl,
   _, rfl,
   VariationsWellFormed_maintained.2.2.2.1 (createInstancedOutput 7 0 threeTransforms) _ 1
     (some 8) (VariationsWellFormed_maintained.1 7 0 threeTransforms) rfl⟩

theorem updateInstanceVariationObject_lengths (W : FObjectWorld) (eps : ℚ)
    (IdEq : FHoudiniOutputObjectIdentifier → FHoudiniOutputObjectIdentifier → Bool)
    (Id : FHoudiniOutputObjectIdentifier) (Ts : List (List FTransform)) (i : Nat)
    (Object : Option Nat) (State State' : FVariationState)
    (h : updateInstanceVariationObject W eps IdEq Id Ts i Object State = some State') :
    ∀ e ∈ State'.InstancedOutputs,
      (∃ e' ∈ State.InstancedOutputs, e'.2 = e.2)
      ∨ e.2.TransformVariationIndices.length = e.2.OriginalTransforms.length := by
  cases Object with
  | none =>
    simp only [updateInstanceVariationObject, Option.some.injEq] at h
    subst h; exact fun e he => Or.inl ⟨e, he, rfl⟩
  | some obj =>
    by_cases hpk : W.IsPendingKill obj = true
    · simp only [updateInstanceVariationObject, hpk, if_true, Option.some.injEq] at h
      subst h; exact fun e he => Or.inl ⟨e, he, rfl⟩
    · have hLive : W.IsPendingKill obj = false := by simpa using hpk
      obtain ⟨T, _, hcase⟩ := updateInstanceVariationObject_stored W eps IdEq Id Ts i obj
        State State' hLive h
      have hvals := scanInstancedOutputs_values IdEq
        { Id with SplitIdentifier := FromInt (i : Int) } State.InstancedOutputs 0 none
      intro e he
      rcases hcase with hc | ⟨n, k, Found, Cur, hn, hCur, hc⟩
      · rw [hc] at he
        rcases List.mem_append.mp he with h1 | h1
        · exact Or.inl (mem_values_of_mem _ _ e hvals h1)
        · simp only [List.mem_singleton] at h1
          subst h1
          exact Or.inr (by simp [createInstancedOutput, length_SetNumZeroed])
      · rw [hc] at he
        rcases List.mem_or_eq_of_mem_set he with h1 | h1
        · exact Or.inl (mem_values_of_mem _ _ e hvals h1)
        · subst h1
          obtain ⟨_, _, h3, h4, _, _⟩ := updateInstancedOutput_spec W Found Cur obj i T hCur
          exact Or.inr (by simp only [h3, h4])

theorem updateInstanceVariationLoop_lengths (W : FObjectWorld) (eps : ℚ)
    (IdEq : FHoudiniOutputObjectIdentifier → FHoudiniOutputObjectIdentifier → Bool)
    (Id : FHoudiniOutputObjectIdentifier) (Ts : List (List FTransform))
    (objs : List (Option Nat)) :
    ∀ (i : Nat) (State State' : FVariationState),
      updateInstanceVariationLoop W eps IdEq Id Ts objs i State = some State' →
      ∀ e ∈ State'.InstancedOutputs,
        (∃ e' ∈ State.InstancedOutputs, e'.2 = e.2)
        ∨ e.2.TransformVariationIndices.length = e.2.OriginalTransforms.length := by
  induction objs with
  | nil =>
    intro i State State' h
    simp only [updateInstanceVariationLoop, Option.some.injEq] at h
    subst h; exact fun e he => Or.inl ⟨e, he, rfl⟩
  | cons o rest ih =>
    intro i State State' h e he
    simp only [updateInstanceVariationLoop] at h
    split at h
    · exact absurd h (by simp)
    · rename_i State1 h1
      rcases ih (i + 1) State1 State' h e he with ⟨e1, he1, heq⟩ | hlen
      · rcases updateInstanceVariationObject_lengths W eps IdEq Id Ts i o State State1 h1
          e1 he1 with ⟨e0, he0, heq0⟩ | hlen
        · exact Or.inl ⟨e0, he0, heq0.trans heq⟩
        · rw [heq] at hlen; exact Or.inr hlen
      · exact Or.inr hlen

/-- C17: after `UpdateVariationAssignements`, after the editor's add-variation, and after
a remove-variation that changes the instanced output, `TransformVariationIndices` has the
length of `OriginalTransforms`; one pass of `UpdateInstanceVariationObjects` over a live
object stores an instanced output that holds the given transforms and as many indices;
and after the whole function every entry of the map is either an entry it had before or
has the two lengths equal. -/
theorem TransformVariationIndices_length :
    (∀ io : FHoudiniInstancedOutput,
      (UpdateVariationAssignements io).TransformVariationIndices.length
        = (UpdateVariationAssignements io).OriginalTransforms.length)
    ∧ (∀ (io io' : FHoudiniInstancedOutput) (At : Int) (obj : Option Nat),
        AddObjectAt io At obj = some io' →
        io'.TransformVariationIndices.length = io'.OriginalTransforms.length)
    ∧ (∀ (io io' : FHoudiniInstancedOutput) (At : Int),
        RemoveObjectAt io At = some io' →
        io' = io ∨ io'.TransformVariationIndices.length = io'.OriginalTransforms.length)
    ∧ (∀ (W : FObjectWorld) (eps : ℚ)
        (IdEq : FHoudiniOutputObjectIdentifier → FHoudiniOutputObjectIdentifier → Bool)
        (Id : FHoudiniOutputObjectIdentifier) (Ts : List (List FTransform)) (i obj : Nat)
        (State State' : FVariationState),
        W.IsPendingKill obj = false →
        updateInstanceVariationObject W eps IdEq Id Ts i (some obj) State = some State' →
        ∃ T e, Ts[i]? = some T ∧ e ∈ State'.InstancedOutputs
          ∧ e.2.OriginalObject = some obj ∧ e.2.OriginalTransforms = T
          ∧ e.2.TransformVariationIndices.length = T.length)
    ∧ (∀ (W : FObjectWorld) (eps : ℚ)
        (IdEq : FHoudiniOutputObjectIdentifier → FHoudiniOutputObjectIdentifier → Bool)
        (Id : FHoudiniOutputObjectIdentifier) (objs : List (Option Nat))
        (Ts : List (List FTransform)) (State State' : FVariationState),
        UpdateInstanceVariationObjects W eps IdEq Id objs Ts State = some State' →
        ∀ e ∈ State'.InstancedOutputs,
          (∃ e' ∈ State.InstancedOutputs, e'.2 = e.2)
          ∨ e.2.TransformVariationIndices.length = e.2.OriginalTransforms.length) := by
  refine ⟨?_, ?_, ?_, ?_, ?_⟩
  · intro io
    rw [UVA_length, UVA_OriginalTransforms]
  · intro io io' At obj h
    simp only [AddObjectAt] at h
    split at h
    · simp only [Option.some.injEq] at h
      subst h
      simp only [UVA_length, UVA_OriginalTransforms]
    · exact absurd h (by simp)
  · intro io io' At h
    simp only [RemoveObjectAt] at h
    split at h
    · exact Or.inl (Option.some.inj h).symm
    · split at h
      · exact Or.inl (Option.some.inj h).symm
      · split at h
        · simp only [Option.some.injEq] at h
          subst h
          exact Or.inr (by simp only [UVA_length, UVA_OriginalTransforms])
        · exact absurd h (by simp)
  · intro W eps IdEq Id Ts i obj State State' hLive h
    obtain ⟨T, hT, hcase⟩ := updateInstanceVariationObject_stored W eps IdEq Id Ts i obj
      State State' hLive h
    rcases hcase with hc | ⟨n, k, Found, Cur, hn, hCur, hc⟩
    · refine ⟨T, ({ Id with SplitIdentifier := FromInt (i : Int) },
          createInstancedOutput obj (i : Int) T), hT, ?_, rfl, rfl, ?_⟩
      · rw [hc]; simp
      · simp [createInstancedOutput, length_SetNumZeroed]
    · obtain ⟨h1, _, h3, h4, _, _⟩ := updateInstancedOutput_spec W Found Cur obj i T hCur
      refine ⟨T, (k, { Cur with bChanged := false, bStale := false }), hT, ?_, h1, h3, h4⟩
      rw [hc]
      have hlt : n < (scanInstancedOutputs IdEq { Id with SplitIdentifier := FromInt (i : Int) }
          State.InstancedOutputs 0 none).1.length := by
        by_contra hge
        rw [List.getElem?_eq_none (by omega)] at hn
        exact absurd hn (by simp)
      exact List.mem_set _ _ hlt _
  · intro W eps IdEq Id objs Ts State State' h
    exact updateInstanceVariationLoop_lengths W eps IdEq Id Ts objs 0 State State' h

/-- C17, concrete case: adding a variation to a single-variation instanced output whose
index array was out of date gives one whose index array has the length of its original
transforms. -/
theorem TransformVariationIndices_length_witness :
    (UpdateVariationAssignements witnessSingle).TransformVariationIndices.length
        = (UpdateVariationAssignements witnessSingle).OriginalTransforms.length
    ∧ ∃ io', AddObjectAt witnessSingle 1 (some 9) = some io'
        ∧ io'.TransformVariationIndices.length = io'.OriginalTransforms.length :=
  ⟨TransformVariationIndices_length.1 witnessSingle, _, rfl,
   TransformVariationIndices_length.2.1 witnessSingle _ 1 (some 9) rfl⟩

/-- C20: when the object is live, no entry of the map compares equal to the identifier
with split identifier decimal `i`, and `T` is the transform set number `i`, one pass of
`UpdateInstanceVariationObjects` returns, appends to the map under that identifier the
instanced output (object, `i`, `T`, one variation = the object, identity offset, `N`
zeros, not changed, not stale), and appends exactly the tuple (object, `T`, `i`, 0) to the
four output arrays. -/
theorem UpdateInstanceVariationObjects_creates (W : FObjectWorld) (eps : ℚ)
    (IdEq : FHoudiniOutputObjectIdentifier → FHoudiniOutputObjectIdentifier → Bool)
    (Id : FHoudiniOutputObjectIdentifier) (Ts : List (List FTransform)) (i obj : Nat)
    (T : List FTransform) (State : FVariationState)
    (hLive : W.IsPendingKill obj = false)
    (hAbsent : ∀ e ∈ State.InstancedOutputs,
      IdEq e.1 { Id with SplitIdentifier := FromInt (i : Int) } = false)
    (hT : Ts[i]? = some T) :
    updateInstanceVariationObject W eps IdEq Id Ts i (some obj) State
      = some
          { InstancedOutputs :=
              State.InstancedOutputs ++
                [({ Id with SplitIdentifier := FromInt (i : Int) },
                  { OriginalObject := some obj,
                    OriginalObjectIndex := (i : Int),
                    OriginalTransforms := T,
                    VariationObjects := [some obj],
                    VariationTransformOffsets := [FTransform.Identity],
                    TransformVariationIndices := List.replicate T.length 0,
                    bChanged := false,
                    bStale := false })],
            Out :=
              { VariationsInstancedObjects :=
                  State.Out.VariationsInstancedObjects ++ [some obj],
                VariationsInstancedTransforms :=
                  State.Out.VariationsInstancedTransforms ++ [T],
                VariationOriginalObjectIdx :=
                  State.Out.VariationOriginalObjectIdx ++ [(i : Int)],
                VariationIndices := State.Out.VariationIndices ++ [0] } } := by
  simp only [updateInstanceVariationObject, hLive, Bool.false_eq_true, if_false,
    scanInstancedOutputs_none IdEq _ State.InstancedOutputs 0 none hAbsent, hT,
    createInstancedOutput, SetNumZeroed_nil, FVariationArrays.Add]

/-- C20, concrete case: with an empty map, object 7 and three transforms, the first pass
stores one instanced output and emits the tuple (7, the three transforms, 0, 0). -/
theorem UpdateInstanceVariationObjects_creates_witness :
    updateInstanceVariationObject liveWorld (1 / 1000) (fun a b => decide (a = b))
        partIdentifier [threeTransforms] 0 (some 7) emptyVariationState
      = some
          { InstancedOutputs :=
              [({ partIdentifier with SplitIdentifier := FromInt ((0 : Nat) : Int) },
                { OriginalObject := some 7,
                  OriginalObjectIndex := 0,
                  OriginalTransforms := threeTransforms,
                  VariationObjects := [some 7],
                  VariationTransformOffsets := [FTransform.Identity],
                  TransformVariationIndices := [0, 0, 0],
                  bChanged := false,
                  bStale := false })],
            Out :=
              { VariationsInstancedObjects := [some 7],
                VariationsInstancedTransforms := [threeTransforms],
                VariationOriginalObjectIdx := [0],
                VariationIndices := [0] } }
    ∧ FromInt ((0 : Nat) : Int) = "0" :=
  ⟨UpdateInstanceVariationObjects_creates liveWorld (1 / 1000) (fun a b => decide (a = b))
      partIdentifier [threeTransforms] 0 7 threeTransforms emptyVariationState rfl
      (fun _ h => absurd h (List.not_mem_nil _)) rfl,
   by simp [FromInt, decimalDigits]⟩

/-! ## Split identifiers of variations -/

theorem digitChar_ne_underscore (d : Nat) (h : d < 10) : Nat.digitChar d ≠ '_' := by
  interval_cases d <;> decide

theorem digitChar_inj (a b : Nat) (ha : a < 10) (hb : b < 10)
    (h : Nat.digitChar a = Nat.digitChar b) : a = b := by
  interval_cases a <;> interval_cases b <;> first | rfl | (exact absurd h (by decide))

theorem map_digitChar_inj : ∀ (l1 l2 : List Nat), (∀ x ∈ l1, x < 10) → (∀ x ∈ l2, x < 10) →
    l1.map Nat.digitChar = l2.map Nat.digitChar → l1 = l2
  | [], [], _, _, _ => rfl
  | [], _ :: _, _, _, h => by simp at h
  | _ :: _, [], _, _, h => by simp at h
  | a :: l1, b :: l2, h1, h2, h => by
    simp only [List.map_cons, List.cons.injEq] at h
    have hab := digitChar_inj a b (h1 a (List.mem_cons_self _ _)) (h2 b (List.mem_cons_self _ _))
      h.1
    have := map_digitChar_inj l1 l2 (fun x hx => h1 x (List.mem_cons_of_mem _ hx))
      (fun x hx => h2 x (List.mem_cons_of_mem _ hx)) h.2
    rw [hab, this]

theorem decimalDigits_eq (n : Nat) :
    decimalDigits n = (decimalDigitValues n).map Nat.digitChar := by
  unfold decimalDigits decimalDigitValues
  split <;> rfl

theorem decimalDigitValues_lt (n : Nat) : ∀ x ∈ decimalDigitValues n, x < 10 := by
  intro x hx
  unfold decimalDigitValues at hx
  split at hx
  · simp only [List.mem_singleton] at hx; omega
  · exact Nat.digits_lt_base (by norm_num) (List.mem_reverse.mp hx)

theorem decimalDigitValues_inj (n m : Nat) (h : decimalDigitValues n = decimalDigitValues m) :
    n = m := by
  have key : ∀ k, Nat.ofDigits 10 (decimalDigitValues k).reverse = k := by
    intro k
    unfold decimalDigitValues
    split
    · rename_i hk; subst hk; simp [Nat.ofDigits]
    · rw [List.reverse_reverse, Nat.ofDigits_digits]
  rw [← key n, ← key m, h]

theorem decimalDigits_inj (n m : Nat) (h : decimalDigits n = decimalDigits m) : n = m := by
  rw [decimalDigits_eq, decimalDigits_eq] at h
  exact decimalDigitValues_inj n m
    (map_digitChar_inj _ _ (decimalDigitValues_lt n) (decimalDigitValues_lt m) h)

theorem underscore_not_mem_decimalDigits (n : Nat) : '_' ∉ decimalDigits n := by
  rw [decimalDigits_eq]
  intro h
  obtain ⟨d, hd, hc⟩ := List.mem_map.mp h
  exact digitChar_ne_underscore d (decimalDigitValues_lt n d hd) hc

theorem append_separator_inj {α : Type} (c : α) :
    ∀ (l1 l2 r1 r2 : List α), c ∉ l1 → c ∉ l2 → l1 ++ c :: r1 = l2 ++ c :: r2 →
      l1 = l2 ∧ r1 = r2
  | [], [], _, _, _, _, h => by simpa using h
  | [], b :: l2, _, _, _, h2, h => by
    simp only [List.nil_append, List.cons_append, List.cons.injEq] at h
    exact absurd (h.1 ▸ List.mem_cons_self _ _) h2
  | a :: l1, [], _, _, h1, _, h => by
    simp only [List.nil_append, List.cons_append, List.cons.injEq] at h
    exact absurd (h.1 ▸ List.mem_cons_self _ _) h1
  | a :: l1, b :: l2, r1, r2, h1, h2, h => by
    simp only [List.cons_append, List.cons.injEq] at h
    have := append_separator_inj c l1 l2 r1 r2
      (fun hm => h1 (List.mem_cons_of_mem _ hm)) (fun hm => h2 (List.mem_cons_of_mem _ hm)) h.2
    exact ⟨by rw [h.1, this.1], this.2⟩

theorem FromInt_data_of_nonneg (n : Int) (h : 0 ≤ n) :
    (FromInt n).data = decimalDigits n.toNat := by
  unfold FromInt
  rw [if_neg (by omega)]

theorem variationSplitIdentifier_data (a b : Int) (ha : 0 ≤ a) (hb : 0 ≤ b) :
    (variationSplitIdentifier a b).data
      = decimalDigits a.toNat ++ '_' :: decimalDigits b.toNat := by
  unfold variationSplitIdentifier
  rw [String.data_append, String.data_append, FromInt_data_of_nonneg a ha,
    FromInt_data_of_nonneg b hb]
  simp

/-- C18: the split identifier of a variation is the decimal original-object index, an
underscore and the decimal variation index; for non-negative indices two variations get
the same split identifier only if they have the same original-object index and the same
variation index, so the identifiers of two different variations of a part differ, and
they are unequal under every identifier comparison that requires equal split
identifiers. -/
theorem variationSplitIdentifier_injective (a b a' b' : Int)
    (ha : 0 ≤ a) (hb : 0 ≤ b) (ha' : 0 ≤ a') (hb' : 0 ≤ b') :
    (variationSplitIdentifier a b).data
        = decimalDigits a.toNat ++ '_' :: decimalDigits b.toNat
    ∧ (variationSplitIdentifier a b = variationSplitIdentifier a' b' → a = a' ∧ b = b')
    ∧ (∀ Id : FHoudiniOutputObjectIdentifier,
        variationIdentifier Id a b = variationIdentifier Id a' b' → a = a' ∧ b = b')
    ∧ (∀ (IdEq : FHoudiniOutputObjectIdentifier → FHoudiniOutputObjectIdentifier → Bool)
        (Id : FHoudiniOutputObjectIdentifier),
        (∀ x y, IdEq x y = true → x.SplitIdentifier = y.SplitIdentifier) →
        IdEq (variationIdentifier Id a b) (variationIdentifier Id a' b') = true →
        a = a' ∧ b = b') := by
  have hinj : variationSplitIdentifier a b = variationSplitIdentifier a' b' →
      a = a' ∧ b = b' := by
    intro h
    have hd := congrArg String.data h
    rw [variationSplitIdentifier_data a b ha hb,
      variationSplitIdentifier_data a' b' ha' hb'] at hd
    obtain ⟨h1, h2⟩ := append_separator_inj '_' _ _ _ _
      (underscore_not_mem_decimalDigits _) (underscore_not_mem_decimalDigits _) hd
    have e1 := decimalDigits_inj _ _ h1
    have e2 := decimalDigits_inj _ _ h2
    omega
  refine ⟨variationSplitIdentifier_data a b ha hb, hinj, ?_, ?_⟩
  · intro Id h
    exact hinj (congrArg FHoudiniOutputObjectIdentifier.SplitIdentifier h)
  · intro IdEq Id hEq h
    exact hinj (hEq _ _ h)

/-- C18, concrete case: variation 2 of original object 1 gets the split identifier "1_2",
and it shares its split identifier with variation 2 of original object 1 only. -/
theorem variationSplitIdentifier_injective_witness :
    variationSplitIdentifier 1 2 = "1_2"
    ∧ (variationSplitIdentifier 1 2 = variationSplitIdentifier 12 0 → (1 : Int) = 12 ∧ (2 : Int) = 0) :=
  ⟨by simp [variationSplitIdentifier, FromInt, decimalDigits]; rfl,
   (variationSplitIdentifier_injective 1 2 12 0 (by decide) (by decide) (by decide)
      (by decide)).2.1⟩

/-! ## The classifier: objects and transform sets of an instancer part -/

theorem fetchInstancedObjects_total (Context : FClassifierContext)
    (All : List (Option UHoudiniOutput)) (Ts : List (List FTransform)) :
    ∀ (HGPOs : List FHoudiniGeoPartObject) (i : Nat)
      (Out : List (Option Nat) × List (List FTransform)),
      i + HGPOs.length ≤ Ts.length →
      ∃ r, fetchInstancedObjects Context All Ts HGPOs i Out = some r := by
  intro HGPOs
  induction HGPOs with
  | nil => intro i Out _; exact ⟨Out, rfl⟩
  | cons h rest ih =>
    intro i Out hlen
    simp only [List.length_cons] at hlen
    simp only [fetchInstancedObjects]
    split
    · exact ih (i + 1) Out (by omega)
    · have hi : i < Ts.length := by omega
      rw [List.getElem?_eq_getElem hi]
      exact ih (i + 1) _ (by omega)

theorem oldSchoolLoop_lengths (All : List (Option UHoudiniOutput)) (Ids : List Int)
    (Ts : List FTransform) :
    ∀ (Unique : List Int) (Out : List FHoudiniGeoPartObject × List (List FTransform)),
      Out.2.length = Out.1.length →
      (oldSchoolLoop All Ids Ts Unique Out).2.length
        = (oldSchoolLoop All Ids Ts Unique Out).1.length := by
  intro Unique
  induction Unique with
  | nil => intro Out h; exact h
  | cons x rest ih =>
    intro Out h
    simp only [oldSchoolLoop]
    apply ih
    simp [h]

theorem classifyByType_lengths (Context : FClassifierContext) (InHGPO : FHoudiniGeoPartObject)
    (All : List (Option UHoudiniOutput)) :
    (classifyByType Context InHGPO All).2.2.2.length
      = (classifyByType Context InHGPO All).2.2.1.length := by
  unfold classifyByType
  cases hT : InHGPO.InstancerType
  · rfl
  · simp only [GetObjectInstancerHGPOsAndTransforms]
    split
    · rfl
    · split
      · rfl
      · split
        · rfl
        · simp
  · simp only [GetPackedPrimitiveInstancerHGPOsAndTransforms]
    split
    · rfl
    · split
      · rfl
      · split
        · rfl
        · simp
  · rfl
  · simp only [GetOldSchoolAttributeInstancerHGPOsAndTransforms]
    split
    · rfl
    · split
      · rfl
      · split
        · rfl
        · have := oldSchoolLoop_lengths All
            ((List.range InHGPO.PartInfo.PointCount.toNat).map ‹Nat → Int›)
            (HapiGetInstanceTransforms Context InHGPO []).2
            (TSetOf ((List.range InHGPO.PartInfo.PointCount.toNat).map ‹Nat → Int›))
            ([], []) rfl
          split <;> exact this

theorem classifyByType_Invalid (Context : FClassifierContext) (InHGPO : FHoudiniGeoPartObject)
    (All : List (Option UHoudiniOutput)) (h : InHGPO.InstancerType = .Invalid) :
    (classifyByType Context InHGPO All).1 = false := by
  unfold classifyByType
  rw [h]

/-- C12: `GetInstancerObjectsAndTransforms` returns; when it returns true the object list
it gives back is not empty and the list of transform sets has the same length; when it
returns false the two output arrays are as they were passed in; and it returns false for
a part whose instancer tag is none of the four schemes. -/
theorem GetInstancerObjectsAndTransforms_contract (Context : FClassifierContext)
    (InHGPO : FHoudiniGeoPartObject) (InAllOutputs : List (Option UHoudiniOutput))
    (OutInstancedObjects : List (Option Nat)) (OutInstancedTransforms : List (List FTransform)) :
    ∃ r, GetInstancerObjectsAndTransforms Context InHGPO InAllOutputs OutInstancedObjects
          OutInstancedTransforms = some r
      ∧ (r.bSuccess = true →
          r.OutInstancedObjects ≠ []
          ∧ r.OutInstancedTransforms.length = r.OutInstancedObjects.length)
      ∧ (r.bSuccess = false →
          r.OutInstancedObjects = OutInstancedObjects
          ∧ r.OutInstancedTransforms = OutInstancedTransforms)
      ∧ (InHGPO.InstancerType = .Invalid → r.bSuccess = false) := by
  simp only [GetInstancerObjectsAndTransforms]
  by_cases hs : (classifyByType Context InHGPO InAllOutputs).1 = true
  · have hInv : InHGPO.InstancerType ≠ .Invalid := by
      intro h
      rw [classifyByType_Invalid Context InHGPO InAllOutputs h] at hs
      exact absurd hs (by simp)
    simp only [hs, Bool.not_true, Bool.false_eq_true, if_false]
    have hf : ∃ r, (if (classifyByType Context InHGPO InAllOutputs).2.2.1.length > 0 then
          fetchInstancedObjects Context InAllOutputs
            (classifyByType Context InHGPO InAllOutputs).2.2.2
            (classifyByType Context InHGPO InAllOutputs).2.2.1 0
            (classifyByType Context InHGPO InAllOutputs).2.1
        else some (classifyByType Context InHGPO InAllOutputs).2.1) = some r := by
      split
      · exact fetchInstancedObjects_total Context InAllOutputs _ _ 0 _
          (by rw [classifyByType_lengths]; omega)
      · exact ⟨_, rfl⟩
    obtain ⟨⟨objs, ts⟩, hr⟩ := hf
    rw [hr]
    by_cases hc : objs.length ≤ 0 ∨ ts.length ≠ objs.length
    · simp only [hc, if_true]
      exact ⟨_, rfl, by simp, fun _ => ⟨rfl, rfl⟩, fun h => absurd h hInv⟩
    · simp only [hc, if_false]
      refine ⟨_, rfl, fun _ => ⟨?_, ?_⟩, by simp, fun h => absurd h hInv⟩
      · intro he
        have he' : objs = [] := he
        apply hc
        left
        simp [he']
      · by_contra hne
        exact hc (Or.inr hne)
  · have hs' : (classifyByType Context InHGPO InAllOutputs).1 = false := by simpa using hs
    simp only [hs', Bool.not_false, if_true]
    exact ⟨_, rfl, by simp, fun _ => ⟨rfl, rfl⟩, fun _ => rfl⟩

theorem fetchInstancedObjects_eq (Context : FClassifierContext)
    (All : List (Option UHoudiniOutput)) (Ts : List (List FTransform)) (T : List FTransform) :
    ∀ (HGPOs : List FHoudiniGeoPartObject) (i : Nat)
      (Out : List (Option Nat) × List (List FTransform)),
      (∀ j, i ≤ j → j < i + HGPOs.length → Ts[j]? = some T) →
      fetchInstancedObjects Context All Ts HGPOs i Out
        = some
            (Out.1 ++ HGPOs.flatMap (fun h =>
                (matchingOutputObjects Context All h).flatMap
                  (objectToInstance Context T.length)),
             Out.2 ++ (HGPOs.flatMap (fun h =>
                (matchingOutputObjects Context All h).flatMap
                  (objectToInstance Context T.length))).map (fun _ => T)) := by
  intro HGPOs
  induction HGPOs with
  | nil => intro i Out _; simp [fetchInstancedObjects]
  | cons h rest ih =>
    intro i Out hT
    have hrest : ∀ j, i + 1 ≤ j → j < i + 1 + rest.length → Ts[j]? = some T := by
      intro j h1 h2
      exact hT j (by omega) (by simp only [List.length_cons]; omega)
    simp only [fetchInstancedObjects]
    split
    · rename_i hm
      rw [ih (i + 1) Out hrest]
      simp [hm]
    · rename_i a l hm
      rw [hT i (Nat.le_refl _) (by simp only [List.length_cons]; omega)]
      simp only
      rw [ih (i + 1) _ hrest]
      simp [hm, List.append_assoc]
      omega

theorem translateTransforms_length (Context : FClassifierContext) (B : Nat → HAPI_Transform)
    (n : Nat) : (translateTransforms Context B n).length = n := by
  simp [translateTransforms]

theorem length_flatMap_of_singletons {α β : Type} (f : α → List β) :
    ∀ l : List α, (∀ x ∈ l, (f x).length = 1) → (l.flatMap f).length = l.length
  | [], _ => rfl
  | a :: l, h => by
    rw [List.flatMap_cons, List.length_append, h a (List.mem_cons_self _ _),
      length_flatMap_of_singletons f l (fun x hx => h x (List.mem_cons_of_mem _ hx))]
    simp [Nat.add_comm]

theorem GetPackedPrimitiveInstancerHGPOsAndTransforms_eq (Context : FClassifierContext)
    (InHGPO : FHoudiniGeoPartObject) (Tr : Nat → HAPI_Transform) (Ids : Nat → Int)
    (hType : InHGPO.InstancerType = .PackedPrimitive)
    (hTr : Context.GetInstancerPartTransforms InHGPO.GeoId InHGPO.PartInfo.PartId = some Tr)
    (hIds : Context.GetInstancedPartIds InHGPO.GeoId InHGPO.PartInfo.PartId = some Ids) :
    GetPackedPrimitiveInstancerHGPOsAndTransforms Context InHGPO [] []
      = ⟨true,
         (List.range InHGPO.PartInfo.InstancedPartCount).map
           (fun k => instancedPart Context InHGPO (Ids k)),
         List.replicate InHGPO.PartInfo.InstancedPartCount
           (translateTransforms Context Tr InHGPO.PartInfo.InstanceCount)⟩ := by
  simp only [GetPackedPrimitiveInstancerHGPOsAndTransforms, hType, ne_eq, not_true_eq_false,
    if_false, hTr, hIds, List.nil_append, List.map_map]
  congr 1
  simp [List.eq_replicate_iff]

/-- C13 (amended): for a packed-primitive part with `N` instancer transforms and `M`
instanced sub-parts whose two queries succeed, the first stage returns the `M` sub-parts,
each paired with all `N` transforms in order; the classifier returns, in sub-part order,
one object for each live object that a matching mesh output object contributes, each paired
with all `N` transforms, and returns false when there is none; and it returns `M` objects
when every sub-part is matched by exactly one such object. -/
theorem GetInstancerObjectsAndTransforms_packed (Context : FClassifierContext)
    (InHGPO : FHoudiniGeoPartObject) (InAllOutputs : List (Option UHoudiniOutput))
    (OutInstancedObjects : List (Option Nat)) (OutInstancedTransforms : List (List FTransform))
    (Tr : Nat → HAPI_Transform) (Ids : Nat → Int)
    (hType : InHGPO.InstancerType = .PackedPrimitive)
    (hTr : Context.GetInstancerPartTransforms InHGPO.GeoId InHGPO.PartInfo.PartId = some Tr)
    (hIds : Context.GetInstancedPartIds InHGPO.GeoId InHGPO.PartInfo.PartId = some Ids) :
    GetPackedPrimitiveInstancerHGPOsAndTransforms Context InHGPO [] []
        = ⟨true,
           (List.range InHGPO.PartInfo.InstancedPartCount).map
             (fun k => instancedPart Context InHGPO (Ids k)),
           List.replicate InHGPO.PartInfo.InstancedPartCount
             (translateTransforms Context Tr InHGPO.PartInfo.InstanceCount)⟩
    ∧ (translateTransforms Context Tr InHGPO.PartInfo.InstanceCount).length
        = InHGPO.PartInfo.InstanceCount
    ∧ GetInstancerObjectsAndTransforms Context InHGPO InAllOutputs OutInstancedObjects
          OutInstancedTransforms
        = some
            (if packedPrimitiveObjects Context InHGPO InAllOutputs Ids = [] then
              ⟨false, OutInstancedObjects, OutInstancedTransforms⟩
            else
              ⟨true, packedPrimitiveObjects Context InHGPO InAllOutputs Ids,
               List.replicate (packedPrimitiveObjects Context InHGPO InAllOutputs Ids).length
                 (translateTransforms Context Tr InHGPO.PartInfo.InstanceCount)⟩)
    ∧ ((∀ k, k < InHGPO.PartInfo.InstancedPartCount →
          ((matchingOutputObjects Context InAllOutputs
              (instancedPart Context InHGPO (Ids k))).flatMap
            (objectToInstance Context InHGPO.PartInfo.InstanceCount)).length = 1) →
        (packedPrimitiveObjects Context InHGPO InAllOutputs Ids).length
          = InHGPO.PartInfo.InstancedPartCount) := by
  have hP := GetPackedPrimitiveInstancerHGPOsAndTransforms_eq Context InHGPO Tr Ids hType hTr hIds
  refine ⟨hP, translateTransforms_length _ _ _, ?_, ?_⟩
  · have hC : classifyByType Context InHGPO InAllOutputs
        = (true, ([], []),
           ((List.range InHGPO.PartInfo.InstancedPartCount).map
              (fun k => instancedPart Context InHGPO (Ids k)),
            List.replicate InHGPO.PartInfo.InstancedPartCount
              (translateTransforms Context Tr InHGPO.PartInfo.InstanceCount))) := by
      simp only [classifyByType, hType, hP]
    have hF := fetchInstancedObjects_eq Context InAllOutputs
      (List.replicate InHGPO.PartInfo.InstancedPartCount
        (translateTransforms Context Tr InHGPO.PartInfo.InstanceCount))
      (translateTransforms Context Tr InHGPO.PartInfo.InstanceCount)
      ((List.range InHGPO.PartInfo.InstancedPartCount).map
        (fun k => instancedPart Context InHGPO (Ids k))) 0 ([], [])
      (by
        intro j _ hj
        simp only [List.length_map, List.length_range, Nat.zero_add] at hj
        simp [List.getElem?_replicate, hj])
    have hObjs : (List.map (fun k => instancedPart Context InHGPO (Ids k))
          (List.range InHGPO.PartInfo.InstancedPartCount)).flatMap (fun h =>
            (matchingOutputObjects Context InAllOutputs h).flatMap
              (objectToInstance Context
                (translateTransforms Context Tr InHGPO.PartInfo.InstanceCount).length))
        = packedPrimitiveObjects Context InHGPO InAllOutputs Ids := by
      simp only [packedPrimitiveObjects, translateTransforms_length, List.flatMap_map,
        List.map_map]
    rw [hObjs] at hF
    simp only [GetInstancerObjectsAndTransforms, hC, Bool.not_true, Bool.false_eq_true,
      if_false]
    by_cases hM : InHGPO.PartInfo.InstancedPartCount = 0
    · have hE : packedPrimitiveObjects Context InHGPO InAllOutputs Ids = [] := by
        simp [packedPrimitiveObjects, hM]
      simp [hM, hE]
    · have hpos : (List.map (fun k => instancedPart Context InHGPO (Ids k))
          (List.range InHGPO.PartInfo.InstancedPartCount)).length > 0 := by
        simp only [List.length_map, List.length_range]; omega
      simp only [hpos, if_true, hF, List.nil_append]
      by_cases hE : packedPrimitiveObjects Context InHGPO InAllOutputs Ids = []
      · simp [hE]
      · have hlen : ¬ (packedPrimitiveObjects Context InHGPO InAllOutputs Ids).length ≤ 0 := by
          intro h0
          exact hE (List.length_eq_zero.mp (by omega))
        simp [hE, hlen, List.eq_replicate_iff]
  · intro hOne
    unfold packedPrimitiveObjects
    rw [length_flatMap_of_singletons]
    · simp
    · intro x hx
      obtain ⟨k, hk, rfl⟩ := List.mem_map.mp hx
      exact hOne k (List.mem_range.mp hk)

/-- C12, concrete case: for a part without instancer tag the classifier returns false and
gives back the arrays it was passed. -/
theorem GetInstancerObjectsAndTransforms_contract_witness :
    ∃ r, GetInstancerObjectsAndTransforms sampleContext emptyGeoPartObject [] [some 3] [[]]
          = some r
      ∧ r.bSuccess = false ∧ r.OutInstancedObjects = [some 3]
      ∧ r.OutInstancedTransforms = [[]] := by
  obtain ⟨r, h1, _, h3, h4⟩ :=
    GetInstancerObjectsAndTransforms_contract sampleContext emptyGeoPartObject [] [some 3] [[]]
  exact ⟨r, h1, h4 rfl, (h3 (h4 rfl)).1, (h3 (h4 rfl)).2⟩

/-- C13, concrete case: with the sub-part matched by one mesh output object the classifier
returns that one object paired with the two instancer transforms. -/
theorem GetInstancerObjectsAndTransforms_packed_witness :
    GetInstancerObjectsAndTransforms sampleContext packedPart [some meshOutput] [] []
      = some ⟨true, [some 7], [translateTransforms sampleContext movedTransform 2]⟩ :=
  ((GetInstancerObjectsAndTransforms_packed sampleContext packedPart [some meshOutput] [] []
    movedTransform (fun k => (k : Int) + 10) rfl rfl rfl).2.2.1).trans (by rfl)

/-- C13 as stated fails: the part has two instancer transforms and one instanced sub-part,
both queries succeed, and no output matches the sub-part; the classifier returns false and
no object. -/
theorem GetInstancerObjectsAndTransforms_packed_counterexample :
    packedPart.InstancerType = .PackedPrimitive
    ∧ packedPart.PartInfo.InstanceCount = 2 ∧ packedPart.PartInfo.InstancedPartCount = 1
    ∧ GetInstancerObjectsAndTransforms sampleContext packedPart [] [] []
        = some ⟨false, [], []⟩ :=
  ⟨rfl, rfl, rfl, by rfl⟩

theorem collectObjectsToInstance_spec (Context : FClassifierContext) (S : List String)
    (hKey : ∀ a ∈ S, ∀ b ∈ S, Context.FStringKeyEquals a b = decide (a = b)) :
    ∀ (rest : List String) (m : List (String × Option Nat)),
      (∀ v ∈ rest, v ∈ S) → (∀ e ∈ m, e.1 ∈ S) → (m.map Prod.fst).Nodup →
      (∀ e ∈ m, e.2 = Context.StaticLoadObject e.1) →
      ((collectObjectsToInstance Context rest m).map Prod.fst).Nodup
      ∧ (∀ e ∈ collectObjectsToInstance Context rest m, e.2 = Context.StaticLoadObject e.1)
      ∧ (∀ k, k ∈ (collectObjectsToInstance Context rest m).map Prod.fst
            ↔ k ∈ m.map Prod.fst ∨ k ∈ rest) := by
  intro rest
  induction rest with
  | nil =>
    intro m _ _ hnd hload
    exact ⟨hnd, hload, fun k => by simp [collectObjectsToInstance]⟩
  | cons v rest ih =>
    intro m hrest hm hnd hload
    have hv : v ∈ S := hrest v (List.mem_cons_self _ _)
    have hrest' : ∀ w ∈ rest, w ∈ S := fun w hw => hrest w (List.mem_cons_of_mem _ hw)
    have hany : (m.any (fun e => Context.FStringKeyEquals e.1 v)) = true
        ↔ v ∈ m.map Prod.fst := by
      rw [List.any_eq_true]
      constructor
      · rintro ⟨e, he, hk⟩
        rw [hKey e.1 (hm e he) v hv] at hk
        have : e.1 = v := by simpa using hk
        exact List.mem_map.mpr ⟨e, he, this⟩
      · intro hmem
        obtain ⟨e, he, hk⟩ := List.mem_map.mp hmem
        exact ⟨e, he, by rw [hKey e.1 (hm e he) v hv]; simpa using hk⟩
    simp only [collectObjectsToInstance]
    by_cases hc : (m.any (fun e => Context.FStringKeyEquals e.1 v)) = true
    · rw [if_pos hc]
      obtain ⟨h1, h2, h3⟩ := ih m hrest' hm hnd hload
      refine ⟨h1, h2, fun k => ?_⟩
      rw [h3 k]
      constructor
      · rintro (h | h)
        · exact Or.inl h
        · exact Or.inr (List.mem_cons_of_mem _ h)
      · rintro (h | h)
        · exact Or.inl h
        · rcases List.mem_cons.mp h with h | h
          · exact Or.inl (h ▸ hany.mp hc)
          · exact Or.inr h
    · rw [if_neg hc]
      have hnot : v ∉ m.map Prod.fst := fun h => hc (hany.mpr h)
      obtain ⟨h1, h2, h3⟩ := ih (m ++ [(v, Context.StaticLoadObject v)]) hrest'
        (by
          intro e he
          rcases List.mem_append.mp he with h | h
          · exact hm e h
          · simp only [List.mem_singleton] at h; subst h; exact hv)
        (by
          rw [List.map_append, List.nodup_append]
          refine ⟨hnd, by simp, ?_⟩
          intro a ha hb
          simp only [List.map_cons, List.map_nil, List.mem_singleton] at hb
          subst hb
          exact hnot ha)
        (by
          intro e he
          rcases List.mem_append.mp he with h | h
          · exact hload e h
          · simp only [List.mem_singleton] at h; subst h; rfl)
      refine ⟨h1, h2, fun k => ?_⟩
      rw [h3 k]
      simp only [List.map_append, List.map_cons, List.map_nil, List.mem_append,
        List.mem_singleton, List.mem_cons]
      tauto

theorem emitAttributeObjects_eq (Values : List String) (Ts : List FTransform) :
    ∀ (m : List (String × Option Nat)) (r : FObjectsAndTransforms),
      emitAttributeObjects Values Ts m r
        = ⟨r.bSuccess || !(m.filter (fun e => e.2.isSome)).isEmpty,
           r.OutInstancedObjects ++ (m.filter (fun e => e.2.isSome)).map Prod.snd,
           r.OutInstancedTransforms
             ++ (m.filter (fun e => e.2.isSome)).map (fun e => pointTransforms Values Ts e.1)⟩ := by
  intro m
  induction m with
  | nil => intro r; simp [emitAttributeObjects]
  | cons e rest ih =>
    intro r
    obtain ⟨k, o⟩ := e
    cases o with
    | none => simp [emitAttributeObjects, ih]
    | some obj => simp [emitAttributeObjects, ih]

/-- C14 (amended): for an attribute instancer whose instance attribute is on points and
whose values compare as map keys exactly when they are equal, if the number of values
differs from the number of transforms the function returns false and leaves the arrays;
otherwise there is a duplicate-free list of exactly the values that name a loadable
object, the function appends for each of them its object and the transforms of the points
carrying that value in point order, and it returns false without appending when no value
loads. -/
theorem GetAttributeInstancerObjectsAndTransforms_points (Context : FClassifierContext)
    (InHGPO : FHoudiniGeoPartObject) (OutInstancedObjects : List (Option Nat))
    (OutInstancedTransforms : List (List FTransform))
    (AttribInfo : HAPI_AttributeInfo) (is_override_attr : Bool)
    (PointInstanceValues : List String) (InstancerUnrealTransforms : List FTransform)
    (hType : InHGPO.InstancerType = .AttributeInstancer)
    (hAttr : findInstanceAttribute Context InHGPO = some (AttribInfo, is_override_attr))
    (hOwner : AttribInfo.owner = .POINT)
    (hT : HapiGetInstanceTransforms Context InHGPO [] = (true, InstancerUnrealTransforms))
    (hV : Context.HapiGetAttributeDataAsStringFromInfo InHGPO.GeoId InHGPO.PartId AttribInfo
        (if is_override_attr then .HAPI_UNREAL_ATTRIB_INSTANCE_OVERRIDE
         else .HAPI_UNREAL_ATTRIB_INSTANCE) = some PointInstanceValues)
    (hKey : ∀ a ∈ PointInstanceValues, ∀ b ∈ PointInstanceValues,
      Context.FStringKeyEquals a b = decide (a = b)) :
    (PointInstanceValues.length ≠ InstancerUnrealTransforms.length →
      GetAttributeInstancerObjectsAndTransforms Context InHGPO OutInstancedObjects
          OutInstancedTransforms
        = ⟨false, OutInstancedObjects, OutInstancedTransforms⟩)
    ∧ (PointInstanceValues.length = InstancerUnrealTransforms.length →
      ∃ Keys : List String, Keys.Nodup
        ∧ (∀ v, v ∈ Keys ↔ v ∈ PointInstanceValues ∧ (Context.StaticLoadObject v).isSome)
        ∧ GetAttributeInstancerObjectsAndTransforms Context InHGPO OutInstancedObjects
              OutInstancedTransforms
            = (if Keys = [] then ⟨false, OutInstancedObjects, OutInstancedTransforms⟩
               else
                ⟨true, OutInstancedObjects ++ Keys.map Context.StaticLoadObject,
                 OutInstancedTransforms ++ Keys.map (fun v =>
                    ((PointInstanceValues.zip InstancerUnrealTransforms).filter
                      (fun p => decide (v = p.1))).map Prod.snd)⟩)) := by
  have hne : AttribInfo.owner ≠ .DETAIL := by rw [hOwner]; decide
  constructor
  · intro hlen
    simp only [GetAttributeInstancerObjectsAndTransforms, hType, ne_eq, not_true_eq_false,
      if_false, hAttr, hT, Bool.not_true, Bool.false_eq_true, hne, hV, hlen, if_true,
      not_false_eq_true]
  · intro hlen
    obtain ⟨h1, h2, h3⟩ := collectObjectsToInstance_spec Context PointInstanceValues hKey
      PointInstanceValues [] (fun _ h => h) (by simp) (by simp) (by simp)
    refine ⟨((collectObjectsToInstance Context PointInstanceValues []).filter
      (fun e => e.2.isSome)).map Prod.fst, ?_, ?_, ?_⟩
    · exact h1.sublist ((List.filter_sublist _).map _)
    · intro v
      constructor
      · intro hv
        obtain ⟨e, he, rfl⟩ := List.mem_map.mp hv
        rw [List.mem_filter] at he
        have hmem : e.1 ∈ PointInstanceValues := by
          have := (h3 e.1).mp (List.mem_map.mpr ⟨e, he.1, rfl⟩)
          simpa using this
        exact ⟨hmem, by rw [← h2 e he.1]; exact he.2⟩
      · rintro ⟨hv, hl⟩
        obtain ⟨e, he, hk⟩ := List.mem_map.mp ((h3 v).mpr (Or.inr hv))
        refine List.mem_map.mpr ⟨e, List.mem_filter.mpr ⟨he, ?_⟩, hk⟩
        rw [h2 e he, hk]; exact hl
    · have hobjs : ((collectObjectsToInstance Context PointInstanceValues []).filter
            (fun e => e.2.isSome)).map Prod.snd
          = (((collectObjectsToInstance Context PointInstanceValues []).filter
              (fun e => e.2.isSome)).map Prod.fst).map Context.StaticLoadObject := by
        rw [List.map_map]
        apply List.map_congr_left
        intro e he
        exact h2 e (List.mem_filter.mp he).1
      simp only [GetAttributeInstancerObjectsAndTransforms, hType, ne_eq, not_true_eq_false,
        if_false, hAttr, hT, Bool.not_true, Bool.false_eq_true, hne, hV, hlen,
        emitAttributeObjects_eq, Bool.false_or, Bool.not_not, hobjs, List.map_map]
      by_cases hE : (collectObjectsToInstance Context PointInstanceValues []).filter
          (fun e => e.2.isSome) = []
      · simp [hE]
      · have hE' : ((collectObjectsToInstance Context PointInstanceValues []).filter
            (fun e => e.2.isSome)).isEmpty = false := by
          cases hl : (collectObjectsToInstance Context PointInstanceValues []).filter
              (fun e => e.2.isSome) with
          | nil => exact absurd hl hE
          | cons a l => rfl
        have hK : ¬ (((collectObjectsToInstance Context PointInstanceValues []).filter
            (fun e => e.2.isSome)).map Prod.fst = []) := by
          simpa using hE
        simp only [hE', Bool.false_eq_true, if_false, hK]
        rfl

/-- C14, concrete case: on the five points of `pointPart` the function returns one object
for each value that loads, with the transforms of the points carrying it. -/
theorem GetAttributeInstancerObjectsAndTransforms_points_witness :
    ∃ Keys : List String, Keys.Nodup
      ∧ (∀ v, v ∈ Keys ↔ v ∈ pointValues ∧ (sampleContext.StaticLoadObject v).isSome)
      ∧ GetAttributeInstancerObjectsAndTransforms sampleContext pointPart [] []
          = (if Keys = [] then ⟨false, [], []⟩
             else
              ⟨true, [] ++ Keys.map sampleContext.StaticLoadObject,
               [] ++ Keys.map (fun v =>
                  ((pointValues.zip (translateTransforms sampleContext movedTransform 5)).filter
                    (fun p => decide (v = p.1))).map Prod.snd)⟩) :=
  (GetAttributeInstancerObjectsAndTransforms_points sampleContext pointPart [] []
    ⟨true, .POINT⟩ false pointValues (translateTransforms sampleContext movedTransform 5)
    rfl rfl rfl rfl rfl (fun _ _ _ _ => rfl)).2 rfl

/-- C14 as stated fails: the five points carry three distinct values, one value per
transform; "Tree" names no loadable object and the function returns two objects, none for
"Tree", whose point is in no transform set. -/
theorem GetAttributeInstancerObjectsAndTransforms_points_counterexample :
    pointPart.InstancerType = .AttributeInstancer
    ∧ findInstanceAttribute sampleContext pointPart = some (⟨true, .POINT⟩, false)
    ∧ sampleContext.HapiGetAttributeDataAsStringFromInfo 0 3 ⟨true, .POINT⟩
        .HAPI_UNREAL_ATTRIB_INSTANCE = some pointValues
    ∧ sampleContext.StaticLoadObject "Tree" = none
    ∧ GetAttributeInstancerObjectsAndTransforms sampleContext pointPart [] []
        = ⟨true, [some 7, some 8],
           [[sampleContext.TranslateHapiTransform (movedTransform 0),
             sampleContext.TranslateHapiTransform (movedTransform 2)],
            [sampleContext.TranslateHapiTransform (movedTransform 1),
             sampleContext.TranslateHapiTransform (movedTransform 4)]]⟩ :=
  ⟨rfl, rfl, rfl, by decide, by rfl⟩

/-! ## End to end: a detail-level attribute instancer -/

theorem foldl_AddInstance (Ts : List FTransform) :
    ∀ acc : List FTransform, Ts.foldl AddInstance acc = acc ++ Ts := by
  induction Ts with
  | nil => intro acc; simp
  | cons t rest ih => intro acc; simp [List.foldl_cons, ih, AddInstance]

/-- C15: for an attribute instancer whose instance attribute is on the detail and names a
loadable object that is a live static mesh with at most one LOD, with `N > 1` instance
transforms: the classifier returns that one object with the `N` transforms;
`UpdateInstanceVariationObjects` on an empty map returns one instanced output with one
variation and the single tuple (object, the transforms, 0, 0); the synthesizer chooses the
flat instanced component and, without a component to reuse, creates one of class
`UInstancedStaticMeshComponent`; and after the instance block the component holds exactly
the `N` transforms in order, whatever it held before. -/
theorem attribute_instancer_end_to_end (Context : FClassifierContext) (World : FObjectWorld)
    (SCALE_SMALL_VALUE : ℚ)
    (IdEq : FHoudiniOutputObjectIdentifier → FHoudiniOutputObjectIdentifier → Bool)
    (OutputIdentifier : FHoudiniOutputObjectIdentifier)
    (InHGPO : FHoudiniGeoPartObject) (InAllOutputs : List (Option UHoudiniOutput))
    (AttribInfo : HAPI_AttributeInfo) (is_override_attr : Bool)
    (AssetName : String) (MoreValues : List String) (Mesh : UObject)
    (Transforms : List FTransform) (Parent : FParentComponent) (NextHandle : Nat)
    (hType : InHGPO.InstancerType = .AttributeInstancer)
    (hAttr : findInstanceAttribute Context InHGPO = some (AttribInfo, is_override_attr))
    (hOwner : AttribInfo.owner = .DETAIL)
    (hT : HapiGetInstanceTransforms Context InHGPO [] = (true, Transforms))
    (hV : Context.HapiGetAttributeDataAsStringFromInfo InHGPO.GeoId InHGPO.PartId AttribInfo
        (if is_override_attr then .HAPI_UNREAL_ATTRIB_INSTANCE_OVERRIDE
         else .HAPI_UNREAL_ATTRIB_INSTANCE) = some (AssetName :: MoreValues))
    (hLoad : Context.StaticLoadObject AssetName = some Mesh.Handle)
    (hMesh : Mesh.Class = .UStaticMesh) (hLODs : Mesh.NumLODs ≤ 1)
    (hLive : World.IsPendingKill Mesh.Handle = false)
    (hParent : Parent.bPendingKill = false)
    (hN : 1 < Transforms.length) :
    GetInstancerObjectsAndTransforms Context InHGPO InAllOutputs [] []
        = some ⟨true, [some Mesh.Handle], [Transforms]⟩
    ∧ UpdateInstanceVariationObjects World SCALE_SMALL_VALUE IdEq OutputIdentifier
          [some Mesh.Handle] [Transforms] ⟨[], ⟨[], [], [], []⟩⟩
        = some
            { InstancedOutputs :=
                [({ OutputIdentifier with SplitIdentifier := "0" },
                  { OriginalObject := some Mesh.Handle,
                    OriginalObjectIndex := 0,
                    OriginalTransforms := Transforms,
                    VariationObjects := [some Mesh.Handle],
                    VariationTransformOffsets := [FTransform.Identity],
                    TransformVariationIndices := List.replicate Transforms.length 0,
                    bChanged := false,
                    bStale := false })],
              Out := ⟨[some Mesh.Handle], [Transforms], [0], [0]⟩ }
    ∧ newComponentType (some Mesh) Transforms.length false = .InstancedStaticMeshComponent
    ∧ CreateOrUpdateInstancedStaticMeshComponent (some Mesh) (some Parent) none NextHandle
        = ⟨true, some ⟨NextHandle, .UInstancedStaticMeshComponent, false⟩,
           [.Created NextHandle .UInstancedStaticMeshComponent, .Updated NextHandle]⟩
    ∧ (∀ Previous : List FTransform,
        updateComponentInstances Previous Transforms = Transforms
        ∧ (updateComponentInstances Previous Transforms).length = Transforms.length) := by
  refine ⟨?_, ?_, ?_, ?_, ?_⟩
  · have hA : GetAttributeInstancerObjectsAndTransforms Context InHGPO [] []
        = ⟨true, [some Mesh.Handle], [Transforms]⟩ := by
      simp only [GetAttributeInstancerObjectsAndTransforms, hType, ne_eq, not_true_eq_false,
        if_false, hAttr, hT, Bool.not_true, Bool.false_eq_true, hOwner, if_true, hV, hLoad,
        List.nil_append]
    simp [GetInstancerObjectsAndTransforms, classifyByType, hType, hA]
  · have h0 : FromInt 0 = "0" := by simp [FromInt, decimalDigits]
    simp only [UpdateInstanceVariationObjects, updateInstanceVariationLoop,
      updateInstanceVariationObject, hLive, Bool.false_eq_true, if_false,
      scanInstancedOutputs, List.getElem?_cons_zero, createInstancedOutput, SetNumZeroed_nil,
      FVariationArrays.Add, List.nil_append, Nat.cast_zero, h0]
  · obtain ⟨h, cls, lods⟩ := Mesh
    simp only at hMesh hLODs
    subst hMesh
    have h1 : Transforms.length ≠ 1 := by omega
    have h2 : ¬ lods > 1 := by omega
    simp [newComponentType, CastObject, h1, h2]
  · obtain ⟨h, cls, lods⟩ := Mesh
    simp only at hMesh hLODs
    have h2 : ¬ lods > 1 := by omega
    simp [CreateOrUpdateInstancedStaticMeshComponent, createOrReuse, hParent, CastComponent, h2]
  · intro Previous
    have : updateComponentInstances Previous Transforms = Transforms := by
      simp [updateComponentInstances, ClearInstances, foldl_AddInstance]
    exact ⟨this, by rw [this]⟩

/-- C15, concrete case: object "Rock_A" (object 7) on five points. -/
theorem attribute_instancer_end_to_end_witness :
    GetInstancerObjectsAndTransforms detailContext pointPart [] [] []
        = some ⟨true, [some 7], [translateTransforms detailContext movedTransform 5]⟩
    ∧ newComponentType (some rockMesh) 5 false = .InstancedStaticMeshComponent
    ∧ (updateComponentInstances threeTransforms
          (translateTransforms detailContext movedTransform 5)).length = 5 :=
  have h := attribute_instancer_end_to_end detailContext liveWorld (1 / 1000)
    (fun a b => decide (a = b)) partIdentifier pointPart [] ⟨true, .DETAIL⟩ true "Rock_A" []
    rockMesh (translateTransforms detailContext movedTransform 5) liveParent 100
    rfl rfl rfl rfl rfl rfl rfl (by decide) rfl rfl (by decide)
  ⟨h.1, h.2.2.1, (h.2.2.2.2 threeTransforms).2⟩

/-! ## The translator entry point: soft failures -/

theorem GetInstancerObjectsAndTransforms_returns (Context : FClassifierContext)
    (InHGPO : FHoudiniGeoPartObject) (All : List (Option UHoudiniOutput))
    (Objs : List (Option Nat)) (Ts : List (List FTransform)) :
    ∃ r, GetInstancerObjectsAndTransforms Context InHGPO All Objs Ts = some r
      ∧ (r.bSuccess = true → r.OutInstancedTransforms.length = r.OutInstancedObjects.length) := by
  simp only [GetInstancerObjectsAndTransforms]
  by_cases hs : (classifyByType Context InHGPO All).1 = true
  · simp only [hs, Bool.not_true, Bool.false_eq_true, if_false]
    have hf : ∃ r, (if (classifyByType Context InHGPO All).2.2.1.length > 0 then
          fetchInstancedObjects Context All (classifyByType Context InHGPO All).2.2.2
            (classifyByType Context InHGPO All).2.2.1 0 (classifyByType Context InHGPO All).2.1
        else some (classifyByType Context InHGPO All).2.1) = some r := by
      split
      · exact fetchInstancedObjects_total Context All _ _ 0 _
          (by rw [classifyByType_lengths]; omega)
      · exact ⟨_, rfl⟩
    obtain ⟨⟨objs, ts⟩, hr⟩ := hf
    rw [hr]
    by_cases hc : objs.length ≤ 0 ∨ ts.length ≠ objs.length
    · simp only [hc, if_true]
      exact ⟨_, rfl, by simp⟩
    · simp only [hc, if_false]
      refine ⟨_, rfl, fun _ => ?_⟩
      by_contra hne
      exact hc (Or.inr hne)
  · have hs' : (classifyByType Context InHGPO All).1 = false := by simpa using hs
    simp only [hs', Bool.not_false, if_true]
    exact ⟨_, rfl, by simp⟩

theorem scanInstancedOutputs_length
    (IdEq : FHoudiniOutputObjectIdentifier → FHoudiniOutputObjectIdentifier → Bool)
    (Id : FHoudiniOutputObjectIdentifier)
    (entries : List (FHoudiniOutputObjectIdentifier × FHoudiniInstancedOutput)) :
    ∀ (i : Nat) (found : Option Nat),
      (scanInstancedOutputs IdEq Id entries i found).1.length = entries.length := by
  induction entries with
  | nil => intro i found; rfl
  | cons e rest ih =>
    intro i found
    obtain ⟨k, v⟩ := e
    simp only [scanInstancedOutputs]
    split <;> simp [ih]

theorem scanInstancedOutputs_found
    (IdEq : FHoudiniOutputObjectIdentifier → FHoudiniOutputObjectIdentifier → Bool)
    (Id : FHoudiniOutputObjectIdentifier)
    (entries : List (FHoudiniOutputObjectIdentifier × FHoudiniInstancedOutput)) :
    ∀ (i : Nat) (found : Option Nat) (n : Nat),
      (scanInstancedOutputs IdEq Id entries i found).2 = some n →
      found = some n ∨ (i ≤ n ∧ n < i + entries.length) := by
  induction entries with
  | nil => intro i found n h; exact Or.inl h
  | cons e rest ih =>
    intro i found n h
    obtain ⟨k, v⟩ := e
    simp only [scanInstancedOutputs] at h
    split at h
    · rcases ih (i + 1) found n h with h1 | h1
      · exact Or.inl h1
      · right; simp only [List.length_cons]; omega
    · rcases ih (i + 1) (some i) n h with h1 | h1
      · right
        simp only [Option.some.injEq] at h1
        simp only [List.length_cons]; omega
      · right; simp only [List.length_cons]; omega

theorem ProcessInstanceTransforms_total (eps : ℚ) (io : FHoudiniInstancedOutput) (v : Int)
    (hN : io.TransformVariationIndices.length ≤ io.OriginalTransforms.length) :
    ∃ r, ProcessInstanceTransforms eps io v [] = some r := by
  simp only [ProcessInstanceTransforms]
  split
  · exact ⟨_, rfl⟩
  · split
    · exact ⟨_, rfl⟩
    · rename_i h1 h2
      have hv : v.toNat < io.VariationTransformOffsets.length := by
        simp [IsValidIndex] at h2
        omega
      rw [List.getElem?_eq_getElem hv]
      rw [extractLoop_eq io.OriginalTransforms v io.TransformVariationIndices 0 []
          (by omega)]
      simp only
      split
      · exact ⟨_, rfl⟩
      · by_cases hV : decide (io.VariationObjects.length > 1) = true
        · rw [if_pos hV]
          simp only
          split <;> exact ⟨_, rfl⟩
        · rw [if_neg hV]
          simp only
          split <;> exact ⟨_, rfl⟩

theorem Aligned_Add (Out : FVariationArrays) (o : Option Nat) (T : List FTransform)
    (i v : Int) (h : Out.Aligned) : (Out.Add o T i v).Aligned := by
  obtain ⟨h1, h2, h3⟩ := h
  simp [FVariationArrays.Aligned, FVariationArrays.Add, h1, h2, h3]

theorem emitVariations_total (W : FObjectWorld) (eps : ℚ) (Cur : FHoudiniInstancedOutput)
    (i : Int)
    (hN : Cur.TransformVariationIndices.length ≤ Cur.OriginalTransforms.length) :
    ∀ (Count VarIdx : Nat) (Out : FVariationArrays), Out.Aligned →
      ∃ r, emitVariations W eps Cur i Count VarIdx Out = some r ∧ r.Aligned := by
  intro Count
  induction Count with
  | zero => intro VarIdx Out h; exact ⟨Out, rfl, h⟩
  | succ n ih =>
    intro VarIdx Out h
    simp only [emitVariations]
    split
    · exact ih (VarIdx + 1) Out h
    · obtain ⟨r, hr⟩ := ProcessInstanceTransforms_total eps Cur (VarIdx : Int) hN
      rw [hr]
      simp only
      split
      · exact ih (VarIdx + 1) _ (Aligned_Add _ _ _ _ _ h)
      · exact ih (VarIdx + 1) Out h

theorem updateInstanceVariationObject_total (W : FObjectWorld) (eps : ℚ)
    (IdEq : FHoudiniOutputObjectIdentifier → FHoudiniOutputObjectIdentifier → Bool)
    (Id : FHoudiniOutputObjectIdentifier) (Ts : List (List FTransform)) (i : Nat)
    (Object : Option Nat) (State : FVariationState)
    (hi : i < Ts.length)
    (hWF : ∀ e ∈ State.InstancedOutputs, VariationsWellFormed e.2)
    (hA : State.Out.Aligned) :
    ∃ State', updateInstanceVariationObject W eps IdEq Id Ts i Object State = some State'
      ∧ State'.Out.Aligned := by
  cases Object with
  | none => exact ⟨State, rfl, hA⟩
  | some obj =>
    by_cases hpk : W.IsPendingKill obj = true
    · exact ⟨State, by simp [updateInstanceVariationObject, hpk], hA⟩
    · have hLive : W.IsPendingKill obj = false := by simpa using hpk
      have hT : Ts[i]? = some Ts[i] := List.getElem?_eq_getElem hi
      simp only [updateInstanceVariationObject, hLive, Bool.false_eq_true, if_false]
      split
      · rw [hT]
        exact ⟨_, rfl, Aligned_Add _ _ _ _ _ hA⟩
      · rename_i n hn
        have hvals := scanInstancedOutputs_values IdEq
          { Id with SplitIdentifier := FromInt (i : Int) } State.InstancedOutputs 0 none
        have hlen := scanInstancedOutputs_length IdEq
          { Id with SplitIdentifier := FromInt (i : Int) } State.InstancedOutputs 0 none
        have hn' : n < (scanInstancedOutputs IdEq
            { Id with SplitIdentifier := FromInt (i : Int) }
            State.InstancedOutputs 0 none).1.length := by
          rcases scanInstancedOutputs_found IdEq _ State.InstancedOutputs 0 none n hn with h | h
          · exact absurd h (by simp)
          · rw [hlen]; omega
        obtain ⟨⟨k, Found⟩, hkF⟩ : ∃ e, (scanInstancedOutputs IdEq
            { Id with SplitIdentifier := FromInt (i : Int) }
            State.InstancedOutputs 0 none).1[n]? = some e :=
          ⟨_, List.getElem?_eq_getElem hn'⟩
        rw [hkF, hT]
        simp only
        obtain ⟨e', he', heq⟩ := mem_values_of_mem _ _ _ hvals (List.getElem?_mem hkF)
        have hF : VariationsWellFormed Found := by
          have := hWF e' he'
          rw [heq] at this
          exact this
        obtain ⟨Cur, hCur⟩ := updateInstancedOutput_total W Found obj (i : Int) Ts[i] hF.2
        rw [hCur]
        simp only
        obtain ⟨_, _, h3, h4, _, _⟩ := updateInstancedOutput_spec W Found Cur obj i Ts[i] hCur
        obtain ⟨Out, hOut, hAl⟩ := emitVariations_total W eps Cur (i : Int)
          (by rw [h3, h4]) Cur.VariationObjects.length 0 State.Out hA
        rw [hOut]
        exact ⟨_, rfl, hAl⟩

theorem updateInstanceVariationLoop_total (W : FObjectWorld) (eps : ℚ)
    (IdEq : FHoudiniOutputObjectIdentifier → FHoudiniOutputObjectIdentifier → Bool)
    (Id : FHoudiniOutputObjectIdentifier) (Ts : List (List FTransform))
    (objs : List (Option Nat)) :
    ∀ (i : Nat) (State : FVariationState), i + objs.length ≤ Ts.length →
      (∀ e ∈ State.InstancedOutputs, VariationsWellFormed e.2) → State.Out.Aligned →
      ∃ State', updateInstanceVariationLoop W eps IdEq Id Ts objs i State = some State'
        ∧ (∀ e ∈ State'.InstancedOutputs, VariationsWellFormed e.2) ∧ State'.Out.Aligned := by
  induction objs with
  | nil => intro i State _ hWF hA; exact ⟨State, rfl, hWF, hA⟩
  | cons o rest ih =>
    intro i State hlen hWF hA
    simp only [List.length_cons] at hlen
    obtain ⟨State1, h1, hA1⟩ := updateInstanceVariationObject_total W eps IdEq Id Ts i o State
      (by omega) hWF hA
    have hWF1 := updateInstanceVariationObject_wellFormed W eps IdEq Id Ts i o State State1 h1 hWF
    obtain ⟨State', h', hWF', hA'⟩ := ih (i + 1) State1 (by omega) hWF1 hA1
    exact ⟨State', by simp only [updateInstanceVariationLoop, h1, h'], hWF', hA'⟩

theorem CreateOrUpdateInstanceComponent_total (H : Nat → Bool) (Object : UObject)
    (Transforms : List FTransform) (P : FParentComponent) (Old New : Option USceneComponent)
    (bSplit : Bool) (Next : Nat) (hT : 0 < Transforms.length) :
    ∃ r, CreateOrUpdateInstanceComponent H (some Object) Transforms (some P) Old New bSplit Next
      = some r := by
  have hn : ¬ Transforms.length = 0 := by omega
  simp only [CreateOrUpdateInstanceComponent]
  split
  · exact ⟨_, rfl⟩
  · have hsw : ∀ (t : InstancerComponentType) (a b c : Option UObject)
        (C : Option USceneComponent),
        ∃ r, switchNewType t a b c Transforms.length (some P) C Next = some r := by
      intro t a b c C
      cases t <;>
        simp [switchNewType, CreateOrUpdateStaticMeshComponent,
          CreateOrUpdateHoudiniStaticMeshComponent, hn]
    obtain ⟨r, hr⟩ := hsw (newComponentType (some Object) Transforms.length bSplit)
      (some Object) (CastObject .UStaticMesh (some Object))
      (if (CastObject .UStaticMesh (some Object)).isNone then
        CastObject .UHoudiniStaticMesh (some Object) else none)
      (if oldComponentType Old = newComponentType (some Object) Transforms.length bSplit
        then Old else New)
    rw [hr]
    simp only [finishInstanceComponent]
    split <;> exact ⟨_, rfl⟩

theorem createVariationComponent_total {K : Type} [DecidableEq K]
    (Context : FTranslatorContext K) (Id : FHoudiniOutputObjectIdentifier)
    (Old : List (FHoudiniOutputObjectIdentifier × FHoudiniOutputObject))
    (P : FParentComponent) (bSplit : Bool) (V : FVariationArrays) (i : Nat)
    (State : FTranslatorState) (hA : V.Aligned) :
    ∃ State', createVariationComponent Context Id Old P bSplit V i State = some State'
      ∧ State'.InstancedOutputs = State.InstancedOutputs := by
  simp only [createVariationComponent]
  split
  · exact ⟨_, rfl, rfl⟩
  · rename_i Object hObj
    split
    · exact ⟨_, rfl, rfl⟩
    · split
      · exact ⟨_, rfl, rfl⟩
      · rename_i T hT
        split
        · exact ⟨_, rfl, rfl⟩
        · rename_i hlen
          have hi : i < V.VariationsInstancedObjects.length := by
            by_contra hc
            rw [List.getElem?_eq_none (by omega)] at hObj
            simp at hObj
          obtain ⟨h1, h2, h3⟩ := hA
          rw [List.getElem?_eq_getElem (by omega : i < V.VariationOriginalObjectIdx.length),
            List.getElem?_eq_getElem (by omega : i < V.VariationIndices.length)]
          simp only
          obtain ⟨r, hr⟩ := CreateOrUpdateInstanceComponent_total Context.HasOwnerAndWorld
            ⟨Object, Context.ObjectClassOf Object, Context.GetNumLODs Object⟩ T P
            (match TMapFind (keyed Context Old)
                (Context.MakeKey (variationIdentifier Id V.VariationOriginalObjectIdx[i]
                  V.VariationIndices[i])) with
              | none => none
              | some Found =>
                if decide (Context.ObjectClassOf Object = .UHoudiniStaticMesh) then
                  CastSceneComponent Context Found.ProxyComponent
                else CastSceneComponent Context Found.OutputComponent)
            none bSplit State.NextHandle (by omega)
          rw [hr]
          simp only
          split
          · exact ⟨_, rfl, rfl⟩
          · split <;> exact ⟨_, rfl, rfl⟩

theorem createVariationComponents_total {K : Type} [DecidableEq K]
    (Context : FTranslatorContext K) (Id : FHoudiniOutputObjectIdentifier)
    (Old : List (FHoudiniOutputObjectIdentifier × FHoudiniOutputObject))
    (P : FParentComponent) (bSplit : Bool) (V : FVariationArrays) (hA : V.Aligned) :
    ∀ (idxs : List Nat) (State : FTranslatorState),
      ∃ State', createVariationComponents Context Id Old P bSplit V idxs State = some State'
        ∧ State'.InstancedOutputs = State.InstancedOutputs := by
  intro idxs
  induction idxs with
  | nil => intro State; exact ⟨State, rfl, rfl⟩
  | cons i rest ih =>
    intro State
    obtain ⟨State1, h1, e1⟩ := createVariationComponent_total Context Id Old P bSplit V i State hA
    obtain ⟨State', h', e'⟩ := ih State1
    exact ⟨State', by simp only [createVariationComponents, h1, h'], e'.trans e1⟩

theorem processPart_total {K : Type} [DecidableEq K] (Context : FTranslatorContext K)
    (All : List (Option UHoudiniOutput))
    (Old : List (FHoudiniOutputObjectIdentifier × FHoudiniOutputObject))
    (P : FParentComponent) (CurHGPO : FHoudiniGeoPartObject) (State : FTranslatorState)
    (hWF : ∀ e ∈ State.InstancedOutputs, VariationsWellFormed e.2) :
    ∃ State', processPart Context All Old P CurHGPO State = some State'
      ∧ (∀ e ∈ State'.InstancedOutputs, VariationsWellFormed e.2) := by
  simp only [processPart]
  split
  · exact ⟨State, rfl, hWF⟩
  · obtain ⟨r, hr, hlen⟩ := GetInstancerObjectsAndTransforms_returns Context.Classifier CurHGPO
      All [] []
    rw [hr]
    simp only
    split
    · exact ⟨State, rfl, hWF⟩
    · rename_i hs
      have hs' : r.bSuccess = true := by simpa using hs
      obtain ⟨V, hV, hWF', hA⟩ := updateInstanceVariationLoop_total Context.World
        Context.SCALE_SMALL_VALUE Context.IdEq
        { FHoudiniOutputObjectIdentifier.Default with
          ObjectId := CurHGPO.ObjectId, GeoId := CurHGPO.GeoId, PartId := CurHGPO.PartId,
          PartName := CurHGPO.PartName }
        r.OutInstancedTransforms r.OutInstancedObjects 0
        ⟨State.InstancedOutputs, ⟨[], [], [], []⟩⟩
        (by rw [hlen hs']; omega) hWF ⟨rfl, rfl, rfl⟩
      simp only [UpdateInstanceVariationObjects, hV]
      obtain ⟨State', h', e'⟩ := createVariationComponents_total Context
        { FHoudiniOutputObjectIdentifier.Default with
          ObjectId := CurHGPO.ObjectId, GeoId := CurHGPO.GeoId, PartId := CurHGPO.PartId,
          PartName := CurHGPO.PartName }
        Old P (Context.IsSplitInstancer CurHGPO.GeoId CurHGPO.PartId) V.Out hA
        (List.range V.Out.VariationsInstancedObjects.length)
        { State with InstancedOutputs := V.InstancedOutputs }
      refine ⟨State', h', ?_⟩
      rw [e']
      exact hWF'

theorem processParts_total {K : Type} [DecidableEq K] (Context : FTranslatorContext K)
    (All : List (Option UHoudiniOutput))
    (Old : List (FHoudiniOutputObjectIdentifier × FHoudiniOutputObject))
    (P : FParentComponent) :
    ∀ (Parts : List FHoudiniGeoPartObject) (State : FTranslatorState),
      (∀ e ∈ State.InstancedOutputs, VariationsWellFormed e.2) →
      ∃ State', processParts Context All Old P Parts State = some State' := by
  intro Parts
  induction Parts with
  | nil => intro State _; exact ⟨State, rfl⟩
  | cons p rest ih =>
    intro State hWF
    obtain ⟨State1, h1, hWF1⟩ := processPart_total Context All Old P p State hWF
    obtain ⟨State', h'⟩ := ih State1 hWF1
    exact ⟨State', by simp only [processParts, h1, h']⟩

theorem processParts_skip {K : Type} [DecidableEq K] (Context : FTranslatorContext K)
    (All : List (Option UHoudiniOutput))
    (Old : List (FHoudiniOutputObjectIdentifier × FHoudiniOutputObject))
    (P : FParentComponent) (Skipped : FHoudiniGeoPartObject)
    (hSkip : ∀ State, processPart Context All Old P Skipped State = some State) :
    ∀ (Before After : List FHoudiniGeoPartObject) (State : FTranslatorState),
      processParts Context All Old P (Before ++ Skipped :: After) State
        = processParts Context All Old P (Before ++ After) State := by
  intro Before
  induction Before with
  | nil => intro After State; simp only [List.nil_append, processParts, hSkip]
  | cons p rest ih =>
    intro After State
    simp only [List.cons_append, processParts]
    split
    · rfl
    · exact ih After _

theorem createVariationComponent_entry {K : Type} [DecidableEq K]
    (Context : FTranslatorContext K) (Id : FHoudiniOutputObjectIdentifier)
    (Old : List (FHoudiniOutputObjectIdentifier × FHoudiniOutputObject))
    (P : FParentComponent) (bSplit : Bool) (V : FVariationArrays) (i : Nat)
    (State State' : FTranslatorState)
    (h : createVariationComponent Context Id Old P bSplit V i State = some State')
    (hne : State'.NewOutputObjects ≠ State.NewOutputObjects) :
    ∃ (Object : UObject) (T : List FTransform) (OldComponent : Option USceneComponent)
      (r : FCreateResult) (c : USceneComponent),
      V.VariationsInstancedTransforms[i]? = some T
      ∧ CreateOrUpdateInstanceComponent Context.HasOwnerAndWorld (some Object) T (some P)
          OldComponent none bSplit State.NextHandle = some r
      ∧ r.bSuccess = true ∧ r.Component = some c := by
  simp only [createVariationComponent] at h
  split at h
  · simp only [Option.some.injEq] at h; subst h; exact absurd rfl hne
  · split at h
    · simp only [Option.some.injEq] at h; subst h; exact absurd rfl hne
    · split at h
      · simp only [Option.some.injEq] at h; subst h; exact absurd rfl hne
      · rename_i T hT
        split at h
        · simp only [Option.some.injEq] at h; subst h; exact absurd rfl hne
        · split at h
          · split at h
            · exact absurd h (by simp)
            · rename_i r hr
              split at h
              · simp only [Option.some.injEq] at h; subst h; exact absurd rfl hne
              · rename_i hs
                split at h
                · simp only [Option.some.injEq] at h; subst h; exact absurd rfl hne
                · rename_i c hc
                  exact ⟨_, T, _, r, c, hT, hr, by simpa using hs, hc⟩
          · exact absurd h (by simp)

/-- C11 (amended): for a live output whose instanced outputs each have at least one
variation object and as many offsets as variation objects, and a live parent that is a
scene component, `CreateAllInstancersFromHoudiniOutput` returns, returns true, and
installs the new output-object map built by the loop over the parts; a part that is not
an instancer, or whose classification fails, leaves the state of the loop as it is, and
the loop over the other parts gives the same result as if the part were absent; and a
variation changes the new output-object map only when its component creation returned
true with a component. -/
theorem CreateAllInstancersFromHoudiniOutput_soft_failure {K : Type} [DecidableEq K]
    (Context : FTranslatorContext K) (Output : UHoudiniOutput)
    (InAllOutputs : List (Option UHoudiniOutput)) (Outer : FOuterObject) (NextHandle : Nat)
    (hOutput : Output.bPendingKill = false) (hOuter : Outer.bPendingKill = false)
    (hScene : Outer.bIsSceneComponent = true)
    (hWF : ∀ e ∈ Output.InstancedOutputs, VariationsWellFormed e.2) :
    (∃ State,
        processParts Context InAllOutputs Output.OutputObjects ⟨false, Outer.bHasSpawnLevel⟩
            Output.HoudiniGeoPartObjects
            ⟨Output.InstancedOutputs.map (fun e => (e.1, { e.2 with bStale := true })),
             [], [], NextHandle⟩ = some State
        ∧ CreateAllInstancersFromHoudiniOutput Context (some Output) InAllOutputs (some Outer)
            NextHandle
          = some ⟨true,
              some { Output with
                InstancedOutputs := State.InstancedOutputs,
                OutputObjects := State.NewOutputObjects },
              State.Events
                ++ (reconcileOutputObjects Context.Classifier.IsPendingKill
                      (keyed Context State.NewOutputObjects)
                      (keyed Context Output.OutputObjects)).1.map
                    ComponentEvent.RemoveAndDestroyComponent⟩)
    ∧ (∀ (Old : List (FHoudiniOutputObjectIdentifier × FHoudiniOutputObject))
        (P : FParentComponent) (Part : FHoudiniGeoPartObject) (State : FTranslatorState),
        (Part.PartType ≠ .Instancer
          ∨ ∃ r, GetInstancerObjectsAndTransforms Context.Classifier Part InAllOutputs [] []
                = some r ∧ r.bSuccess = false) →
        processPart Context InAllOutputs Old P Part State = some State)
    ∧ (∀ (Old : List (FHoudiniOutputObjectIdentifier × FHoudiniOutputObject))
        (P : FParentComponent) (Part : FHoudiniGeoPartObject)
        (Before After : List FHoudiniGeoPartObject) (State : FTranslatorState),
        (Part.PartType ≠ .Instancer
          ∨ ∃ r, GetInstancerObjectsAndTransforms Context.Classifier Part InAllOutputs [] []
                = some r ∧ r.bSuccess = false) →
        processParts Context InAllOutputs Old P (Before ++ Part :: After) State
          = processParts Context InAllOutputs Old P (Before ++ After) State)
    ∧ (∀ (Id : FHoudiniOutputObjectIdentifier)
        (Old : List (FHoudiniOutputObjectIdentifier × FHoudiniOutputObject))
        (P : FParentComponent) (bSplit : Bool) (V : FVariationArrays) (i : Nat)
        (State State' : FTranslatorState),
        createVariationComponent Context Id Old P bSplit V i State = some State' →
        State'.NewOutputObjects ≠ State.NewOutputObjects →
        ∃ (Object : UObject) (T : List FTransform) (OldComponent : Option USceneComponent)
          (r : FCreateResult) (c : USceneComponent),
          V.VariationsInstancedTransforms[i]? = some T
          ∧ CreateOrUpdateInstanceComponent Context.HasOwnerAndWorld (some Object) T (some P)
              OldComponent none bSplit State.NextHandle = some r
          ∧ r.bSuccess = true ∧ r.Component = some c) := by
  have hskip : ∀ (Old : List (FHoudiniOutputObjectIdentifier × FHoudiniOutputObject))
      (P : FParentComponent) (Part : FHoudiniGeoPartObject) (State : FTranslatorState),
      (Part.PartType ≠ .Instancer
        ∨ ∃ r, GetInstancerObjectsAndTransforms Context.Classifier Part InAllOutputs [] []
              = some r ∧ r.bSuccess = false) →
      processPart Context InAllOutputs Old P Part State = some State := by
    intro Old P Part State h
    simp only [processPart]
    by_cases hp : Part.PartType ≠ .Instancer
    · rw [if_pos hp]
    · rw [if_neg hp]
      rcases h with h | ⟨r, hr, hs⟩
      · exact absurd h hp
      · rw [hr]
        simp [hs]
  refine ⟨?_, hskip, ?_, ?_⟩
  · have hWF' : ∀ e ∈ Output.InstancedOutputs.map
        (fun e => (e.1, { e.2 with bStale := true })), VariationsWellFormed e.2 := by
      intro e he
      obtain ⟨e0, he0, rfl⟩ := List.mem_map.mp he
      exact hWF e0 he0
    obtain ⟨State, hState⟩ := processParts_total Context InAllOutputs Output.OutputObjects
      ⟨false, Outer.bHasSpawnLevel⟩ Output.HoudiniGeoPartObjects
      ⟨Output.InstancedOutputs.map (fun e => (e.1, { e.2 with bStale := true })),
       [], [], NextHandle⟩ hWF'
    refine ⟨State, hState, ?_⟩
    simp only [CreateAllInstancersFromHoudiniOutput, hOutput, hOuter, hScene,
      Bool.false_eq_true, if_false, Bool.not_true, hState]
  · intro Old P Part Before After State h
    exact processParts_skip Context InAllOutputs Old P Part
      (fun S => hskip Old P Part S h) Before After State
  · intro Id Old P bSplit V i State State' h hne
    exact createVariationComponent_entry Context Id Old P bSplit V i State State' h hne

/-- C11, concrete case: on `instancerOutput` with a live scene component as parent the
function returns true. -/
theorem CreateAllInstancersFromHoudiniOutput_soft_failure_witness :
    ∃ r, CreateAllInstancersFromHoudiniOutput sampleTranslatorContext (some instancerOutput)
          [] (some liveOuter) 100 = some r
      ∧ r.bReturn = true :=
  match (CreateAllInstancersFromHoudiniOutput_soft_failure sampleTranslatorContext
      instancerOutput [] liveOuter 100 rfl rfl rfl
      (fun _ h => absurd h (List.not_mem_nil _))).1 with
  | ⟨_, _, h⟩ => ⟨_, h, rfl⟩

/-- C11 as stated fails: the output is live and the parent is a scene component, but the
parent is pending kill; the function returns false and leaves the output as it is. -/
theorem CreateAllInstancersFromHoudiniOutput_counterexample :
    instancerOutput.bPendingKill = false ∧ dyingOuter.bIsSceneComponent = true
    ∧ CreateAllInstancersFromHoudiniOutput sampleTranslatorContext (some instancerOutput)
        [] (some dyingOuter) 100
      = some ⟨false, some instancerOutput, []⟩ :=
  ⟨rfl, rfl, rfl⟩

/-! ## Variation assignment: prefix stability and the single-variation case -/

theorem drawList_take (V : Int) :
    ∀ (n m : Nat) (s : Int), n ≤ m → (drawList V m s).take n = drawList V n s := by
  intro n
  induction n with
  | zero => intro m s _; simp [drawList]
  | succ n ih =>
    intro m s h
    cases m with
    | zero => omega
    | succ m =>
      simp only [drawList, List.take_succ_cons]
      rw [ih m _ (by omega)]

/-- C29: for two instanced outputs with the same number `V >= 2` of variation objects and
`N <= N'` original transforms, the assignment `UpdateVariationAssignements` computes for
the first is the prefix of length `N` of the one it computes for the second, whatever the
two index arrays held before. -/
theorem UpdateVariationAssignements_prefix (io io' : FHoudiniInstancedOutput)
    (hV : 2 ≤ io.VariationObjects.length)
    (hSame : io'.VariationObjects.length = io.VariationObjects.length)
    (hN : io.OriginalTransforms.length ≤ io'.OriginalTransforms.length) :
    (UpdateVariationAssignements io).TransformVariationIndices
      = (UpdateVariationAssignements io').TransformVariationIndices.take
          io.OriginalTransforms.length := by
  rw [UpdateVariationAssignements_indices io hV,
    UpdateVariationAssignements_indices io' (by omega), hSame,
    drawList_take _ _ _ _ hN]

/-- C29, concrete case: the assignment for the three transforms of `witnessA` is the
prefix of the assignment for the five transforms of `witnessLonger`. -/
theorem UpdateVariationAssignements_prefix_witness :
    (UpdateVariationAssignements witnessA).TransformVariationIndices
      = (UpdateVariationAssignements witnessLonger).TransformVariationIndices.take 3 :=
  UpdateVariationAssignements_prefix witnessA witnessLonger (by decide) rfl (by decide)

/-- C26: with at most one variation object `UpdateVariationAssignements` only resizes the
index array: the entries it held below the new length stay as they were, and only the
entries added to reach the number of transforms are zero. -/
theorem UpdateVariationAssignements_keeps_old_indices (io : FHoudiniInstancedOutput)
    (hV : io.VariationObjects.length ≤ 1) :
    (UpdateVariationAssignements io).TransformVariationIndices
      = io.TransformVariationIndices.take io.OriginalTransforms.length
        ++ List.replicate
            (io.OriginalTransforms.length - io.TransformVariationIndices.length) 0 := by
  simp only [UpdateVariationAssignements, hV, if_true, SetNumZeroed]

/-- C26, concrete case: a single variation, three transforms and the index array
`[4, -2, 9, 1]` left from an earlier assignment; after the call the array is
`[4, -2, 9]`, so no entry is 0. -/
theorem UpdateVariationAssignements_keeps_old_indices_witness :
    witnessSingle.VariationObjects.length = 1
    ∧ (UpdateVariationAssignements witnessSingle).TransformVariationIndices
        = witnessSingle.TransformVariationIndices.take witnessSingle.OriginalTransforms.length
          ++ List.replicate
              (witnessSingle.OriginalTransforms.length
                - witnessSingle.TransformVariationIndices.length) 0
    ∧ witnessSingle.TransformVariationIndices.take witnessSingle.OriginalTransforms.length
          ++ List.replicate
              (witnessSingle.OriginalTransforms.length
                - witnessSingle.TransformVariationIndices.length) 0
        = [4, -2, 9] :=
  ⟨rfl, UpdateVariationAssignements_keeps_old_indices witnessSingle (by decide), by decide⟩

/-! ## Array accesses of the variation step -/

theorem updateInstanceVariationObject_offsets (W : FObjectWorld) (eps : ℚ)
    (IdEq : FHoudiniOutputObjectIdentifier → FHoudiniOutputObjectIdentifier → Bool)
    (Id : FHoudiniOutputObjectIdentifier) (Ts : List (List FTransform)) (i : Nat)
    (Object : Option Nat) (State State' : FVariationState)
    (h : updateInstanceVariationObject W eps IdEq Id Ts i Object State = some State')
    (hOff : ∀ e ∈ State.InstancedOutputs,
      e.2.VariationTransformOffsets.length = e.2.VariationObjects.length) :
    ∀ e ∈ State'.InstancedOutputs,
      e.2.VariationTransformOffsets.length = e.2.VariationObjects.length := by
  cases Object with
  | none =>
    simp only [updateInstanceVariationObject, Option.some.injEq] at h
    subst h; exact hOff
  | some obj =>
    by_cases hpk : W.IsPendingKill obj = true
    · simp only [updateInstanceVariationObject, hpk, if_true, Option.some.injEq] at h
      subst h; exact hOff
    · have hLive : W.IsPendingKill obj = false := by simpa using hpk
      obtain ⟨T, _, hcase⟩ := updateInstanceVariationObject_stored W eps IdEq Id Ts i obj
        State State' hLive h
      have hvals := scanInstancedOutputs_values IdEq
        { Id with SplitIdentifier := FromInt (i : Int) } State.InstancedOutputs 0 none
      have hscan : ∀ e ∈ (scanInstancedOutputs IdEq
          { Id with SplitIdentifier := FromInt (i : Int) } State.InstancedOutputs 0 none).1,
          e.2.VariationTransformOffsets.length = e.2.VariationObjects.length := by
        intro e he
        obtain ⟨e', he', heq⟩ := mem_values_of_mem _ _ e hvals he
        rw [← heq]; exact hOff e' he'
      intro e he
      rcases hcase with hc | ⟨n, k, Found, Cur, hn, hCur, hc⟩
      · rw [hc] at he
        rcases List.mem_append.mp he with h1 | h1
        · exact hscan e h1
        · simp only [List.mem_singleton] at h1
          subst h1
          simp [createInstancedOutput]
      · rw [hc] at he
        rcases List.mem_or_eq_of_mem_set he with h1 | h1
        · exact hscan e h1
        · subst h1
          have hF := hscan (k, Found) (List.getElem?_mem hn)
          obtain ⟨_, _, _, _, _, h6⟩ := updateInstancedOutput_spec W Found Cur obj i T hCur
          exact h6 hF

theorem updateInstanceVariationObject_returns (W : FObjectWorld) (eps : ℚ)
    (IdEq : FHoudiniOutputObjectIdentifier → FHoudiniOutputObjectIdentifier → Bool)
    (Id : FHoudiniOutputObjectIdentifier) (Ts : List (List FTransform)) (i : Nat)
    (Object : Option Nat) (State : FVariationState)
    (hi : i < Ts.length)
    (hOff : ∀ e ∈ State.InstancedOutputs,
      e.2.VariationTransformOffsets.length = e.2.VariationObjects.length)
    (hA : State.Out.Aligned) :
    ∃ State', updateInstanceVariationObject W eps IdEq Id Ts i Object State = some State'
      ∧ State'.Out.Aligned := by
  cases Object with
  | none => exact ⟨State, rfl, hA⟩
  | some obj =>
    by_cases hpk : W.IsPendingKill obj = true
    · exact ⟨State, by simp [updateInstanceVariationObject, hpk], hA⟩
    · have hLive : W.IsPendingKill obj = false := by simpa using hpk
      have hT : Ts[i]? = some Ts[i] := List.getElem?_eq_getElem hi
      simp only [updateInstanceVariationObject, hLive, Bool.false_eq_true, if_false]
      split
      · rw [hT]
        exact ⟨_, rfl, Aligned_Add _ _ _ _ _ hA⟩
      · rename_i n hn
        have hvals := scanInstancedOutputs_values IdEq
          { Id with SplitIdentifier := FromInt (i : Int) } State.InstancedOutputs 0 none
        have hlen := scanInstancedOutputs_length IdEq
          { Id with SplitIdentifier := FromInt (i : Int) } State.InstancedOutputs 0 none
        have hn' : n < (scanInstancedOutputs IdEq
            { Id with SplitIdentifier := FromInt (i : Int) }
            State.InstancedOutputs 0 none).1.length := by
          rcases scanInstancedOutputs_found IdEq _ State.InstancedOutputs 0 none n hn with h | h
          · exact absurd h (by simp)
          · rw [hlen]; omega
        obtain ⟨⟨k, Found⟩, hkF⟩ : ∃ e, (scanInstancedOutputs IdEq
            { Id with SplitIdentifier := FromInt (i : Int) }
            State.InstancedOutputs 0 none).1[n]? = some e :=
          ⟨_, List.getElem?_eq_getElem hn'⟩
        rw [hkF, hT]
        simp only
        obtain ⟨e', he', heq⟩ := mem_values_of_mem _ _ _ hvals (List.getElem?_mem hkF)
        have hF : Found.VariationTransformOffsets.length = Found.VariationObjects.length := by
          have := hOff e' he'
          rw [heq] at this
          exact this
        obtain ⟨Cur, hCur⟩ := updateInstancedOutput_total W Found obj (i : Int) Ts[i] hF
        rw [hCur]
        simp only
        obtain ⟨_, _, h3, h4, _, _⟩ := updateInstancedOutput_spec W Found Cur obj i Ts[i] hCur
        obtain ⟨Out, hOut, hAl⟩ := emitVariations_total W eps Cur (i : Int)
          (by rw [h3, h4]) Cur.VariationObjects.length 0 State.Out hA
        rw [hOut]
        exact ⟨_, rfl, hAl⟩

theorem updateInstanceVariationLoop_returns (W : FObjectWorld) (eps : ℚ)
    (IdEq : FHoudiniOutputObjectIdentifier → FHoudiniOutputObjectIdentifier → Bool)
    (Id : FHoudiniOutputObjectIdentifier) (Ts : List (List FTransform))
    (objs : List (Option Nat)) :
    ∀ (i : Nat) (State : FVariationState), i + objs.length ≤ Ts.length →
      (∀ e ∈ State.InstancedOutputs,
        e.2.VariationTransformOffsets.length = e.2.VariationObjects.length) →
      State.Out.Aligned →
      ∃ State', updateInstanceVariationLoop W eps IdEq Id Ts objs i State = some State'
        ∧ State'.Out.Aligned
        ∧ (∀ e ∈ State'.InstancedOutputs,
            e.2.VariationTransformOffsets.length = e.2.VariationObjects.length) := by
  induction objs with
  | nil => intro i State _ hOff hA; exact ⟨State, rfl, hA, hOff⟩
  | cons o rest ih =>
    intro i State hlen hOff hA
    simp only [List.length_cons] at hlen
    obtain ⟨State1, h1, hA1⟩ := updateInstanceVariationObject_returns W eps IdEq Id Ts i o State
      (by omega) hOff hA
    have hOff1 := updateInstanceVariationObject_offsets W eps IdEq Id Ts i o State State1 h1 hOff
    obtain ⟨State', h', hA', hOff'⟩ := ih (i + 1) State1 (by omega) hOff1 hA1
    exact ⟨State', by simp only [updateInstanceVariationLoop, h1, h'], hA', hOff'⟩

/-- C30: for object and transform-set lists of equal length, a map in which every
instanced output has as many offsets as variation objects and output arrays of one length
on entry, `UpdateInstanceVariationObjects` returns without reading or shrinking an array
out of range, its four output arrays have one length on return and the map keeps the
property; `ProcessInstanceTransforms` returns whenever the index array is not longer than
the original transforms, as it is at every call made by
`UpdateInstanceVariationObjects`; and called with a variation index that is not valid for
the variation objects it leaves the output array as it was, empty at every call site. -/
theorem UpdateInstanceVariationObjects_in_bounds :
    (∀ (W : FObjectWorld) (eps : ℚ)
        (IdEq : FHoudiniOutputObjectIdentifier → FHoudiniOutputObjectIdentifier → Bool)
        (Id : FHoudiniOutputObjectIdentifier) (objs : List (Option Nat))
        (Ts : List (List FTransform)) (State : FVariationState),
        Ts.length = objs.length →
        (∀ e ∈ State.InstancedOutputs,
          e.2.VariationTransformOffsets.length = e.2.VariationObjects.length) →
        State.Out.Aligned →
        ∃ State', UpdateInstanceVariationObjects W eps IdEq Id objs Ts State = some State'
          ∧ State'.Out.VariationsInstancedTransforms.length
              = State'.Out.VariationsInstancedObjects.length
          ∧ State'.Out.VariationOriginalObjectIdx.length
              = State'.Out.VariationsInstancedObjects.length
          ∧ State'.Out.VariationIndices.length
              = State'.Out.VariationsInstancedObjects.length
          ∧ (∀ e ∈ State'.InstancedOutputs,
              e.2.VariationTransformOffsets.length = e.2.VariationObjects.length))
    ∧ (∀ (eps : ℚ) (io : FHoudiniInstancedOutput) (v : Int),
        io.TransformVariationIndices.length ≤ io.OriginalTransforms.length →
        ∃ r, ProcessInstanceTransforms eps io v [] = some r)
    ∧ (∀ (eps : ℚ) (io : FHoudiniInstancedOutput) (v : Int) (Out : List FTransform),
        IsValidIndex io.VariationObjects v = false →
        ProcessInstanceTransforms eps io v Out = some Out) := by
  refine ⟨?_, ?_, ?_⟩
  · intro W eps IdEq Id objs Ts State hlen hOff hA
    obtain ⟨State', h', hA', hOff'⟩ := updateInstanceVariationLoop_returns W eps IdEq Id Ts objs
      0 State (by omega) hOff hA
    exact ⟨State', h', hA'.1, hA'.2.1, hA'.2.2, hOff'⟩
  · intro eps io v hN
    exact ProcessInstanceTransforms_total eps io v hN
  · intro eps io v Out hv
    simp [ProcessInstanceTransforms, hv]

/-- C30, concrete case: on the empty map with one live object and its three transforms the
function returns and the four output arrays have length one. -/
theorem UpdateInstanceVariationObjects_in_bounds_witness :
    ∃ State', UpdateInstanceVariationObjects liveWorld (1 / 1000) (fun a b => decide (a = b))
          partIdentifier [some 7] [threeTransforms] emptyVariationState = some State'
      ∧ State'.Out.VariationsInstancedTransforms.length
          = State'.Out.VariationsInstancedObjects.length
      ∧ State'.Out.VariationOriginalObjectIdx.length
          = State'.Out.VariationsInstancedObjects.length
      ∧ State'.Out.VariationIndices.length = State'.Out.VariationsInstancedObjects.length :=
  match UpdateInstanceVariationObjects_in_bounds.1 liveWorld (1 / 1000)
      (fun a b => decide (a = b)) partIdentifier [some 7] [threeTransforms]
      emptyVariationState rfl (fun _ h => absurd h (List.not_mem_nil _)) ⟨rfl, rfl, rfl⟩ with
  | ⟨S, h, h1, h2, h3, _⟩ => ⟨S, h, h1, h2, h3⟩

/-! ## The update branch when the original object was replaced -/

theorem objsToRemove_succ (W : FObjectWorld) (R : Option Nat) (objs : List (Option Nat))
    (n : Nat) (h : n < objs.length) :
    objsToRemove W R objs (n + 1)
      = (if isRemovedVariation W R objs[n] then [n] else []) ++ objsToRemove W R objs n := by
  simp only [objsToRemove, List.getElem?_eq_getElem h, isRemovedVariation]

theorem removeVariations_take (W : FObjectWorld) (R : Option Nat)
    (objs : List (Option Nat)) (offs : List FTransform)
    (hl : offs.length = objs.length) :
    ∀ (n : Nat), n ≤ objs.length → ∀ (S : List (Option Nat)) (SO : List FTransform),
      removeVariations (objsToRemove W R objs n) (objs.take n ++ S) (offs.take n ++ SO)
        = some
            ((keptVariations W R (objs.take n) (offs.take n)).map Prod.fst ++ S,
             (keptVariations W R (objs.take n) (offs.take n)).map Prod.snd ++ SO) := by
  intro n
  induction n with
  | zero => intro _ S SO; simp [objsToRemove, removeVariations, keptVariations]
  | succ n ih =>
    intro hn S SO
    have h1 : n < objs.length := by omega
    have h2 : n < offs.length := by omega
    have t1 : objs.take (n + 1) = objs.take n ++ [objs[n]] :=
      (List.take_concat_get' objs n h1).symm
    have t2 : offs.take (n + 1) = offs.take n ++ [offs[n]] :=
      (List.take_concat_get' offs n h2).symm
    have hlt : (objs.take n).length = (offs.take n).length := by
      simp only [List.length_take]; omega
    have hz : (objs.take n ++ [objs[n]]).zip (offs.take n ++ [offs[n]])
        = (objs.take n).zip (offs.take n) ++ [(objs[n], offs[n])] := by
      rw [List.zip_append hlt]; rfl
    have hk : keptVariations W R (objs.take n ++ [objs[n]]) (offs.take n ++ [offs[n]])
        = keptVariations W R (objs.take n) (offs.take n)
          ++ (if isRemovedVariation W R objs[n] then [] else [(objs[n], offs[n])]) := by
      simp only [keptVariations, hz, List.filter_append]
      by_cases hr : isRemovedVariation W R objs[n] = true
      · simp only [hr, if_true, List.filter_cons, Bool.not_true, Bool.false_eq_true,
          if_false, List.filter_nil]
      · have hr' : isRemovedVariation W R objs[n] = false := by simpa using hr
        simp only [hr', Bool.false_eq_true, if_false, List.filter_cons, Bool.not_false,
          if_true, List.filter_nil]
    rw [objsToRemove_succ W R objs n h1, t1, t2, hk]
    by_cases hr : isRemovedVariation W R objs[n] = true
    · have e1 : (objs.take n ++ [objs[n]] ++ S).eraseIdx n = objs.take n ++ S := by
        rw [List.append_assoc, List.eraseIdx_append_of_length_le (by simp)]
        have : n - (objs.take n).length = 0 := by simp only [List.length_take]; omega
        rw [this]; rfl
      have e2 : (offs.take n ++ [offs[n]] ++ SO).eraseIdx n = offs.take n ++ SO := by
        rw [List.append_assoc, List.eraseIdx_append_of_length_le (by simp)]
        have : n - (offs.take n).length = 0 := by simp only [List.length_take]; omega
        rw [this]; rfl
      have l1 : n < (objs.take n ++ [objs[n]] ++ S).length := by
        simp only [List.length_append, List.length_take, List.length_singleton]; omega
      have l2 : n < (offs.take n ++ [offs[n]] ++ SO).length := by
        simp only [List.length_append, List.length_take, List.length_singleton]; omega
      simp only [hr, if_true, List.singleton_append, removeVariations, RemoveAt, l1, l2, e1, e2,
        List.append_nil]
      exact ih (by omega) S SO
    · have hr' : isRemovedVariation W R objs[n] = false := by simpa using hr
      simp only [hr', Bool.false_eq_true, if_false, List.nil_append, List.append_assoc,
        List.map_append, List.map_cons, List.map_nil]
      exact ih (by omega) ([objs[n]] ++ S) ([offs[n]] ++ SO)

theorem removeVariations_eq (W : FObjectWorld) (R : Option Nat)
    (objs : List (Option Nat)) (offs : List FTransform)
    (hl : offs.length = objs.length) :
    removeVariations (objsToRemove W R objs objs.length) objs offs
      = some ((keptVariations W R objs offs).map Prod.fst,
              (keptVariations W R objs offs).map Prod.snd) := by
  have h := removeVariations_take W R objs offs hl objs.length (Nat.le_refl _) [] []
  have t2 : offs.take objs.length = offs := by rw [← hl]; exact List.take_length offs
  simpa [List.take_length, t2] using h

theorem objsToRemove_eq_nil (W : FObjectWorld) (R : Option Nat) (objs : List (Option Nat)) :
    ∀ n, n ≤ objs.length →
      (objsToRemove W R objs n = [] ↔
        ∀ i (h : i < objs.length), i < n → isRemovedVariation W R objs[i] = false) := by
  intro n
  induction n with
  | zero => intro _; simp [objsToRemove]
  | succ n ih =>
    intro hn
    have h1 : n < objs.length := by omega
    rw [objsToRemove_succ W R objs n h1]
    constructor
    · intro h i hi hin
      rw [List.append_eq_nil] at h
      by_cases hi' : i = n
      · subst hi'
        by_contra hc
        have : isRemovedVariation W R objs[i] = true := by simpa using hc
        simp [this] at h
      · exact (ih (by omega)).mp h.2 i hi (by omega)
    · intro h
      rw [List.append_eq_nil]
      refine ⟨by simp [h n h1 (by omega)], (ih (by omega)).mpr ?_⟩
      intro i hi hin
      exact h i hi (by omega)

theorem keptVariations_all (W : FObjectWorld) (R : Option Nat) (objs : List (Option Nat))
    (offs : List FTransform) (hl : offs.length = objs.length)
    (h : objsToRemove W R objs objs.length = []) :
    (keptVariations W R objs offs).map Prod.fst = objs
    ∧ (keptVariations W R objs offs).map Prod.snd = offs := by
  have hall := (objsToRemove_eq_nil W R objs objs.length (Nat.le_refl _)).mp h
  have hk : keptVariations W R objs offs = objs.zip offs := by
    unfold keptVariations
    rw [List.filter_eq_self]
    intro p hp
    obtain ⟨i, hi, hip⟩ := List.mem_iff_getElem.mp (List.of_mem_zip hp).1
    rw [← hip, hall i hi hi]
    rfl
  rw [hk]
  exact ⟨List.map_fst_zip _ _ (by omega), List.map_snd_zip _ _ (by omega)⟩

theorem objsToRemove_ne_nil (W : FObjectWorld) (R : Option Nat) (objs : List (Option Nat))
    (h : ∃ v ∈ objs, isRemovedVariation W R v = true) :
    (objsToRemove W R objs objs.length).length > 0 := by
  obtain ⟨v, hv, hr⟩ := h
  obtain ⟨i, hi, hiv⟩ := List.mem_iff_getElem.mp hv
  by_contra hc
  have hnil : objsToRemove W R objs objs.length = [] := List.length_eq_zero.mp (by omega)
  have := (objsToRemove_eq_nil W R objs objs.length (Nat.le_refl _)).mp hnil i hi hi
  rw [hiv, hr] at this
  exact absurd this (by simp)

theorem UVA_of_empty_indices (io : FHoudiniInstancedOutput)
    (h : io.TransformVariationIndices = []) :
    (UpdateVariationAssignements io).TransformVariationIndices
      = if io.VariationObjects.length ≤ 1 then List.replicate io.OriginalTransforms.length 0
        else drawList io.VariationObjects.length io.OriginalTransforms.length 1234 := by
  by_cases hV : io.VariationObjects.length ≤ 1
  · simp only [UpdateVariationAssignements, hV, if_true, h, SetNumZeroed_nil]
  · rw [if_neg hV]
    exact UpdateVariationAssignements_indices io (by omega)

theorem ensureVariationAndAssignment_of_empty_indices (obj : Nat)
    (Cur : FHoudiniInstancedOutput) (h : Cur.TransformVariationIndices = []) :
    (ensureVariationAndAssignment obj Cur).TransformVariationIndices
      = if (ensureVariationAndAssignment obj Cur).VariationObjects.length ≤ 1 then
          List.replicate Cur.OriginalTransforms.length 0
        else drawList (ensureVariationAndAssignment obj Cur).VariationObjects.length
          Cur.OriginalTransforms.length 1234 := by
  simp only [ensureVariationAndAssignment]
  by_cases h0 : Cur.VariationObjects.length ≤ 0
  · simp only [h0, if_true, List.length_nil]
    by_cases hN : (0 : Nat) ≠ Cur.OriginalTransforms.length
    · rw [if_pos hN, UVA_VariationObjects]
      rw [UVA_of_empty_indices _ rfl]
    · have hN' : Cur.OriginalTransforms.length = 0 := by omega
      rw [if_neg hN]
      simp [hN', drawList]
  · simp only [h0, if_false, h, List.length_nil]
    by_cases hN : (0 : Nat) ≠ Cur.OriginalTransforms.length
    · rw [if_pos hN, UVA_VariationObjects]
      rw [UVA_of_empty_indices _ h]
    · have hN' : Cur.OriginalTransforms.length = 0 := by omega
      rw [if_neg hN]
      simp [hN', drawList, h]

theorem ensureVariationAndAssignment_variations (obj : Nat) (Cur : FHoudiniInstancedOutput) :
    (ensureVariationAndAssignment obj Cur).VariationObjects
        = (if Cur.VariationObjects = [] then [some obj] else Cur.VariationObjects)
    ∧ (ensureVariationAndAssignment obj Cur).VariationTransformOffsets
        = (if Cur.VariationObjects = [] then
            Cur.VariationTransformOffsets ++ [FTransform.Identity]
           else Cur.VariationTransformOffsets) := by
  simp only [ensureVariationAndAssignment]
  by_cases h0 : Cur.VariationObjects = []
  · simp only [h0, List.length_nil, Nat.le_refl, if_true, List.nil_append]
    split <;> simp [UVA_VariationObjects, UVA_VariationTransformOffsets]
  · have h1 : ¬ Cur.VariationObjects.length ≤ 0 := by
      intro hc
      exact h0 (List.length_eq_zero.mp (by omega))
    simp only [h1, if_false, h0]
    split <;> simp [UVA_VariationObjects, UVA_VariationTransformOffsets]

theorem isRemovedVariation_false_iff (W : FObjectWorld) (Old v : Option Nat) :
    isRemovedVariation W (LoadSynchronous W Old) v = false
      ↔ (∃ h, v = some h ∧ W.CanLoad h = true ∧ W.IsPendingKill h = false) ∧ v ≠ Old := by
  cases v with
  | none => simp [isRemovedVariation, LoadSynchronous, IsNullOrPendingKill]
  | some h =>
    by_cases hc : W.CanLoad h = true
    · by_cases hp : W.IsPendingKill h = true
      · simp [isRemovedVariation, LoadSynchronous, IsNullOrPendingKill, hc, hp]
      · have hp' : W.IsPendingKill h = false := by simpa using hp
        cases Old with
        | none => simp [isRemovedVariation, LoadSynchronous, IsNullOrPendingKill, hc, hp']
        | some o =>
          by_cases ho : W.CanLoad o = true
          · simp [isRemovedVariation, LoadSynchronous, IsNullOrPendingKill, hc, hp', ho]
            exact ⟨fun h1 h2 => h1 h2.symm, fun h1 h2 => h1 h2.symm⟩
          · have ho' : W.CanLoad o = false := by simpa using ho
            simp [isRemovedVariation, LoadSynchronous, IsNullOrPendingKill, hc, hp', ho']
            intro heq
            rw [heq] at hc
            rw [hc] at ho'
            exact absurd ho' (by simp)
    · have hc' : W.CanLoad h = false := by simpa using hc
      simp [isRemovedVariation, LoadSynchronous, IsNullOrPendingKill, hc']

theorem isRemovedVariation_eq (W : FObjectWorld) (Old v : Option Nat) :
    isRemovedVariation W (LoadSynchronous W Old) v
      = !(isLiveVariation W v && decide (v ≠ Old)) := by
  have h := isRemovedVariation_false_iff W Old v
  have hl : isLiveVariation W v = true
      ↔ ∃ h, v = some h ∧ W.CanLoad h = true ∧ W.IsPendingKill h = false := by
    cases v with
    | none => simp [isLiveVariation]
    | some x => simp [isLiveVariation]
  by_cases hr : isRemovedVariation W (LoadSynchronous W Old) v = false
  · obtain ⟨h1, h2⟩ := h.mp hr
    rw [hr, hl.mpr h1]
    simp [h2]
  · have hr' : isRemovedVariation W (LoadSynchronous W Old) v = true := by simpa using hr
    rw [hr']
    have hn := h.not.mp hr
    by_cases h1 : isLiveVariation W v = true
    · have h2 : ¬ v ≠ Old := fun h2 => hn ⟨hl.mp h1, h2⟩
      simp [h1, h2]
    · have h1' : isLiveVariation W v = false := by simpa using h1
      simp [h1']

/-- C21 (amended): when the stored original object differs from the one given (and there
are as many offsets as variation objects), the update branch of
`UpdateInstanceVariationObjects` returns an instanced output whose original object is the
new one; whose variations are, with their offsets and in their order, exactly those of the
stored one that load, are not pending kill and do not refer to the old original object, or
the new original object alone with the identity offset when none is left; in which no
variation refers to the old original object; and whose assignment, when a variation was
removed, is the one computed from scratch for the remaining variations (zeros for one
variation, the draws of the generator otherwise). -/
theorem updateInstancedOutput_replaced_original (W : FObjectWorld)
    (Found : FHoudiniInstancedOutput) (obj : Nat) (i : Int) (T : List FTransform)
    (hDiff : Found.OriginalObject ≠ some obj)
    (hLen : Found.VariationTransformOffsets.length = Found.VariationObjects.length) :
    ∃ Cur, updateInstancedOutput W Found obj i T = some Cur
      ∧ Cur.OriginalObject = some obj
      ∧ Cur.OriginalTransforms = T
      ∧ (Found.VariationObjects.zip Found.VariationTransformOffsets).filter
            (fun p => isLiveVariation W p.1 && decide (p.1 ≠ Found.OriginalObject))
          = keptVariations W (LoadSynchronous W Found.OriginalObject)
              Found.VariationObjects Found.VariationTransformOffsets
      ∧ Cur.VariationObjects
          = (if keptVariations W (LoadSynchronous W Found.OriginalObject)
                Found.VariationObjects Found.VariationTransformOffsets = [] then [some obj]
             else (keptVariations W (LoadSynchronous W Found.OriginalObject)
                Found.VariationObjects Found.VariationTransformOffsets).map Prod.fst)
      ∧ Cur.VariationTransformOffsets
          = (if keptVariations W (LoadSynchronous W Found.OriginalObject)
                Found.VariationObjects Found.VariationTransformOffsets = [] then
              [FTransform.Identity]
             else (keptVariations W (LoadSynchronous W Found.OriginalObject)
                Found.VariationObjects Found.VariationTransformOffsets).map Prod.snd)
      ∧ (∀ v ∈ Cur.VariationObjects, v ≠ Found.OriginalObject)
      ∧ ((∃ v ∈ Found.VariationObjects,
            isRemovedVariation W (LoadSynchronous W Found.OriginalObject) v = true) →
          Cur.TransformVariationIndices
            = if Cur.VariationObjects.length ≤ 1 then List.replicate T.length 0
              else drawList Cur.VariationObjects.length T.length 1234) := by
  have hKeptEq : (Found.VariationObjects.zip Found.VariationTransformOffsets).filter
        (fun p => isLiveVariation W p.1 && decide (p.1 ≠ Found.OriginalObject))
      = keptVariations W (LoadSynchronous W Found.OriginalObject)
          Found.VariationObjects Found.VariationTransformOffsets := by
    unfold keptVariations
    apply List.filter_congr
    intro p _
    rw [isRemovedVariation_eq, Bool.not_not]
  have hRem := removeVariations_eq W (LoadSynchronous W Found.OriginalObject)
    Found.VariationObjects Found.VariationTransformOffsets hLen
  have hKeptLen : ((keptVariations W (LoadSynchronous W Found.OriginalObject)
      Found.VariationObjects Found.VariationTransformOffsets).map Prod.fst = [])
      ↔ keptVariations W (LoadSynchronous W Found.OriginalObject)
          Found.VariationObjects Found.VariationTransformOffsets = [] := by
    simp
  -- the instanced output after the removal loop
  obtain ⟨Cur2, hCur2, hVO, hVTO, hOT, hTVI⟩ : ∃ Cur2,
      removeDeadVariations W (LoadSynchronous W Found.OriginalObject)
        { Found with OriginalObject := some obj, OriginalTransforms := T,
                     OriginalObjectIndex := i } = some Cur2
      ∧ Cur2.VariationObjects = (keptVariations W (LoadSynchronous W Found.OriginalObject)
          Found.VariationObjects Found.VariationTransformOffsets).map Prod.fst
      ∧ Cur2.VariationTransformOffsets
          = (keptVariations W (LoadSynchronous W Found.OriginalObject)
              Found.VariationObjects Found.VariationTransformOffsets).map Prod.snd
      ∧ Cur2.OriginalTransforms = T ∧ Cur2.OriginalObject = some obj
      ∧ ((∃ v ∈ Found.VariationObjects,
            isRemovedVariation W (LoadSynchronous W Found.OriginalObject) v = true) →
          Cur2.TransformVariationIndices = []) := by
    simp only [removeDeadVariations]
    by_cases hgt : (objsToRemove W (LoadSynchronous W Found.OriginalObject)
        Found.VariationObjects Found.VariationObjects.length).length > 0
    · rw [if_pos hgt, hRem]
      exact ⟨_, rfl, rfl, rfl, rfl, rfl, fun _ => rfl⟩
    · rw [if_neg hgt]
      have hnil : objsToRemove W (LoadSynchronous W Found.OriginalObject)
          Found.VariationObjects Found.VariationObjects.length = [] :=
        List.length_eq_zero.mp (by omega)
      obtain ⟨k1, k2⟩ := keptVariations_all W _ _ _ hLen hnil
      refine ⟨_, rfl, k1.symm, k2.symm, rfl, rfl, fun hex => ?_⟩
      exact absurd (objsToRemove_ne_nil W _ _ hex) hgt
  obtain ⟨hTVI0, hTVI⟩ := hTVI
  obtain ⟨e1, e2⟩ := ensureVariationAndAssignment_variations obj Cur2
  obtain ⟨s1, _, s3, _, _, _⟩ := ensureVariationAndAssignment_spec obj Cur2
  have hVOfinal : (ensureVariationAndAssignment obj Cur2).VariationObjects
      = (if keptVariations W (LoadSynchronous W Found.OriginalObject)
            Found.VariationObjects Found.VariationTransformOffsets = [] then [some obj]
         else (keptVariations W (LoadSynchronous W Found.OriginalObject)
            Found.VariationObjects Found.VariationTransformOffsets).map Prod.fst) := by
    rw [e1, hVO]
    by_cases hk : keptVariations W (LoadSynchronous W Found.OriginalObject)
        Found.VariationObjects Found.VariationTransformOffsets = []
    · simp [hk]
    · simp [hk]
  refine ⟨ensureVariationAndAssignment obj Cur2, ?_, ?_, ?_, hKeptEq, hVOfinal, ?_, ?_, ?_⟩
  · simp only [updateInstancedOutput, hDiff, ne_eq, not_false_eq_true, if_true, hCur2]
  · rw [s1]; exact hTVI0
  · rw [s3]; exact hOT
  · rw [e2, hVO, hVTO]
    by_cases hk : keptVariations W (LoadSynchronous W Found.OriginalObject)
        Found.VariationObjects Found.VariationTransformOffsets = []
    · simp [hk]
    · simp [hk]
  · intro v hv
    rw [hVOfinal] at hv
    by_cases hk : keptVariations W (LoadSynchronous W Found.OriginalObject)
        Found.VariationObjects Found.VariationTransformOffsets = []
    · rw [if_pos hk] at hv
      simp only [List.mem_singleton] at hv
      rw [hv]
      exact fun h => hDiff h.symm
    · rw [if_neg hk] at hv
      obtain ⟨p, hp, rfl⟩ := List.mem_map.mp hv
      have hp' := (List.mem_filter.mp hp).2
      have : isRemovedVariation W (LoadSynchronous W Found.OriginalObject) p.1 = false := by
        simpa using hp'
      exact ((isRemovedVariation_false_iff W Found.OriginalObject p.1).mp this).2
  · intro hex
    have h0 := hTVI hex
    have := ensureVariationAndAssignment_of_empty_indices obj Cur2 h0
    rw [hOT] at this
    exact this

/-- C21, concrete case: the original object 7 of `threeVariations` is replaced by object
5; the branch returns, the stored original object is 5 and no variation refers to 7. -/
theorem updateInstancedOutput_replaced_original_witness :
    ∃ Cur, updateInstancedOutput deadNineWorld threeVariations 5 0 threeTransforms = some Cur
      ∧ Cur.OriginalObject = some 5
      ∧ (∀ v ∈ Cur.VariationObjects, v ≠ some 7) :=
  match updateInstancedOutput_replaced_original deadNineWorld threeVariations 5 0
      threeTransforms (by decide) rfl with
  | ⟨Cur, h, h1, _, _, _, _, h6, _⟩ => ⟨Cur, h, h1, h6⟩

/-- C21 as stated fails: the original object 7 is replaced by object 5 while the second
variation, object 9, is pending kill; object 9 does not refer to the old original object,
yet it is removed with its offset and only object 8 is left. -/
theorem updateInstancedOutput_replaced_original_counterexample :
    threeVariations.OriginalObject = some 7
    ∧ threeVariations.VariationObjects = [some 7, some 9, some 8]
    ∧ updateInstancedOutput deadNineWorld threeVariations 5 0 threeTransforms
        = some
            { OriginalObject := some 5, OriginalObjectIndex := 0,
              OriginalTransforms := threeTransforms,
              VariationObjects := [some 8],
              VariationTransformOffsets := [FTransform.Identity],
              TransformVariationIndices := [0, 0, 0],
              bChanged := false, bStale := false } :=
  ⟨rfl, rfl, by rfl⟩

/-! ## The emission loop of the variation step -/

theorem ProcessInstanceTransforms_base (eps : ℚ) (io : FHoudiniInstancedOutput) (v : Nat)
    (hv : v < io.VariationObjects.length)
    (hvt : v < io.VariationTransformOffsets.length)
    (hN : io.TransformVariationIndices.length ≤ io.OriginalTransforms.length) :
    ∃ r, ProcessInstanceTransforms eps io (v : Int) [] = some r
      ∧ r.length = (baseTransforms io (v : Int)).length := by
  have hvo : IsValidIndex io.VariationObjects (v : Int) = true := by
    simp [IsValidIndex, hv]
  have hvto : IsValidIndex io.VariationTransformOffsets (v : Int) = true := by
    simp [IsValidIndex, hvt]
  simp only [ProcessInstanceTransforms, hvo, hvto, Bool.not_true, Bool.false_eq_true, if_false,
    Int.toNat_ofNat, List.getElem?_eq_getElem hvt]
  rw [extractLoop_eq io.OriginalTransforms (v : Int) io.TransformVariationIndices 0 []
    (by omega)]
  by_cases hV : io.VariationObjects.length > 1
  · have hb : baseTransforms io (v : Int) = assignedTransforms io (v : Int) := by
      simp [baseTransforms, hV]
    by_cases hE : io.VariationTransformOffsets[v].Equals FTransform.Identity = true
    · refine ⟨assignedTransforms io (v : Int), ?_, by rw [hb]⟩
      simp [hV, hE, assignedTransforms]
    · have hE' : io.VariationTransformOffsets[v].Equals FTransform.Identity = false := by
        simpa using hE
      refine ⟨(assignedTransforms io (v : Int)).map
        (applyOffset eps io.VariationTransformOffsets[v]), ?_, by rw [hb, List.length_map]⟩
      simp [hV, hE', assignedTransforms]
  · have hb : baseTransforms io (v : Int) = io.OriginalTransforms := by
      simp [baseTransforms, hV]
    by_cases hE : io.VariationTransformOffsets[v].Equals FTransform.Identity = true
    · refine ⟨io.OriginalTransforms, ?_, by rw [hb]⟩
      simp [hV, hE]
    · have hE' : io.VariationTransformOffsets[v].Equals FTransform.Identity = false := by
        simpa using hE
      refine ⟨io.OriginalTransforms.map (applyOffset eps io.VariationTransformOffsets[v]),
        ?_, by rw [hb, List.length_map]⟩
      simp [hV, hE']

theorem emitVariations_eq (W : FObjectWorld) (eps : ℚ) (Cur : FHoudiniInstancedOutput)
    (i : Int)
    (hN : Cur.TransformVariationIndices.length ≤ Cur.OriginalTransforms.length) :
    ∀ (Count VarIdx : Nat) (Out : FVariationArrays),
      emitVariations W eps Cur i Count VarIdx Out
        = some
            { VariationsInstancedObjects :=
                Out.VariationsInstancedObjects
                  ++ (emittedVariations W eps Cur VarIdx Count).map (variationObjectAt W Cur),
              VariationsInstancedTransforms :=
                Out.VariationsInstancedTransforms
                  ++ (emittedVariations W eps Cur VarIdx Count).map
                      (processedTransforms eps Cur),
              VariationOriginalObjectIdx :=
                Out.VariationOriginalObjectIdx
                  ++ (emittedVariations W eps Cur VarIdx Count).map (fun _ => i),
              VariationIndices :=
                Out.VariationIndices
                  ++ (emittedVariations W eps Cur VarIdx Count).map
                      (fun (v : Nat) => (v : Int)) } := by
  intro Count
  induction Count with
  | zero => intro VarIdx Out; simp [emitVariations, emittedVariations]
  | succ n ih =>
    intro VarIdx Out
    obtain ⟨r, hr⟩ := ProcessInstanceTransforms_total eps Cur (VarIdx : Int) hN
    have hp : processedTransforms eps Cur VarIdx = r := by
      simp [processedTransforms, hr]
    have hobj : (match Cur.VariationObjects[VarIdx]? with
        | some Pointer => LoadSynchronous W Pointer
        | none => none) = variationObjectAt W Cur VarIdx := rfl
    simp only [emitVariations, hobj, hr]
    by_cases hd : IsNullOrPendingKill W (variationObjectAt W Cur VarIdx) = true
    · rw [if_pos hd, ih (VarIdx + 1) Out]
      simp [emittedVariations, List.range'_succ, List.filter_cons, hd]
    · have hd' : IsNullOrPendingKill W (variationObjectAt W Cur VarIdx) = false := by
        simpa using hd
      rw [if_neg hd]
      by_cases hl : r.length > 0
      · simp only [hl, if_true]
        rw [ih (VarIdx + 1) _]
        simp [emittedVariations, List.range'_succ, List.filter_cons, hd', hp, hl,
          FVariationArrays.Add]
      · simp only [hl, if_false]
        rw [ih (VarIdx + 1) Out]
        simp [emittedVariations, List.range'_succ, List.filter_cons, hd', hp, hl]

theorem emitVariations_nonempty (W : FObjectWorld) (eps : ℚ) (Cur : FHoudiniInstancedOutput)
    (i : Int) :
    ∀ (Count VarIdx : Nat) (Out Out' : FVariationArrays),
      emitVariations W eps Cur i Count VarIdx Out = some Out' →
      ∀ T ∈ Out'.VariationsInstancedTransforms,
        T ∈ Out.VariationsInstancedTransforms ∨ T ≠ [] := by
  intro Count
  induction Count with
  | zero =>
    intro VarIdx Out Out' h T hT
    simp only [emitVariations, Option.some.injEq] at h
    subst h; exact Or.inl hT
  | succ n ih =>
    intro VarIdx Out Out' h T hT
    simp only [emitVariations] at h
    split at h
    · exact ih _ _ _ h T hT
    · split at h
      · exact absurd h (by simp)
      · rename_i r hr
        split at h
        · rename_i hl
          rcases ih _ _ _ h T hT with h1 | h1
          · simp only [FVariationArrays.Add, List.mem_append, List.mem_singleton] at h1
            rcases h1 with h1 | h1
            · exact Or.inl h1
            · right
              rw [h1]
              intro he
              rw [he] at hl
              simp at hl
          · exact Or.inr h1
        · exact ih _ _ _ h T hT

theorem updateInstanceVariationObject_transforms (W : FObjectWorld) (eps : ℚ)
    (IdEq : FHoudiniOutputObjectIdentifier → FHoudiniOutputObjectIdentifier → Bool)
    (Id : FHoudiniOutputObjectIdentifier) (Ts : List (List FTransform)) (i : Nat)
    (Object : Option Nat) (State State' : FVariationState)
    (h : updateInstanceVariationObject W eps IdEq Id Ts i Object State = some State') :
    ∀ T ∈ State'.Out.VariationsInstancedTransforms,
      T ∈ State.Out.VariationsInstancedTransforms ∨ T ≠ [] ∨ T ∈ Ts := by
  cases Object with
  | none =>
    simp only [updateInstanceVariationObject, Option.some.injEq] at h
    subst h; exact fun T hT => Or.inl hT
  | some obj =>
    by_cases hpk : W.IsPendingKill obj = true
    · simp only [updateInstanceVariationObject, hpk, if_true, Option.some.injEq] at h
      subst h; exact fun T hT => Or.inl hT
    · have hLive : W.IsPendingKill obj = false := by simpa using hpk
      simp only [updateInstanceVariationObject, hLive, Bool.false_eq_true, if_false] at h
      split at h
      · split at h
        · exact absurd h (by simp)
        · rename_i T0 hT0
          simp only [Option.some.injEq] at h
          subst h
          intro T hT
          simp only [FVariationArrays.Add, List.mem_append, List.mem_singleton] at hT
          rcases hT with hT | hT
          · exact Or.inl hT
          · exact Or.inr (Or.inr (hT ▸ List.getElem?_mem hT0))
      · split at h
        · split at h
          · exact absurd h (by simp)
          · split at h
            · exact absurd h (by simp)
            · rename_i Out hOut
              simp only [Option.some.injEq] at h
              subst h
              intro T hT
              rcases emitVariations_nonempty W eps _ _ _ _ _ _ hOut T hT with h1 | h1
              · exact Or.inl h1
              · exact Or.inr (Or.inl h1)
        · exact absurd h (by simp)

theorem updateInstanceVariationLoop_transforms (W : FObjectWorld) (eps : ℚ)
    (IdEq : FHoudiniOutputObjectIdentifier → FHoudiniOutputObjectIdentifier → Bool)
    (Id : FHoudiniOutputObjectIdentifier) (Ts : List (List FTransform))
    (objs : List (Option Nat)) :
    ∀ (i : Nat) (State State' : FVariationState),
      updateInstanceVariationLoop W eps IdEq Id Ts objs i State = some State' →
      ∀ T ∈ State'.Out.VariationsInstancedTransforms,
        T ∈ State.Out.VariationsInstancedTransforms ∨ T ≠ [] ∨ T ∈ Ts := by
  induction objs with
  | nil =>
    intro i State State' h
    simp only [updateInstanceVariationLoop, Option.some.injEq] at h
    subst h; exact fun T hT => Or.inl hT
  | cons o rest ih =>
    intro i State State' h T hT
    simp only [updateInstanceVariationLoop] at h
    split at h
    · exact absurd h (by simp)
    · rename_i State1 h1
      rcases ih (i + 1) State1 State' h T hT with h2 | h2
      · exact updateInstanceVariationObject_transforms W eps IdEq Id Ts i o State State1 h1 T h2
      · exact Or.inr h2

theorem isLiveVariation_eq (W : FObjectWorld) (p : Option Nat) :
    (!IsNullOrPendingKill W (LoadSynchronous W p)) = isLiveVariation W p := by
  cases p with
  | none => rfl
  | some h =>
    by_cases hc : W.CanLoad h = true
    · simp [LoadSynchronous, IsNullOrPendingKill, isLiveVariation, hc]
    · have hc' : W.CanLoad h = false := by simpa using hc
      simp [LoadSynchronous, IsNullOrPendingKill, isLiveVariation, hc']

/-- C22 (amended): for an instanced output whose index array is not longer than its
original transforms and that has as many offsets as variation objects, the emission loop
of `UpdateInstanceVariationObjects` returns and appends one tuple for each variation, in
variation order and once, whose object loads and is not pending kill and that has at
least one base transform, and for no other; the transform set of each such tuple has as
many transforms as the variation has base transforms.  And when every transform set
given to `UpdateInstanceVariationObjects` is non-empty, every transform set in its output
arrays is non-empty. -/
theorem UpdateInstanceVariationObjects_emits_nonempty :
    (∀ (W : FObjectWorld) (eps : ℚ) (Cur : FHoudiniInstancedOutput) (i : Int)
        (Out : FVariationArrays),
        Cur.TransformVariationIndices.length ≤ Cur.OriginalTransforms.length →
        Cur.VariationTransformOffsets.length = Cur.VariationObjects.length →
        ∃ Emitted : List Nat,
          emitVariations W eps Cur i Cur.VariationObjects.length 0 Out
              = some
                  { VariationsInstancedObjects :=
                      Out.VariationsInstancedObjects ++ Emitted.map (variationObjectAt W Cur),
                    VariationsInstancedTransforms :=
                      Out.VariationsInstancedTransforms
                        ++ Emitted.map (processedTransforms eps Cur),
                    VariationOriginalObjectIdx :=
                      Out.VariationOriginalObjectIdx ++ Emitted.map (fun _ => i),
                    VariationIndices :=
                      Out.VariationIndices ++ Emitted.map (fun (v : Nat) => (v : Int)) }
          ∧ Emitted.Nodup ∧ Emitted.Sorted (· < ·)
          ∧ (∀ v, v ∈ Emitted ↔
              ∃ p, Cur.VariationObjects[v]? = some p ∧ isLiveVariation W p = true
                ∧ baseTransforms Cur (v : Int) ≠ [])
          ∧ (∀ v ∈ Emitted,
              (processedTransforms eps Cur v).length = (baseTransforms Cur (v : Int)).length
              ∧ processedTransforms eps Cur v ≠ []))
    ∧ (∀ (W : FObjectWorld) (eps : ℚ)
        (IdEq : FHoudiniOutputObjectIdentifier → FHoudiniOutputObjectIdentifier → Bool)
        (Id : FHoudiniOutputObjectIdentifier) (objs : List (Option Nat))
        (Ts : List (List FTransform)) (State State' : FVariationState),
        UpdateInstanceVariationObjects W eps IdEq Id objs Ts State = some State' →
        (∀ T ∈ Ts, T ≠ []) →
        (∀ T ∈ State.Out.VariationsInstancedTransforms, T ≠ []) →
        ∀ T ∈ State'.Out.VariationsInstancedTransforms, T ≠ []) := by
  constructor
  · intro W eps Cur i Out hN hLen
    have hproc : ∀ v, v < Cur.VariationObjects.length →
        (processedTransforms eps Cur v).length = (baseTransforms Cur (v : Int)).length := by
      intro v hv
      obtain ⟨r, hr, hl⟩ := ProcessInstanceTransforms_base eps Cur v hv (by omega) hN
      simp [processedTransforms, hr, hl]
    have hmem : ∀ v, v ∈ emittedVariations W eps Cur 0 Cur.VariationObjects.length ↔
        ∃ p, Cur.VariationObjects[v]? = some p ∧ isLiveVariation W p = true
          ∧ baseTransforms Cur (v : Int) ≠ [] := by
      intro v
      simp only [emittedVariations, List.mem_filter, List.mem_range'_1, Nat.zero_le, true_and,
        Nat.zero_add, Bool.and_eq_true, decide_eq_true_eq]
      constructor
      · rintro ⟨hv, hlive, hlen⟩
        refine ⟨Cur.VariationObjects[v], List.getElem?_eq_getElem hv, ?_, ?_⟩
        · rw [← isLiveVariation_eq]
          simpa [variationObjectAt, List.getElem?_eq_getElem hv] using hlive
        · rw [hproc v hv] at hlen
          exact List.ne_nil_of_length_pos hlen
      · rintro ⟨p, hp, hlive, hne⟩
        have hv : v < Cur.VariationObjects.length := by
          by_contra hc
          rw [List.getElem?_eq_none (by omega)] at hp
          exact absurd hp (by simp)
        refine ⟨hv, ?_, ?_⟩
        · rw [← isLiveVariation_eq] at hlive
          simpa [variationObjectAt, hp] using hlive
        · rw [hproc v hv]
          exact List.length_pos.mpr hne
    refine ⟨emittedVariations W eps Cur 0 Cur.VariationObjects.length,
      emitVariations_eq W eps Cur i hN _ 0 Out, ?_, ?_, hmem, ?_⟩
    · exact (List.nodup_range' 0 _).filter _
    · exact (List.pairwise_lt_range' 0 _).filter _
    · intro v hv
      obtain ⟨p, hp, _, hne⟩ := (hmem v).mp hv
      have hlt : v < Cur.VariationObjects.length := by
        by_contra hc
        rw [List.getElem?_eq_none (by omega)] at hp
        exact absurd hp (by simp)
      refine ⟨hproc v hlt, ?_⟩
      intro he
      have := hproc v hlt
      rw [he] at this
      exact hne (List.length_eq_zero.mp this.symm)
  · intro W eps IdEq Id objs Ts State State' h hTs hOut T hT
    rcases updateInstanceVariationLoop_transforms W eps IdEq Id Ts objs 0 State State' h T hT
      with h1 | h1 | h1
    · exact hOut T h1
    · exact h1
    · exact hTs T h1

/-- C22, concrete case: on `witnessA` after the assignment step the emission loop returns,
emits each variation at most once and emits no empty transform set. -/
theorem UpdateInstanceVariationObjects_emits_nonempty_witness :
    ∃ Emitted : List Nat,
      emitVariations liveWorld (1 / 1000) (UpdateVariationAssignements witnessA) 0
          (UpdateVariationAssignements witnessA).VariationObjects.length 0 ⟨[], [], [], []⟩
        = some
            { VariationsInstancedObjects :=
                [] ++ Emitted.map
                  (variationObjectAt liveWorld (UpdateVariationAssignements witnessA)),
              VariationsInstancedTransforms :=
                [] ++ Emitted.map
                  (processedTransforms (1 / 1000) (UpdateVariationAssignements witnessA)),
              VariationOriginalObjectIdx := [] ++ Emitted.map (fun _ => (0 : Int)),
              VariationIndices := [] ++ Emitted.map (fun (v : Nat) => (v : Int)) }
      ∧ Emitted.Nodup
      ∧ (∀ v ∈ Emitted,
          processedTransforms (1 / 1000) (UpdateVariationAssignements witnessA) v ≠ []) :=
  match UpdateInstanceVariationObjects_emits_nonempty.1 liveWorld (1 / 1000)
      (UpdateVariationAssignements witnessA) 0 ⟨[], [], [], []⟩
      (Nat.le_of_eq (UVA_length witnessA)) rfl with
  | ⟨E, h, hnd, _, _, hne⟩ => ⟨E, h, hnd, fun v hv => (hne v hv).2⟩

/-- C22 as stated fails: no instanced output exists, the object is live and its transform
set is empty; the function creates the instanced output and emits the tuple (object 7, no
transform, 0, 0), whose transform set is empty. -/
theorem UpdateInstanceVariationObjects_emits_counterexample :
    ∃ State', UpdateInstanceVariationObjects liveWorld (1 / 1000) (fun a b => decide (a = b))
          partIdentifier [some 7] [[]] emptyVariationState = some State'
      ∧ State'.Out = ⟨[some 7], [[]], [0], [0]⟩ :=
  ⟨_, rfl, rfl⟩

/-! ## The old-school attribute instancer -/

theorem TSetOf_foldl (a : List Int) :
    ∀ (s : List Int), s.Nodup →
      (a.foldl (fun s x => if x ∈ s then s else s ++ [x]) s).Nodup
      ∧ ∀ x, x ∈ a.foldl (fun s x => if x ∈ s then s else s ++ [x]) s ↔ x ∈ s ∨ x ∈ a := by
  induction a with
  | nil => intro s hs; exact ⟨hs, fun x => by simp⟩
  | cons y rest ih =>
    intro s hs
    simp only [List.foldl_cons]
    by_cases hy : y ∈ s
    · rw [if_pos hy]
      obtain ⟨h1, h2⟩ := ih s hs
      refine ⟨h1, fun x => ?_⟩
      rw [h2 x]
      constructor
      · rintro (h | h)
        · exact Or.inl h
        · exact Or.inr (List.mem_cons_of_mem _ h)
      · rintro (h | h)
        · exact Or.inl h
        · rcases List.mem_cons.mp h with h | h
          · exact Or.inl (h ▸ hy)
          · exact Or.inr h
    · rw [if_neg hy]
      obtain ⟨h1, h2⟩ := ih (s ++ [y]) (by
        rw [List.nodup_append]
        refine ⟨hs, by simp, ?_⟩
        intro a ha hb
        simp only [List.mem_singleton] at hb
        subst hb
        exact hy ha)
      refine ⟨h1, fun x => ?_⟩
      rw [h2 x]
      simp only [List.mem_append, List.mem_singleton, List.mem_cons]
      tauto

theorem TSetOf_spec (a : List Int) : (TSetOf a).Nodup ∧ ∀ x, x ∈ TSetOf a ↔ x ∈ a := by
  obtain ⟨h1, h2⟩ := TSetOf_foldl a [] List.nodup_nil
  exact ⟨h1, fun x => by rw [TSetOf, h2 x]; simp⟩

theorem filterMap_range_eq (id : Int) :
    ∀ (Ids : List Int) (Ts : List FTransform),
      (List.range Ids.length).filterMap
          (fun Ix => if Ids[Ix]? = some id then Ts[Ix]? else none)
        = transformsOfId Ids Ts id := by
  intro Ids
  induction Ids with
  | nil => intro Ts; simp [transformsOfId]
  | cons a rest ih =>
    intro Ts
    cases Ts with
    | nil => simp [transformsOfId]
    | cons t Ts =>
      rw [List.length_cons, List.range_succ_eq_map, List.filterMap_cons, List.filterMap_map]
      have hrest : (List.range rest.length).filterMap
            ((fun Ix => if (a :: rest)[Ix]? = some id then (t :: Ts)[Ix]? else none)
              ∘ Nat.succ)
          = transformsOfId rest Ts id := by
        rw [← ih Ts]
        apply List.filterMap_congr
        intro x _
        simp
      rw [hrest]
      by_cases ha : a = id
      · simp [transformsOfId, ha]
      · simp [transformsOfId, ha]

theorem oldSchoolLoop_eq (All : List (Option UHoudiniOutput)) (Ids : List Int)
    (Ts : List FTransform) :
    ∀ (Unique : List Int) (Out : List FHoudiniGeoPartObject × List (List FTransform)),
      oldSchoolLoop All Ids Ts Unique Out
        = (Out.1 ++ Unique.flatMap (partsOfId All),
           Out.2 ++ Unique.flatMap (fun id =>
              (partsOfId All id).map (fun _ => transformsOfId Ids Ts id))) := by
  intro Unique
  induction Unique with
  | nil => intro Out; simp [oldSchoolLoop]
  | cons x rest ih =>
    intro Out
    simp only [oldSchoolLoop, filterMap_range_eq]
    rw [ih]
    simp [partsOfId, List.append_assoc]

theorem mem_meshPartsToInstance (All : List (Option UHoudiniOutput))
    (Keep : FHoudiniGeoPartObject → Bool) (p : FHoudiniGeoPartObject) :
    p ∈ meshPartsToInstance All Keep ↔
      ∃ O, some O ∈ All ∧ O.OutputType = .Mesh ∧ p ∈ O.HoudiniGeoPartObjects
        ∧ p.PartType = .Mesh ∧ Keep p = true := by
  simp only [meshPartsToInstance, List.mem_flatMap]
  constructor
  · rintro ⟨o, ho, hp⟩
    cases o with
    | none => simp at hp
    | some O =>
      simp only at hp
      by_cases hm : O.OutputType = .Mesh
      · simp only [hm, ne_eq, not_true_eq_false, if_false, List.mem_filter, Bool.and_eq_true,
          decide_eq_true_eq] at hp
        exact ⟨O, ho, hm, hp.1, hp.2.1, hp.2.2⟩
      · simp [hm] at hp
  · rintro ⟨O, ho, hm, hp, h1, h2⟩
    refine ⟨some O, ho, ?_⟩
    simp [hm, hp, h1, h2]

theorem HapiGetInstanceTransforms_length (Context : FClassifierContext)
    (InHGPO : FHoudiniGeoPartObject) (Out Ts : List FTransform)
    (h : HapiGetInstanceTransforms Context InHGPO Out = (true, Ts)) :
    Ts.length = InHGPO.PartInfo.PointCount.toNat := by
  simp only [HapiGetInstanceTransforms] at h
  split at h
  · simp at h
  · split at h
    · simp at h
    · simp only [Prod.mk.injEq, true_and] at h
      rw [← h, translateTransforms_length]

theorem length_flatMap_map {α β γ : Type} (g : α → List β) (f : α → γ) :
    ∀ l : List α, (l.flatMap (fun a => (g a).map (fun _ => f a))).length
      = (l.flatMap g).length
  | [] => rfl
  | a :: l => by
    rw [List.flatMap_cons, List.flatMap_cons, List.length_append, List.length_append,
      List.length_map, length_flatMap_map g f l]

/-- C23: for an old-school attribute instancer whose instance transforms and instanced
object ids are read successfully, there is one id per transform; the function walks the
distinct ids and returns, for each of them, every part of a mesh output that is a mesh, is
not flagged as instanced and has this object id, once for each place it has in the
outputs, paired with the transforms of the points carrying the id in point order; no
other part is returned; and it returns true exactly when at least one part is returned. -/
theorem GetOldSchoolAttributeInstancerHGPOsAndTransforms_groups (Context : FClassifierContext)
    (InHGPO : FHoudiniGeoPartObject) (InAllOutputs : List (Option UHoudiniOutput))
    (Transforms : List FTransform) (Buffer : Nat → Int)
    (hType : InHGPO.InstancerType = .OldSchoolAttributeInstancer)
    (hT : HapiGetInstanceTransforms Context InHGPO [] = (true, Transforms))
    (hIds : Context.GetInstancedObjectIds InHGPO.GeoId = some Buffer) :
    (pointObjectIds InHGPO Buffer).length = Transforms.length
    ∧ (TSetOf (pointObjectIds InHGPO Buffer)).Nodup
    ∧ (∀ id, id ∈ TSetOf (pointObjectIds InHGPO Buffer) ↔ id ∈ pointObjectIds InHGPO Buffer)
    ∧ GetOldSchoolAttributeInstancerHGPOsAndTransforms Context InHGPO InAllOutputs [] []
        = ⟨!((TSetOf (pointObjectIds InHGPO Buffer)).flatMap (partsOfId InAllOutputs)).isEmpty,
           (TSetOf (pointObjectIds InHGPO Buffer)).flatMap (partsOfId InAllOutputs),
           (TSetOf (pointObjectIds InHGPO Buffer)).flatMap (fun id =>
              (partsOfId InAllOutputs id).map (fun _ =>
                ((pointObjectIds InHGPO Buffer).zip Transforms).filter
                    (fun q => decide (q.1 = id)) |>.map Prod.snd))⟩
    ∧ (∀ id p, p ∈ partsOfId InAllOutputs id ↔
        ∃ O, some O ∈ InAllOutputs ∧ O.OutputType = .Mesh ∧ p ∈ O.HoudiniGeoPartObjects
          ∧ p.PartType = .Mesh ∧ p.bIsInstanced = false ∧ p.ObjectId = id)
    ∧ ((∀ id ∈ pointObjectIds InHGPO Buffer, partsOfId InAllOutputs id = []) →
        (GetOldSchoolAttributeInstancerHGPOsAndTransforms Context InHGPO InAllOutputs
          [] []).bSuccess = false) := by
  obtain ⟨hnd, hmem⟩ := TSetOf_spec (pointObjectIds InHGPO Buffer)
  have hlen : (pointObjectIds InHGPO Buffer).length = Transforms.length := by
    rw [HapiGetInstanceTransforms_length Context InHGPO [] Transforms hT]
    simp [pointObjectIds]
  have hrun : GetOldSchoolAttributeInstancerHGPOsAndTransforms Context InHGPO InAllOutputs [] []
      = ⟨!((TSetOf (pointObjectIds InHGPO Buffer)).flatMap (partsOfId InAllOutputs)).isEmpty,
         (TSetOf (pointObjectIds InHGPO Buffer)).flatMap (partsOfId InAllOutputs),
         (TSetOf (pointObjectIds InHGPO Buffer)).flatMap (fun id =>
            (partsOfId InAllOutputs id).map (fun _ =>
              ((pointObjectIds InHGPO Buffer).zip Transforms).filter
                  (fun q => decide (q.1 = id)) |>.map Prod.snd))⟩ := by
    have hl : ((TSetOf (pointObjectIds InHGPO Buffer)).flatMap (fun id =>
          (partsOfId InAllOutputs id).map (fun _ =>
            transformsOfId (pointObjectIds InHGPO Buffer) Transforms id))).length
        = ((TSetOf (pointObjectIds InHGPO Buffer)).flatMap (partsOfId InAllOutputs)).length :=
      length_flatMap_map _ _ _
    simp only [GetOldSchoolAttributeInstancerHGPOsAndTransforms, hType, ne_eq,
      not_true_eq_false, if_false, hT, Bool.not_true, Bool.false_eq_true, hIds,
      oldSchoolLoop_eq, List.nil_append]
    change (if _ then _ else _) = _
    rw [show (List.map Buffer (List.range InHGPO.PartInfo.PointCount.toNat))
        = pointObjectIds InHGPO Buffer from rfl, hl]
    cases hp : (TSetOf (pointObjectIds InHGPO Buffer)).flatMap (partsOfId InAllOutputs) with
    | nil => simp [transformsOfId]
    | cons a l => simp [transformsOfId]
  refine ⟨hlen, hnd, hmem, hrun, ?_, ?_⟩
  · intro id p
    unfold partsOfId
    rw [mem_meshPartsToInstance]
    constructor
    · rintro ⟨O, h1, h2, h3, h4, h5⟩
      simp only [Bool.and_eq_true, Bool.not_eq_true', decide_eq_true_eq] at h5
      exact ⟨O, h1, h2, h3, h4, h5.1, h5.2.symm⟩
    · rintro ⟨O, h1, h2, h3, h4, h5, h6⟩
      exact ⟨O, h1, h2, h3, h4, by simp [h5, h6]⟩
  · intro hnone
    rw [hrun]
    have : (TSetOf (pointObjectIds InHGPO Buffer)).flatMap (partsOfId InAllOutputs) = [] := by
      rw [List.flatMap_eq_nil_iff]
      intro id hid
      exact hnone id ((hmem id).mp hid)
    simp [this]

/-- C23, concrete case: both points carry object id 0; of the three parts of object 0 only
the mesh part that is not flagged as instanced is returned, with the two transforms. -/
theorem GetOldSchoolAttributeInstancerHGPOsAndTransforms_groups_witness :
    GetOldSchoolAttributeInstancerHGPOsAndTransforms sampleContext oldSchoolPart
        [some meshPartsOutput] [] []
      = ⟨true, [meshPartOfObjectZero],
         [[sampleContext.TranslateHapiTransform (movedTransform 0),
           sampleContext.TranslateHapiTransform (movedTransform 1)]]⟩ :=
  ((GetOldSchoolAttributeInstancerHGPOsAndTransforms_groups sampleContext oldSchoolPart
    [some meshPartsOutput] (translateTransforms sampleContext movedTransform 2)
    (fun _ => 0) rfl rfl rfl).2.2.2.1).trans (by rfl)

/-! ## Generic property attributes -/

theorem wrapInt32_of_range (x : Int) (h0 : -2147483648 ≤ x) (h1 : x < 2147483648) :
    wrapInt32 x = x := by
  unfold wrapInt32
  rw [Int.emod_eq_of_lt (by omega) (by omega)]
  omega

theorem updateGenericLoop_spec {σ α : Type} (U : σ → Nat → α → Int → Bool × σ)
    (Object : Nat) (AtIndex : Int) :
    ∀ (l : List α) (State : FGenericAttributeLoop σ α),
      0 ≤ State.NumSuccess →
      State.NumSuccess = ((State.Calls.filter (fun c => c.2)).length : Int) →
      State.Calls.length + l.length < 2147483648 →
      (updateGenericLoop U Object AtIndex l State).Calls.map Prod.fst
          = State.Calls.map Prod.fst ++ l
      ∧ (updateGenericLoop U Object AtIndex l State).NumSuccess
          = (((updateGenericLoop U Object AtIndex l State).Calls.filter
              (fun c => c.2)).length : Int) := by
  intro l
  induction l with
  | nil => intro State _ h _; exact ⟨by simp [updateGenericLoop], h⟩
  | cons a rest ih =>
    intro State h0 hc hlen
    simp only [List.length_cons] at hlen
    have hle : (State.Calls.filter (fun c => c.2)).length ≤ State.Calls.length :=
      List.length_filter_le _ _
    simp only [updateGenericLoop]
    split
    · obtain ⟨h1, h2⟩ := ih
        { State with
          Objects := (U State.Objects Object a AtIndex).2,
          Calls := State.Calls ++ [(a, false)] }
        h0 (by simp [hc, List.filter_append]) (by simp; omega)
      exact ⟨by simpa using h1, h2⟩
    · have hw : wrapInt32 (State.NumSuccess + 1) = State.NumSuccess + 1 :=
        wrapInt32_of_range _ (by omega) (by omega)
      obtain ⟨h1, h2⟩ := ih
        { NumSuccess := wrapInt32 (State.NumSuccess + 1),
          Objects := (U State.Objects Object a AtIndex).2,
          Calls := State.Calls ++ [(a, true)] }
        (by show 0 ≤ wrapInt32 (State.NumSuccess + 1); rw [hw]; omega)
        (by
          show wrapInt32 (State.NumSuccess + 1) = _
          rw [hw, hc]
          simp [List.filter_append])
        (by simp; omega)
      exact ⟨by simpa using h1, h2⟩

/-- C24: for a null or pending-kill target `UpdateGenericPropertiesAttributes` makes no
call, leaves the objects as they are and returns false; for a live target (the list being
an engine array, of fewer than 2^31 elements) it calls
`UpdatePropertyAttributeOnObject` once for every attribute of the list, in list order,
whatever the earlier calls returned, and returns true exactly when one of the calls
returned true. -/
theorem UpdateGenericPropertiesAttributes_attempts_all {σ α : Type}
    (U : σ → Nat → α → Int → Bool × σ) (IsPendingKill : Nat → Bool) (Objects : σ)
    (InAllPropertyAttributes : List α) (AtIndex : Int)
    (hLen : InAllPropertyAttributes.length < 2147483648) :
    UpdateGenericPropertiesAttributes U IsPendingKill Objects none InAllPropertyAttributes
        AtIndex = (false, Objects, [])
    ∧ (∀ Object, IsPendingKill Object = true →
        UpdateGenericPropertiesAttributes U IsPendingKill Objects (some Object)
          InAllPropertyAttributes AtIndex = (false, Objects, []))
    ∧ (∀ Object, IsPendingKill Object = false →
        (UpdateGenericPropertiesAttributes U IsPendingKill Objects (some Object)
            InAllPropertyAttributes AtIndex).2.2.map Prod.fst = InAllPropertyAttributes
        ∧ ((UpdateGenericPropertiesAttributes U IsPendingKill Objects (some Object)
              InAllPropertyAttributes AtIndex).1 = true
            ↔ ∃ c ∈ (UpdateGenericPropertiesAttributes U IsPendingKill Objects (some Object)
                InAllPropertyAttributes AtIndex).2.2, c.2 = true)) := by
  refine ⟨rfl, ?_, ?_⟩
  · intro Object hpk
    simp [UpdateGenericPropertiesAttributes, hpk]
  · intro Object hpk
    obtain ⟨h1, h2⟩ := updateGenericLoop_spec U Object AtIndex InAllPropertyAttributes
      ⟨0, Objects, []⟩ (Int.le_refl 0) (by simp) (by simpa using hLen)
    simp only [UpdateGenericPropertiesAttributes, hpk, Bool.false_eq_true, if_false]
    refine ⟨by simpa using h1, ?_⟩
    rw [h2]
    simp only [gt_iff_lt, decide_eq_true_eq, Int.natCast_pos, List.length_pos]
    constructor
    · intro hne
      obtain ⟨c, hc⟩ := List.exists_mem_of_ne_nil _ hne
      exact ⟨c, (List.mem_filter.mp hc).1, (List.mem_filter.mp hc).2⟩
    · rintro ⟨c, hc, ht⟩
      exact List.ne_nil_of_mem (List.mem_filter.mpr ⟨hc, ht⟩)

/-- C24, concrete case: the attributes 1, 2, 3, 4 on the live object 7, an attribute
being applied when it is even; all four are tried in order, the second and fourth are
applied, and the function returns true. -/
theorem UpdateGenericPropertiesAttributes_attempts_all_witness :
    (UpdateGenericPropertiesAttributes
        (fun (s : List Nat) (_ : Nat) (a : Nat) (_ : Int) =>
          (decide (a % 2 = 0), if a % 2 = 0 then s ++ [a] else s))
        (fun _ => false) [] (some 7) [1, 2, 3, 4] 0).2.2.map Prod.fst = [1, 2, 3, 4]
    ∧ UpdateGenericPropertiesAttributes
        (fun (s : List Nat) (_ : Nat) (a : Nat) (_ : Int) =>
          (decide (a % 2 = 0), if a % 2 = 0 then s ++ [a] else s))
        (fun _ => false) [] (some 7) [1, 2, 3, 4] 0
      = (true, [2, 4], [(1, false), (2, true), (3, false), (4, true)]) :=
  ⟨((UpdateGenericPropertiesAttributes_attempts_all
      (fun (s : List Nat) (_ : Nat) (a : Nat) (_ : Int) =>
        (decide (a % 2 = 0), if a % 2 = 0 then s ++ [a] else s))
      (fun _ => false) [] [1, 2, 3, 4] 0 (by decide)).2.2 7 rfl).1,
   by decide⟩

/-! ## Reconciliation pass: no component is dropped undestroyed -/

theorem nodup_keys_TMapRemove {K V : Type} [DecidableEq K] (m : List (K × V)) (k : K)
    (h : (m.map Prod.fst).Nodup) : ((TMapRemove m k).map Prod.fst).Nodup :=
  h.sublist ((List.filter_sublist _).map _)

theorem mem_TMapRemove_of_ne {K V : Type} [DecidableEq K] (m : List (K × V)) (k k' : K)
    (v : V) (h : (k, v) ∈ m) (hne : k ≠ k') : (k, v) ∈ TMapRemove m k' := by
  unfold TMapRemove
  exact List.mem_filter.mpr ⟨h, by simpa using hne⟩

theorem removeReused_removed {K : Type} [DecidableEq K] (P : Nat → Bool) (k : K)
    (o : FHoudiniOutputObject) (New : List (K × FHoudiniOutputObject)) :
    ∀ (Old : List (K × FHoudiniOutputObject)), (Old.map Prod.fst).Nodup → (k, o) ∈ Old →
      (k, o) ∉ removeReused P New Old →
      ∃ n, (k, n) ∈ New ∧ computeKeep P n o = true := by
  induction New with
  | nil => intro Old _ hmem hnot; exact absurd hmem hnot
  | cons hd rest ih =>
    intro Old hnd hmem hnot
    obtain ⟨k', n⟩ := hd
    simp only [removeReused] at hnot
    split at hnot
    · obtain ⟨n', hn', hk⟩ := ih Old hnd hmem hnot
      exact ⟨n', List.mem_cons_of_mem _ hn', hk⟩
    · rename_i o' hfind
      split at hnot
      · rename_i hkeep
        by_cases hkk : k = k'
        · subst hkk
          rw [TMapFind_of_mem Old hnd k o hmem] at hfind
          simp only [Option.some.injEq] at hfind
          subst hfind
          exact ⟨n, List.mem_cons_self _ _, hkeep⟩
        · obtain ⟨n', hn', hk⟩ := ih (TMapRemove Old k') (nodup_keys_TMapRemove Old k' hnd)
            (mem_TMapRemove_of_ne Old k k' o hmem hkk) hnot
          exact ⟨n', List.mem_cons_of_mem _ hn', hk⟩
      · obtain ⟨n', hn', hk⟩ := ih Old hnd hmem hnot
        exact ⟨n', List.mem_cons_of_mem _ hn', hk⟩

theorem computeKeep_held (P : Nat → Bool) (n o : FHoudiniOutputObject)
    (hOne : o.OutputComponent = none ∨ o.ProxyComponent = none)
    (hk : computeKeep P n o = true) :
    ∀ c ∈ heldComponents o, c ∈ heldComponents n := by
  intro c hc
  obtain ⟨oo, oc, op, opc, ob⟩ := o
  obtain ⟨no, nc, np, npc, nb⟩ := n
  simp only [heldComponents, List.mem_append, Option.mem_toList, Option.mem_def] at hc ⊢
  rcases hOne with h | h
  · have h' : oc = none := h
    subst h'
    rcases hc with hc | hc
    · exact absurd hc (by simp)
    · have hc' : opc = some c := hc
      subst hc'
      cases nc <;> cases npc <;> simp [computeKeep] at hk ⊢
      all_goals simp_all
  · have h' : opc = none := h
    subst h'
    rcases hc with hc | hc
    · have hc' : oc = some c := hc
      subst hc'
      cases nc <;> cases npc <;> simp [computeKeep] at hk ⊢
      all_goals simp_all
    · exact absurd hc (by simp)

/-- The reconciliation pass on an old map with distinct identifiers in which every entry
holds at most one component: every component of the old map, live or not, is passed to
`RemoveAndDestroyComponent` or is held by the entry of the same identifier in the new map
that the pass installs. -/
theorem reconcileOutputObjects_no_leak {K : Type} [DecidableEq K] (P : Nat → Bool)
    (New Old : List (K × FHoudiniOutputObject))
    (hOld : (Old.map Prod.fst).Nodup)
    (hOne : ∀ e ∈ Old, e.2.OutputComponent = none ∨ e.2.ProxyComponent = none) :
    ∀ k o, (k, o) ∈ Old → ∀ c ∈ heldComponents o,
      c ∈ (reconcileOutputObjects P New Old).1
      ∨ ∃ n, (k, n) ∈ (reconcileOutputObjects P New Old).2 ∧ c ∈ heldComponents n := by
  intro k o hmem c hc
  by_cases hleft : (k, o) ∈ removeReused P New Old
  · left
    exact (mem_destroyCalls _ c).mpr ⟨(k, o), hleft, hc⟩
  · right
    obtain ⟨n, hn, hk⟩ := removeReused_removed P k o New Old hOld hmem hleft
    exact ⟨n, hn, computeKeep_held P n o (hOne (k, o) hmem) hk c hc⟩

/-- In the worked example the component 11 of identifier 3, which disappears, is passed to
`RemoveAndDestroyComponent`. -/
theorem reconcileOutputObjects_no_leak_witness :
    (11 ∈ (reconcileOutputObjects (fun _ => false) reuseNew reuseOld).1
      ∨ ∃ n, (3, n) ∈ (reconcileOutputObjects (fun _ => false) reuseNew reuseOld).2
          ∧ 11 ∈ heldComponents n)
    ∧ (reconcileOutputObjects (fun _ => false) reuseNew reuseOld).1 = [11] :=
  ⟨reconcileOutputObjects_no_leak (fun _ => false) reuseNew reuseOld (by decide) (by decide)
      3 (outputOnly 11) (by decide) 11 (by decide),
   by decide⟩

/-- The reconciliation pass on an old entry that holds two components: the old entry of
identifier 1 holds the live output component 10 and the live proxy component 20, the new
entry of identifier 1 holds the proxy component 20 only; the proxy comparison sets `bKeep`,
the old entry is removed from the old map before the destroy loop, and component 10 is
neither destroyed nor held by the installed map. -/
theorem reconcileOutputObjects_drops_other_slot :
    reconcileOutputObjects (fun _ => false)
        [((1 : Nat), proxyOnly 20)] [(1, outputAndProxy 10 20)]
      = ([], [(1, proxyOnly 20)])
    ∧ 10 ∈ heldComponents (outputAndProxy 10 20)
    ∧ 10 ∉ heldComponents (proxyOnly 20) := by
  decide

/-! ## Soft failure of the entry point and stale flags -/

/-- C27: `CreateAllInstancersFromHoudiniOutput` returns false exactly for a null or
pending-kill output, a null or pending-kill outer, or an outer that is not a scene
component.  In the first four cases the output is as it was; in the last one the
output-object map is as it was but every instanced output of the output has been marked
stale before the function returns. -/
theorem CreateAllInstancersFromHoudiniOutput_false_marks_stale {K : Type} [DecidableEq K]
    (Context : FTranslatorContext K) (InAllOutputs : List (Option UHoudiniOutput))
    (NextHandle : Nat) :
    (∀ Outer, CreateAllInstancersFromHoudiniOutput Context none InAllOutputs Outer NextHandle
        = some ⟨false, none, []⟩)
    ∧ (∀ Output Outer, Output.bPendingKill = true →
        CreateAllInstancersFromHoudiniOutput Context (some Output) InAllOutputs Outer NextHandle
          = some ⟨false, some Output, []⟩)
    ∧ (∀ Output, Output.bPendingKill = false →
        CreateAllInstancersFromHoudiniOutput Context (some Output) InAllOutputs none NextHandle
          = some ⟨false, some Output, []⟩)
    ∧ (∀ Output Outer, Output.bPendingKill = false → Outer.bPendingKill = true →
        CreateAllInstancersFromHoudiniOutput Context (some Output) InAllOutputs (some Outer)
            NextHandle
          = some ⟨false, some Output, []⟩)
    ∧ (∀ Output Outer, Output.bPendingKill = false → Outer.bPendingKill = false →
        Outer.bIsSceneComponent = false →
        CreateAllInstancersFromHoudiniOutput Context (some Output) InAllOutputs (some Outer)
            NextHandle
          = some ⟨false,
              some { Output with
                InstancedOutputs :=
                  Output.InstancedOutputs.map (fun e => (e.1, { e.2 with bStale := true })) },
              []⟩)
    ∧ (∀ Output Outer r, Output.bPendingKill = false → Outer.bPendingKill = false →
        Outer.bIsSceneComponent = true →
        CreateAllInstancersFromHoudiniOutput Context (some Output) InAllOutputs (some Outer)
            NextHandle = some r →
        r.bReturn = true) := by
  refine ⟨fun _ => rfl, ?_, ?_, ?_, ?_, ?_⟩
  · intro Output Outer h
    simp [CreateAllInstancersFromHoudiniOutput, h]
  · intro Output h
    simp [CreateAllInstancersFromHoudiniOutput, h]
  · intro Output Outer h1 h2
    simp [CreateAllInstancersFromHoudiniOutput, h1, h2]
  · intro Output Outer h1 h2 h3
    simp [CreateAllInstancersFromHoudiniOutput, h1, h2, h3]
  · intro Output Outer r h1 h2 h3 h
    simp only [CreateAllInstancersFromHoudiniOutput, h1, h2, h3, Bool.false_eq_true, if_false,
      Bool.not_true] at h
    split at h
    · exact absurd h (by simp)
    · simp only [Option.some.injEq] at h
      rw [← h]

/-- C27, concrete case: the output holds one instanced output that is not stale and the
outer is live but not a scene component; the function returns false and the instanced
output is stale afterwards. -/
theorem CreateAllInstancersFromHoudiniOutput_false_marks_stale_witness :
    witnessA.bStale = false
    ∧ CreateAllInstancersFromHoudiniOutput sampleTranslatorContext
        (some outputWithInstancedOutput) [] (some plainOuter) 100
      = some ⟨false,
          some { outputWithInstancedOutput with
            InstancedOutputs :=
              outputWithInstancedOutput.InstancedOutputs.map
                (fun e => (e.1, { e.2 with bStale := true })) },
          []⟩
    ∧ outputWithInstancedOutput.InstancedOutputs.map
          (fun e => (e.1, { e.2 with bStale := true }))
        = [(partIdentifier, { witnessA with bStale := true })] :=
  ⟨rfl,
   (CreateAllInstancersFromHoudiniOutput_false_marks_stale sampleTranslatorContext [] 100).2.2.2.2.1
      outputWithInstancedOutput plainOuter rfl rfl rfl,
   rfl⟩

/-! ## UpdateChangedInstancedOutput: which instanced output is resolved -/

/-- C25: the first step of `UpdateChangedInstancedOutput` does not depend on the split
identifier of the identifier it is given, because `UpdateInstanceVariationObjects` sets
the split identifier to the decimal of the position in the one-element array of original
objects, which is 0.  In the worked example a cook of the original objects 7 and 8 stores
two instanced outputs under the split identifiers 0 and 1, the editor sets the variation
of the second one to object 9, and the call for the second one (split identifier 1)
rewrites the instanced output stored under split identifier 0 (its original object
becomes 8, its transforms those of the second one), leaves the second one as it was,
still marked changed, and emits object 8 with original index 0. -/
theorem UpdateChangedInstancedOutput_resolves_split_zero :
    (∀ (W : FObjectWorld) (eps : ℚ)
        (IdEq : FHoudiniOutputObjectIdentifier → FHoudiniOutputObjectIdentifier → Bool)
        (InInstancedOutput : FHoudiniInstancedOutput)
        (Id : FHoudiniOutputObjectIdentifier) (s : String)
        (m : List (FHoudiniOutputObjectIdentifier × FHoudiniInstancedOutput)),
        updateChangedVariations W eps IdEq InInstancedOutput Id m
          = updateChangedVariations W eps IdEq InInstancedOutput
              { Id with SplitIdentifier := s } m)
    ∧ (UpdateInstanceVariationObjects liveWorld (1 / 1000) sampleTranslatorContext.IdEq
          (splitIdentifier "") [some 7, some 8] [threeTransforms, [offsetUnitX]]
          emptyVariationState).map (fun State => State.InstancedOutputs)
        = some [(splitIdentifier "0", cookedFirst), (splitIdentifier "1", cookedSecond)]
    ∧ SetObjectAt cookedSecond 0 (some 9) = editedSecond
    ∧ updateChangedVariations liveWorld (1 / 1000) sampleTranslatorContext.IdEq
          editedSecond (splitIdentifier "1")
          [(splitIdentifier "0", cookedFirst), (splitIdentifier "1", editedSecond)]
        = some
            { InstancedOutputs :=
                [(splitIdentifier "0",
                  { OriginalObject := some 8, OriginalObjectIndex := 0,
                    OriginalTransforms := [offsetUnitX],
                    VariationObjects := [some 8],
                    VariationTransformOffsets := [FTransform.Identity],
                    TransformVariationIndices := [0],
                    bChanged := false, bStale := false }),
                 (splitIdentifier "1", editedSecond)],
              Out :=
                { VariationsInstancedObjects := [some 8],
                  VariationsInstancedTransforms := [[offsetUnitX]],
                  VariationOriginalObjectIdx := [0],
                  VariationIndices := [0] } } := by
  refine ⟨?_, ?_, ?_, ?_⟩
  · intro W eps IdEq InInstancedOutput Id s m
    simp only [updateChangedVariations, UpdateInstanceVariationObjects,
      updateInstanceVariationLoop, updateInstanceVariationObject]
  · have h0 : FromInt ((0 : Nat) : Int) = "0" := by simp [FromInt, decimalDigits]
    have h1 : FromInt (((0 : Nat) + 1 : Nat) : Int) = "1" := by
      simp [FromInt, decimalDigits]
      rfl
    simp only [UpdateInstanceVariationObjects, updateInstanceVariationLoop,
      updateInstanceVariationObject, h0, h1]
    simp [scanInstancedOutputs, FTranslatorContext.IdEq, sampleTranslatorContext,
      splitIdentifier, FHoudiniOutputObjectIdentifier.Default, liveWorld, emptyVariationState,
      createInstancedOutput, SetNumZeroed, FVariationArrays.Add, cookedFirst, cookedSecond,
      threeTransforms]
  · rfl
  · have h0 : FromInt ((0 : Nat) : Int) = "0" := by simp [FromInt, decimalDigits]
    have hScan :
        scanInstancedOutputs sampleTranslatorContext.IdEq (splitIdentifier "0")
            [(splitIdentifier "0", cookedFirst), (splitIdentifier "1", editedSecond)] 0 none
          = ([(splitIdentifier "0", cookedFirst), (splitIdentifier "1", editedSecond)],
              some 0) := by
      rfl
    have hId :
        ({ FHoudiniOutputObjectIdentifier.Default with
            ObjectId := (splitIdentifier "1").ObjectId,
            GeoId := (splitIdentifier "1").GeoId,
            PartId := (splitIdentifier "1").PartId,
            SplitIdentifier := "0",
            PartName := (splitIdentifier "1").PartName } : FHoudiniOutputObjectIdentifier)
          = splitIdentifier "0" := by
      rfl
    have hUpdate :
        updateInstancedOutput liveWorld cookedFirst 8 ((0 : Nat) : Int) [offsetUnitX]
          = some
              { OriginalObject := some 8, OriginalObjectIndex := 0,
                OriginalTransforms := [offsetUnitX],
                VariationObjects := [some 8],
                VariationTransformOffsets := [FTransform.Identity],
                TransformVariationIndices := [0],
                bChanged := false, bStale := false } := by
      rfl
    have hEmit :
        emitVariations liveWorld (1 / 1000)
            { OriginalObject := some 8, OriginalObjectIndex := 0,
              OriginalTransforms := [offsetUnitX],
              VariationObjects := [some 8],
              VariationTransformOffsets := [FTransform.Identity],
              TransformVariationIndices := [0],
              bChanged := false, bStale := false } ((0 : Nat) : Int) 1 0 ⟨[], [], [], []⟩
          = some ⟨[some 8], [[offsetUnitX]], [0], [0]⟩ := by
      simp [emitVariations, ProcessInstanceTransforms, IsValidIndex, Equals_Identity_self,
        extractLoop, liveWorld, LoadSynchronous, IsNullOrPendingKill, FVariationArrays.Add]
    have hLoad : LoadSynchronous liveWorld editedSecond.OriginalObject = some 8 := rfl
    have hPK : liveWorld.IsPendingKill 8 = false := rfl
    have hT : editedSecond.OriginalTransforms = [offsetUnitX] := rfl
    simp only [updateChangedVariations, UpdateInstanceVariationObjects,
      updateInstanceVariationLoop, updateInstanceVariationObject, h0, hLoad, hT]
    rw [hId]
    simp only [hScan, hPK, Bool.false_eq_true, if_false, List.getElem?_cons_zero, hUpdate,
      hEmit, List.length_singleton, List.set_cons_zero]

/-! ## The reconciliation pass spares the map built by the creation loop -/

theorem createOrReuse_component (T N : ComponentClass) (b : Bool)
    (P : Option FParentComponent) (f : Bool) (C : Option USceneComponent) (Next : Nat) :
    (createOrReuse T N b P f C Next).Component = C
    ∨ (createOrReuse T N b P f C Next).Component = some ⟨Next, N, false⟩ := by
  unfold createOrReuse
  cases b
  · rcases P with _ | ⟨pk, lv⟩
    · exact Or.inl rfl
    · cases pk
      · simp only [Bool.false_eq_true, if_false]
        split
        · split
          · exact Or.inl rfl
          · exact Or.inl rfl
        · split
          · exact Or.inl rfl
          · exact Or.inr rfl
      · exact Or.inl rfl
  · exact Or.inl rfl

theorem switchNewType_component (t : InstancerComponentType) (a b c : Option UObject)
    (n : Nat) (P : Option FParentComponent) (C : Option USceneComponent) (Next : Nat)
    (r : FCreateResult) (h : switchNewType t a b c n P C Next = some r) :
    r.Component = C ∨ ∃ cls, r.Component = some ⟨Next, cls, false⟩ := by
  have hcr : ∀ (T N : ComponentClass) (bn : Bool) (f : Bool),
      (createOrReuse T N bn P f C Next).Component = C
      ∨ ∃ cls, (createOrReuse T N bn P f C Next).Component = some ⟨Next, cls, false⟩ := by
    intro T N bn f
    rcases createOrReuse_component T N bn P f C Next with h1 | h1
    · exact Or.inl h1
    · exact Or.inr ⟨N, h1⟩
  cases t
  · simp only [switchNewType, Option.some.injEq] at h
    subst h; exact Or.inl rfl
  · simp only [switchNewType, Option.some.injEq, CreateOrUpdateInstancedStaticMeshComponent] at h
    subst h
    split
    · exact Or.inl rfl
    · exact hcr _ _ _ _
  · simp only [switchNewType, Option.some.injEq, CreateOrUpdateInstancedStaticMeshComponent] at h
    subst h
    split
    · exact Or.inl rfl
    · exact hcr _ _ _ _
  · simp only [switchNewType, Option.some.injEq, CreateOrUpdateMeshSplitInstancerComponent] at h
    subst h
    exact hcr _ _ _ _
  · simp only [switchNewType, Option.some.injEq, CreateOrUpdateInstancedActorComponent] at h
    subst h
    exact hcr _ _ _ _
  · simp only [switchNewType, CreateOrUpdateStaticMeshComponent] at h
    split at h
    · exact absurd h (by simp)
    · simp only [Option.some.injEq] at h
      subst h
      exact hcr _ _ _ _
  · simp only [switchNewType, CreateOrUpdateHoudiniStaticMeshComponent] at h
    split at h
    · exact absurd h (by simp)
    · simp only [Option.some.injEq] at h
      subst h
      exact hcr _ _ _ _

theorem CreateOrUpdateInstanceComponent_provenance (H : Nat → Bool)
    (Object : Option UObject) (Ts : List FTransform) (P : Option FParentComponent)
    (Old : Option USceneComponent) (bSplit : Bool) (Next : Nat) (r : FCreateResult)
    (c : USceneComponent)
    (h : CreateOrUpdateInstanceComponent H Object Ts P Old none bSplit Next = some r)
    (hc : r.Component = some c) :
    c.Handle = Next ∨ (Old = some c ∧ c.bPendingKill = false) := by
  simp only [CreateOrUpdateInstanceComponent] at h
  split at h
  · simp only [Option.some.injEq] at h
    subst h
    exact absurd hc (by simp)
  · rename_i hInv
    split at h
    · exact absurd h (by simp)
    · rename_i r0 hr0
      have hcomp := finishInstanceComponent_component H _ P Old r0 r h
      rw [hcomp] at hc
      rcases switchNewType_component _ _ _ _ _ _ _ _ r0 hr0 with h1 | ⟨cls, h1⟩
      · rw [h1] at hc
        split at hc
        · rename_i hEq
          refine Or.inr ⟨hc, ?_⟩
          rw [hc] at hEq
          exact (castTarget_of_oldComponentType c _ hEq hInv).2
        · exact absurd hc (by simp)
      · rw [h1] at hc
        simp only [Option.some.injEq] at hc
        subst hc
        exact Or.inl rfl

theorem CastSceneComponent_some {K : Type} (Context : FTranslatorContext K)
    (Object : Option Nat) (c : USceneComponent)
    (h : CastSceneComponent Context Object = some c) :
    Object = some c.Handle ∧ c.bPendingKill = Context.Classifier.IsPendingKill c.Handle := by
  unfold CastSceneComponent at h
  cases Object with
  | none => exact absurd h (by simp)
  | some x =>
    simp only at h
    split at h
    · exact absurd h (by simp)
    · simp only [Option.some.injEq] at h
      subst h
      exact ⟨rfl, rfl⟩

theorem FindOrAddAndSet_absent {K : Type} [DecidableEq K] (Context : FTranslatorContext K)
    (m : List (FHoudiniOutputObjectIdentifier × FHoudiniOutputObject))
    (k : FHoudiniOutputObjectIdentifier) (f : FHoudiniOutputObject → FHoudiniOutputObject)
    (h : ∀ e ∈ m, Context.MakeKey e.1 ≠ Context.MakeKey k) :
    FindOrAddAndSet Context m k f = m ++ [(k, f FHoudiniOutputObject.Default)] := by
  unfold FindOrAddAndSet
  have hany : m.any (fun e => Context.IdEq e.1 k) = false := by
    rw [List.any_eq_false]
    intro e he
    simp [FTranslatorContext.IdEq, h e he]
  rw [hany]
  simp

theorem createVariationComponent_entries {K : Type} [DecidableEq K]
    (Context : FTranslatorContext K) (Id : FHoudiniOutputObjectIdentifier)
    (Old : List (FHoudiniOutputObjectIdentifier × FHoudiniOutputObject))
    (P : FParentComponent) (bSplit : Bool) (V : FVariationArrays) (i : Nat)
    (State State' : FTranslatorState) (FirstHandle : Nat)
    (h : createVariationComponent Context Id Old P bSplit V i State = some State')
    (hN : FirstHandle ≤ State.NextHandle)
    (hAbsent : ∀ o v, V.VariationOriginalObjectIdx[i]? = some o →
      V.VariationIndices[i]? = some v →
      ∀ e ∈ State.NewOutputObjects,
        Context.MakeKey e.1 ≠ Context.MakeKey (variationIdentifier Id o v)) :
    FirstHandle ≤ State'.NextHandle
    ∧ ∀ e ∈ State'.NewOutputObjects,
        e ∈ State.NewOutputObjects
        ∨ ∃ o v, V.VariationOriginalObjectIdx[i]? = some o
            ∧ V.VariationIndices[i]? = some v
            ∧ e.1 = variationIdentifier Id o v
            ∧ CreatedOrReusedInPlace Context Old FirstHandle e.1 e.2 := by
  simp only [createVariationComponent] at h
  split at h
  · simp only [Option.some.injEq] at h; subst h; exact ⟨hN, fun e he => Or.inl he⟩
  · rename_i Object hObject
    split at h
    · simp only [Option.some.injEq] at h; subst h; exact ⟨hN, fun e he => Or.inl he⟩
    · split at h
      · simp only [Option.some.injEq] at h; subst h; exact ⟨hN, fun e he => Or.inl he⟩
      · rename_i T hT
        split at h
        · simp only [Option.some.injEq] at h; subst h; exact ⟨hN, fun e he => Or.inl he⟩
        · split at h
          · rename_i o v ho hv
            split at h
            · exact absurd h (by simp)
            · rename_i r hr
              split at h
              · simp only [Option.some.injEq] at h; subst h
                exact ⟨Nat.le_succ_of_le hN, fun e he => Or.inl he⟩
              · split at h
                · simp only [Option.some.injEq] at h; subst h
                  exact ⟨Nat.le_succ_of_le hN, fun e he => Or.inl he⟩
                · rename_i c hc
                  simp only [Option.some.injEq] at h
                  subst h
                  refine ⟨Nat.le_succ_of_le hN, ?_⟩
                  intro e he
                  simp only at he
                  rw [FindOrAddAndSet_absent Context _ _ _ (hAbsent o v ho hv)] at he
                  rcases List.mem_append.mp he with he | he
                  · exact Or.inl he
                  · simp only [List.mem_singleton] at he
                    subst he
                    refine Or.inr ⟨o, v, ho, hv, rfl, ?_⟩
                    have hprov := CreateOrUpdateInstanceComponent_provenance _ _ _ _ _ _ _ r c
                      hr hc
                    by_cases hProxy : Context.ObjectClassOf Object = ObjectClass.UHoudiniStaticMesh
                    · simp only [hProxy, decide_True, if_true] at hprov ⊢
                      refine ⟨Or.inl rfl, ?_, ?_⟩
                      · intro c' hc'
                        simp [FHoudiniOutputObject.Default] at hc'
                      · intro c' hc'
                        simp only [Option.some.injEq] at hc'
                        subst hc'
                        rcases hprov with h1 | ⟨h1, h2⟩
                        · left; omega
                        · right
                          split at h1
                          · exact absurd h1 (by simp)
                          · rename_i Found hFound
                            obtain ⟨h3, h4⟩ := CastSceneComponent_some Context _ c h1
                            exact ⟨Found, hFound, h3, by rw [← h4]; exact h2⟩
                    · simp only [hProxy, decide_False, Bool.false_eq_true, if_false] at hprov ⊢
                      refine ⟨Or.inr rfl, ?_, ?_⟩
                      · intro c' hc'
                        simp only [Option.some.injEq] at hc'
                        subst hc'
                        rcases hprov with h1 | ⟨h1, h2⟩
                        · left; omega
                        · right
                          split at h1
                          · exact absurd h1 (by simp)
                          · rename_i Found hFound
                            obtain ⟨h3, h4⟩ := CastSceneComponent_some Context _ c h1
                            exact ⟨Found, hFound, h3, by rw [← h4]; exact h2⟩
                      · intro c' hc'
                        simp [FHoudiniOutputObject.Default] at hc'
          · exact absurd h (by simp)

theorem IndexPairsBelow_Add (Out : FVariationArrays) (i v : Int) (Object : Option Nat)
    (T : List FTransform) (hi : 0 ≤ i) (hv : 0 ≤ v) (h : IndexPairsBelow Out i v) :
    IndexPairsBelow (Out.Add Object T i v) i (v + 1) := by
  obtain ⟨hlen, hpw, hb⟩ := h
  have hz : (Out.Add Object T i v).IndexPairs = Out.IndexPairs ++ [(i, v)] := by
    simp only [FVariationArrays.IndexPairs, FVariationArrays.Add]
    rw [List.zip_append hlen]
    rfl
  refine ⟨?_, ?_, ?_⟩
  · simp only [FVariationArrays.Add, List.length_append, List.length_singleton, hlen]
  · rw [hz, List.pairwise_append]
    refine ⟨hpw, List.pairwise_singleton _ _, ?_⟩
    intro a ha b hb'
    simp only [List.mem_singleton] at hb'
    subst hb'
    exact (hb a ha).2.2
  · rw [hz]
    intro p hp
    rcases List.mem_append.mp hp with hp | hp
    · obtain ⟨h1, h2, h3⟩ := hb p hp
      refine ⟨h1, h2, ?_⟩
      rcases h3 with h3 | ⟨h3, h4⟩
      · exact Or.inl h3
      · exact Or.inr ⟨h3, by omega⟩
    · simp only [List.mem_singleton] at hp
      subst hp
      exact ⟨hi, hv, Or.inr ⟨rfl, by simp⟩⟩

theorem IndexPairsBelow_mono (Out : FVariationArrays) (i v i' v' : Int)
    (h : IndexPairsBelow Out i v) (hle : i < i' ∨ (i = i' ∧ v ≤ v')) :
    IndexPairsBelow Out i' v' := by
  obtain ⟨hlen, hpw, hb⟩ := h
  refine ⟨hlen, hpw, fun p hp => ?_⟩
  obtain ⟨h1, h2, h3⟩ := hb p hp
  refine ⟨h1, h2, ?_⟩
  rcases h3 with h3 | ⟨h3, h4⟩ <;> rcases hle with h5 | ⟨h5, h6⟩
  · exact Or.inl (by omega)
  · exact Or.inl (by omega)
  · exact Or.inl (by omega)
  · exact Or.inr ⟨by omega, by omega⟩

theorem emitVariations_pairs (W : FObjectWorld) (eps : ℚ) (Cur : FHoudiniInstancedOutput)
    (i : Int) (hi : 0 ≤ i) :
    ∀ (Count VarIdx : Nat) (Out Out' : FVariationArrays),
      emitVariations W eps Cur i Count VarIdx Out = some Out' →
      IndexPairsBelow Out i (VarIdx : Int) →
      IndexPairsBelow Out' i ((VarIdx + Count : Nat) : Int) := by
  intro Count
  induction Count with
  | zero =>
    intro VarIdx Out Out' h hB
    simp only [emitVariations, Option.some.injEq] at h
    subst h
    exact hB
  | succ n ih =>
    intro VarIdx Out Out' h hB
    have hstep : IndexPairsBelow Out i ((VarIdx + 1 : Nat) : Int) :=
      IndexPairsBelow_mono Out i _ i _ hB (Or.inr ⟨rfl, by omega⟩)
    have hcast : ((VarIdx + (n + 1) : Nat) : Int) = ((VarIdx + 1 + n : Nat) : Int) := by
      omega
    rw [hcast]
    simp only [emitVariations] at h
    split at h
    · exact ih _ _ _ h hstep
    · split at h
      · exact absurd h (by simp)
      · split at h
        · refine ih _ _ _ h ?_
          rw [Nat.cast_add, Nat.cast_one]
          exact IndexPairsBelow_Add Out i (VarIdx : Int) _ _ hi (by omega) hB
        · exact ih _ _ _ h hstep

theorem updateInstanceVariationObject_pairs (W : FObjectWorld) (eps : ℚ)
    (IdEq : FHoudiniOutputObjectIdentifier → FHoudiniOutputObjectIdentifier → Bool)
    (Id : FHoudiniOutputObjectIdentifier) (Ts : List (List FTransform)) (i : Nat)
    (Object : Option Nat) (State State' : FVariationState)
    (h : updateInstanceVariationObject W eps IdEq Id Ts i Object State = some State')
    (hB : IndexPairsBelow State.Out (i : Int) 0) :
    IndexPairsBelow State'.Out ((i + 1 : Nat) : Int) 0 := by
  have hnext : ∀ (Out : FVariationArrays) (v : Int),
      IndexPairsBelow Out (i : Int) v → IndexPairsBelow Out ((i + 1 : Nat) : Int) 0 := by
    intro Out v hO
    exact IndexPairsBelow_mono Out _ _ _ _ hO (Or.inl (by omega))
  cases Object with
  | none =>
    simp only [updateInstanceVariationObject, Option.some.injEq] at h
    subst h; exact hnext _ _ hB
  | some obj =>
    by_cases hpk : W.IsPendingKill obj = true
    · simp only [updateInstanceVariationObject, hpk, if_true, Option.some.injEq] at h
      subst h; exact hnext _ _ hB
    · have hLive : W.IsPendingKill obj = false := by simpa using hpk
      simp only [updateInstanceVariationObject, hLive, Bool.false_eq_true, if_false] at h
      split at h
      · split at h
        · exact absurd h (by simp)
        · simp only [Option.some.injEq] at h
          subst h
          exact hnext _ _ (IndexPairsBelow_Add State.Out (i : Int) 0 _ _ (by omega)
            (le_refl _) hB)
      · split at h
        · split at h
          · exact absurd h (by simp)
          · split at h
            · exact absurd h (by simp)
            · rename_i Out hOut
              simp only [Option.some.injEq] at h
              subst h
              have := emitVariations_pairs W eps _ (i : Int) (by omega) _ 0 _ _ hOut
                (by simpa using hB)
              exact hnext _ _ this
        · exact absurd h (by simp)

theorem updateInstanceVariationLoop_pairs (W : FObjectWorld) (eps : ℚ)
    (IdEq : FHoudiniOutputObjectIdentifier → FHoudiniOutputObjectIdentifier → Bool)
    (Id : FHoudiniOutputObjectIdentifier) (Ts : List (List FTransform))
    (objs : List (Option Nat)) :
    ∀ (i : Nat) (State State' : FVariationState),
      updateInstanceVariationLoop W eps IdEq Id Ts objs i State = some State' →
      IndexPairsBelow State.Out (i : Int) 0 →
      IndexPairsBelow State'.Out ((i + objs.length : Nat) : Int) 0 := by
  induction objs with
  | nil =>
    intro i State State' h hB
    simp only [updateInstanceVariationLoop, Option.some.injEq] at h
    subst h
    simpa using hB
  | cons o rest ih =>
    intro i State State' h hB
    simp only [updateInstanceVariationLoop] at h
    split at h
    · exact absurd h (by simp)
    · rename_i State1 h1
      have h2 := updateInstanceVariationObject_pairs W eps IdEq Id Ts i o State State1 h1 hB
      have h3 := ih (i + 1) State1 State' h h2
      have hcast : ((i + (o :: rest).length : Nat) : Int) = ((i + 1 + rest.length : Nat) : Int) := by
        simp only [List.length_cons]
        omega
      rw [hcast]
      exact h3

theorem IndexPairsBelow_distinct (Out : FVariationArrays) (i v : Int)
    (h : IndexPairsBelow Out i v) (a b : Nat) (o1 v1 o2 v2 : Int) (hab : a ≠ b)
    (ha1 : Out.VariationOriginalObjectIdx[a]? = some o1)
    (ha2 : Out.VariationIndices[a]? = some v1)
    (hb1 : Out.VariationOriginalObjectIdx[b]? = some o2)
    (hb2 : Out.VariationIndices[b]? = some v2) :
    0 ≤ o1 ∧ 0 ≤ v1 ∧ 0 ≤ o2 ∧ 0 ≤ v2 ∧ ¬ (o1 = o2 ∧ v1 = v2) := by
  obtain ⟨hlen, hpw, hb⟩ := h
  have hza : Out.IndexPairs[a]? = some (o1, v1) := by
    simp only [FVariationArrays.IndexPairs, List.getElem?_zip_eq_some]
    exact ⟨ha1, ha2⟩
  have hzb : Out.IndexPairs[b]? = some (o2, v2) := by
    simp only [FVariationArrays.IndexPairs, List.getElem?_zip_eq_some]
    exact ⟨hb1, hb2⟩
  obtain ⟨hla, hea⟩ := List.getElem?_eq_some_iff.mp hza
  obtain ⟨hlb, heb⟩ := List.getElem?_eq_some_iff.mp hzb
  have hma := hb _ (List.getElem?_mem hza)
  have hmb := hb _ (List.getElem?_mem hzb)
  refine ⟨hma.1, hma.2.1, hmb.1, hmb.2.1, ?_⟩
  rw [List.pairwise_iff_getElem] at hpw
  rcases Nat.lt_or_gt_of_ne hab with hlt | hlt
  · have := hpw a b hla hlb hlt
    rw [hea, heb] at this
    simp only at this
    omega
  · have := hpw b a hlb hla hlt
    rw [hea, heb] at this
    simp only at this
    omega

theorem variationSplitIdentifier_inj (a b c d : Int) (ha : 0 ≤ a) (hb : 0 ≤ b)
    (hc : 0 ≤ c) (hd : 0 ≤ d)
    (h : variationSplitIdentifier a b = variationSplitIdentifier c d) : a = c ∧ b = d := by
  have hdata := congrArg String.data h
  rw [variationSplitIdentifier_data a b ha hb, variationSplitIdentifier_data c d hc hd] at hdata
  obtain ⟨h1, h2⟩ := append_separator_inj '_' _ _ _ _
    (underscore_not_mem_decimalDigits _) (underscore_not_mem_decimalDigits _) hdata
  have e1 := decimalDigits_inj _ _ h1
  have e2 := decimalDigits_inj _ _ h2
  omega

theorem createVariationComponents_entries {K : Type} [DecidableEq K]
    (Context : FTranslatorContext K) (Id : FHoudiniOutputObjectIdentifier)
    (Old : List (FHoudiniOutputObjectIdentifier × FHoudiniOutputObject))
    (P : FParentComponent) (bSplit : Bool) (V : FVariationArrays) (FirstHandle : Nat)
    (hDistinct : ∀ (i j : Nat) (o v o' v' : Int), i ≠ j →
      V.VariationOriginalObjectIdx[i]? = some o → V.VariationIndices[i]? = some v →
      V.VariationOriginalObjectIdx[j]? = some o' → V.VariationIndices[j]? = some v' →
      Context.MakeKey (variationIdentifier Id o v)
        ≠ Context.MakeKey (variationIdentifier Id o' v')) :
    ∀ (idxs : List Nat) (State State' : FTranslatorState),
      createVariationComponents Context Id Old P bSplit V idxs State = some State' →
      idxs.Nodup →
      FirstHandle ≤ State.NextHandle →
      (∀ e ∈ State.NewOutputObjects, ∀ i ∈ idxs, ∀ o v,
        V.VariationOriginalObjectIdx[i]? = some o → V.VariationIndices[i]? = some v →
        Context.MakeKey e.1 ≠ Context.MakeKey (variationIdentifier Id o v)) →
      FirstHandle ≤ State'.NextHandle
      ∧ ∀ e ∈ State'.NewOutputObjects,
          e ∈ State.NewOutputObjects
          ∨ ∃ o v, e.1 = variationIdentifier Id o v
              ∧ CreatedOrReusedInPlace Context Old FirstHandle e.1 e.2 := by
  intro idxs
  induction idxs with
  | nil =>
    intro State State' h _ hN _
    simp only [createVariationComponents, Option.some.injEq] at h
    subst h
    exact ⟨hN, fun e he => Or.inl he⟩
  | cons i rest ih =>
    intro State State' h hnd hN hAbsent
    simp only [createVariationComponents] at h
    split at h
    · exact absurd h (by simp)
    · rename_i State1 h1
      obtain ⟨hni, hndr⟩ := List.nodup_cons.mp hnd
      obtain ⟨hN1, hE1⟩ := createVariationComponent_entries Context Id Old P bSplit V i State
        State1 FirstHandle h1 hN
        (fun o v ho hv e he => hAbsent e he i (List.mem_cons_self _ _) o v ho hv)
      have hAbsent1 : ∀ e ∈ State1.NewOutputObjects, ∀ j ∈ rest, ∀ o v,
          V.VariationOriginalObjectIdx[j]? = some o → V.VariationIndices[j]? = some v →
          Context.MakeKey e.1 ≠ Context.MakeKey (variationIdentifier Id o v) := by
        intro e he j hj o v ho hv
        rcases hE1 e he with h2 | ⟨o', v', ho', hv', heq, _⟩
        · exact hAbsent e h2 j (List.mem_cons_of_mem _ hj) o v ho hv
        · rw [heq]
          have hij : i ≠ j := by
            intro hij
            subst hij
            exact hni hj
          exact hDistinct i j o' v' o v hij ho' hv' ho hv
      obtain ⟨hN2, hE2⟩ := ih State1 State' h hndr hN1 hAbsent1
      refine ⟨hN2, fun e he => ?_⟩
      rcases hE2 e he with h2 | h2
      · rcases hE1 e h2 with h3 | ⟨o, v, _, _, heq, hg⟩
        · exact Or.inl h3
        · exact Or.inr ⟨o, v, heq, hg⟩
      · exact Or.inr h2

theorem IndexPairsBelow_empty : IndexPairsBelow ⟨[], [], [], []⟩ ((0 : Nat) : Int) 0 := by
  refine ⟨rfl, ?_, ?_⟩
  · simp [FVariationArrays.IndexPairs]
  · intro p hp
    simp [FVariationArrays.IndexPairs] at hp

theorem processPart_entries {K : Type} [DecidableEq K] (Context : FTranslatorContext K)
    (All : List (Option UHoudiniOutput))
    (Old : List (FHoudiniOutputObjectIdentifier × FHoudiniOutputObject))
    (P : FParentComponent) (CurHGPO : FHoudiniGeoPartObject)
    (State State' : FTranslatorState) (FirstHandle : Nat)
    (hSplit : ∀ x y, Context.MakeKey x = Context.MakeKey y →
      x.SplitIdentifier = y.SplitIdentifier)
    (h : processPart Context All Old P CurHGPO State = some State')
    (hN : FirstHandle ≤ State.NextHandle)
    (hAbsent : CurHGPO.PartType = .Instancer → ∀ e ∈ State.NewOutputObjects, ∀ s : String,
      Context.MakeKey e.1
        ≠ Context.MakeKey { partOutputIdentifier CurHGPO with SplitIdentifier := s }) :
    FirstHandle ≤ State'.NextHandle
    ∧ ∀ e ∈ State'.NewOutputObjects,
        e ∈ State.NewOutputObjects
        ∨ (CurHGPO.PartType = .Instancer
            ∧ (∃ s : String,
                e.1 = { partOutputIdentifier CurHGPO with SplitIdentifier := s })
            ∧ CreatedOrReusedInPlace Context Old FirstHandle e.1 e.2) := by
  simp only [processPart] at h
  split at h
  · simp only [Option.some.injEq] at h
    subst h
    exact ⟨hN, fun e he => Or.inl he⟩
  · rename_i hType
    have hInst : CurHGPO.PartType = .Instancer := by
      by_contra hc
      exact hType hc
    split at h
    · exact absurd h (by simp)
    · rename_i Classified hClass
      split at h
      · simp only [Option.some.injEq] at h
        subst h
        exact ⟨hN, fun e he => Or.inl he⟩
      · split at h
        · exact absurd h (by simp)
        · rename_i Variation hVar
          have hPairs := updateInstanceVariationLoop_pairs _ _ _ _ _ _ 0 _ _ hVar
            IndexPairsBelow_empty
          have hDistinct : ∀ (i j : Nat) (o v o' v' : Int), i ≠ j →
              Variation.Out.VariationOriginalObjectIdx[i]? = some o →
              Variation.Out.VariationIndices[i]? = some v →
              Variation.Out.VariationOriginalObjectIdx[j]? = some o' →
              Variation.Out.VariationIndices[j]? = some v' →
              Context.MakeKey (variationIdentifier (partOutputIdentifier CurHGPO) o v)
                ≠ Context.MakeKey (variationIdentifier (partOutputIdentifier CurHGPO) o' v') := by
            intro i j o v o' v' hij h1 h2 h3 h4 hkey
            obtain ⟨p1, p2, p3, p4, hne⟩ := IndexPairsBelow_distinct _ _ _ hPairs i j o v o' v'
              hij h1 h2 h3 h4
            have := hSplit _ _ hkey
            exact hne (variationSplitIdentifier_inj o v o' v' p1 p2 p3 p4 this)
          obtain ⟨hN2, hE2⟩ := createVariationComponents_entries Context
            (partOutputIdentifier CurHGPO) Old P _ Variation.Out FirstHandle hDistinct _ _ _ h
            (List.nodup_range _) hN
            (fun e he i _ o v _ _ => hAbsent hInst e he (variationSplitIdentifier o v))
          refine ⟨hN2, fun e he => ?_⟩
          rcases hE2 e he with h2 | ⟨o, v, heq, hg⟩
          · exact Or.inl h2
          · exact Or.inr ⟨hInst, ⟨variationSplitIdentifier o v, heq⟩, hg⟩

theorem processParts_entries {K : Type} [DecidableEq K] (Context : FTranslatorContext K)
    (All : List (Option UHoudiniOutput))
    (Old : List (FHoudiniOutputObjectIdentifier × FHoudiniOutputObject))
    (P : FParentComponent) (FirstHandle : Nat)
    (hSplit : ∀ x y, Context.MakeKey x = Context.MakeKey y →
      x.SplitIdentifier = y.SplitIdentifier) :
    ∀ (Parts : List FHoudiniGeoPartObject) (State State' : FTranslatorState),
      processParts Context All Old P Parts State = some State' →
      Parts.Pairwise (PartsCompareDifferent Context) →
      FirstHandle ≤ State.NextHandle →
      (∀ e ∈ State.NewOutputObjects,
        CreatedOrReusedInPlace Context Old FirstHandle e.1 e.2
        ∧ ∀ q ∈ Parts, q.PartType = .Instancer → ∀ t : String,
            Context.MakeKey e.1
              ≠ Context.MakeKey { partOutputIdentifier q with SplitIdentifier := t }) →
      ∀ e ∈ State'.NewOutputObjects, CreatedOrReusedInPlace Context Old FirstHandle e.1 e.2 := by
  intro Parts
  induction Parts with
  | nil =>
    intro State State' h _ _ hInv
    simp only [processParts, Option.some.injEq] at h
    subst h
    exact fun e he => (hInv e he).1
  | cons p rest ih =>
    intro State State' h hpw hN hInv
    simp only [processParts] at h
    split at h
    · exact absurd h (by simp)
    · rename_i State1 h1
      obtain ⟨hp, hrest⟩ := List.pairwise_cons.mp hpw
      obtain ⟨hN1, hE1⟩ := processPart_entries Context All Old P p State State1 FirstHandle
        hSplit h1 hN
        (fun hInst e he s => (hInv e he).2 p (List.mem_cons_self _ _) hInst s)
      refine ih State1 State' h hrest hN1 ?_
      intro e he
      rcases hE1 e he with h2 | ⟨hInst, ⟨s, heq⟩, hg⟩
      · exact ⟨(hInv e h2).1,
          fun q hq hqi t => (hInv e h2).2 q (List.mem_cons_of_mem _ hq) hqi t⟩
      · refine ⟨hg, fun q hq hqi t => ?_⟩
        rw [heq]
        exact hp q hq hInst hqi s t

theorem mem_of_TMapFind {K V : Type} [DecidableEq K] (m : List (K × V)) (k : K) (v : V)
    (h : TMapFind m k = some v) : (k, v) ∈ m := by
  induction m with
  | nil => simp [TMapFind] at h
  | cons e m ih =>
    rw [TMapFind_cons] at h
    by_cases hk : e.1 = k
    · rw [if_pos hk] at h
      simp only [Option.some.injEq] at h
      subst hk
      subst h
      exact List.mem_cons_self _ _
    · rw [if_neg hk] at h
      exact List.mem_cons_of_mem _ (ih h)

theorem heldComponents_unique {I : Type}
    (Old : List (I × FHoudiniOutputObject))
    (hOld : (Old.flatMap (fun e => heldComponents e.2)).Nodup)
    (e1 e2 : I × FHoudiniOutputObject) (h1 : e1 ∈ Old) (h2 : e2 ∈ Old) (c : Nat)
    (hc1 : c ∈ heldComponents e1.2) (hc2 : c ∈ heldComponents e2.2) :
    e1 = e2 ∧ (heldComponents e1.2).Nodup := by
  rw [List.nodup_flatMap] at hOld
  refine ⟨?_, hOld.1 e1 h1⟩
  by_contra hne
  have hsym : Symmetric (fun a b : I × FHoudiniOutputObject =>
      (heldComponents a.2).Disjoint (heldComponents b.2)) := by
    intro a b hab
    exact hab.symm
  have := List.Pairwise.forall hsym hOld.2 h1 h2 hne
  exact this hc1 hc2

theorem ReusedInPlace_of_entries {K : Type} [DecidableEq K] (Context : FTranslatorContext K)
    (New Old : List (FHoudiniOutputObjectIdentifier × FHoudiniOutputObject))
    (FirstHandle : Nat)
    (hOldComponents : (Old.flatMap (fun e => heldComponents e.2)).Nodup)
    (hFresh : ∀ e ∈ Old, ∀ c ∈ heldComponents e.2, c < FirstHandle)
    (hNew : ∀ e ∈ New, CreatedOrReusedInPlace Context Old FirstHandle e.1 e.2) :
    ReusedInPlace Context.Classifier.IsPendingKill (keyed Context New) (keyed Context Old) := by
  intro k n hkn
  obtain ⟨⟨id, n'⟩, hmem, heq⟩ := List.mem_map.mp hkn
  simp only [Prod.mk.injEq] at heq
  obtain ⟨hk, hn⟩ := heq
  subst hk
  subst hn
  obtain ⟨hone, hout, hprox⟩ := hNew _ hmem
  simp only at hone hout hprox
  have hOut : ∀ (o : FHoudiniOutputObject) (c : Nat), o.OutputComponent = some c →
      c ∈ heldComponents o := by
    intro o c h
    simp [heldComponents, h]
  have hProx : ∀ (o : FHoudiniOutputObject) (c : Nat), o.ProxyComponent = some c →
      c ∈ heldComponents o := by
    intro o c h
    simp [heldComponents, h]
  have hTwo : ∀ (o : FHoudiniOutputObject) (c : Nat), o.OutputComponent = some c →
      o.ProxyComponent = some c → ¬ (heldComponents o).Nodup := by
    intro o c h1 h2
    simp [heldComponents, h1, h2]
  refine ⟨hone, ?_, ?_⟩
  · intro c hc k' o hold
    obtain ⟨⟨id', o'⟩, hmem', heq'⟩ := List.mem_map.mp hold
    simp only [Prod.mk.injEq] at heq'
    obtain ⟨hk', ho'⟩ := heq'
    subst hk'
    subst ho'
    rcases hout c hc with hfresh | ⟨o0, hfind, ho0, hlive⟩
    · refine ⟨?_, ?_⟩
      · intro hp
        have := hFresh _ hmem' c (hProx _ c hp)
        omega
      · intro hp
        have := hFresh _ hmem' c (hOut _ c hp)
        omega
    · obtain ⟨⟨id0, o0'⟩, hmem0, heq0⟩ := List.mem_map.mp (mem_of_TMapFind _ _ _ hfind)
      simp only [Prod.mk.injEq] at heq0
      obtain ⟨hk0, ho0'⟩ := heq0
      subst ho0'
      refine ⟨?_, ?_⟩
      · intro hp
        obtain ⟨he, hnd⟩ := heldComponents_unique Old hOldComponents _ _ hmem0 hmem' c
          (hOut _ c ho0) (hProx _ c hp)
        have ho : o0' = o' := congrArg Prod.snd he
        subst ho
        exact hTwo _ c ho0 hp hnd
      · intro hp
        obtain ⟨he, _⟩ := heldComponents_unique Old hOldComponents _ _ hmem0 hmem' c
          (hOut _ c ho0) (hOut _ c hp)
        have hi : id0 = id' := congrArg Prod.fst he
        subst hi
        exact ⟨hk0, hlive⟩
  · intro c hc k' o hold
    obtain ⟨⟨id', o'⟩, hmem', heq'⟩ := List.mem_map.mp hold
    simp only [Prod.mk.injEq] at heq'
    obtain ⟨hk', ho'⟩ := heq'
    subst hk'
    subst ho'
    rcases hprox c hc with hfresh | ⟨o0, hfind, ho0, hlive⟩
    · refine ⟨?_, ?_⟩
      · intro hp
        have := hFresh _ hmem' c (hOut _ c hp)
        omega
      · intro hp
        have := hFresh _ hmem' c (hProx _ c hp)
        omega
    · obtain ⟨⟨id0, o0'⟩, hmem0, heq0⟩ := List.mem_map.mp (mem_of_TMapFind _ _ _ hfind)
      simp only [Prod.mk.injEq] at heq0
      obtain ⟨hk0, ho0'⟩ := heq0
      subst ho0'
      refine ⟨?_, ?_⟩
      · intro hp
        obtain ⟨he, hnd⟩ := heldComponents_unique Old hOldComponents _ _ hmem0 hmem' c
          (hProx _ c ho0) (hOut _ c hp)
        have ho : o0' = o' := congrArg Prod.snd he
        subst ho
        exact hTwo _ c hp ho0 hnd
      · intro hp
        obtain ⟨he, _⟩ := heldComponents_unique Old hOldComponents _ _ hmem0 hmem' c
          (hProx _ c ho0) (hProx _ c hp)
        have hi : id0 = id' := congrArg Prod.fst he
        subst hi
        exact ⟨hk0, hlive⟩

/-- C6: in a run of `CreateAllInstancersFromHoudiniOutput` on a live output and a live
scene-component outer, the reconciliation pass never calls `RemoveAndDestroyComponent` on
a component held by an entry of the new map that the function then installs on the
output.  The new map is the one the creation loop of the same run builds; the old map is
the output's map on entry, in which identifiers are distinct under the comparison, no
component is held twice, and every component is older than the objects the run creates;
the comparison tells apart identifiers with different split identifiers and the
identifiers of two instancer parts of the output.  With the variation invariant on the
stored instanced outputs the run exists. -/
theorem CreateAllInstancersFromHoudiniOutput_spares_new {K : Type} [DecidableEq K]
    (Context : FTranslatorContext K) (Output : UHoudiniOutput)
    (InAllOutputs : List (Option UHoudiniOutput)) (Outer : FOuterObject) (NextHandle : Nat)
    (hOutput : Output.bPendingKill = false) (hOuter : Outer.bPendingKill = false)
    (hScene : Outer.bIsSceneComponent = true)
    (hSplit : ∀ x y, Context.MakeKey x = Context.MakeKey y →
      x.SplitIdentifier = y.SplitIdentifier)
    (hParts : Output.HoudiniGeoPartObjects.Pairwise (PartsCompareDifferent Context))
    (hOldKeys : ((keyed Context Output.OutputObjects).map Prod.fst).Nodup)
    (hOldComponents : (Output.OutputObjects.flatMap (fun e => heldComponents e.2)).Nodup)
    (hFresh : ∀ e ∈ Output.OutputObjects, ∀ c ∈ heldComponents e.2, c < NextHandle) :
    ((∀ e ∈ Output.InstancedOutputs, VariationsWellFormed e.2) →
      ∃ State,
        processParts Context InAllOutputs Output.OutputObjects ⟨false, Outer.bHasSpawnLevel⟩
            Output.HoudiniGeoPartObjects
            ⟨Output.InstancedOutputs.map (fun e => (e.1, { e.2 with bStale := true })),
             [], [], NextHandle⟩ = some State)
    ∧ ∀ State,
        processParts Context InAllOutputs Output.OutputObjects ⟨false, Outer.bHasSpawnLevel⟩
            Output.HoudiniGeoPartObjects
            ⟨Output.InstancedOutputs.map (fun e => (e.1, { e.2 with bStale := true })),
             [], [], NextHandle⟩ = some State →
        CreateAllInstancersFromHoudiniOutput Context (some Output) InAllOutputs (some Outer)
            NextHandle
          = some ⟨true,
              some { Output with
                InstancedOutputs := State.InstancedOutputs,
                OutputObjects := State.NewOutputObjects },
              State.Events
                ++ (reconcileOutputObjects Context.Classifier.IsPendingKill
                      (keyed Context State.NewOutputObjects)
                      (keyed Context Output.OutputObjects)).1.map
                    ComponentEvent.RemoveAndDestroyComponent⟩
        ∧ ∀ c ∈ (reconcileOutputObjects Context.Classifier.IsPendingKill
                    (keyed Context State.NewOutputObjects)
                    (keyed Context Output.OutputObjects)).1,
            ∀ e ∈ State.NewOutputObjects, c ∉ heldComponents e.2 := by
  refine ⟨?_, ?_⟩
  · intro hWF
    have hWF' : ∀ e ∈ Output.InstancedOutputs.map
        (fun e => (e.1, { e.2 with bStale := true })), VariationsWellFormed e.2 := by
      intro e he
      obtain ⟨e0, he0, rfl⟩ := List.mem_map.mp he
      exact hWF e0 he0
    obtain ⟨State, hState⟩ := processParts_total Context InAllOutputs Output.OutputObjects
      ⟨false, Outer.bHasSpawnLevel⟩ Output.HoudiniGeoPartObjects
      ⟨Output.InstancedOutputs.map (fun e => (e.1, { e.2 with bStale := true })),
       [], [], NextHandle⟩ hWF'
    exact ⟨State, hState⟩
  · intro State hState
    refine ⟨?_, ?_⟩
    · simp only [CreateAllInstancersFromHoudiniOutput, hOutput, hOuter, hScene,
        Bool.false_eq_true, if_false, Bool.not_true, hState]
    · have hEntries := processParts_entries Context InAllOutputs Output.OutputObjects
        ⟨false, Outer.bHasSpawnLevel⟩ NextHandle hSplit Output.HoudiniGeoPartObjects _ State
        hState hParts (le_refl _) (fun e he => absurd he (List.not_mem_nil _))
      have hShape := ReusedInPlace_of_entries Context State.NewOutputObjects
        Output.OutputObjects NextHandle hOldComponents hFresh hEntries
      intro c hc e he
      exact reconcileOutputObjects_spares_new Context.Classifier.IsPendingKill _ _ hOldKeys
        hShape c hc (Context.MakeKey e.1, e.2) (List.mem_map.mpr ⟨e, he, rfl⟩)

theorem pointPart_run
    (Old : List (FHoudiniOutputObjectIdentifier × FHoudiniOutputObject))
    (Found : FHoudiniOutputObject)
    (hFind : TMapFind (keyed sampleTranslatorContext Old)
        (sampleTranslatorContext.MakeKey
          { partOutputIdentifier pointPart with SplitIdentifier := "0_0" }) = some Found)
    (hOut : Found.OutputComponent = some 10) :
    processParts sampleTranslatorContext [] Old ⟨false, true⟩ [emptyGeoPartObject, pointPart]
        ⟨[], [], [], 100⟩
      = some
          { InstancedOutputs :=
              [({ partOutputIdentifier pointPart with SplitIdentifier := "0" },
                createInstancedOutput 7 0 (translateTransforms detailContext movedTransform 5))],
            NewOutputObjects :=
              [({ partOutputIdentifier pointPart with SplitIdentifier := "0_0" },
                outputOnly 10)],
            Events :=
              [.Updated 10, .SetMobility 10, .AttachToComponent 10, .SetRelativeTransform 10,
               .RegisterComponent 10],
            NextHandle := 101 } := by
  have hEmpty : processPart sampleTranslatorContext [] Old
      ⟨false, true⟩ emptyGeoPartObject ⟨[], [], [], 100⟩ = some ⟨[], [], [], 100⟩ := rfl
  have hClass : GetInstancerObjectsAndTransforms sampleTranslatorContext.Classifier pointPart
      [] [] []
      = some ⟨true, [some 7], [translateTransforms detailContext movedTransform 5]⟩ := rfl
  have h0 : FromInt ((0 : Nat) : Int) = "0" := by simp [FromInt, decimalDigits]
  have h0' : FromInt 0 = "0" := by simp [FromInt, decimalDigits]
  have hLive : sampleTranslatorContext.World.IsPendingKill 7 = false := rfl
  have hVar : UpdateInstanceVariationObjects sampleTranslatorContext.World
      sampleTranslatorContext.SCALE_SMALL_VALUE sampleTranslatorContext.IdEq
      (partOutputIdentifier pointPart) [some 7]
      [translateTransforms detailContext movedTransform 5] ⟨[], ⟨[], [], [], []⟩⟩
      = some
          { InstancedOutputs :=
              [({ partOutputIdentifier pointPart with SplitIdentifier := "0" },
                createInstancedOutput 7 0 (translateTransforms detailContext movedTransform 5))],
            Out :=
              ⟨[some 7], [translateTransforms detailContext movedTransform 5], [0], [0]⟩ } := by
    simp only [UpdateInstanceVariationObjects, updateInstanceVariationLoop,
      updateInstanceVariationObject, hLive, Bool.false_eq_true, if_false,
      scanInstancedOutputs, List.getElem?_cons_zero, FVariationArrays.Add, List.nil_append,
      h0, h0', Nat.cast_zero]
  have hId : variationIdentifier (partOutputIdentifier pointPart) 0 0
      = { partOutputIdentifier pointPart with SplitIdentifier := "0_0" } := by
    simp [variationIdentifier, variationSplitIdentifier, FromInt, decimalDigits]
  have hCreate : createVariationComponent sampleTranslatorContext
      (partOutputIdentifier pointPart) Old ⟨false, true⟩ false
      ⟨[some 7], [translateTransforms detailContext movedTransform 5], [0], [0]⟩ 0
      ⟨[({ partOutputIdentifier pointPart with SplitIdentifier := "0" },
          createInstancedOutput 7 0 (translateTransforms detailContext movedTransform 5))],
        [], [], 100⟩
      = some
          { InstancedOutputs :=
              [({ partOutputIdentifier pointPart with SplitIdentifier := "0" },
                createInstancedOutput 7 0 (translateTransforms detailContext movedTransform 5))],
            NewOutputObjects :=
              [({ partOutputIdentifier pointPart with SplitIdentifier := "0_0" },
                outputOnly 10)],
            Events :=
              [.Updated 10, .SetMobility 10, .AttachToComponent 10, .SetRelativeTransform 10,
               .RegisterComponent 10],
            NextHandle := 101 } := by
    simp only [createVariationComponent, List.getElem?_cons_zero, hId, hFind, hOut]
    rfl
  have hPT : pointPart.PartType = EHoudiniPartType.Instancer := rfl
  have hdef : ({ FHoudiniOutputObjectIdentifier.Default with
        ObjectId := pointPart.ObjectId, GeoId := pointPart.GeoId, PartId := pointPart.PartId,
        PartName := pointPart.PartName } : FHoudiniOutputObjectIdentifier)
      = partOutputIdentifier pointPart := rfl
  have hSplitFlag : sampleTranslatorContext.IsSplitInstancer pointPart.GeoId pointPart.PartId
      = false := rfl
  have hRange : List.range 1 = [0] := rfl
  simp only [processParts, hEmpty]
  simp only [processPart, hPT, ne_eq, not_true_eq_false, if_false, hClass, Bool.not_true,
    Bool.false_eq_true, hdef, hVar, hSplitFlag, List.length_singleton, hRange,
    createVariationComponents, hCreate]

/-- C6, concrete case: on `instancerOutputWithOld`, whose old map holds the components 10
and 11, the run exists and returns true; the creation loop reuses component 10 in place,
the reconciliation pass calls `RemoveAndDestroyComponent` on component 11 only, and it
destroys no component of the map the function installs. -/
theorem CreateAllInstancersFromHoudiniOutput_spares_new_witness :
    ∃ State : FTranslatorState,
      CreateAllInstancersFromHoudiniOutput sampleTranslatorContext
          (some instancerOutputWithOld) [] (some liveOuter) 100
        = some ⟨true,
            some { instancerOutputWithOld with
              InstancedOutputs := State.InstancedOutputs,
              OutputObjects := State.NewOutputObjects },
            State.Events
              ++ (reconcileOutputObjects sampleTranslatorContext.Classifier.IsPendingKill
                    (keyed sampleTranslatorContext State.NewOutputObjects)
                    (keyed sampleTranslatorContext instancerOutputWithOld.OutputObjects)).1.map
                  ComponentEvent.RemoveAndDestroyComponent⟩
      ∧ (∀ c ∈ (reconcileOutputObjects sampleTranslatorContext.Classifier.IsPendingKill
                  (keyed sampleTranslatorContext State.NewOutputObjects)
                  (keyed sampleTranslatorContext instancerOutputWithOld.OutputObjects)).1,
          ∀ e ∈ State.NewOutputObjects, c ∉ heldComponents e.2)
      ∧ State.NewOutputObjects
          = [({ partOutputIdentifier pointPart with SplitIdentifier := "0_0" }, outputOnly 10)]
      ∧ (reconcileOutputObjects sampleTranslatorContext.Classifier.IsPendingKill
            (keyed sampleTranslatorContext State.NewOutputObjects)
            (keyed sampleTranslatorContext instancerOutputWithOld.OutputObjects)).1 = [11] :=
  match CreateAllInstancersFromHoudiniOutput_spares_new sampleTranslatorContext
      instancerOutputWithOld [] liveOuter 100 rfl rfl rfl
      (fun x y h => by
        simp only [sampleTranslatorContext, Prod.mk.injEq] at h
        exact h.2.2.2.1)
      (by
        simp only [instancerOutputWithOld, instancerOutput, List.pairwise_cons,
          List.mem_singleton, List.not_mem_nil, forall_eq, List.Pairwise.nil, and_true]
        refine ⟨?_, fun a h => absurd h (by simp)⟩
        intro h
        exact absurd h (by decide))
      (by decide) (by decide) (by decide) with
  | ⟨hRun, hAll⟩ =>
    match hRun (fun _ h => absurd h (List.not_mem_nil _)) with
    | ⟨State, hState⟩ =>
      have hEq : State = _ :=
        Option.some.inj (hState.symm.trans
          (pointPart_run instancerOutputWithOld.OutputObjects (outputOnly 10) rfl rfl))
      ⟨State, (hAll State hState).1, (hAll State hState).2, by rw [hEq], by rw [hEq]; rfl⟩

/-! ## A component dropped by the reconciliation pass without being destroyed -/

theorem singlePointPart_classified :
    GetInstancerObjectsAndTransforms proxyEditContext.Classifier singlePointPart [] [] []
      = some ⟨true, [some 7], [translateTransforms detailContext movedTransform 1]⟩ := rfl

theorem singlePointPart_identifier :
    variationIdentifier (partOutputIdentifier singlePointPart) 0 0
      = { partOutputIdentifier singlePointPart with SplitIdentifier := "0_0" } := by
  simp [variationIdentifier, variationSplitIdentifier, FromInt, decimalDigits]

theorem singlePointPart_processParts
    (InstancedOutputs InstancedOutputs' :
      List (FHoudiniOutputObjectIdentifier × FHoudiniInstancedOutput))
    (Old : List (FHoudiniOutputObjectIdentifier × FHoudiniOutputObject))
    (Object : Nat) (State' : FTranslatorState) (NextHandle : Nat)
    (hVar : UpdateInstanceVariationObjects proxyEditContext.World
        proxyEditContext.SCALE_SMALL_VALUE proxyEditContext.IdEq
        (partOutputIdentifier singlePointPart) [some 7]
        [translateTransforms detailContext movedTransform 1]
        ⟨InstancedOutputs, ⟨[], [], [], []⟩⟩
      = some ⟨InstancedOutputs',
          ⟨[some Object], [translateTransforms detailContext movedTransform 1], [0], [0]⟩⟩)
    (hCreate : createVariationComponent proxyEditContext (partOutputIdentifier singlePointPart)
        Old ⟨false, true⟩ false
        ⟨[some Object], [translateTransforms detailContext movedTransform 1], [0], [0]⟩ 0
        ⟨InstancedOutputs', [], [], NextHandle⟩ = some State') :
    processParts proxyEditContext [] Old ⟨false, true⟩ [singlePointPart]
        ⟨InstancedOutputs, [], [], NextHandle⟩ = some State' := by
  have hPT : singlePointPart.PartType = EHoudiniPartType.Instancer := rfl
  have hdef : ({ FHoudiniOutputObjectIdentifier.Default with
        ObjectId := singlePointPart.ObjectId, GeoId := singlePointPart.GeoId,
        PartId := singlePointPart.PartId,
        PartName := singlePointPart.PartName } : FHoudiniOutputObjectIdentifier)
      = partOutputIdentifier singlePointPart := rfl
  have hSplitFlag : proxyEditContext.IsSplitInstancer singlePointPart.GeoId
      singlePointPart.PartId = false := rfl
  have hRange : List.range 1 = [0] := rfl
  simp only [processParts, processPart, hPT, ne_eq, not_true_eq_false, if_false,
    singlePointPart_classified, Bool.not_true, Bool.false_eq_true, hdef, hVar, hSplitFlag,
    List.length_singleton, hRange, createVariationComponents, hCreate]

theorem uncookedProxyOutput_run :
    CreateAllInstancersFromHoudiniOutput proxyEditContext (some uncookedProxyOutput) []
        (some liveOuter) 21
      = some ⟨true,
          some { uncookedProxyOutput with
            InstancedOutputs :=
              [({ partOutputIdentifier singlePointPart with SplitIdentifier := "0" },
                createInstancedOutput 7 0 (translateTransforms detailContext movedTransform 1))],
            OutputObjects :=
              [({ partOutputIdentifier singlePointPart with SplitIdentifier := "0_0" },
                proxyOnly 21)] },
          [.Created 21 .UHoudiniStaticMeshComponent, .Updated 21, .SetMobility 21,
           .AttachToComponent 21, .RegisterComponent 21]⟩ := by
  have h0 : FromInt ((0 : Nat) : Int) = "0" := by simp [FromInt, decimalDigits]
  have h0' : FromInt 0 = "0" := by simp [FromInt, decimalDigits]
  have hLive : proxyEditContext.World.IsPendingKill 7 = false := rfl
  have hVar : UpdateInstanceVariationObjects proxyEditContext.World
      proxyEditContext.SCALE_SMALL_VALUE proxyEditContext.IdEq
      (partOutputIdentifier singlePointPart) [some 7]
      [translateTransforms detailContext movedTransform 1] ⟨[], ⟨[], [], [], []⟩⟩
      = some
          ⟨[({ partOutputIdentifier singlePointPart with SplitIdentifier := "0" },
              createInstancedOutput 7 0 (translateTransforms detailContext movedTransform 1))],
           ⟨[some 7], [translateTransforms detailContext movedTransform 1], [0], [0]⟩⟩ := by
    simp only [UpdateInstanceVariationObjects, updateInstanceVariationLoop,
      updateInstanceVariationObject, hLive, Bool.false_eq_true, if_false,
      scanInstancedOutputs, List.getElem?_cons_zero, FVariationArrays.Add, List.nil_append,
      h0, h0', Nat.cast_zero]
  have hCreate : createVariationComponent proxyEditContext
      (partOutputIdentifier singlePointPart) [] ⟨false, true⟩ false
      ⟨[some 7], [translateTransforms detailContext movedTransform 1], [0], [0]⟩ 0
      ⟨[({ partOutputIdentifier singlePointPart with SplitIdentifier := "0" },
          createInstancedOutput 7 0 (translateTransforms detailContext movedTransform 1))],
        [], [], 21⟩
      = some
          { InstancedOutputs :=
              [({ partOutputIdentifier singlePointPart with SplitIdentifier := "0" },
                createInstancedOutput 7 0 (translateTransforms detailContext movedTransform 1))],
            NewOutputObjects :=
              [({ partOutputIdentifier singlePointPart with SplitIdentifier := "0_0" },
                proxyOnly 21)],
            Events :=
              [.Created 21 .UHoudiniStaticMeshComponent, .Updated 21, .SetMobility 21,
               .AttachToComponent 21, .RegisterComponent 21],
            NextHandle := 22 } := by
    simp only [createVariationComponent, List.getElem?_cons_zero, singlePointPart_identifier]
    rfl
  have hRun := singlePointPart_processParts [] _ [] 7 _ 21 hVar hCreate
  have hParts : uncookedProxyOutput.HoudiniGeoPartObjects = [singlePointPart] := rfl
  have hOld : uncookedProxyOutput.OutputObjects = [] := rfl
  have hIO : uncookedProxyOutput.InstancedOutputs = [] := rfl
  simp only [CreateAllInstancersFromHoudiniOutput, hParts, hOld, hIO, List.map_nil]
  have hpk : uncookedProxyOutput.bPendingKill = false := rfl
  have hOuter : liveOuter = ⟨false, true, true⟩ := rfl
  simp only [hpk, hOuter, Bool.false_eq_true, if_false, Bool.not_true, hRun]
  rfl

theorem editedProxyOutput_variations :
    UpdateInstanceVariationObjects proxyEditContext.World
        proxyEditContext.SCALE_SMALL_VALUE proxyEditContext.IdEq
        (partOutputIdentifier singlePointPart) [some 7]
        [translateTransforms detailContext movedTransform 1]
        ⟨[({ partOutputIdentifier singlePointPart with SplitIdentifier := "0" },
            { editedVariation with bStale := true })],
         ⟨[], [], [], []⟩⟩
      = some
          ⟨[({ partOutputIdentifier singlePointPart with SplitIdentifier := "0" },
              editedVariation)],
           ⟨[some 9], [translateTransforms detailContext movedTransform 1], [0], [0]⟩⟩ := by
  have h0 : FromInt ((0 : Nat) : Int) = "0" := by simp [FromInt, decimalDigits]
  have hLive : proxyEditContext.World.IsPendingKill 7 = false := rfl
  have hScan :
      scanInstancedOutputs proxyEditContext.IdEq
          { partOutputIdentifier singlePointPart with SplitIdentifier := "0" }
          [({ partOutputIdentifier singlePointPart with SplitIdentifier := "0" },
            { editedVariation with bStale := true })] 0 none
        = ([({ partOutputIdentifier singlePointPart with SplitIdentifier := "0" },
              { editedVariation with bStale := true })], some 0) := by
    rfl
  have hUpdate :
      updateInstancedOutput proxyEditContext.World { editedVariation with bStale := true } 7
          ((0 : Nat) : Int) (translateTransforms detailContext movedTransform 1)
        = some { editedVariation with bStale := true } := by
    rfl
  have hT : translateTransforms detailContext movedTransform 1
      = [⟨FQuat.Identity, ⟨((0 : Nat) : ℚ), 0, 0⟩, ⟨1, 1, 1⟩⟩] := rfl
  have hEmit :
      emitVariations proxyEditContext.World proxyEditContext.SCALE_SMALL_VALUE
          { editedVariation with bStale := true } ((0 : Nat) : Int) 1 0 ⟨[], [], [], []⟩
        = some ⟨[some 9], [translateTransforms detailContext movedTransform 1], [0], [0]⟩ := by
    have hLoad : LoadSynchronous proxyEditContext.World (some 9) = some 9 := rfl
    have hPK : proxyEditContext.World.IsPendingKill 9 = false := rfl
    simp [emitVariations, editedVariation, hT, ProcessInstanceTransforms, IsValidIndex,
      Equals_Identity_self, extractLoop, hLoad, hPK, IsNullOrPendingKill,
      FVariationArrays.Add]
  have hLen : ({ editedVariation with bStale := true } :
      FHoudiniInstancedOutput).VariationObjects.length = 1 := rfl
  simp only [UpdateInstanceVariationObjects, updateInstanceVariationLoop,
    updateInstanceVariationObject, hLive, Bool.false_eq_true, if_false, h0, hScan,
    List.getElem?_cons_zero, hUpdate, hLen, hEmit, List.set_cons_zero]
  rfl

/-- C28: the output object of a variation holds the live proxy component 21, created by a
first cook for a proxy mesh, and the live output component 10, which
`UpdateChangedInstancedOutput` stored in the same entry after the variation was set to a
static mesh.  The next run of `CreateAllInstancersFromHoudiniOutput` reuses component 10;
the reconciliation pass sets `bKeep` for the entry and removes it from the old map before
the destroy loop, so component 21 is not passed to `RemoveAndDestroyComponent` and the map
installed on the output does not hold it. -/
theorem CreateAllInstancersFromHoudiniOutput_drops_proxy :
    CreateAllInstancersFromHoudiniOutput proxyEditContext (some uncookedProxyOutput) []
        (some liveOuter) 21
      = some ⟨true,
          some { uncookedProxyOutput with
            InstancedOutputs :=
              [({ partOutputIdentifier singlePointPart with SplitIdentifier := "0" },
                createInstancedOutput 7 0 (translateTransforms detailContext movedTransform 1))],
            OutputObjects :=
              [({ partOutputIdentifier singlePointPart with SplitIdentifier := "0_0" },
                proxyOnly 21)] },
          [.Created 21 .UHoudiniStaticMeshComponent, .Updated 21, .SetMobility 21,
           .AttachToComponent 21, .RegisterComponent 21]⟩
    ∧ SetObjectAt
        (createInstancedOutput 7 0 (translateTransforms detailContext movedTransform 1)) 0
        (some 9) = { editedVariation with bChanged := true }
    ∧ proxyEditContext.Classifier.IsPendingKill 21 = false
    ∧ 21 ∈ (editedProxyOutput.OutputObjects.flatMap (fun e => heldComponents e.2))
    ∧ CreateAllInstancersFromHoudiniOutput proxyEditContext (some editedProxyOutput) []
          (some liveOuter) 100
        = some ⟨true,
            some { editedProxyOutput with
              OutputObjects :=
                [({ partOutputIdentifier singlePointPart with SplitIdentifier := "0_0" },
                  outputOnly 10)] },
            [.Updated 10, .SetMobility 10, .AttachToComponent 10, .RegisterComponent 10]⟩
    ∧ ComponentEvent.RemoveAndDestroyComponent 21
        ∉ [ComponentEvent.Updated 10, .SetMobility 10, .AttachToComponent 10,
            .RegisterComponent 10]
    ∧ 21 ∉ heldComponents (outputOnly 10) := by
  refine ⟨uncookedProxyOutput_run, rfl, rfl, by decide, ?_, by decide, by decide⟩
  have hCreate : createVariationComponent proxyEditContext
      (partOutputIdentifier singlePointPart) editedProxyOutput.OutputObjects ⟨false, true⟩
      false ⟨[some 9], [translateTransforms detailContext movedTransform 1], [0], [0]⟩ 0
      ⟨[({ partOutputIdentifier singlePointPart with SplitIdentifier := "0" },
          editedVariation)], [], [], 100⟩
      = some
          { InstancedOutputs :=
              [({ partOutputIdentifier singlePointPart with SplitIdentifier := "0" },
                editedVariation)],
            NewOutputObjects :=
              [({ partOutputIdentifier singlePointPart with SplitIdentifier := "0_0" },
                outputOnly 10)],
            Events :=
              [.Updated 10, .SetMobility 10, .AttachToComponent 10, .RegisterComponent 10],
            NextHandle := 101 } := by
    simp only [createVariationComponent, List.getElem?_cons_zero, singlePointPart_identifier]
    rfl
  have hRun := singlePointPart_processParts _ _ editedProxyOutput.OutputObjects 9 _ 100
    editedProxyOutput_variations hCreate
  have hParts : editedProxyOutput.HoudiniGeoPartObjects = [singlePointPart] := rfl
  have hIO : editedProxyOutput.InstancedOutputs.map
      (fun InstOut => (InstOut.1, { InstOut.2 with bStale := true }))
      = [({ partOutputIdentifier singlePointPart with SplitIdentifier := "0" },
          { editedVariation with bStale := true })] := rfl
  have hpk : editedProxyOutput.bPendingKill = false := rfl
  have hOuter : liveOuter = ⟨false, true, true⟩ := rfl
  simp only [CreateAllInstancersFromHoudiniOutput, hParts, hIO, hpk, hOuter,
    Bool.false_eq_true, if_false, Bool.not_true, hRun]
  rfl

end Houdini
